import Mathlib

/-! TransportCatalogue: a shallow embedding of the catalogue and the transit router.

The definitions below follow `src/transport_catalogue.cpp`, `include/domain.h`,
`src/transport_router.cpp`, `src/json_reader.cpp`, `src/serialization.cpp`,
`src/map_renderer.cpp`, `src/request_handler.cpp`, `src/svg.cpp` and `include/svg.h`.
The headers `graph.h`, `router.h`, `json.h`,
`map_renderer.h` and the generated protobuf classes are not among the sources: what the
code uses of them is a parameter or is modelled from the spec, and says so.
Conventions of the embedding:

* `std::string` / `std::string_view` are `String`; `operator<` on them is the
  lexicographic comparison of their characters (`toList`).
* `int` is `Int`.  Signed overflow is undefined in C++ and the compiled program wraps
  around; the sum of road distances in `CalculateRealRouteLength` is reduced to the 32 bits
  of an `int` after every addition (`wrap_int`).  `double` is `Rat` (exact arithmetic).
* `std::unordered_map` is an association list with unique keys: `find` returns the
  first binding of a key, `insert` keeps an existing binding, `operator[] =`
  overwrites.  Iteration follows the order of insertion.
* `std::set<std::string_view>` is a strictly increasing list.
* `const Stop*` / `const Route*` point into deques whose elements are never changed
  or removed, so a pointer is embedded as the value it points to; a pointer
  parameter that the code tests against `nullptr` is an `Option`.
* A function that can throw returns `Except Error _`; a member function that can
  both throw and change the object returns the `Except` together with the state the
  object is left in.
-/

/-- The exceptions the program throws (`std::out_of_range` is the NotFound of the
specification, `std::invalid_argument` its InvalidArgument, `std::logic_error` its
LogicError); `undefined_behaviour` marks an execution the C++ standard leaves undefined. -/
inductive Error where
  | out_of_range
  | invalid_argument
  | undefined_behaviour
  | logic_error
  deriving DecidableEq, Repr

deriving instance DecidableEq for Except

/-- The value a 32-bit two's complement `int` holds for the mathematical result `x` of an
addition: the representative of `x` modulo `2^32` between `-2^31` and `2^31 - 1`. -/
def wrap_int (x : Int) : Int :=
  (x + 2147483648) % 4294967296 - 2147483648

/-! ## Containers -/

namespace unordered_map

/-- `m.find(k)`: the binding of `k`, when there is one. -/
def find {κ ν : Type} [DecidableEq κ] : List (κ × ν) → κ → Option ν
  | [], _ => none
  | (k', v) :: m, k => if k' = k then some v else find m k

/-- `m.count(k)`. -/
def count {κ ν : Type} [DecidableEq κ] (m : List (κ × ν)) (k : κ) : Nat :=
  match find m k with
  | some _ => 1
  | none => 0

/-- `m.at(k)`: throws `std::out_of_range` when `k` has no binding. -/
def at_ {κ ν : Type} [DecidableEq κ] (m : List (κ × ν)) (k : κ) : Except Error ν :=
  match find m k with
  | some v => .ok v
  | none => .error .out_of_range

/-- `m.insert({k, v})`: adds the binding unless `k` is bound already. -/
def insert {κ ν : Type} [DecidableEq κ] (m : List (κ × ν)) (k : κ) (v : ν) : List (κ × ν) :=
  match find m k with
  | some _ => m
  | none => m ++ [(k, v)]

/-- `m[k] = v`: binds `k` to `v`, replacing the binding when there is one. -/
def assign {κ ν : Type} [DecidableEq κ] : List (κ × ν) → κ → ν → List (κ × ν)
  | [], k, v => [(k, v)]
  | (k', v') :: m, k, v => if k' = k then (k', v) :: m else (k', v') :: assign m k v

/-- The value `m[k]` refers to: the binding of `k`, or a value-initialised one. -/
def index {κ ν : Type} [DecidableEq κ] (m : List (κ × ν)) (k : κ) (dflt : ν) : ν :=
  (find m k).getD dflt

end unordered_map

namespace set

/-- `s.insert(x)` on `std::set<std::string_view>`: the list stays strictly
increasing and an element already there is not added again. -/
def insert (x : String) : List String → List String
  | [] => [x]
  | y :: ys =>
    if x.toList < y.toList then x :: y :: ys
    else if x = y then y :: ys
    else y :: insert x ys

end set

/-! ## domain.h -/

namespace geo

/-- `geo::Coordinates`. -/
structure Coordinates where
  lat : Rat
  lng : Rat
  deriving DecidableEq, Repr

end geo

namespace domain

/-- `domain::RouteType`. -/
inductive RouteType where
  | UNKNOWN
  | LINEAR
  | CIRCLE
  deriving DecidableEq, Repr

/-- `domain::Stop`. -/
structure Stop where
  name : String
  coordinate : geo.Coordinates
  deriving DecidableEq, Repr

/-- `domain::Route`; `stops` holds the stops the `const Stop*` point to. -/
structure Route where
  name : String
  route_type : RouteType := RouteType.UNKNOWN
  stops : List Stop := []
  deriving DecidableEq, Repr

/-- `domain::RouteInfo`. -/
structure RouteInfo where
  name : String := ""
  route_type : RouteType := RouteType.UNKNOWN
  num_of_stops : Int := 0
  num_of_unique_stops : Int := 0
  route_length : Int := 0
  curvature : Rat := 0
  deriving DecidableEq, Repr

end domain

/-! ## transport_catalogue.cpp -/

namespace transport_catalogue

open domain

/-- The data members of `class TransportCatalogue`. -/
structure TransportCatalogue where
  stops_ : List Stop := []
  stops_by_names_ : List (String × Stop) := []
  buses_on_stops_ : List (String × List String) := []
  routes_ : List Route := []
  routes_by_names_ : List (String × Route) := []
  distances_ : List (String × List (String × Int)) := []
  deriving DecidableEq, Repr

namespace TransportCatalogue

/-- `AddStop(domain::Stop)`. -/
def AddStop_private (c : TransportCatalogue) (stop : Stop) : TransportCatalogue :=
  { c with
    stops_ := c.stops_ ++ [stop]
    stops_by_names_ := unordered_map.insert c.stops_by_names_ stop.name stop }

/-- `AddStop(stop_name, coordinate)`. -/
def AddStop (c : TransportCatalogue) (stop_name : String) (coordinate : geo.Coordinates) :
    TransportCatalogue :=
  c.AddStop_private { name := stop_name, coordinate := coordinate }

/-- The loop of `AddRoute(domain::Route)`:
`buses_on_stops_[stop->name].insert(route_name)` for every stop of the route. -/
def AddRoute_private.loop (route_name : String) :
    List Stop → List (String × List String) → List (String × List String)
  | [], buses => buses
  | stop :: rest, buses =>
    AddRoute_private.loop route_name rest
      (unordered_map.assign buses stop.name
        (set.insert route_name (unordered_map.index buses stop.name [])))

/-- `AddRoute(domain::Route)`. -/
def AddRoute_private (c : TransportCatalogue) (route : Route) : TransportCatalogue :=
  { c with
    routes_ := c.routes_ ++ [route]
    routes_by_names_ := unordered_map.insert c.routes_by_names_ route.name route
    buses_on_stops_ := AddRoute_private.loop route.name route.stops c.buses_on_stops_ }

/-- `FindStop`. -/
def FindStop (c : TransportCatalogue) (stop_name : String) : Except Error Stop :=
  if unordered_map.count c.stops_by_names_ stop_name = 0 then
    .error .out_of_range
  else
    unordered_map.at_ c.stops_by_names_ stop_name

/-- `FindRoute`. -/
def FindRoute (c : TransportCatalogue) (route_name : String) : Except Error Route :=
  if unordered_map.count c.routes_by_names_ route_name = 0 then
    .error .out_of_range
  else
    unordered_map.at_ c.routes_by_names_ route_name

/-- The loop of `AddRoute(name, type, stops)`: `route.stops.push_back(FindStop(stop_name))`. -/
def AddRoute.loop (c : TransportCatalogue) : List String → List Stop → Except Error (List Stop)
  | [], acc => .ok acc
  | stop_name :: rest, acc =>
    match c.FindStop stop_name with
    | .error e => .error e
    | .ok stop => AddRoute.loop c rest (acc ++ [stop])

/-- `AddRoute(route_name, route_type, stops)`.  `stops.front()` and `stops.back()` of an
empty vector are undefined. -/
def AddRoute (c : TransportCatalogue) (route_name : String) (route_type : RouteType)
    (stops : List String) : Except Error Unit × TransportCatalogue :=
  if route_type = RouteType.CIRCLE ∧ stops = [] then
    (.error .undefined_behaviour, c)
  else if route_type = RouteType.CIRCLE ∧ stops.head? ≠ stops.getLast? then
    (.error .invalid_argument, c)
  else
    match AddRoute.loop c stops [] with
    | .error e => (.error e, c)
    | .ok route_stops =>
      (.ok (), c.AddRoute_private { name := route_name, route_type := route_type, stops := route_stops })

/-- `SetDistance`. -/
def SetDistance (c : TransportCatalogue) (stop_from stop_to : String) (distance : Int) :
    Except Error Unit × TransportCatalogue :=
  match c.FindStop stop_from with
  | .error e => (.error e, c)
  | .ok Stop_from =>
    match c.FindStop stop_to with
    | .error e => (.error e, c)
    | .ok Stop_to =>
      (.ok (), { c with
        distances_ := unordered_map.assign c.distances_ Stop_from.name
          (unordered_map.assign (unordered_map.index c.distances_ Stop_from.name [])
            Stop_to.name distance) })

/-- `GetForwardDistance`. -/
def GetForwardDistance (c : TransportCatalogue) (stop_from stop_to : String) : Except Error Int :=
  match unordered_map.find c.distances_ stop_from with
  | none => .error .out_of_range
  | some row =>
    if unordered_map.count row stop_to = 0 then .error .out_of_range
    else unordered_map.at_ row stop_to

/-- `GetDistance`: only `std::out_of_range` is caught. -/
def GetDistance (c : TransportCatalogue) (stop_from stop_to : String) : Except Error Int :=
  match c.GetForwardDistance stop_from stop_to with
  | .ok result => .ok result
  | .error .out_of_range =>
    match c.GetForwardDistance stop_to stop_from with
    | .ok result => .ok result
    | .error .out_of_range => .error .out_of_range
    | .error e => .error e
  | .error e => .error e

/-- The forward loop of `CalculateRealRouteLength` and (on the reversed vector) its loop
over the reverse iterators: `iter1` and `iter2 = iter1 + 1` advance together until `iter2`
reaches the end, and `result += GetDistance(..)` is an addition of `int`. -/
def CalculateRealRouteLength.loop (c : TransportCatalogue) : List Stop → Int → Except Error Int
  | iter1 :: iter2 :: rest, result =>
    match c.GetDistance iter1.name iter2.name with
    | .error e => .error e
    | .ok d => CalculateRealRouteLength.loop c (iter2 :: rest) (wrap_int (result + d))
  | _, result => .ok result

/-- `CalculateRealRouteLength`.  In the forward loop over a vector with no stops
`iter2 = begin() + 1` is not before `end()` and the body is not entered.  In the loop of a
LINEAR route over the reverse iterators of a vector with no stops, `iter2 = rbegin() + 1`
compares less than `rend()`, and the body reads through iterators outside the vector:
undefined behaviour. -/
def CalculateRealRouteLength (c : TransportCatalogue) (route : Option Route) : Except Error Int :=
  match route with
  | none => .ok 0
  | some route =>
    match CalculateRealRouteLength.loop c route.stops 0 with
    | .error e => .error e
    | .ok result =>
      if route.route_type = RouteType.LINEAR then
        if route.stops = [] then .error .undefined_behaviour
        else CalculateRealRouteLength.loop c route.stops.reverse result
      else
        .ok result

end TransportCatalogue

/-- `CalculateStops`. -/
def CalculateStops (route : Option Route) : Int :=
  match route with
  | none => 0
  | some route =>
    let result : Int := route.stops.length
    if route.route_type = RouteType.LINEAR then result * 2 - 1 else result

/-- The loop of `CalculateUniqueStops`: `uniques.insert(stop->name)` on a
`std::unordered_set`, kept as a duplicate-free list. -/
def CalculateUniqueStops.loop : List Stop → List String → List String
  | [], uniques => uniques
  | stop :: rest, uniques =>
    CalculateUniqueStops.loop rest (if stop.name ∈ uniques then uniques else uniques ++ [stop.name])

/-- `CalculateUniqueStops`. -/
def CalculateUniqueStops (route : Option Route) : Int :=
  match route with
  | none => 0
  | some route => (CalculateUniqueStops.loop route.stops []).length

/-- The loop of `CalculateRouteLength`. -/
def CalculateRouteLength.loop (ComputeDistance : geo.Coordinates → geo.Coordinates → Rat) :
    List Stop → Rat → Rat
  | iter1 :: iter2 :: rest, result =>
    CalculateRouteLength.loop ComputeDistance (iter2 :: rest)
      (result + ComputeDistance iter1.coordinate iter2.coordinate)
  | _, result => result

/-- `CalculateRouteLength`.  `geo::ComputeDistance` is floating-point trigonometry; it is a
parameter of the embedding. -/
def CalculateRouteLength (ComputeDistance : geo.Coordinates → geo.Coordinates → Rat)
    (route : Option Route) : Rat :=
  match route with
  | none => 0
  | some route =>
    let result := CalculateRouteLength.loop ComputeDistance route.stops 0
    if route.route_type = RouteType.LINEAR then result * 2 else result

namespace TransportCatalogue

/-- `GetRouteInfo`.  The division is the one of `Rat` (a zero geographic length gives
curvature 0 here, an infinity or a NaN in C++; it never throws). -/
def GetRouteInfo (ComputeDistance : geo.Coordinates → geo.Coordinates → Rat)
    (c : TransportCatalogue) (route_name : String) : Except Error RouteInfo :=
  match c.FindRoute route_name with
  | .error e => .error e
  | .ok route =>
    match c.CalculateRealRouteLength (some route) with
    | .error e => .error e
    | .ok route_length =>
      .ok { name := route.name
            route_type := route.route_type
            num_of_stops := CalculateStops (some route)
            num_of_unique_stops := CalculateUniqueStops (some route)
            route_length := route_length
            curvature := (route_length : Rat) / CalculateRouteLength ComputeDistance (some route) }

/-- `GetBusesOnStop`: `none` is `std::nullopt`. -/
def GetBusesOnStop (c : TransportCatalogue) (stop_name : String) :
    Except Error (Option (List String)) :=
  match c.FindStop stop_name with
  | .error e => .error e
  | .ok stop =>
    match unordered_map.find c.buses_on_stops_ stop.name with
    | none => .ok none
    | some found => .ok (some found)

end TransportCatalogue

end transport_catalogue

/-! ## Sequences of calls on a catalogue -/

namespace transport_catalogue

open domain

/-- The three mutating member functions of the public interface, with their arguments. -/
inductive Call where
  | AddStop (stop_name : String) (coordinate : geo.Coordinates)
  | AddRoute (route_name : String) (route_type : RouteType) (stops : List String)
  | SetDistance (stop_from stop_to : String) (distance : Int)
  deriving DecidableEq, Repr

/-- One call: what it returns or throws, and the catalogue afterwards. -/
def Call.apply (c : TransportCatalogue) : Call → Except Error Unit × TransportCatalogue
  | .AddStop stop_name coordinate => (.ok (), c.AddStop stop_name coordinate)
  | .AddRoute route_name route_type stops => c.AddRoute route_name route_type stops
  | .SetDistance stop_from stop_to distance => c.SetDistance stop_from stop_to distance

/-- A sequence of calls, each on the catalogue the previous one left (a call that throws
is followed by the next one): the outcomes and the final catalogue. -/
def run (c : TransportCatalogue) : List Call → List (Except Error Unit) × TransportCatalogue
  | [] => ([], c)
  | call :: rest =>
    let r := call.apply c
    let rs := run r.2 rest
    (r.1 :: rs.1, rs.2)

/-- The names given to `AddStop` in a sequence of calls. -/
def stopNames : List Call → List String
  | [] => []
  | .AddStop stop_name _ :: rest => stop_name :: stopNames rest
  | _ :: rest => stopNames rest

/-- The names given to `AddRoute` in a sequence of calls. -/
def routeNames : List Call → List String
  | [] => []
  | .AddRoute route_name _ _ :: rest => route_name :: routeNames rest
  | _ :: rest => routeNames rest

/-- The catalogues the public interface can produce from the empty one. -/
def Reachable (c : TransportCatalogue) : Prop :=
  ∃ calls : List Call, (run {} calls).2 = c

/-- The forward distance stored for the ordered pair `(stop_from, stop_to)`: the entry of
the table `distances_`. -/
def storedDistance (c : TransportCatalogue) (stop_from stop_to : String) : Option Int :=
  (unordered_map.find c.distances_ stop_from).bind (fun row => unordered_map.find row stop_to)

/-- The value of `GetDistance` where it returns one. -/
def distanceValue (c : TransportCatalogue) (stop_from stop_to : String) : Int :=
  match c.GetDistance stop_from stop_to with
  | .ok d => d
  | .error _ => 0

/-- A name is a stop of the catalogue when the index `stops_by_names_` (what `GetStops`
returns) binds it. -/
def hasStop (c : TransportCatalogue) (stop_name : String) : Prop :=
  unordered_map.find c.stops_by_names_ stop_name ≠ none

instance (c : TransportCatalogue) (stop_name : String) : Decidable (hasStop c stop_name) := by
  unfold hasStop
  exact inferInstance

/-- The consecutive pairs `(sᵢ, sᵢ₊₁)` of a stop sequence. -/
def consecutive (stops : List Stop) : List (Stop × Stop) :=
  stops.zip stops.tail

/-- What the indexes of a catalogue satisfy after any sequence of calls. -/
structure Consistent (c : TransportCatalogue) : Prop where
  stop_key : ∀ n stop, unordered_map.find c.stops_by_names_ n = some stop → stop.name = n
  route_key : ∀ r route, unordered_map.find c.routes_by_names_ r = some route →
    route ∈ c.routes_ ∧ route.name = r
  route_indexed : ∀ route ∈ c.routes_, unordered_map.find c.routes_by_names_ route.name ≠ none
  buses_sorted : ∀ s buses, unordered_map.find c.buses_on_stops_ s = some buses →
    buses.Pairwise (fun a b => a.toList < b.toList)
  buses_nonempty : ∀ s buses, unordered_map.find c.buses_on_stops_ s = some buses → buses ≠ []
  buses_mem : ∀ s r, r ∈ unordered_map.index c.buses_on_stops_ s [] ↔
    ∃ route ∈ c.routes_, route.name = r ∧ s ∈ route.stops.map (fun stop => stop.name)

/-- A distance is available for a pair of stops when the table stores one for it in at
least one direction. -/
def available (c : TransportCatalogue) (p : Stop × Stop) : Prop :=
  ¬ (storedDistance c p.1.name p.2.name = none ∧ storedDistance c p.2.name p.1.name = none)

instance (c : TransportCatalogue) (p : Stop × Stop) : Decidable (available c p) := by
  unfold available
  exact inferInstance

/-- The sum of `GetDistance(sᵢ, sᵢ₊₁)` over the consecutive pairs of a stop sequence. -/
def forwardLength (c : TransportCatalogue) (stops : List Stop) : Int :=
  ((consecutive stops).map (fun p => distanceValue c p.1.name p.2.name)).sum

/-- The sum of `GetDistance(sᵢ₊₁, sᵢ)` over the consecutive pairs of a stop sequence. -/
def backwardLength (c : TransportCatalogue) (stops : List Stop) : Int :=
  ((consecutive stops).map (fun p => distanceValue c p.2.name p.1.name)).sum

end transport_catalogue

/-! ## transport_router.cpp -/

namespace graph

/-- `graph::Edge<Weight>`; `from_` and `to_` are the members `from` and `to`. -/
structure Edge (Weight : Type) where
  from_ : Nat
  to_ : Nat
  weight : Weight
  deriving DecidableEq, Repr

/-- Modelled from the spec: `graph::DirectedWeightedGraph<Weight>` (graph.h is not among
the sources), stored as the edge list and the per-vertex incidence lists that
`GetEdges` and `GetIncidenceLists` return. -/
structure DirectedWeightedGraph (Weight : Type) where
  edges_ : List (Edge Weight) := []
  incidence_lists_ : List (List Nat) := []
  deriving DecidableEq, Repr

namespace DirectedWeightedGraph

/-- Modelled from the spec: the constructor `DirectedWeightedGraph(vertex_count)`, a graph
of `vertex_count` vertices and no edges. -/
def create (Weight : Type) (vertex_count : Nat) : DirectedWeightedGraph Weight :=
  { edges_ := [], incidence_lists_ := List.replicate vertex_count [] }

/-- Modelled from the spec: `AddEdge` appends the edge to the edge list and its index to
the incidence list of its source vertex; a source that is not a vertex throws
`std::out_of_range` with the edge already appended. -/
def AddEdge {Weight : Type} (g : DirectedWeightedGraph Weight) (edge : Edge Weight) :
    Except Error Nat × DirectedWeightedGraph Weight :=
  let id := g.edges_.length
  if edge.from_ < g.incidence_lists_.length then
    (.ok id, { edges_ := g.edges_ ++ [edge]
               incidence_lists_ := g.incidence_lists_.modify (fun l => l ++ [id]) edge.from_ })
  else
    (.error .out_of_range, { g with edges_ := g.edges_ ++ [edge] })

/-- Modelled from the spec: `GetEdge(edge_id)`, the edge of that index. -/
def GetEdge {Weight : Type} (g : DirectedWeightedGraph Weight) (edge_id : Nat) :
    Except Error (Edge Weight) :=
  match g.edges_.get? edge_id with
  | some edge => .ok edge
  | none => .error .out_of_range

end DirectedWeightedGraph

end graph

namespace transport_router

open domain transport_catalogue

/-- `TransportRouter::RoutingSettings`: `wait_time` in minutes, `velocity` in metres per
minute. -/
structure RoutingSettings where
  wait_time : Int := 0
  velocity : Rat := 0
  deriving DecidableEq, Repr

/-- `RouteWeight`. -/
structure RouteWeight where
  bus_name : String := ""
  span_count : Int := 0
  total_time : Rat := 0
  deriving DecidableEq, Repr

/-- `TransportRouter::RouterEdge`; a `TransportRoute` is a vector of them. -/
structure RouterEdge where
  bus_name : String := ""
  stop_from : String := ""
  stop_to : String := ""
  span_count : Int := 0
  total_time : Rat := 0
  deriving DecidableEq, Repr

/-- An entry of the table of `graph::Router<RouteWeight>`. -/
structure RouteInternalData where
  weight : RouteWeight
  prev_edge : Option Nat
  deriving DecidableEq, Repr

/-- What `graph::Router<RouteWeight>::BuildRoute` returns: the weight of the route and its
edge ids. -/
structure RouteInfo where
  weight : RouteWeight
  edges : List Nat
  deriving DecidableEq, Repr

/-- `graph::Router<RouteWeight>` holds the table `GetRoutesInternalData` returns. -/
structure Router where
  routes_internal_data_ : List (List (Option RouteInternalData)) := []
  deriving DecidableEq, Repr

/-- The two member functions of `graph::Router<RouteWeight>` that `TransportRouter` calls.
router.h is not among the sources; they are parameters of the embedding. -/
structure RouterCode where
  /-- The constructor `Router(graph)`: the preprocessing that fills the table. -/
  construct : graph.DirectedWeightedGraph RouteWeight → Router
  /-- `BuildRoute(from, to)` on the graph the router refers to. -/
  BuildRoute : graph.DirectedWeightedGraph RouteWeight → Router → Nat → Nat →
    Except Error (Option RouteInfo)

/-- The data members of `class TransportRouter`.  `catalogue_` is a reference to a
catalogue that is not changed while the router is used; `router_` is `none` for a null
`std::unique_ptr`. -/
structure TransportRouter where
  catalogue_ : TransportCatalogue
  settings_ : RoutingSettings
  is_initialized_ : Bool := false
  graph_ : graph.DirectedWeightedGraph RouteWeight := {}
  router_ : Option Router := none
  id_by_stop_name_ : List (String × Nat) := []
  stops_by_id_ : List (Nat × Stop) := []
  deriving DecidableEq, Repr

namespace TransportRouter

/-- `TransportRouter(catalogue, settings)`. -/
def create (catalogue : TransportCatalogue) (settings : RoutingSettings) : TransportRouter :=
  { catalogue_ := catalogue, settings_ := settings }

/-- `InternalInit`. -/
def InternalInit (r : TransportRouter) : TransportRouter :=
  { r with is_initialized_ := true }

/-- The loop of `CountStops` over `catalogue_.GetStops()`. -/
def CountStops.loop : List (String × Stop) → Nat → TransportRouter → Nat × TransportRouter
  | [], stops_counter, r => (stops_counter, r)
  | stop :: rest, stops_counter, r =>
    CountStops.loop rest (stops_counter + 1)
      { r with
        id_by_stop_name_ := unordered_map.insert r.id_by_stop_name_ stop.1 stops_counter
        stops_by_id_ := unordered_map.insert r.stops_by_id_ stops_counter stop.2 }

/-- `CountStops`. -/
def CountStops (r : TransportRouter) : Nat × TransportRouter :=
  CountStops.loop r.catalogue_.stops_by_names_ 0 r

/-- `route->stops.at(static_cast<size_t>(index))`: a negative `int` becomes an index past
the end. -/
def stopAt (route : Route) (index : Int) : Except Error Stop :=
  if index < 0 then .error .out_of_range
  else
    match route.stops.get? index.toNat with
    | some stop => .ok stop
    | none => .error .out_of_range

/-- `MakeEdge`. -/
def MakeEdge (r : TransportRouter) (route : Route) (stop_from_index stop_to_index : Int) :
    Except Error (graph.Edge RouteWeight) :=
  match stopAt route stop_from_index with
  | .error e => .error e
  | .ok stop_from =>
    match unordered_map.at_ r.id_by_stop_name_ stop_from.name with
    | .error e => .error e
    | .ok from_id =>
      match stopAt route stop_to_index with
      | .error e => .error e
      | .ok stop_to =>
        match unordered_map.at_ r.id_by_stop_name_ stop_to.name with
        | .error e => .error e
        | .ok to_id =>
          .ok { from_ := from_id
                to_ := to_id
                weight := { bus_name := route.name
                            span_count := stop_to_index - stop_from_index } }

/-- `ComputeRouteTime`. -/
def ComputeRouteTime (r : TransportRouter) (route : Route)
    (stop_from_index stop_to_index : Int) : Except Error Rat :=
  match stopAt route stop_from_index with
  | .error e => .error e
  | .ok stop_from =>
    match stopAt route stop_to_index with
    | .error e => .error e
    | .ok stop_to =>
      match r.catalogue_.GetDistance stop_from.name stop_to.name with
      | .error e => .error e
      | .ok split_distance => .ok ((split_distance : Rat) / r.settings_.velocity)

/-- One edge of `BuildEdges`: `MakeEdge`, the running time increased by
`ComputeRouteTime`, `graph_.AddEdge`.  Returns the new running time. -/
def BuildEdges.addEdge (r : TransportRouter) (route : Route)
    (edge_from edge_to time_from time_to : Int) (route_time : Rat)
    (g : graph.DirectedWeightedGraph RouteWeight) :
    Except Error Rat × graph.DirectedWeightedGraph RouteWeight :=
  match r.MakeEdge route edge_from edge_to with
  | .error e => (.error e, g)
  | .ok edge =>
    match r.ComputeRouteTime route time_from time_to with
    | .error e => (.error e, g)
    | .ok t =>
      match g.AddEdge { edge with weight := { edge.weight with total_time := route_time + t } } with
      | (.error e, g') => (.error e, g')
      | (.ok _, g') => (.ok (route_time + t), g')

/-- The loop over `j` of `BuildEdges`, for the values of `j` still to come. -/
def BuildEdges.loop_j (r : TransportRouter) (route : Route) (stops_count i : Int) :
    List Int → Rat → Rat → graph.DirectedWeightedGraph RouteWeight →
      Except Error Unit × graph.DirectedWeightedGraph RouteWeight
  | [], _, _, g => (.ok (), g)
  | j :: js, route_time, route_time_back, g =>
    match BuildEdges.addEdge r route i j (j - 1) j route_time g with
    | (.error e, g') => (.error e, g')
    | (.ok route_time', g') =>
      if route.route_type = RouteType.LINEAR then
        let i_back := stops_count - 1 - i
        let j_back := stops_count - 1 - j
        match BuildEdges.addEdge r route i_back j_back (j_back + 1) j_back route_time_back g' with
        | (.error e, g'') => (.error e, g'')
        | (.ok route_time_back', g'') =>
          BuildEdges.loop_j r route stops_count i js route_time' route_time_back' g''
      else
        BuildEdges.loop_j r route stops_count i js route_time' route_time_back g'

/-- The loop over `i` of `BuildEdges`, for the values of `i` still to come. -/
def BuildEdges.loop_i (r : TransportRouter) (route : Route) (stops_count : Int) :
    List Int → graph.DirectedWeightedGraph RouteWeight →
      Except Error Unit × graph.DirectedWeightedGraph RouteWeight
  | [], g => (.ok (), g)
  | i :: is_, g =>
    let js := (List.range' (i + 1).toNat (stops_count - (i + 1)).toNat).map Int.ofNat
    match BuildEdges.loop_j r route stops_count i js r.settings_.wait_time
        r.settings_.wait_time g with
    | (.error e, g') => (.error e, g')
    | (.ok _, g') => BuildEdges.loop_i r route stops_count is_ g'

/-- The loop of `BuildEdges` over `catalogue_.GetRoutes()`. -/
def BuildEdges.loop (r : TransportRouter) :
    List (String × Route) → graph.DirectedWeightedGraph RouteWeight →
      Except Error Unit × graph.DirectedWeightedGraph RouteWeight
  | [], g => (.ok (), g)
  | (_, route) :: rest, g =>
    let stops_count : Int := route.stops.length
    let is_ := (List.range (stops_count - 1).toNat).map Int.ofNat
    match BuildEdges.loop_i r route stops_count is_ g with
    | (.error e, g') => (.error e, g')
    | (.ok _, g') => BuildEdges.loop r rest g'

/-- `BuildEdges`. -/
def BuildEdges (r : TransportRouter) : Except Error Unit × TransportRouter :=
  let res := BuildEdges.loop r r.catalogue_.routes_by_names_ r.graph_
  (res.1, { r with graph_ := res.2 })

/-- `InitRouter`. -/
def InitRouter (code : RouterCode) (r : TransportRouter) : Except Error Unit × TransportRouter :=
  if r.is_initialized_ = false then
    let counted := r.CountStops
    let r1 := { counted.2 with graph_ := graph.DirectedWeightedGraph.create RouteWeight counted.1 }
    match r1.BuildEdges with
    | (.error e, r2) => (.error e, r2)
    | (.ok _, r2) =>
      (.ok (), { r2 with router_ := some (code.construct r2.graph_), is_initialized_ := true })
  else
    (.ok (), r)

/-- The loop of `BuildRoute` over `route->edges`. -/
def BuildRoute.loop (r : TransportRouter) : List Nat → List RouterEdge →
    Except Error (List RouterEdge)
  | [], result => .ok result
  | edge_id :: rest, result =>
    match r.graph_.GetEdge edge_id with
    | .error e => .error e
    | .ok edge =>
      match unordered_map.at_ r.stops_by_id_ edge.from_ with
      | .error e => .error e
      | .ok stop_from =>
        match unordered_map.at_ r.stops_by_id_ edge.to_ with
        | .error e => .error e
        | .ok stop_to =>
          BuildRoute.loop r rest
            (result ++ [{ bus_name := edge.weight.bus_name
                          stop_from := stop_from.name
                          stop_to := stop_to.name
                          span_count := edge.weight.span_count
                          total_time := edge.weight.total_time }])

/-- `BuildRoute`; the outer `none` of the result is `std::nullopt`.  Dereferencing a null
`router_` is undefined. -/
def BuildRoute (code : RouterCode) (r : TransportRouter) (stop_from stop_to : String) :
    Except Error (Option (List RouterEdge)) × TransportRouter :=
  if stop_from = stop_to then
    (.ok (some []), r)
  else
    match r.InitRouter code with
    | (.error e, r1) => (.error e, r1)
    | (.ok _, r1) =>
      match unordered_map.at_ r1.id_by_stop_name_ stop_from with
      | .error e => (.error e, r1)
      | .ok from_id =>
        match unordered_map.at_ r1.id_by_stop_name_ stop_to with
        | .error e => (.error e, r1)
        | .ok to_id =>
          match r1.router_ with
          | none => (.error .undefined_behaviour, r1)
          | some router =>
            match code.BuildRoute r1.graph_ router from_id to_id with
            | .error e => (.error e, r1)
            | .ok none => (.ok none, r1)
            | .ok (some route) =>
              match BuildRoute.loop r1 route.edges [] with
              | .error e => (.error e, r1)
              | .ok result => (.ok (some result), r1)

/-- The total time of a route: the sum of the `total_time` of its edges. -/
def totalTime (route : List RouterEdge) : Rat :=
  (route.map (fun edge => edge.total_time)).sum

end TransportRouter

end transport_router

/-! ## Scenario S1 -/

namespace S1

open transport_catalogue domain

def A : String := "A"
def B : String := "B"
def C : String := "C"

def catalogue : TransportCatalogue :=
  let c0 : TransportCatalogue := {}
  let c1 := c0.AddStop A ⟨55611087 / 1000000, 3720829 / 100000⟩
  let c2 := c1.AddStop B ⟨55595884 / 1000000, 37209755 / 1000000⟩
  let c3 := c2.AddStop C ⟨55632761 / 1000000, 37333324 / 1000000⟩
  let c4 := (c3.AddRoute "256" RouteType.CIRCLE [A, B, C, A]).2
  let c5 := (c4.SetDistance A B 3900).2
  let c6 := (c5.SetDistance B C 600).2
  (c6.SetDistance C A 5600).2

def stopA : Stop := ⟨A, ⟨55611087 / 1000000, 3720829 / 100000⟩⟩
def stopB : Stop := ⟨B, ⟨55595884 / 1000000, 37209755 / 1000000⟩⟩
def stopC : Stop := ⟨C, ⟨55632761 / 1000000, 37333324 / 1000000⟩⟩

/-- The route the catalogue of S1 stores under the name 256. -/
def route : Route := ⟨"256", RouteType.CIRCLE, [stopA, stopB, stopC, stopA]⟩

/-- A stand-in for `geo::ComputeDistance`. -/
def ComputeDistance : geo.Coordinates → geo.Coordinates → Rat := fun _ _ => 1

/-- What `GetRouteInfo` returns for the route 256. -/
def info : RouteInfo :=
  { name := "256"
    route_type := RouteType.CIRCLE
    num_of_stops := 4
    num_of_unique_stops := 3
    route_length := 10100
    curvature := ((10100 : Int) : Rat) / CalculateRouteLength ComputeDistance (some route) }

end S1

/-! ## Scenario S2 -/

namespace S2

open transport_catalogue domain

def catalogue : TransportCatalogue :=
  (({} : TransportCatalogue).AddStop "X" ⟨0, 0⟩).AddStop "Y" ⟨1, 1⟩

end S2

/-! ## Scenario S3 -/

namespace S3

open transport_catalogue domain

/-- Three stops, of which `D` is in no route, and two routes through `A` and `B`. -/
def calls : List Call :=
  [ Call.AddStop "A" ⟨0, 0⟩,
    Call.AddStop "B" ⟨0, 1⟩,
    Call.AddStop "D" ⟨1, 1⟩,
    Call.AddRoute "828" RouteType.LINEAR ["A", "B"],
    Call.AddRoute "256" RouteType.CIRCLE ["A", "B", "A"],
    Call.SetDistance "A" "B" 900 ]

def catalogue : TransportCatalogue := (run {} calls).2

end S3

/-! ## The edges of a route -/

namespace transport_router

open domain transport_catalogue

/-- The name of the stop of index `k` of a route (`route->stops.at(k)->name`). -/
def stopNameAt (route : Route) (k : Nat) : String :=
  ((route.stops.get? k).map (fun stop => stop.name)).getD ""

/-- The vertex id of a stop name: its binding in `id_by_stop_name_`. -/
def vertexOf (r : TransportRouter) (stop_name : String) : Nat :=
  (unordered_map.find r.id_by_stop_name_ stop_name).getD 0

/-- The time of the ride between the stops of indices `a` and `b` of a route:
`GetDistance(s_a, s_b) / velocity`. -/
def rideTime (r : TransportRouter) (route : Route) (a b : Nat) : Rat :=
  (distanceValue r.catalogue_ (stopNameAt route a) (stopNameAt route b) : Rat) /
    r.settings_.velocity

/-- `wait_time + Σ_{k = i .. j − 1} GetDistance(s_k, s_{k+1}) / velocity`. -/
def forwardTime (r : TransportRouter) (route : Route) (i j : Nat) : Rat :=
  (r.settings_.wait_time : Rat) +
    ((List.range' i (j - i)).map (fun k => rideTime r route k (k + 1))).sum

/-- `wait_time + Σ_{k = q .. p − 1} GetDistance(s_{k+1}, s_k) / velocity`. -/
def backwardTime (r : TransportRouter) (route : Route) (p q : Nat) : Rat :=
  (r.settings_.wait_time : Rat) +
    ((List.range' q (p - q)).map (fun k => rideTime r route (k + 1) k)).sum

/-- The edge `BuildEdges` adds for the index pair `i < j` of a route. -/
def forwardEdge (r : TransportRouter) (route : Route) (i j : Nat) : graph.Edge RouteWeight :=
  { from_ := vertexOf r (stopNameAt route i)
    to_ := vertexOf r (stopNameAt route j)
    weight := { bus_name := route.name
                span_count := (j : Int) - (i : Int)
                total_time := forwardTime r route i j } }

/-- The edge `BuildEdges` adds for the reverse traversal of a LINEAR route from the stop of
index `p` to the stop of index `q < p`. -/
def backwardEdge (r : TransportRouter) (route : Route) (p q : Nat) : graph.Edge RouteWeight :=
  { from_ := vertexOf r (stopNameAt route p)
    to_ := vertexOf r (stopNameAt route q)
    weight := { bus_name := route.name
                span_count := (q : Int) - (p : Int)
                total_time := backwardTime r route p q } }

/-- The edges of one pass of the inner loop of `BuildEdges`, for the pair `(i, j)` of a
route of `n` stops. -/
def edgesOfPair (r : TransportRouter) (route : Route) (n i j : Nat) :
    List (graph.Edge RouteWeight) :=
  forwardEdge r route i j ::
    (if route.route_type = RouteType.LINEAR then
      [backwardEdge r route (n - 1 - i) (n - 1 - j)]
    else [])

/-- The edges `BuildEdges` adds for a route, in the order it adds them. -/
def edgesOfRoute (r : TransportRouter) (route : Route) : List (graph.Edge RouteWeight) :=
  (List.range (route.stops.length - 1)).flatMap (fun i =>
    (List.range' (i + 1) (route.stops.length - (i + 1))).flatMap
      (edgesOfPair r route route.stops.length i))

/-- The number of edges `BuildEdges` adds for a route of `n` stops. -/
def edgeCount (route : Route) : Nat :=
  if route.route_type = RouteType.LINEAR then
    route.stops.length * (route.stops.length - 1)
  else
    route.stops.length * (route.stops.length - 1) / 2

end transport_router

/-! ## Scenario S4 -/

namespace S4

open transport_catalogue domain transport_router

/-- Routing with a wait of 6 minutes at 40 km/h, that is 2000/3 metres per minute. -/
def settings : RoutingSettings := { wait_time := 6, velocity := 2000 / 3 }

/-- The router over the catalogue of S3 when `InitRouter` has numbered the stops and
created the graph, before `BuildEdges`. -/
def router : TransportRouter :=
  { (TransportRouter.create S3.catalogue settings).CountStops.2 with
    graph_ := graph.DirectedWeightedGraph.create RouteWeight
      (TransportRouter.create S3.catalogue settings).CountStops.1 }

/-- The route 828 of S3. -/
def route828 : Route :=
  { name := "828", route_type := RouteType.LINEAR, stops := [⟨"A", ⟨0, 0⟩⟩, ⟨"B", ⟨0, 1⟩⟩] }

end S4

/-! ## json.h, svg.h, map_renderer.h -/

namespace json

/-- Modelled from the spec: `json::Node` (json.h is not among the sources), the small DOM
of null, bool, int, float, string, array and object.  A `json::Dict` (`std::map`) is the
list of its bindings, looked up by key. -/
inductive Node where
  | null
  | bool (value : Bool)
  | int (value : Int)
  | double (value : Rat)
  | string (value : String)
  | array (value : List Node)
  | map (value : List (String × Node))

namespace Node

/-- Modelled from the spec: `IsInt`. -/
def IsInt : Node → Bool
  | .int _ => true
  | _ => false

/-- Modelled from the spec: `IsDouble`, true of an int as well (`LoadRoutingSettings` reads
with `AsDouble` a node it has tested with `IsInt`). -/
def IsDouble : Node → Bool
  | .int _ => true
  | .double _ => true
  | _ => false

/-- Modelled from the spec: `IsBool`. -/
def IsBool : Node → Bool
  | .bool _ => true
  | _ => false

/-- Modelled from the spec: `IsString`. -/
def IsString : Node → Bool
  | .string _ => true
  | _ => false

/-- Modelled from the spec: `IsArray`. -/
def IsArray : Node → Bool
  | .array _ => true
  | _ => false

/-- Modelled from the spec: `IsMap`. -/
def IsMap : Node → Bool
  | .map _ => true
  | _ => false

/-- Modelled from the spec: `AsInt`; a node of another kind throws `std::logic_error`. -/
def AsInt : Node → Except Error Int
  | .int value => .ok value
  | _ => .error .logic_error

/-- Modelled from the spec: `AsDouble`. -/
def AsDouble : Node → Except Error Rat
  | .int value => .ok (value : Rat)
  | .double value => .ok value
  | _ => .error .logic_error

/-- Modelled from the spec: `AsBool`. -/
def AsBool : Node → Except Error Bool
  | .bool value => .ok value
  | _ => .error .logic_error

/-- Modelled from the spec: `AsString`. -/
def AsString : Node → Except Error String
  | .string value => .ok value
  | _ => .error .logic_error

/-- Modelled from the spec: `AsArray`. -/
def AsArray : Node → Except Error (List Node)
  | .array value => .ok value
  | _ => .error .logic_error

/-- Modelled from the spec: `AsMap`. -/
def AsMap : Node → Except Error (List (String × Node))
  | .map value => .ok value
  | _ => .error .logic_error

/-- Modelled from the spec: `node == "text"s`, the comparison of a node with the node made
from a string. -/
def equalsString : Node → String → Bool
  | .string value, text => decide (value = text)
  | _, _ => false

end Node

end json

namespace svg

/-- `svg::Point`. -/
structure Point where
  x : Rat := 0
  y : Rat := 0
  deriving DecidableEq, Repr

/-- `svg::Color`, the variant of `std::monostate`, `std::string`, `Rgb` and `Rgba`. -/
inductive Color where
  | none
  | named (name : String)
  | rgb (red green blue : Nat)
  | rgba (red green blue : Nat) (opacity : Rat)
  deriving DecidableEq, Repr

end svg

namespace renderer

/-- Modelled from the spec: `renderer::RenderSettings` (map_renderer.h is not among the
sources), with the fields the codec and the reader of settings assign. -/
structure RenderSettings where
  size : svg.Point := {}
  padding : Rat := 0
  line_width : Rat := 0
  stop_radius : Rat := 0
  bus_label_font_size : Int := 0
  bus_label_offset : svg.Point := {}
  stop_label_font_size : Int := 0
  stop_label_offset : svg.Point := {}
  underlayer_color : svg.Color := svg.Color.none
  underlayer_width : Rat := 0
  color_palette : List svg.Color := []
  deriving DecidableEq, Repr

end renderer

/-! ## json_reader.cpp -/

namespace json_reader

open domain transport_catalogue transport_router

/-- What `JsonIO` calls and this embedding takes as parameters: `geo::ComputeDistance`,
the map renderer (`RenderMap(catalogue)` printed to a string) and the shortest-path
engine. -/
structure Collaborators where
  ComputeDistance : geo.Coordinates → geo.Coordinates → Rat
  RenderMap : TransportCatalogue → renderer.RenderSettings → String
  router_code : RouterCode

/-- `ErrorMessage`. -/
def ErrorMessage (id : Int) : List (String × json.Node) :=
  [("request_id", json.Node.int id), ("error_message", json.Node.string "not found")]

/-- `request.at(key).AsInt()`. -/
def intAt (request : List (String × json.Node)) (key : String) : Except Error Int :=
  match unordered_map.at_ request key with
  | .error e => .error e
  | .ok node => node.AsInt

/-- `request.at(key).AsString()`. -/
def stringAt (request : List (String × json.Node)) (key : String) : Except Error String :=
  match unordered_map.at_ request key with
  | .error e => .error e
  | .ok node => node.AsString

/-- `LoadRouteAnswer`: only `std::out_of_range` is caught. -/
def LoadRouteAnswer (ext : Collaborators) (request : List (String × json.Node))
    (catalogue : TransportCatalogue) : Except Error (List (String × json.Node)) :=
  match intAt request "id" with
  | .error e => .error e
  | .ok id =>
    match stringAt request "name" with
    | .error e => .error e
    | .ok name =>
      match catalogue.GetRouteInfo ext.ComputeDistance name with
      | .ok answer =>
        .ok [("request_id", json.Node.int id),
             ("curvature", json.Node.double answer.curvature),
             ("route_length", json.Node.int answer.route_length),
             ("stop_count", json.Node.int answer.num_of_stops),
             ("unique_stop_count", json.Node.int answer.num_of_unique_stops)]
      | .error .out_of_range => .ok (ErrorMessage id)
      | .error e => .error e

/-- `LoadStopAnswer`: only `std::out_of_range` is caught. -/
def LoadStopAnswer (request : List (String × json.Node)) (catalogue : TransportCatalogue) :
    Except Error (List (String × json.Node)) :=
  match intAt request "id" with
  | .error e => .error e
  | .ok id =>
    match stringAt request "name" with
    | .error e => .error e
    | .ok name =>
      match catalogue.GetBusesOnStop name with
      | .ok answer =>
        let buses : List json.Node :=
          match answer with
          | some names => names.map json.Node.string
          | none => []
        .ok [("request_id", json.Node.int id), ("buses", json.Node.array buses)]
      | .error .out_of_range => .ok (ErrorMessage id)
      | .error e => .error e

/-- `LoadMapAnswer`. -/
def LoadMapAnswer (ext : Collaborators) (request : List (String × json.Node))
    (catalogue : TransportCatalogue) (render_settings : renderer.RenderSettings) :
    Except Error (List (String × json.Node)) :=
  match intAt request "id" with
  | .error e => .error e
  | .ok id =>
    .ok [("request_id", json.Node.int id),
         ("map", json.Node.string (ext.RenderMap catalogue render_settings))]

/-- The `wait_elem` of `LoadRouteBuildAnswer`. -/
def waitElem (wait_time : Int) (edge : RouterEdge) : List (String × json.Node) :=
  [("type", json.Node.string "Wait"),
   ("stop_name", json.Node.string edge.stop_from),
   ("time", json.Node.int wait_time)]

/-- The `ride_elem` of `LoadRouteBuildAnswer`. -/
def rideElem (wait_time : Int) (edge : RouterEdge) : List (String × json.Node) :=
  [("type", json.Node.string "Bus"),
   ("bus", json.Node.string edge.bus_name),
   ("span_count", json.Node.int edge.span_count),
   ("time", json.Node.double (edge.total_time - (wait_time : Rat)))]

/-- The loop of `LoadRouteBuildAnswer` over the edges of the route. -/
def LoadRouteBuildAnswer.loop (wait_time : Int) :
    List RouterEdge → Rat → List json.Node → Rat × List json.Node
  | [], total_time, items => (total_time, items)
  | edge :: rest, total_time, items =>
    LoadRouteBuildAnswer.loop wait_time rest (total_time + edge.total_time)
      (items ++ [json.Node.map (waitElem wait_time edge),
                 json.Node.map (rideElem wait_time edge)])

/-- `LoadRouteBuildAnswer`: there is no `try` around `router.BuildRoute`. -/
def LoadRouteBuildAnswer (ext : Collaborators) (request : List (String × json.Node))
    (router : TransportRouter) :
    Except Error (List (String × json.Node)) × TransportRouter :=
  match intAt request "id" with
  | .error e => (.error e, router)
  | .ok id =>
    match stringAt request "from" with
    | .error e => (.error e, router)
    | .ok stop_from =>
      match stringAt request "to" with
      | .error e => (.error e, router)
      | .ok stop_to =>
        match router.BuildRoute ext.router_code stop_from stop_to with
        | (.error e, router') => (.error e, router')
        | (.ok none, router') => (.ok (ErrorMessage id), router')
        | (.ok (some route), router') =>
          let res := LoadRouteBuildAnswer.loop router'.settings_.wait_time route 0 []
          (.ok [("request_id", json.Node.int id),
                ("total_time", json.Node.double res.1),
                ("items", json.Node.array res.2)], router')

/-- `node.AsMap()` where the node has been tested with `IsMap`. -/
def asDict : json.Node → List (String × json.Node)
  | .map request => request
  | _ => []

/-- `request.at(key)` where `request.count(key)` has been tested. -/
def nodeAt (request : List (String × json.Node)) (key : String) : json.Node :=
  unordered_map.index request key json.Node.null

/-- `IsRouteRequest`: a `Bus` request. -/
def IsRouteRequest (node : json.Node) : Bool :=
  if node.IsMap = false then false
  else
    let request := asDict node
    if unordered_map.count request "type" = 0
        ∨ (nodeAt request "type").equalsString "Bus" = false then false
    else if unordered_map.count request "id" = 0
        ∨ (nodeAt request "id").IsInt = false then false
    else if unordered_map.count request "name" = 0
        ∨ (nodeAt request "name").IsString = false then false
    else true

/-- `IsStopRequest`. -/
def IsStopRequest (node : json.Node) : Bool :=
  if node.IsMap = false then false
  else
    let request := asDict node
    if unordered_map.count request "type" = 0
        ∨ (nodeAt request "type").equalsString "Stop" = false then false
    else if unordered_map.count request "id" = 0
        ∨ (nodeAt request "id").IsInt = false then false
    else if unordered_map.count request "name" = 0
        ∨ (nodeAt request "name").IsString = false then false
    else true

/-- `IsMapRequest`. -/
def IsMapRequest (node : json.Node) : Bool :=
  if node.IsMap = false then false
  else
    let request := asDict node
    if unordered_map.count request "type" = 0
        ∨ (nodeAt request "type").equalsString "Map" = false then false
    else if unordered_map.count request "id" = 0
        ∨ (nodeAt request "id").IsInt = false then false
    else true

/-- `IsRouteBuildRequest`: a `Route` request. -/
def IsRouteBuildRequest (node : json.Node) : Bool :=
  if node.IsMap = false then false
  else
    let request := asDict node
    if unordered_map.count request "type" = 0
        ∨ (nodeAt request "type").equalsString "Route" = false then false
    else if unordered_map.count request "id" = 0
        ∨ (nodeAt request "id").IsInt = false then false
    else if unordered_map.count request "from" = 0
        ∨ (nodeAt request "from").IsString = false then false
    else if unordered_map.count request "to" = 0
        ∨ (nodeAt request "to").IsString = false then false
    else true

/-- The loop of `LoadAnswers`; an exception leaves it. -/
def LoadAnswers.loop (ext : Collaborators) (catalogue : TransportCatalogue)
    (render_settings : renderer.RenderSettings) :
    List json.Node → List json.Node → TransportRouter →
      Except Error (List json.Node) × TransportRouter
  | [], result, router => (.ok result, router)
  | request :: rest, result, router =>
    if IsRouteRequest request then
      match LoadRouteAnswer ext (asDict request) catalogue with
      | .error e => (.error e, router)
      | .ok answer =>
        LoadAnswers.loop ext catalogue render_settings rest
          (result ++ [json.Node.map answer]) router
    else if IsStopRequest request then
      match LoadStopAnswer (asDict request) catalogue with
      | .error e => (.error e, router)
      | .ok answer =>
        LoadAnswers.loop ext catalogue render_settings rest
          (result ++ [json.Node.map answer]) router
    else if IsMapRequest request then
      match LoadMapAnswer ext (asDict request) catalogue render_settings with
      | .error e => (.error e, router)
      | .ok answer =>
        LoadAnswers.loop ext catalogue render_settings rest
          (result ++ [json.Node.map answer]) router
    else if IsRouteBuildRequest request then
      match LoadRouteBuildAnswer ext (asDict request) router with
      | (.error e, router') => (.error e, router')
      | (.ok answer, router') =>
        LoadAnswers.loop ext catalogue render_settings rest
          (result ++ [json.Node.map answer]) router'
    else
      LoadAnswers.loop ext catalogue render_settings rest result router

/-- `LoadAnswers`. -/
def LoadAnswers (ext : Collaborators) (requests : List json.Node)
    (catalogue : TransportCatalogue) (render_settings : renderer.RenderSettings)
    (router : TransportRouter) : Except Error (List json.Node) × TransportRouter :=
  LoadAnswers.loop ext catalogue render_settings requests [] router

end json_reader

/-! ## Scenario S6 -/

namespace S6

open transport_catalogue domain transport_router

/-- A router over the catalogue of S3, not yet initialised. -/
def router : TransportRouter := TransportRouter.create S3.catalogue S4.settings

/-- A `Route` request from the stop `A` to `Z`, which is not a stop. -/
def routeRequest : List (String × json.Node) :=
  [("type", json.Node.string "Route"), ("id", json.Node.int 1),
   ("from", json.Node.string "A"), ("to", json.Node.string "Z")]

/-- A `Stop` request for the stop `A`. -/
def stopRequest : List (String × json.Node) :=
  [("type", json.Node.string "Stop"), ("id", json.Node.int 2),
   ("name", json.Node.string "A")]

/-- A shortest-path engine that knows one route, the edge 0 from vertex 0 to vertex 1. -/
def code : RouterCode :=
  { construct := fun _ => {}
    BuildRoute := fun _ _ vertex_from vertex_to =>
      if vertex_from = 0 ∧ vertex_to = 1 then
        .ok (some { weight := { total_time := 7 }, edges := [0] })
      else .ok none }

/-- An initialised router over the catalogue of S3 whose graph has the one edge of the
route 828 from `A` to `B`, of 7 minutes. -/
def loadedRouter : TransportRouter :=
  { catalogue_ := S3.catalogue
    settings_ := { wait_time := 6, velocity := 2000 / 3 }
    is_initialized_ := true
    graph_ :=
      { edges_ := [{ from_ := 0, to_ := 1,
                     weight := { bus_name := "828", span_count := 1, total_time := 7 } }]
        incidence_lists_ := [[0], [], []] }
    router_ := some {}
    id_by_stop_name_ := [("A", 0), ("B", 1), ("D", 2)]
    stops_by_id_ := [(0, ⟨"A", ⟨0, 0⟩⟩), (1, ⟨"B", ⟨0, 1⟩⟩), (2, ⟨"D", ⟨1, 1⟩⟩)] }

/-- The other collaborators of the reader. -/
def collaborators : json_reader.Collaborators :=
  { ComputeDistance := fun _ _ => 1
    RenderMap := fun _ _ => ""
    router_code := code }

/-- A `Route` request from `A` to `B`. -/
def routeRequestAB : List (String × json.Node) :=
  [("type", json.Node.string "Route"), ("id", json.Node.int 3),
   ("from", json.Node.string "A"), ("to", json.Node.string "B")]

end S6

/-! ## The messages of the binary codec -/

namespace svg_serialize

/-- Modelled from the spec: the message `svg_serialize::Point` (the generated
`transport_catalogue.pb.h` is not among the sources). -/
structure Point where
  x : Rat := 0
  y : Rat := 0
  deriving DecidableEq, Repr

/-- Modelled from the spec: the message `svg_serialize::Color`, a `oneof` of a string, an
RGB and an RGBA colour, or none of them. -/
inductive Color where
  | not_set
  | string_color (value : String)
  | rgb_color (r g b : Nat)
  | rgba_color (r g b : Nat) (o : Rat)
  deriving DecidableEq, Repr

end svg_serialize

namespace transport_catalogue_serialize

/-- Modelled from the spec: the message `Coordinates`. -/
structure Coordinates where
  lat : Rat := 0
  lng : Rat := 0
  deriving DecidableEq, Repr

/-- Modelled from the spec: the message `Stop` (id, name, coordinates). -/
structure Stop where
  id : Nat := 0
  name : String := ""
  coordinates : Coordinates := {}
  deriving DecidableEq, Repr

/-- Modelled from the spec: the enumeration `RouteType` of the messages. -/
inductive RouteType where
  | UNKNOWN
  | LINEAR
  | CIRCLE
  deriving DecidableEq, Repr

/-- Modelled from the spec: the message `Route` (id, name, type, stop ids). -/
structure Route where
  id : Nat := 0
  name : String := ""
  type : RouteType := RouteType.UNKNOWN
  stop_ids : List Nat := []
  deriving DecidableEq, Repr

/-- Modelled from the spec: the message `Distance` (from id, to id, metres). -/
structure Distance where
  stop_id_from : Nat := 0
  stop_id_to : Nat := 0
  distance : Int := 0
  deriving DecidableEq, Repr

/-- Modelled from the spec: the catalogue sub-message, arrays of stops, routes and
distances. -/
structure Catalogue where
  stops : List Stop := []
  routes : List Route := []
  distances : List Distance := []
  deriving DecidableEq, Repr

/-- Modelled from the spec: the message of the render settings. -/
structure RenderSettings where
  size : svg_serialize.Point := {}
  padding : Rat := 0
  line_width : Rat := 0
  stop_radius : Rat := 0
  bus_label_font_size : Int := 0
  bus_label_offset : svg_serialize.Point := {}
  stop_label_font_size : Int := 0
  stop_label_offset : svg_serialize.Point := {}
  underlayer_color : svg_serialize.Color := svg_serialize.Color.not_set
  underlayer_width : Rat := 0
  color_palette : List svg_serialize.Color := []
  deriving DecidableEq, Repr

end transport_catalogue_serialize

namespace graph_serialize

/-- Modelled from the spec: the message `RouteWeight` (bus id, span count, total time). -/
structure RouteWeight where
  bus_id : Nat := 0
  span_count : Int := 0
  total_time : Rat := 0
  deriving DecidableEq, Repr

/-- Modelled from the spec: the message `Edge`. -/
structure Edge where
  from_ : Nat := 0
  to_ : Nat := 0
  weight : RouteWeight := {}
  deriving DecidableEq, Repr

/-- Modelled from the spec: the message `Graph`, the edges and the incidence lists (each a
list of edge ids). -/
structure Graph where
  edges : List Edge := []
  incidence_lists : List (List Nat) := []
  deriving DecidableEq, Repr

/-- Modelled from the spec: the message `RouteInternalData`, a total time and an optional
previous edge. -/
structure RouteInternalData where
  total_time : Rat := 0
  prev_edge : Option Nat := none
  deriving DecidableEq, Repr

/-- Modelled from the spec: the message `Router`, the table row by row; an entry is an
`OptionalRouteInternalData`, absent or a `RouteInternalData`. -/
structure Router where
  routes_internal_data : List (List (Option RouteInternalData)) := []
  deriving DecidableEq, Repr

end graph_serialize

namespace transport_router_serialize

/-- Modelled from the spec: the message `StopById` (vertex id, stop id). -/
structure StopById where
  id : Nat := 0
  stop_id : Nat := 0
  deriving DecidableEq, Repr

/-- Modelled from the spec: the message of the routing settings. -/
structure Settings where
  wait_time : Int := 0
  velocity : Rat := 0
  deriving DecidableEq, Repr

/-- Modelled from the spec: the router sub-message: settings, graph, id ↔ stop mapping and
the table. -/
structure TransportRouter where
  stop_by_id : List StopById := []
  settings : Settings := {}
  graph : graph_serialize.Graph := {}
  router : graph_serialize.Router := {}
  deriving DecidableEq, Repr

end transport_router_serialize

namespace transport_catalogue_serialize

/-- Modelled from the spec: the whole message, with optional sub-messages for the render
settings and the router (`has_render_settings`, `has_router`). -/
structure TransportCatalogue where
  catalogue : Catalogue := {}
  render_settings : Option RenderSettings := none
  router : Option transport_router_serialize.TransportRouter := none
  deriving DecidableEq, Repr

end transport_catalogue_serialize

/-! ## serialization.cpp -/

namespace serialize

open domain

/-- The data members of `class Serializator` (without the path of the file). -/
structure Serializator where
  proto_catalogue_ : transport_catalogue_serialize.TransportCatalogue := {}
  stop_name_by_id_ : List (Nat × String) := []
  stop_id_by_name_ : List (String × Nat) := []
  route_name_by_id_ : List (Nat × String) := []
  route_id_by_name_ : List (String × Nat) := []
  deriving DecidableEq, Repr

namespace Serializator

/-- `Clear`. -/
def Clear (_s : Serializator) : Serializator := {}

/-- `MakeProtoCoordinates`. -/
def MakeProtoCoordinates (coordinates : geo.Coordinates) :
    transport_catalogue_serialize.Coordinates :=
  { lat := coordinates.lat, lng := coordinates.lng }

/-- `MakeCoordinates`. -/
def MakeCoordinates (p_coordinates : transport_catalogue_serialize.Coordinates) :
    geo.Coordinates :=
  { lat := p_coordinates.lat, lng := p_coordinates.lng }

/-- `MakeProtoRouteType`. -/
def MakeProtoRouteType (route_type : RouteType) : transport_catalogue_serialize.RouteType :=
  match route_type with
  | RouteType.LINEAR => transport_catalogue_serialize.RouteType.LINEAR
  | RouteType.CIRCLE => transport_catalogue_serialize.RouteType.CIRCLE
  | _ => transport_catalogue_serialize.RouteType.UNKNOWN

/-- `MakeRouteType`. -/
def MakeRouteType (p_route_type : transport_catalogue_serialize.RouteType) : RouteType :=
  match p_route_type with
  | transport_catalogue_serialize.RouteType.LINEAR => RouteType.LINEAR
  | transport_catalogue_serialize.RouteType.CIRCLE => RouteType.CIRCLE
  | _ => RouteType.UNKNOWN

/-- `MakeProtoPoint`. -/
def MakeProtoPoint (point : svg.Point) : svg_serialize.Point :=
  { x := point.x, y := point.y }

/-- `MakePoint`. -/
def MakePoint (p_point : svg_serialize.Point) : svg.Point :=
  { x := p_point.x, y := p_point.y }

/-- `MakeProtoColor`. -/
def MakeProtoColor (color : svg.Color) : svg_serialize.Color :=
  match color with
  | svg.Color.named name => svg_serialize.Color.string_color name
  | svg.Color.rgb red green blue => svg_serialize.Color.rgb_color red green blue
  | svg.Color.rgba red green blue opacity =>
    svg_serialize.Color.rgba_color red green blue opacity
  | svg.Color.none => svg_serialize.Color.not_set

/-- `MakeColor`; the components of the message become `uint8_t`. -/
def MakeColor (p_color : svg_serialize.Color) : svg.Color :=
  match p_color with
  | svg_serialize.Color.string_color value => svg.Color.named value
  | svg_serialize.Color.rgb_color r g b => svg.Color.rgb (r % 256) (g % 256) (b % 256)
  | svg_serialize.Color.rgba_color r g b o =>
    svg.Color.rgba (r % 256) (g % 256) (b % 256) o
  | svg_serialize.Color.not_set => svg.Color.none

/-- The loop of `SaveStops` over `catalogue.GetStops()`. -/
def SaveStops.loop : List (String × Stop) → Nat → Serializator → Serializator
  | [], _, s => s
  | (name, stop) :: rest, id, s =>
    SaveStops.loop rest (id + 1)
      { s with
        stop_id_by_name_ := unordered_map.insert s.stop_id_by_name_ name id
        proto_catalogue_ := { s.proto_catalogue_ with
          catalogue := { s.proto_catalogue_.catalogue with
            stops := s.proto_catalogue_.catalogue.stops ++
              [{ id := id, name := stop.name
                 coordinates := MakeProtoCoordinates stop.coordinate }] } } }

/-- `SaveStops`. -/
def SaveStops (s : Serializator) (catalogue : transport_catalogue.TransportCatalogue) :
    Serializator :=
  SaveStops.loop catalogue.stops_by_names_ 0 s

/-- `SaveRouteStops`: the ids of the stops of a route, `stop_id_by_name_.at` of each. -/
def SaveRouteStops (s : Serializator) : List Stop → List Nat → Except Error (List Nat)
  | [], stop_ids => .ok stop_ids
  | stop :: rest, stop_ids =>
    match unordered_map.at_ s.stop_id_by_name_ stop.name with
    | .error e => .error e
    | .ok id => SaveRouteStops s rest (stop_ids ++ [id])

/-- The loop of `SaveRoutes` over `catalogue.GetRoutes()`. -/
def SaveRoutes.loop : List (String × Route) → Nat → Serializator →
    Except Error Unit × Serializator
  | [], _, s => (.ok (), s)
  | (name, route) :: rest, id, s =>
    match SaveRouteStops s route.stops [] with
    | .error e => (.error e, s)
    | .ok stop_ids =>
      SaveRoutes.loop rest (id + 1)
        { s with
          route_id_by_name_ := unordered_map.insert s.route_id_by_name_ name id
          proto_catalogue_ := { s.proto_catalogue_ with
            catalogue := { s.proto_catalogue_.catalogue with
              routes := s.proto_catalogue_.catalogue.routes ++
                [{ id := id, name := route.name
                   type := MakeProtoRouteType route.route_type
                   stop_ids := stop_ids }] } } }

/-- `SaveRoutes`. -/
def SaveRoutes (s : Serializator) (catalogue : transport_catalogue.TransportCatalogue) :
    Except Error Unit × Serializator :=
  SaveRoutes.loop catalogue.routes_by_names_ 0 s

/-- The inner loop of `SaveDistances`, over the distances from one stop. -/
def SaveDistances.loop_to (stop1 : String) : List (String × Int) → Serializator →
    Except Error Unit × Serializator
  | [], s => (.ok (), s)
  | (stop2, distance) :: rest, s =>
    match unordered_map.at_ s.stop_id_by_name_ stop1 with
    | .error e => (.error e, s)
    | .ok id_from =>
      match unordered_map.at_ s.stop_id_by_name_ stop2 with
      | .error e => (.error e, s)
      | .ok id_to =>
        SaveDistances.loop_to stop1 rest
          { s with
            proto_catalogue_ := { s.proto_catalogue_ with
              catalogue := { s.proto_catalogue_.catalogue with
                distances := s.proto_catalogue_.catalogue.distances ++
                  [{ stop_id_from := id_from, stop_id_to := id_to, distance := distance }] } } }

/-- The outer loop of `SaveDistances`. -/
def SaveDistances.loop : List (String × List (String × Int)) → Serializator →
    Except Error Unit × Serializator
  | [], s => (.ok (), s)
  | (stop1, stops) :: rest, s =>
    match SaveDistances.loop_to stop1 stops s with
    | (.error e, s') => (.error e, s')
    | (.ok _, s') => SaveDistances.loop rest s'

/-- `SaveDistances`. -/
def SaveDistances (s : Serializator) (catalogue : transport_catalogue.TransportCatalogue) :
    Except Error Unit × Serializator :=
  SaveDistances.loop catalogue.distances_ s

/-- `AddTransportCatalogue`. -/
def AddTransportCatalogue (s : Serializator)
    (catalogue : transport_catalogue.TransportCatalogue) : Except Error Unit × Serializator :=
  match (s.SaveStops catalogue).SaveRoutes catalogue with
  | (.error e, s') => (.error e, s')
  | (.ok _, s') => s'.SaveDistances catalogue

/-- `SaveRenderSettings`. -/
def SaveRenderSettings (s : Serializator) (settings : renderer.RenderSettings) : Serializator :=
  { s with
    proto_catalogue_ := { s.proto_catalogue_ with
      render_settings := some
        { size := MakeProtoPoint settings.size
          padding := settings.padding
          line_width := settings.line_width
          stop_radius := settings.stop_radius
          bus_label_font_size := settings.bus_label_font_size
          bus_label_offset := MakeProtoPoint settings.bus_label_offset
          stop_label_font_size := settings.stop_label_font_size
          stop_label_offset := MakeProtoPoint settings.stop_label_offset
          underlayer_color := MakeProtoColor settings.underlayer_color
          underlayer_width := settings.underlayer_width
          color_palette := ((s.proto_catalogue_.render_settings.map
            (fun p => p.color_palette)).getD []) ++
              settings.color_palette.map MakeProtoColor } } }

/-- `AddRenderSettings`. -/
def AddRenderSettings (s : Serializator) (settings : renderer.RenderSettings) : Serializator :=
  s.SaveRenderSettings settings

/-- The loop of `LoadStops`. -/
def LoadStops.loop : List transport_catalogue_serialize.Stop → Serializator →
    transport_catalogue.TransportCatalogue →
      Serializator × transport_catalogue.TransportCatalogue
  | [], s, catalogue => (s, catalogue)
  | p_stop :: rest, s, catalogue =>
    LoadStops.loop rest
      { s with stop_name_by_id_ := unordered_map.insert s.stop_name_by_id_ p_stop.id p_stop.name }
      (catalogue.AddStop p_stop.name (MakeCoordinates p_stop.coordinates))

/-- `LoadStops`. -/
def LoadStops (s : Serializator) (catalogue : transport_catalogue.TransportCatalogue) :
    Serializator × transport_catalogue.TransportCatalogue :=
  LoadStops.loop s.proto_catalogue_.catalogue.stops s catalogue

/-- The loop of `LoadRoute`: the names of the stop ids, `stop_name_by_id_.at` of each. -/
def LoadRoute.loop (s : Serializator) : List Nat → List String → Except Error (List String)
  | [], stops => .ok stops
  | stop_id :: rest, stops =>
    match unordered_map.at_ s.stop_name_by_id_ stop_id with
    | .error e => .error e
    | .ok stop_name => LoadRoute.loop s rest (stops ++ [stop_name])

/-- `LoadRoute`. -/
def LoadRoute (s : Serializator) (catalogue : transport_catalogue.TransportCatalogue)
    (p_route : transport_catalogue_serialize.Route) :
    Except Error Unit × transport_catalogue.TransportCatalogue :=
  match LoadRoute.loop s p_route.stop_ids [] with
  | .error e => (.error e, catalogue)
  | .ok stops => catalogue.AddRoute p_route.name (MakeRouteType p_route.type) stops

/-- The loop of `LoadRoutes`. -/
def LoadRoutes.loop : List transport_catalogue_serialize.Route → Serializator →
    transport_catalogue.TransportCatalogue →
      Except Error Unit × Serializator × transport_catalogue.TransportCatalogue
  | [], s, catalogue => (.ok (), s, catalogue)
  | p_route :: rest, s, catalogue =>
    match LoadRoute s catalogue p_route with
    | (.error e, catalogue') => (.error e, s, catalogue')
    | (.ok _, catalogue') =>
      LoadRoutes.loop rest
        { s with
          route_name_by_id_ := unordered_map.insert s.route_name_by_id_ p_route.id p_route.name }
        catalogue'

/-- `LoadRoutes`. -/
def LoadRoutes (s : Serializator) (catalogue : transport_catalogue.TransportCatalogue) :
    Except Error Unit × Serializator × transport_catalogue.TransportCatalogue :=
  LoadRoutes.loop s.proto_catalogue_.catalogue.routes s catalogue

/-- The loop of `LoadDistances`. -/
def LoadDistances.loop (s : Serializator) : List transport_catalogue_serialize.Distance →
    transport_catalogue.TransportCatalogue →
      Except Error Unit × transport_catalogue.TransportCatalogue
  | [], catalogue => (.ok (), catalogue)
  | p_distance :: rest, catalogue =>
    match unordered_map.at_ s.stop_name_by_id_ p_distance.stop_id_from with
    | .error e => (.error e, catalogue)
    | .ok stop_from =>
      match unordered_map.at_ s.stop_name_by_id_ p_distance.stop_id_to with
      | .error e => (.error e, catalogue)
      | .ok stop_to =>
        match catalogue.SetDistance stop_from stop_to p_distance.distance with
        | (.error e, catalogue') => (.error e, catalogue')
        | (.ok _, catalogue') => LoadDistances.loop s rest catalogue'

/-- `LoadDistances`. -/
def LoadDistances (s : Serializator) (catalogue : transport_catalogue.TransportCatalogue) :
    Except Error Unit × transport_catalogue.TransportCatalogue :=
  LoadDistances.loop s s.proto_catalogue_.catalogue.distances catalogue

/-- `LoadRenderSettings`: the argument is the caller's `std::optional`, the result its
value after the call. -/
def LoadRenderSettings (s : Serializator) (result_settings : Option renderer.RenderSettings) :
    Option renderer.RenderSettings :=
  match s.proto_catalogue_.render_settings with
  | none => result_settings
  | some p_settings =>
    some
      { size := MakePoint p_settings.size
        padding := p_settings.padding
        line_width := p_settings.line_width
        stop_radius := p_settings.stop_radius
        bus_label_font_size := p_settings.bus_label_font_size
        bus_label_offset := MakePoint p_settings.bus_label_offset
        stop_label_font_size := p_settings.stop_label_font_size
        stop_label_offset := MakePoint p_settings.stop_label_offset
        underlayer_color := MakeColor p_settings.underlayer_color
        underlayer_width := p_settings.underlayer_width
        color_palette := p_settings.color_palette.map MakeColor }

/-- `MakeProtoWeight`. -/
def MakeProtoWeight (s : Serializator) (weight : transport_router.RouteWeight) :
    Except Error graph_serialize.RouteWeight :=
  match unordered_map.at_ s.route_id_by_name_ weight.bus_name with
  | .error e => .error e
  | .ok bus_id =>
    .ok { bus_id := bus_id, span_count := weight.span_count, total_time := weight.total_time }

/-- `MakeWeight`. -/
def MakeWeight (s : Serializator) (catalogue : transport_catalogue.TransportCatalogue)
    (p_weight : graph_serialize.RouteWeight) : Except Error transport_router.RouteWeight :=
  match unordered_map.at_ s.route_name_by_id_ p_weight.bus_id with
  | .error e => .error e
  | .ok name =>
    match unordered_map.at_ catalogue.routes_by_names_ name with
    | .error e => .error e
    | .ok route =>
      .ok { bus_name := route.name
            span_count := p_weight.span_count
            total_time := p_weight.total_time }

/-- The router sub-message, made by `mutable_router()` when it is not there yet. -/
def mutable_router (s : Serializator) : transport_router_serialize.TransportRouter :=
  s.proto_catalogue_.router.getD {}

/-- Stores a router sub-message in the message. -/
def set_router (s : Serializator) (p_router : transport_router_serialize.TransportRouter) :
    Serializator :=
  { s with proto_catalogue_ := { s.proto_catalogue_ with router := some p_router } }

/-- The loop of `SaveTransportRouter` over `router.GetIdsByStopName()`. -/
def SaveTransportRouter.loop : List (String × Nat) → Serializator →
    Except Error Unit × Serializator
  | [], s => (.ok (), s)
  | (name, id) :: rest, s =>
    match unordered_map.at_ s.stop_id_by_name_ name with
    | .error e => (.error e, s)
    | .ok stop_id =>
      SaveTransportRouter.loop rest
        (s.set_router { s.mutable_router with
          stop_by_id := s.mutable_router.stop_by_id ++ [{ id := id, stop_id := stop_id }] })

/-- `SaveTransportRouter`. -/
def SaveTransportRouter (s : Serializator) (router : transport_router.TransportRouter) :
    Except Error Unit × Serializator :=
  SaveTransportRouter.loop router.id_by_stop_name_ (s.set_router s.mutable_router)

/-- `SaveTransportRouterSettings`. -/
def SaveTransportRouterSettings (s : Serializator)
    (routing_settings : transport_router.RoutingSettings) : Serializator :=
  s.set_router { s.mutable_router with
    settings := { wait_time := routing_settings.wait_time
                  velocity := routing_settings.velocity } }

/-- The loop of `SaveGraph` over the edges. -/
def SaveGraph.loop_edges : List (graph.Edge transport_router.RouteWeight) → Serializator →
    Except Error Unit × Serializator
  | [], s => (.ok (), s)
  | edge :: rest, s =>
    match s.MakeProtoWeight edge.weight with
    | .error e => (.error e, s)
    | .ok p_weight =>
      SaveGraph.loop_edges rest
        (s.set_router { s.mutable_router with
          graph := { s.mutable_router.graph with
            edges := s.mutable_router.graph.edges ++
              [{ from_ := edge.from_, to_ := edge.to_, weight := p_weight }] } })

/-- The loop of `SaveGraph` over the incidence lists. -/
def SaveGraph.loop_lists : List (List Nat) → Serializator → Serializator
  | [], s => s
  | list :: rest, s =>
    SaveGraph.loop_lists rest
      (s.set_router { s.mutable_router with
        graph := { s.mutable_router.graph with
          incidence_lists := s.mutable_router.graph.incidence_lists ++ [list] } })

/-- `SaveGraph`. -/
def SaveGraph (s : Serializator) (g : graph.DirectedWeightedGraph transport_router.RouteWeight) :
    Except Error Unit × Serializator :=
  match SaveGraph.loop_edges g.edges_ (s.set_router s.mutable_router) with
  | (.error e, s') => (.error e, s')
  | (.ok _, s') => (.ok (), SaveGraph.loop_lists g.incidence_lists_ s')

/-- One entry of the table as `SaveRouter` writes it. -/
def SaveRouter.entry (internal : Option transport_router.RouteInternalData) :
    Option graph_serialize.RouteInternalData :=
  match internal with
  | some value => some { total_time := value.weight.total_time, prev_edge := value.prev_edge }
  | none => none

/-- The loop of `SaveRouter` over the rows of the table. -/
def SaveRouter.loop : List (List (Option transport_router.RouteInternalData)) → Serializator →
    Serializator
  | [], s => s
  | data :: rest, s =>
    SaveRouter.loop rest
      (s.set_router { s.mutable_router with
        router := { routes_internal_data :=
          s.mutable_router.router.routes_internal_data ++ [data.map SaveRouter.entry] } })

/-- `SaveRouter`; dereferencing a null `router` is undefined. -/
def SaveRouter (s : Serializator) (router : Option transport_router.Router) :
    Except Error Unit × Serializator :=
  match router with
  | none => (.error .undefined_behaviour, s.set_router s.mutable_router)
  | some router =>
    (.ok (), SaveRouter.loop router.routes_internal_data_ (s.set_router s.mutable_router))

/-- `AddTransportRouter`. -/
def AddTransportRouter (s : Serializator) (router : transport_router.TransportRouter) :
    Except Error Unit × Serializator :=
  match s.SaveTransportRouter router with
  | (.error e, s1) => (.error e, s1)
  | (.ok _, s1) =>
    match (s1.SaveTransportRouterSettings router.settings_).SaveGraph router.graph_ with
    | (.error e, s2) => (.error e, s2)
    | (.ok _, s2) => s2.SaveRouter router.router_

/-- `LoadTransportRouterSettings`. -/
def LoadTransportRouterSettings (p_router : transport_router_serialize.TransportRouter) :
    transport_router.RoutingSettings :=
  { wait_time := p_router.settings.wait_time, velocity := p_router.settings.velocity }

/-- The loop of `LoadTransportRouter` over the `stop_by_id` entries. -/
def LoadTransportRouter.loop (s : Serializator)
    (catalogue : transport_catalogue.TransportCatalogue) :
    List transport_router_serialize.StopById → transport_router.TransportRouter →
      Except Error Unit × transport_router.TransportRouter
  | [], router => (.ok (), router)
  | p_stop_by_id :: rest, router =>
    match unordered_map.at_ s.stop_name_by_id_ p_stop_by_id.stop_id with
    | .error e => (.error e, router)
    | .ok name =>
      match unordered_map.at_ catalogue.stops_by_names_ name with
      | .error e => (.error e, router)
      | .ok stop =>
        LoadTransportRouter.loop s catalogue rest
          { router with
            stops_by_id_ := unordered_map.insert router.stops_by_id_ p_stop_by_id.id stop
            id_by_stop_name_ :=
              unordered_map.insert router.id_by_stop_name_ stop.name p_stop_by_id.id }

/-- The loop of `LoadGraph` over the edges. -/
def LoadGraph.loop_edges (s : Serializator)
    (catalogue : transport_catalogue.TransportCatalogue) :
    List graph_serialize.Edge → graph.DirectedWeightedGraph transport_router.RouteWeight →
      Except Error Unit × graph.DirectedWeightedGraph transport_router.RouteWeight
  | [], g => (.ok (), g)
  | p_edge :: rest, g =>
    match s.MakeWeight catalogue p_edge.weight with
    | .error e => (.error e, g)
    | .ok weight =>
      LoadGraph.loop_edges s catalogue rest
        { g with edges_ := g.edges_ ++
            [{ from_ := p_edge.from_, to_ := p_edge.to_, weight := weight }] }

/-- `LoadGraph`. -/
def LoadGraph (s : Serializator) (catalogue : transport_catalogue.TransportCatalogue)
    (p_graph : graph_serialize.Graph)
    (g : graph.DirectedWeightedGraph transport_router.RouteWeight) :
    Except Error Unit × graph.DirectedWeightedGraph transport_router.RouteWeight :=
  match LoadGraph.loop_edges s catalogue p_graph.edges g with
  | (.error e, g') => (.error e, g')
  | (.ok _, g') =>
    (.ok (), { g' with incidence_lists_ := g'.incidence_lists_ ++ p_graph.incidence_lists })

/-- Modelled from the spec: the constructor `Router(graph, false)` of
`graph::Router<RouteWeight>` (router.h is not among the sources), the V×V table with every
entry absent, V being the number of vertices of the graph. -/
def Router_unprocessed (g : graph.DirectedWeightedGraph transport_router.RouteWeight) :
    transport_router.Router :=
  { routes_internal_data_ :=
      List.replicate g.incidence_lists_.length (List.replicate g.incidence_lists_.length none) }

/-- One entry of the table as `LoadRouter` reads it. -/
def LoadRouter.entry (p_optional_data : Option graph_serialize.RouteInternalData) :
    Option transport_router.RouteInternalData :=
  match p_optional_data with
  | some p_data => some { weight := { total_time := p_data.total_time }
                          prev_edge := p_data.prev_edge }
  | none => none

/-- The inner loop of `LoadRouter`: `routes_internal_data[i][j] = ...` for the entries of
row `i` from column `j` on; an index outside the table is undefined. -/
def LoadRouter.loop_j (i : Nat) : List (Option graph_serialize.RouteInternalData) → Nat →
    List (List (Option transport_router.RouteInternalData)) →
      Except Error Unit × List (List (Option transport_router.RouteInternalData))
  | [], _, table => (.ok (), table)
  | p_optional_data :: rest, j, table =>
    match table.get? i with
    | none => (.error .undefined_behaviour, table)
    | some row =>
      if j < row.length then
        LoadRouter.loop_j i rest (j + 1)
          (table.set i (row.set j (LoadRouter.entry p_optional_data)))
      else (.error .undefined_behaviour, table)

/-- The outer loop of `LoadRouter`, for the rows from `i` on. -/
def LoadRouter.loop : List (List (Option graph_serialize.RouteInternalData)) → Nat →
    List (List (Option transport_router.RouteInternalData)) →
      Except Error Unit × List (List (Option transport_router.RouteInternalData))
  | [], _, table => (.ok (), table)
  | p_internal_data :: rest, i, table =>
    match LoadRouter.loop_j i p_internal_data 0 table with
    | (.error e, table') => (.error e, table')
    | (.ok _, table') => LoadRouter.loop rest (i + 1) table'

/-- `LoadRouter`. -/
def LoadRouter (p_router : graph_serialize.Router) (router : transport_router.Router) :
    Except Error Unit × transport_router.Router :=
  match LoadRouter.loop p_router.routes_internal_data 0 router.routes_internal_data_ with
  | (.error e, table) => (.error e, { routes_internal_data_ := table })
  | (.ok _, table) => (.ok (), { routes_internal_data_ := table })

/-- `LoadTransportRouter`: the second argument is the caller's `std::unique_ptr`, the
second result its value after the call. -/
def LoadTransportRouter (s : Serializator)
    (catalogue : transport_catalogue.TransportCatalogue)
    (router_ptr : Option transport_router.TransportRouter) :
    Except Error Unit × Option transport_router.TransportRouter :=
  match s.proto_catalogue_.router with
  | none => (.ok (), router_ptr)
  | some p_router =>
    let created := transport_router.TransportRouter.create catalogue
      (LoadTransportRouterSettings p_router)
    match LoadTransportRouter.loop s catalogue p_router.stop_by_id created with
    | (.error e, r1) => (.error e, some r1)
    | (.ok _, r1) =>
      match s.LoadGraph catalogue p_router.graph r1.graph_ with
      | (.error e, g) => (.error e, some { r1 with graph_ := g })
      | (.ok _, g) =>
        match LoadRouter p_router.router (Router_unprocessed g) with
        | (.error e, table) => (.error e, some { r1 with graph_ := g, router_ := some table })
        | (.ok _, table) =>
          (.ok (), some ({ r1 with graph_ := g, router_ := some table }).InternalInit)

end Serializator

/-- What `Deserialize` finds at the path: a file it cannot open, a file that does not
parse (the message keeps what was parsed), or a message. -/
inductive FileInput where
  | not_open
  | parse_failed (partly : transport_catalogue_serialize.TransportCatalogue)
  | parsed (message : transport_catalogue_serialize.TransportCatalogue)

/-- The three arguments `Deserialize` takes by reference. -/
structure Target where
  catalogue : transport_catalogue.TransportCatalogue
  settings : Option renderer.RenderSettings
  router : Option transport_router.TransportRouter

namespace Serializator

/-- `Serialize`: whether the file opens, what is returned, and the message written. -/
def Serialize (s : Serializator) (opens : Bool) :
    Bool × Serializator × Option transport_catalogue_serialize.TransportCatalogue :=
  if opens = false then (false, s, none)
  else (true, s.Clear, some s.proto_catalogue_)

/-- `Deserialize`. -/
def Deserialize (s : Serializator) (file : FileInput) (target : Target) :
    Except Error Bool × Serializator × Target :=
  match file with
  | .not_open => (.ok false, s, target)
  | .parse_failed partly => (.ok false, { s with proto_catalogue_ := partly }, target)
  | .parsed message =>
    let s0 := { s with proto_catalogue_ := message }
    let loaded_stops := s0.LoadStops target.catalogue
    match loaded_stops.1.LoadRoutes loaded_stops.2 with
    | (.error e, s2, catalogue2) => (.error e, s2, { target with catalogue := catalogue2 })
    | (.ok _, s2, catalogue2) =>
      match s2.LoadDistances catalogue2 with
      | (.error e, catalogue3) => (.error e, s2, { target with catalogue := catalogue3 })
      | (.ok _, catalogue3) =>
        let settings := s2.LoadRenderSettings target.settings
        match s2.LoadTransportRouter catalogue3 target.router with
        | (.error e, router) =>
          (.error e, s2, { catalogue := catalogue3, settings := settings, router := router })
        | (.ok _, router) =>
          (.ok true, s2.Clear,
            { catalogue := catalogue3, settings := settings, router := router })

end Serializator

end serialize

/-! ## Well-formed catalogues and what the codec writes for them -/

namespace transport_catalogue

open domain

/-- What the three tables of a catalogue satisfy after any sequence of calls: the keys of
each table are pairwise distinct, the key of a stop or of a route is its name, the stops of
a stored route are stops of the catalogue, a stored CIRCLE route is not empty and ends where
it starts, and the distances are between stops of the catalogue, in non-empty rows. -/
structure WellFormed (c : TransportCatalogue) : Prop where
  stops_nodup : (c.stops_by_names_.map Prod.fst).Nodup
  routes_nodup : (c.routes_by_names_.map Prod.fst).Nodup
  stop_key : ∀ p ∈ c.stops_by_names_, p.2.name = p.1
  route_key : ∀ p ∈ c.routes_by_names_, p.2.name = p.1
  route_stops : ∀ p ∈ c.routes_by_names_, ∀ stop ∈ p.2.stops,
    unordered_map.find c.stops_by_names_ stop.name = some stop
  route_circle : ∀ p ∈ c.routes_by_names_, p.2.route_type = RouteType.CIRCLE →
    p.2.stops ≠ [] ∧
    (p.2.stops.map (fun stop => stop.name)).head? =
      (p.2.stops.map (fun stop => stop.name)).getLast?
  dist_nodup : (c.distances_.map Prod.fst).Nodup
  dist_rows : ∀ p ∈ c.distances_, p.2 ≠ [] ∧ (p.2.map Prod.fst).Nodup ∧
    hasStop c p.1 ∧ ∀ q ∈ p.2, hasStop c q.1

end transport_catalogue

namespace serialize

open domain

/-- The ids `SaveStops` and `SaveRoutes` give to the keys of a table, counting from `id`. -/
def idsOf {ν : Type} : List (String × ν) → Nat → List (String × Nat)
  | [], _ => []
  | (name, _) :: rest, id => (name, id) :: idsOf rest (id + 1)

/-- The names `LoadStops` records for the ids of a table, counting from `id`. -/
def namesOf {ν : Type} : List (String × ν) → Nat → List (Nat × String)
  | [], _ => []
  | (name, _) :: rest, id => (id, name) :: namesOf rest (id + 1)

/-- The stop messages `SaveStops` writes for a table of stops, counting from `id`. -/
def protoStopsOf : List (String × Stop) → Nat → List transport_catalogue_serialize.Stop
  | [], _ => []
  | (_, stop) :: rest, id =>
    { id := id, name := stop.name
      coordinates := Serializator.MakeProtoCoordinates stop.coordinate } ::
      protoStopsOf rest (id + 1)

/-- The route messages `SaveRoutes` writes for a table of routes, counting from `id`, with
the stop ids of the table `ids`. -/
def protoRoutesOf (ids : List (String × Nat)) :
    List (String × Route) → Nat → List transport_catalogue_serialize.Route
  | [], _ => []
  | (_, route) :: rest, id =>
    { id := id, name := route.name
      type := Serializator.MakeProtoRouteType route.route_type
      stop_ids := route.stops.map (fun stop => unordered_map.index ids stop.name 0) } ::
      protoRoutesOf ids rest (id + 1)

/-- The distance messages `SaveDistances` writes for the row of one stop. -/
def protoRowOf (ids : List (String × Nat)) (stop1 : String) (row : List (String × Int)) :
    List transport_catalogue_serialize.Distance :=
  row.map (fun q =>
    { stop_id_from := unordered_map.index ids stop1 0
      stop_id_to := unordered_map.index ids q.1 0
      distance := q.2 })

/-- The distance messages `SaveDistances` writes for a table of distances. -/
def protoDistancesOf (ids : List (String × Nat))
    (distances : List (String × List (String × Int))) :
    List transport_catalogue_serialize.Distance :=
  distances.flatMap (fun p => protoRowOf ids p.1 p.2)

end serialize

/-! ## What the codec keeps of a router -/

namespace serialize

open domain

/-- The stops `CountStops` records for the vertex ids, counting from `id` over a table of
stops. -/
def stopsByIdOf : List (String × Stop) → Nat → List (Nat × Stop)
  | [], _ => []
  | (_, stop) :: rest, id => (id, stop) :: stopsByIdOf rest (id + 1)

/-- What `SaveRouter` and `LoadRouter` carry of an entry of the table: its total time and
its previous edge (the other members of the weight are value-initialised on loading). -/
def keptEntry (data : transport_router.RouteInternalData) :
    transport_router.RouteInternalData :=
  { weight := { total_time := data.weight.total_time }, prev_edge := data.prev_edge }

/-- The table has one row per vertex of the graph and one entry per vertex in each row. -/
def squareTable (g : graph.DirectedWeightedGraph transport_router.RouteWeight)
    (router : transport_router.Router) : Prop :=
  router.routes_internal_data_.length = g.incidence_lists_.length ∧
  ∀ row ∈ router.routes_internal_data_, row.length = g.incidence_lists_.length

instance (g : graph.DirectedWeightedGraph transport_router.RouteWeight)
    (router : transport_router.Router) : Decidable (squareTable g router) := by
  unfold squareTable
  exact inferInstance

end serialize

/-! ## The shortest-path engine -/

namespace transport_router

/-- `operator<` on `RouteWeight`: the total times are compared. -/
def RouteWeight.lt (left right : RouteWeight) : Prop :=
  left.total_time < right.total_time

instance (left right : RouteWeight) : Decidable (RouteWeight.lt left right) := by
  unfold RouteWeight.lt
  exact inferInstance

/-- `operator+` on `RouteWeight`: only the total times are added, the other members of the
result are value-initialised. -/
def RouteWeight.add (left right : RouteWeight) : RouteWeight :=
  { total_time := left.total_time + right.total_time }

/-- `operator>` on `RouteWeight`. -/
def RouteWeight.gt (left right : RouteWeight) : Prop :=
  left.total_time > right.total_time

instance (left right : RouteWeight) : Decidable (RouteWeight.gt left right) := by
  unfold RouteWeight.gt
  exact inferInstance

namespace Router

/-- Modelled from the spec: the entry of a row of the table for a vertex (router.h is not
among the sources); outside the row there is none. -/
def entry (row : List (Option RouteInternalData)) (vertex : Nat) : Option RouteInternalData :=
  row.getD vertex none

/-- Modelled from the spec: the total time of the entry of a vertex. -/
def timeOf (row : List (Option RouteInternalData)) (vertex : Nat) : Rat :=
  ((entry row vertex).map (fun data => data.weight.total_time)).getD 0

/-- Modelled from the spec: the row of a source before Dijkstra runs, the empty route from
the source to itself and no other entry. -/
def initialRow (vertex_count source : Nat) : List (Option RouteInternalData) :=
  (List.replicate vertex_count none).set source (some { weight := {}, prev_edge := none })

/-- Modelled from the spec: Dijkstra relaxes an edge that leaves the vertex just settled,
whose weight is `weight_from`: the entry of the end of the edge becomes the sum and the edge
(as `prev_edge`) when there is no entry yet or the sum is strictly less (`operator<`). -/
def relaxEdge (g : graph.DirectedWeightedGraph RouteWeight) (weight_from : RouteWeight)
    (row : List (Option RouteInternalData)) (edge_id : Nat) :
    List (Option RouteInternalData) :=
  match g.edges_.get? edge_id with
  | none => row
  | some edge =>
    match entry row edge.to_ with
    | none =>
      row.set edge.to_
        (some { weight := weight_from.add edge.weight, prev_edge := some edge_id })
    | some data =>
      if (weight_from.add edge.weight).lt data.weight then
        row.set edge.to_
          (some { weight := weight_from.add edge.weight, prev_edge := some edge_id })
      else row

/-- Modelled from the spec: the vertex Dijkstra settles next, one of least total time among
the vertices that have an entry and are not settled yet. -/
def pickMin (row : List (Option RouteInternalData)) (settled : List Nat) : Option Nat :=
  List.argmin (timeOf row)
    ((List.range row.length).filter
      (fun vertex => vertex ∉ settled ∧ (entry row vertex).isSome))

/-- Modelled from the spec: the main loop of Dijkstra for one source; `fuel` bounds the
number of vertices still to settle. -/
def settle (g : graph.DirectedWeightedGraph RouteWeight) :
    Nat → List Nat → List (Option RouteInternalData) → List (Option RouteInternalData)
  | 0, _, row => row
  | fuel + 1, settled, row =>
    match pickMin row settled with
    | none => row
    | some vertex =>
      match entry row vertex with
      | none => row
      | some data =>
        settle g fuel (settled ++ [vertex])
          ((g.incidence_lists_.getD vertex []).foldl (relaxEdge g data.weight) row)

/-- Modelled from the spec: the row of the table for one source, Dijkstra run from it. -/
def rowOf (g : graph.DirectedWeightedGraph RouteWeight) (source : Nat) :
    List (Option RouteInternalData) :=
  settle g g.incidence_lists_.length [] (initialRow g.incidence_lists_.length source)

/-- Modelled from the spec: the constructor `Router(graph)`, "run Dijkstra from every
vertex, producing a V×V table of optional {total_time, prev_edge}". -/
def construct (g : graph.DirectedWeightedGraph RouteWeight) : Router :=
  { routes_internal_data_ := (List.range g.incidence_lists_.length).map (rowOf g) }

/-- Modelled from the spec: "walking prev_edge back-pointers from `to` to `from` and
reversing", with the edges found so far in `edges`; `fuel` bounds the number of steps, and
the result is `none` when it is exhausted or a back-pointer leads nowhere. -/
def walk (g : graph.DirectedWeightedGraph RouteWeight) (row : List (Option RouteInternalData)) :
    Nat → Nat → List Nat → Option (List Nat)
  | 0, _, _ => none
  | fuel + 1, vertex, edges =>
    match entry row vertex with
    | none => none
    | some data =>
      match data.prev_edge with
      | none => some edges
      | some edge_id =>
        match g.edges_.get? edge_id with
        | none => none
        | some edge => walk g row fuel edge.from_ (edge_id :: edges)

/-- Modelled from the spec: `Router::BuildRoute(from, to)`: no route when the entry of
the table is absent, else the weight of the entry and the edges the back-pointers give.  An
index outside the table and a walk that does not end are undefined. -/
def BuildRoute (g : graph.DirectedWeightedGraph RouteWeight) (router : Router)
    (vertex_from vertex_to : Nat) : Except Error (Option RouteInfo) :=
  match router.routes_internal_data_.get? vertex_from with
  | none => .error .undefined_behaviour
  | some row =>
    match row.get? vertex_to with
    | none => .error .undefined_behaviour
    | some none => .ok none
    | some (some data) =>
      match walk g row (g.incidence_lists_.length + 1) vertex_to [] with
      | none => .error .undefined_behaviour
      | some edges => .ok (some { weight := data.weight, edges := edges })

/-- Modelled from the spec: the shortest-path engine the spec describes, as the
collaborator of `TransportRouter`. -/
def code : RouterCode :=
  { construct := construct, BuildRoute := BuildRoute }

end Router

end transport_router

namespace graph

open transport_router

/-- The list of edge ids `ids` is a path from the vertex `a` to the vertex `b`: every id is
an edge of the graph, the first edge leaves `a`, every next edge leaves the vertex the
previous one enters, and the last one enters `b` (the empty list is a path from a vertex to
itself). -/
def isPath (g : DirectedWeightedGraph RouteWeight) : Nat → Nat → List Nat → Prop
  | a, b, [] => a = b
  | a, b, edge_id :: rest =>
    match g.edges_.get? edge_id with
    | none => False
    | some edge => edge.from_ = a ∧ isPath g edge.to_ b rest

/-- The total time of the edge of an id (0 when there is no such edge). -/
def edgeTime (g : DirectedWeightedGraph RouteWeight) (edge_id : Nat) : Rat :=
  ((g.edges_.get? edge_id).map (fun edge => edge.weight.total_time)).getD 0

/-- The summed total time of a list of edge ids. -/
def pathTime (g : DirectedWeightedGraph RouteWeight) (ids : List Nat) : Rat :=
  (ids.map (edgeTime g)).sum

/-- The edge list and the incidence lists of a graph agree: the ends of every edge are
vertices, the incidence list of a vertex holds the ids of the edges that leave it, and
only those. -/
def Valid (g : DirectedWeightedGraph RouteWeight) : Prop :=
  (∀ edge_id edge, g.edges_.get? edge_id = some edge →
    edge.from_ < g.incidence_lists_.length ∧ edge.to_ < g.incidence_lists_.length ∧
    edge_id ∈ g.incidence_lists_.getD edge.from_ []) ∧
  (∀ vertex edge_id, edge_id ∈ g.incidence_lists_.getD vertex [] →
    ∃ edge, g.edges_.get? edge_id = some edge ∧ edge.from_ = vertex)

/-- No edge has a negative total time. -/
def NonNegative (g : DirectedWeightedGraph RouteWeight) : Prop :=
  ∀ edge ∈ g.edges_, 0 ≤ edge.weight.total_time

end graph

namespace transport_router

/-- The records of a route lead from the stop `a` to the stop `b`: the first starts at `a`,
each next one starts where the previous one ends, the last ends at `b`. -/
def connected : String → String → List RouterEdge → Prop
  | a, b, [] => a = b
  | a, b, edge :: rest => edge.stop_from = a ∧ connected edge.stop_to b rest

end transport_router

namespace transport_router

namespace Router

/-- The invariant of the loop of Dijkstra from the source `source`.  `settled` lists the
settled vertices in the order they were settled, `pending` the ids of the edges that leave
the vertex settled last and are not relaxed yet. -/
structure Inv (g : graph.DirectedWeightedGraph RouteWeight) (source : Nat)
    (row : List (Option RouteInternalData)) (settled pending : List Nat) : Prop where
  len : row.length = g.incidence_lists_.length
  src_lt : source < g.incidence_lists_.length
  src : entry row source = some { weight := {}, prev_edge := none }
  fresh : settled = [] → ∀ v, entry row v ≠ none → v = source
  src_settled : settled ≠ [] → source ∈ settled
  settled_nodup : settled.Nodup
  settled_lt : ∀ u ∈ settled, u < g.incidence_lists_.length
  settled_some : ∀ u ∈ settled, entry row u ≠ none
  le_unsettled : ∀ u ∈ settled, ∀ v, v ∉ settled →
    timeOf row u ≤ timeOf row v ∨ entry row v = none
  last_max : ∀ u ∈ settled, ∀ l, settled.getLast? = some l → timeOf row u ≤ timeOf row l
  nonneg : ∀ v, 0 ≤ timeOf row v
  chain : ∀ v data, entry row v = some data → v ≠ source →
    ∃ edge_id edge, data.prev_edge = some edge_id ∧ g.edges_.get? edge_id = some edge ∧
      edge.to_ = v ∧ entry row edge.from_ ≠ none ∧
      data.weight.total_time = timeOf row edge.from_ + edge.weight.total_time ∧
      settled.indexOf edge.from_ < settled.indexOf v
  relaxed : ∀ edge_id edge, g.edges_.get? edge_id = some edge → edge.from_ ∈ settled →
    edge_id ∉ pending →
    entry row edge.to_ ≠ none ∧
    timeOf row edge.to_ ≤ timeOf row edge.from_ + edge.weight.total_time
  pend : ∀ edge_id ∈ pending, ∃ edge, g.edges_.get? edge_id = some edge ∧
    settled.getLast? = some edge.from_

end Router

end transport_router

/-! ## Scenario S5 -/

namespace S5

open transport_catalogue domain transport_router serialize

/-- Render settings with a palette of two colours. -/
def render_settings : renderer.RenderSettings :=
  { size := { x := 600, y := 400 }
    padding := 50
    line_width := 14
    stop_radius := 5
    bus_label_font_size := 20
    bus_label_offset := { x := 7, y := 15 }
    stop_label_font_size := 18
    stop_label_offset := { x := 7, y := -3 }
    underlayer_color := svg.Color.rgba 255 255 255 1
    underlayer_width := 3
    color_palette := [svg.Color.named "green", svg.Color.rgb 255 160 0] }

/-- The router of S6 after `InitRouter`. -/
def router : TransportRouter := (S6.router.InitRouter S6.code).2

/-- The catalogue of S3 alone, as `AddTransportCatalogue` saves it. -/
def saved_catalogue : Serializator :=
  (({} : Serializator).AddTransportCatalogue S3.catalogue).2

/-- The catalogue of S3, the render settings and the router, as the three `Add` functions
save them. -/
def saved : Serializator :=
  ((saved_catalogue.AddRenderSettings render_settings).AddTransportRouter router).2

/-- Empty variables for `Deserialize` to fill. -/
def target : Target := { catalogue := {}, settings := none, router := none }

/-- A shortest-path engine whose constructor fills a table of one row and one column per
vertex: the route from a vertex to itself is the empty one, and the edge 0 leads from the
vertex 0 to the vertex 1. -/
def code : RouterCode :=
  { construct := fun g =>
      { routes_internal_data_ :=
          (List.range g.incidence_lists_.length).map (fun i =>
            (List.range g.incidence_lists_.length).map (fun j =>
              if i = j then some { weight := {}, prev_edge := none }
              else if i = 0 ∧ j = 1 then
                some { weight := { bus_name := "828", span_count := 1, total_time := 7 }
                       prev_edge := some 0 }
              else none)) }
    BuildRoute := fun _ _ vertex_from vertex_to =>
      if vertex_from = 0 ∧ vertex_to = 1 then
        .ok (some { weight := { total_time := 7 }, edges := [0] })
      else .ok none }

/-- The router of S6 after `InitRouter` with that engine. -/
def initialised : TransportRouter := (S6.router.InitRouter code).2

/-- The catalogue of S3, the render settings and the router initialised with the engine of
S5, as the three `Add` functions save them. -/
def saved_initialised : Serializator :=
  ((saved_catalogue.AddRenderSettings render_settings).AddTransportRouter initialised).2

end S5

/-! ## json_reader.cpp: the base requests -/

namespace json_reader

open domain transport_catalogue

/-- `IsStop`: the last test reads the node of `longitude`. -/
def IsStop (node : json.Node) : Bool :=
  if node.IsMap = false then false
  else
    let stop := asDict node
    if unordered_map.count stop "type" = 0
        ∨ (nodeAt stop "type").equalsString "Stop" = false then false
    else if unordered_map.count stop "name" = 0
        ∨ (nodeAt stop "name").IsString = false then false
    else if unordered_map.count stop "latitude" = 0
        ∨ (nodeAt stop "latitude").IsDouble = false then false
    else if unordered_map.count stop "longitude" = 0
        ∨ (nodeAt stop "longitude").IsDouble = false then false
    else if unordered_map.count stop "road_distances" = 0
        ∨ (nodeAt stop "longitude").IsMap = true then false
    else true

/-- `request.at(key).AsMap()`. -/
def mapAt (request : List (String × json.Node)) (key : String) :
    Except Error (List (String × json.Node)) :=
  match unordered_map.at_ request key with
  | .error e => .error e
  | .ok node => node.AsMap

/-- The inner loop of `LoadDistances`, over the bindings of `road_distances`. -/
def LoadDistances.loop_to (name_from : String) :
    List (String × json.Node) → TransportCatalogue → Except Error Unit × TransportCatalogue
  | [], catalogue => (.ok (), catalogue)
  | (name_to, distance) :: rest, catalogue =>
    if distance.IsInt then
      match distance.AsInt with
      | .error e => (.error e, catalogue)
      | .ok d =>
        match catalogue.SetDistance name_from name_to d with
        | (.error e, catalogue') => (.error e, catalogue')
        | (.ok _, catalogue') => LoadDistances.loop_to name_from rest catalogue'
    else LoadDistances.loop_to name_from rest catalogue

/-- The loop of `LoadDistances` over the base requests; an exception leaves it. -/
def LoadDistances.loop :
    List json.Node → TransportCatalogue → Except Error Unit × TransportCatalogue
  | [], catalogue => (.ok (), catalogue)
  | elem :: rest, catalogue =>
    if IsStop elem then
      match stringAt (asDict elem) "name" with
      | .error e => (.error e, catalogue)
      | .ok name_from =>
        match mapAt (asDict elem) "road_distances" with
        | .error e => (.error e, catalogue)
        | .ok distances =>
          match LoadDistances.loop_to name_from distances catalogue with
          | (.error e, catalogue') => (.error e, catalogue')
          | (.ok _, catalogue') => LoadDistances.loop rest catalogue'
    else LoadDistances.loop rest catalogue

/-- `LoadDistances`. -/
def LoadDistances (data : List json.Node) (catalogue : TransportCatalogue) :
    Except Error Unit × TransportCatalogue :=
  LoadDistances.loop data catalogue

end json_reader

/-! ## svg.h and map_renderer.cpp -/

namespace svg

/-- The components of `svg::Rgb` and of `svg::Rgba` are `uint8_t`: the colours of the source
are the values of `Color` whose components are below 256. -/
def Color.inRange : Color → Prop
  | .rgb red green blue => red < 256 ∧ green < 256 ∧ blue < 256
  | .rgba red green blue _ => red < 256 ∧ green < 256 ∧ blue < 256
  | _ => True

instance (color : Color) : Decidable color.inRange := by
  cases color <;> unfold Color.inRange <;> exact inferInstance

/-- `svg::StrokeLineCap`. -/
inductive StrokeLineCap where
  | BUTT
  | ROUND
  | SQUARE
  deriving DecidableEq, Repr

/-- `svg::StrokeLineJoin`. -/
inductive StrokeLineJoin where
  | ARCS
  | BEVEL
  | MITER
  | MITER_CLIP
  | ROUND
  deriving DecidableEq, Repr

/-- The data members of `svg::PathProps<Owner>`. -/
structure PathProps where
  fill_color_ : Option Color := none
  stroke_color_ : Option Color := none
  stroke_width_ : Option Rat := none
  stroke_line_cap_ : Option StrokeLineCap := none
  stroke_line_join_ : Option StrokeLineJoin := none
  deriving DecidableEq, Repr

/-- `svg::Circle`; `props` is the base `PathProps<Circle>`. -/
structure Circle where
  props : PathProps := {}
  center_ : Point := {}
  radius_ : Rat := 1
  deriving DecidableEq, Repr

/-- `svg::Polyline`; `props` is the base `PathProps<Polyline>`. -/
structure Polyline where
  props : PathProps := {}
  points_ : List Point := []
  deriving DecidableEq, Repr

/-- `svg::Text`; `props` is the base `PathProps<Text>`. -/
structure Text where
  props : PathProps := {}
  pos_ : Point := {}
  offset_ : Point := {}
  font_size_ : Nat := 1
  font_family_ : Option String := none
  font_weight_ : Option String := none
  data_ : String := ""
  deriving DecidableEq, Repr

/-- The objects a document holds through `std::unique_ptr<Object>`. -/
inductive Object where
  | circle (value : Circle)
  | polyline (value : Polyline)
  | text (value : Text)
  deriving DecidableEq, Repr

/-- `svg::Document`. -/
structure Document where
  objects_ : List Object := []
  deriving DecidableEq, Repr

/-- `Document::Add`, that is `AddPtr`: `objects_.push_back`. -/
def Document.Add (doc : Document) (obj : Object) : Document :=
  { objects_ := doc.objects_ ++ [obj] }

end svg

namespace renderer

open domain transport_catalogue

/-- Modelled from the spec: the data members of `renderer::MapRenderer` that
map_renderer.cpp reads (map_renderer.h is not among the sources): the render settings and
the corners of the field that `RenderMap` computes. -/
structure MapRenderer where
  settings_ : RenderSettings := {}
  field_size_ : geo.Coordinates × geo.Coordinates := (⟨0, 0⟩, ⟨0, 0⟩)
  deriving DecidableEq, Repr

/-- `IsZero`, with `EPSILON = 1e-6`. -/
def IsZero (value : Rat) : Bool :=
  decide (|value| < 1 / 1000000)

/-- Modelled from the spec: `insert` on the type `Routes` of map_renderer.h, a `std::map`
from the route name to the route ("routes are rendered in lexicographic order"): the
bindings stay in strictly increasing order of the name, and a name that is bound is not
bound again. -/
def Routes.insert : List (String × Route) → String × Route → List (String × Route)
  | [], route => [route]
  | other :: rest, route =>
    if route.1.toList < other.1.toList then route :: other :: rest
    else if route.1 = other.1 then other :: rest
    else other :: Routes.insert rest route

namespace MapRenderer

/-- `GetRelativePoint`. -/
def GetRelativePoint (m : MapRenderer) (coordinate : geo.Coordinates) : svg.Point :=
  let field_width := m.field_size_.2.lng - m.field_size_.1.lng
  let field_height := m.field_size_.2.lat - m.field_size_.1.lat
  let zoom_coef : Rat :=
    if IsZero field_width = true ∧ IsZero field_height = true then 0
    else if IsZero field_width = true then
      (m.settings_.size.y - 2 * m.settings_.padding) / field_height
    else if IsZero field_height = true then
      (m.settings_.size.x - 2 * m.settings_.padding) / field_width
    else
      min ((m.settings_.size.y - 2 * m.settings_.padding) / field_height)
        ((m.settings_.size.x - 2 * m.settings_.padding) / field_width)
  { x := (coordinate.lng - m.field_size_.1.lng) * zoom_coef + m.settings_.padding
    y := (m.field_size_.2.lat - coordinate.lat) * zoom_coef + m.settings_.padding }

/-- `settings_.color_palette.at(color_index % max_color_count)`: the remainder of a
division by zero is undefined, and `at` throws for an index that is out of bounds. -/
def paletteAt (m : MapRenderer) (color_index : Nat) : Except Error svg.Color :=
  let max_color_count := m.settings_.color_palette.length
  if max_color_count = 0 then .error .undefined_behaviour
  else
    match m.settings_.color_palette.get? (color_index % max_color_count) with
    | some color => .ok color
    | none => .error .out_of_range

/-- The polyline one pass of the loop of `RenderLines` builds for a route, stroked in the
colour `color`: the points of the stops from the first to the last and, for a LINEAR
route, back from the last but one to the first. -/
def RenderLines.line (m : MapRenderer) (route : Route) (color : svg.Color) : svg.Polyline :=
  { props :=
      { stroke_color_ := some color
        fill_color_ := some svg.Color.none
        stroke_width_ := some m.settings_.line_width
        stroke_line_cap_ := some svg.StrokeLineCap.ROUND
        stroke_line_join_ := some svg.StrokeLineJoin.ROUND }
    points_ :=
      route.stops.map (fun stop => m.GetRelativePoint stop.coordinate) ++
        (if route.route_type = RouteType.LINEAR then
          route.stops.reverse.tail.map (fun stop => m.GetRelativePoint stop.coordinate)
        else []) }

/-- The loop of `RenderLines`; `color_index` is a `size_t` that counts the routes drawn. -/
def RenderLines.loop (m : MapRenderer) :
    List (String × Route) → Nat → svg.Document → Except Error Unit × svg.Document
  | [], _, doc => (.ok (), doc)
  | route :: rest, color_index, doc =>
    if route.2.stops.length > 0 then
      match m.paletteAt color_index with
      | .error e => (.error e, doc)
      | .ok color =>
        RenderLines.loop m rest (color_index + 1)
          (doc.Add (svg.Object.polyline (RenderLines.line m route.2 color)))
    else RenderLines.loop m rest color_index doc

/-- `RenderLines`. -/
def RenderLines (m : MapRenderer) (doc : svg.Document) (routes : List (String × Route)) :
    Except Error Unit × svg.Document :=
  RenderLines.loop m routes 0 doc

/-- `route.second->stops.front()->coordinate`, of a route that is not empty. -/
def frontCoordinate (route : Route) : geo.Coordinates :=
  (route.stops.head?.map (fun stop => stop.coordinate)).getD ⟨0, 0⟩

/-- `route.second->stops.back()->coordinate`, of a route that is not empty. -/
def backCoordinate (route : Route) : geo.Coordinates :=
  (route.stops.getLast?.map (fun stop => stop.coordinate)).getD ⟨0, 0⟩

/-- The text of a route name at a position, before its fill and stroke are set. -/
def RenderRouteNames.text (m : MapRenderer) (name : String) (pos : svg.Point) : svg.Text :=
  { data_ := name
    pos_ := pos
    offset_ := m.settings_.bus_label_offset
    font_size_ := (m.settings_.bus_label_font_size % 2 ^ 32).toNat
    font_family_ := some "Verdana"
    font_weight_ := some "bold" }

/-- The underlayer of a route name at a position. -/
def RenderRouteNames.underlayer (m : MapRenderer) (name : String) (pos : svg.Point) :
    svg.Text :=
  { RenderRouteNames.text m name pos with
    props :=
      { fill_color_ := some m.settings_.underlayer_color
        stroke_color_ := some m.settings_.underlayer_color
        stroke_width_ := some m.settings_.underlayer_width
        stroke_line_cap_ := some svg.StrokeLineCap.ROUND
        stroke_line_join_ := some svg.StrokeLineJoin.ROUND } }

/-- The name of a route at a position, filled with the colour `color`. -/
def RenderRouteNames.label (m : MapRenderer) (name : String) (pos : svg.Point)
    (color : svg.Color) : svg.Text :=
  { RenderRouteNames.text m name pos with props := { fill_color_ := some color } }

/-- The objects one pass of the loop of `RenderRouteNames` adds for a route: the underlayer
and the name at the first stop and, for a LINEAR route whose last stop is not its first
one, at the last stop. -/
def RenderRouteNames.labels (m : MapRenderer) (name : String) (route : Route)
    (color : svg.Color) : List svg.Object :=
  [svg.Object.text
      (RenderRouteNames.underlayer m name (m.GetRelativePoint (frontCoordinate route))),
    svg.Object.text
      (RenderRouteNames.label m name (m.GetRelativePoint (frontCoordinate route)) color)] ++
    (if route.route_type = RouteType.LINEAR ∧ route.stops.getLast? ≠ route.stops.head? then
      [svg.Object.text
          (RenderRouteNames.underlayer m name (m.GetRelativePoint (backCoordinate route))),
        svg.Object.text
          (RenderRouteNames.label m name (m.GetRelativePoint (backCoordinate route)) color)]
    else [])

/-- The loop of `RenderRouteNames`. -/
def RenderRouteNames.loop (m : MapRenderer) :
    List (String × Route) → Nat → svg.Document → Except Error Unit × svg.Document
  | [], _, doc => (.ok (), doc)
  | route :: rest, color_index, doc =>
    if route.2.stops.length > 0 then
      match m.paletteAt color_index with
      | .error e => (.error e, doc)
      | .ok color =>
        RenderRouteNames.loop m rest (color_index + 1)
          { objects_ := doc.objects_ ++ RenderRouteNames.labels m route.1 route.2 color }
    else RenderRouteNames.loop m rest color_index doc

/-- `RenderRouteNames`. -/
def RenderRouteNames (m : MapRenderer) (doc : svg.Document)
    (routes : List (String × Route)) : Except Error Unit × svg.Document :=
  RenderRouteNames.loop m routes 0 doc

/-- The routes `RenderLines` and `RenderRouteNames` draw: those with at least one stop. -/
def drawn (routes : List (String × Route)) : List (String × Route) :=
  routes.filter (fun route => decide (route.2.stops.length > 0))

/-- The colour of the palette for the route drawn `k`-th: `P[k mod |P|]`. -/
def colorOf (m : MapRenderer) (k : Nat) : svg.Color :=
  m.settings_.color_palette.getD (k % m.settings_.color_palette.length) svg.Color.none

end MapRenderer

end renderer

/-! ## Scenario S7 -/

namespace S7

open transport_catalogue domain

/-- Two stops one degree of longitude apart on the equator, a route of the type UNKNOWN and
a LINEAR route over them, and a road distance of one metre between them. -/
def calls : List Call :=
  [ Call.AddStop "A" ⟨0, 0⟩,
    Call.AddStop "B" ⟨0, 1⟩,
    Call.AddRoute "U" RouteType.UNKNOWN ["A", "B"],
    Call.AddRoute "L" RouteType.LINEAR ["A", "B"],
    Call.SetDistance "A" "B" 1 ]

def catalogue : TransportCatalogue := (run {} calls).2

/-- The route the catalogue of S7 stores under the name U. -/
def routeU : Route :=
  { name := "U", route_type := RouteType.UNKNOWN, stops := [⟨"A", ⟨0, 0⟩⟩, ⟨"B", ⟨0, 1⟩⟩] }

/-- The route the catalogue of S7 stores under the name L. -/
def routeL : Route :=
  { name := "L", route_type := RouteType.LINEAR, stops := [⟨"A", ⟨0, 0⟩⟩, ⟨"B", ⟨0, 1⟩⟩] }

/-- A stand-in for `geo::ComputeDistance`: 111195 metres, the length of one degree of a
great circle of the radius 6371000, for every pair. -/
def ComputeDistance : geo.Coordinates → geo.Coordinates → Rat := fun _ _ => 111195

end S7

/-! ## Scenario S8 -/

namespace S8

open transport_catalogue domain transport_router

/-- A LINEAR route over three stops whose road distances differ by direction: 900 metres
from `A` to `B`, 1200 from `B` to `A`, and 600 between `B` and `C` either way. -/
def calls : List Call :=
  [ Call.AddStop "A" ⟨0, 0⟩,
    Call.AddStop "B" ⟨0, 1⟩,
    Call.AddStop "C" ⟨1, 1⟩,
    Call.AddRoute "L" RouteType.LINEAR ["A", "B", "C"],
    Call.SetDistance "A" "B" 900,
    Call.SetDistance "B" "A" 1200,
    Call.SetDistance "B" "C" 600 ]

def catalogue : TransportCatalogue := (run {} calls).2

/-- The router over the catalogue of S8 when `InitRouter` has numbered the stops and
created the graph, before `BuildEdges`. -/
def router : TransportRouter :=
  { (TransportRouter.create catalogue S4.settings).CountStops.2 with
    graph_ := graph.DirectedWeightedGraph.create RouteWeight
      (TransportRouter.create catalogue S4.settings).CountStops.1 }

/-- The route L of S8. -/
def routeL : Route :=
  { name := "L", route_type := RouteType.LINEAR
    stops := [⟨"A", ⟨0, 0⟩⟩, ⟨"B", ⟨0, 1⟩⟩, ⟨"C", ⟨1, 1⟩⟩] }

/-- A router over a catalogue whose route has no distance stored: `InitRouter` throws. -/
def bare : TransportRouter :=
  TransportRouter.create
    (run {} [Call.AddStop "A" ⟨0, 0⟩, Call.AddStop "B" ⟨0, 1⟩,
      Call.AddRoute "L" RouteType.LINEAR ["A", "B"]]).2 S4.settings

end S8

/-! ## Scenario S9 -/

namespace S9

open transport_catalogue domain

/-- A base request of the type `Stop` whose `road_distances` is the number 5. -/
def stop : json.Node :=
  json.Node.map
    [("type", json.Node.string "Stop"), ("name", json.Node.string "A"),
     ("latitude", json.Node.double 0), ("longitude", json.Node.double 0),
     ("road_distances", json.Node.int 5)]

/-- The catalogue with the stop `A`, as `LoadStops` leaves it for that request. -/
def catalogue : TransportCatalogue := ({} : TransportCatalogue).AddStop "A" ⟨0, 0⟩

end S9

/-! ## Scenario S10 -/

namespace S10

open transport_catalogue domain

/-- Four stops and four routes, of which the route 5 has no stop. -/
def calls : List Call :=
  [ Call.AddStop "A" ⟨0, 0⟩,
    Call.AddStop "B" ⟨0, 1⟩,
    Call.AddStop "D" ⟨1, 1⟩,
    Call.AddRoute "828" RouteType.LINEAR ["A", "B"],
    Call.AddRoute "256" RouteType.CIRCLE ["A", "B", "A"],
    Call.AddRoute "5" RouteType.LINEAR [],
    Call.AddRoute "14" RouteType.CIRCLE ["B", "D", "B"] ]

def catalogue : TransportCatalogue := (run {} calls).2

/-- A renderer with the settings of S5, whose palette has two colours. -/
def renderer : renderer.MapRenderer :=
  { settings_ := S5.render_settings, field_size_ := (⟨0, 0⟩, ⟨1, 1⟩) }

end S10

/-! ## json_reader.cpp: LoadData and AnswerRequests -/

namespace json_reader

open domain transport_catalogue transport_router

/-- `IsRoute`: a base request of the type `Bus`. -/
def IsRoute (node : json.Node) : Bool :=
  if node.IsMap = false then false
  else
    let bus := asDict node
    if unordered_map.count bus "type" = 0
        ∨ (nodeAt bus "type").equalsString "Bus" = false then false
    else if unordered_map.count bus "name" = 0
        ∨ (nodeAt bus "name").IsString = false then false
    else if unordered_map.count bus "is_roundtrip" = 0
        ∨ (nodeAt bus "is_roundtrip").IsBool = false then false
    else if unordered_map.count bus "stops" = 0
        ∨ (nodeAt bus "stops").IsArray = false then false
    else true

/-- `node.AsArray()` where the node has been tested with `IsArray`. -/
def asArray : json.Node → List json.Node
  | .array value => value
  | _ => []

/-- `request.at(key).AsDouble()`. -/
def doubleAt (request : List (String × json.Node)) (key : String) : Except Error Rat :=
  match unordered_map.at_ request key with
  | .error e => .error e
  | .ok node => node.AsDouble

/-- `request.at(key).AsBool()`. -/
def boolAt (request : List (String × json.Node)) (key : String) : Except Error Bool :=
  match unordered_map.at_ request key with
  | .error e => .error e
  | .ok node => node.AsBool

/-- `request.at(key).AsArray()`. -/
def arrayAt (request : List (String × json.Node)) (key : String) :
    Except Error (List json.Node) :=
  match unordered_map.at_ request key with
  | .error e => .error e
  | .ok node => node.AsArray

/-- The loop of `LoadStops` over the base requests. -/
def LoadStops.loop :
    List json.Node → TransportCatalogue → Except Error Unit × TransportCatalogue
  | [], catalogue => (.ok (), catalogue)
  | elem :: rest, catalogue =>
    if IsStop elem then
      match stringAt (asDict elem) "name" with
      | .error e => (.error e, catalogue)
      | .ok name =>
        match doubleAt (asDict elem) "latitude" with
        | .error e => (.error e, catalogue)
        | .ok lat =>
          match doubleAt (asDict elem) "longitude" with
          | .error e => (.error e, catalogue)
          | .ok lng => LoadStops.loop rest (catalogue.AddStop name ⟨lat, lng⟩)
    else LoadStops.loop rest catalogue

/-- `LoadStops`. -/
def LoadStops (data : List json.Node) (catalogue : TransportCatalogue) :
    Except Error Unit × TransportCatalogue :=
  LoadStops.loop data catalogue

/-- The inner loop of `LoadRoutes`: the names of the array `stops` that are strings. -/
def LoadRoutes.stops_names : List json.Node → List String
  | [] => []
  | stop_name :: rest =>
    if stop_name.IsString then
      match stop_name.AsString with
      | .ok name => name :: LoadRoutes.stops_names rest
      | .error _ => LoadRoutes.stops_names rest
    else LoadRoutes.stops_names rest

/-- The loop of `LoadRoutes` over the base requests; an exception of `AddRoute` leaves
it. -/
def LoadRoutes.loop :
    List json.Node → TransportCatalogue → Except Error Unit × TransportCatalogue
  | [], catalogue => (.ok (), catalogue)
  | elem :: rest, catalogue =>
    if IsRoute elem then
      match stringAt (asDict elem) "name" with
      | .error e => (.error e, catalogue)
      | .ok name =>
        match boolAt (asDict elem) "is_roundtrip" with
        | .error e => (.error e, catalogue)
        | .ok is_roundtrip =>
          let route_type := if is_roundtrip then RouteType.CIRCLE else RouteType.LINEAR
          match arrayAt (asDict elem) "stops" with
          | .error e => (.error e, catalogue)
          | .ok stops =>
            match catalogue.AddRoute name route_type (LoadRoutes.stops_names stops) with
            | (.error e, catalogue') => (.error e, catalogue')
            | (.ok _, catalogue') => LoadRoutes.loop rest catalogue'
    else LoadRoutes.loop rest catalogue

/-- `LoadRoutes`. -/
def LoadRoutes (data : List json.Node) (catalogue : TransportCatalogue) :
    Except Error Unit × TransportCatalogue :=
  LoadRoutes.loop data catalogue

/-- `LoadData`, on the root node of the document. -/
def LoadData (root : json.Node) (catalogue : TransportCatalogue) :
    Except Error Bool × TransportCatalogue :=
  if root.IsMap = true ∧ unordered_map.count (asDict root) "base_requests" > 0 then
    let base_requests := nodeAt (asDict root) "base_requests"
    if base_requests.IsArray then
      match LoadStops (asArray base_requests) catalogue with
      | (.error e, catalogue1) => (.error e, catalogue1)
      | (.ok _, catalogue1) =>
        match LoadRoutes (asArray base_requests) catalogue1 with
        | (.error e, catalogue2) => (.error e, catalogue2)
        | (.ok _, catalogue2) =>
          match LoadDistances (asArray base_requests) catalogue2 with
          | (.error e, catalogue3) => (.error e, catalogue3)
          | (.ok _, catalogue3) => (.ok true, catalogue3)
    else (.ok false, catalogue)
  else (.ok false, catalogue)

/-- `AnswerRequests`, on the root node of the document: the document that `json::Print`
writes to `requests_out`, if any, and the router afterwards. -/
def AnswerRequests (ext : Collaborators) (root : json.Node) (catalogue : TransportCatalogue)
    (render_settings : renderer.RenderSettings) (router : TransportRouter) :
    Except Error (Option json.Node) × TransportRouter :=
  if root.IsMap = true ∧ unordered_map.count (asDict root) "stat_requests" > 0 then
    let requests := nodeAt (asDict root) "stat_requests"
    if requests.IsArray then
      match LoadAnswers ext (asArray requests) catalogue render_settings router with
      | (.error e, router') => (.error e, router')
      | (.ok answers, router') => (.ok (some (json.Node.array answers)), router')
    else (.ok none, router)
  else (.ok none, router)

end json_reader

/-! ## request_handler.cpp -/

namespace transport_catalogue

open domain transport_router

/-- The data members of `class TransportCatalogueHandler` (without the settings of the
codec); `router_` is `none` for a null `std::unique_ptr`. -/
structure TransportCatalogueHandler where
  catalogue_ : TransportCatalogue
  router_ : Option TransportRouter := none
  render_settings_ : Option renderer.RenderSettings := none
  routing_settings_ : Option RoutingSettings := none

namespace TransportCatalogueHandler

/-- `ReInitRouter`: what it returns, the handler afterwards, and what it writes to
`std::cerr`. -/
def ReInitRouter (h : TransportCatalogueHandler) :
    Bool × TransportCatalogueHandler × List String :=
  match h.routing_settings_ with
  | some routing_settings =>
    (true, { h with router_ := some (TransportRouter.create h.catalogue_ routing_settings) },
      [])
  | none => (false, h, ["Can't find routing settings"])

/-- `InitRouter`. -/
def InitRouter (h : TransportCatalogueHandler) :
    Bool × TransportCatalogueHandler × List String :=
  match h.router_ with
  | none => h.ReInitRouter
  | some _ => (true, h, [])

/-- `LoadRequestsAndAnswer`, on the root node of the document of the requests: what it
throws, the handler afterwards, the documents written to `out` and the lines written to
`std::cerr`. -/
def LoadRequestsAndAnswer (ext : json_reader.Collaborators) (h : TransportCatalogueHandler)
    (root : json.Node) :
    Except Error Unit × TransportCatalogueHandler × List json.Node × List String :=
  match h.InitRouter with
  | (false, h1, err) => (.ok (), h1, [], err ++ ["Can't init Transport Router"])
  | (true, h1, err) =>
    match h1.router_ with
    | none => (.error .undefined_behaviour, h1, [], err)
    | some router =>
      match json_reader.AnswerRequests ext root h1.catalogue_
          (h1.render_settings_.getD {}) router with
      | (.error e, router') => (.error e, { h1 with router_ := some router' }, [], err)
      | (.ok none, router') => (.ok (), { h1 with router_ := some router' }, [], err)
      | (.ok (some document), router') =>
        (.ok (), { h1 with router_ := some router' }, [document], err)

end TransportCatalogueHandler

end transport_catalogue

/-! ## svg.cpp: EscapeText -/

namespace svg

namespace Text

/-- The table `characters` of `EscapeText`, from the codes 34, 38, 39, 60 and 62 to their
entities. -/
def characters : List (Char × String) :=
  [(Char.ofNat 34, "&quot;"), (Char.ofNat 38, "&amp;"), (Char.ofNat 39, "&apos;"),
   (Char.ofNat 60, "&lt;"), (Char.ofNat 62, "&gt;")]

/-- The loop of `EscapeText` over the characters of the text. -/
def EscapeText.loop : List Char → String → String
  | [], result => result
  | c :: rest, result =>
    match unordered_map.find characters c with
    | some escaped => EscapeText.loop rest (result ++ escaped)
    | none => EscapeText.loop rest (result.push c)

/-- `Text::EscapeText`.  The five characters are ASCII and no byte of a longer UTF-8
sequence equals one of them, so the loop over the bytes of the `std::string` is the loop
over the characters of the `String`. -/
def EscapeText (text : String) : String :=
  EscapeText.loop text.toList ""

/-- The replacement of one character in the words of the specification: the entity of each
of the five characters, and every other character itself. -/
def replacement (c : Char) : List Char :=
  if c = Char.ofNat 34 then "&quot;".toList
  else if c = Char.ofNat 38 then "&amp;".toList
  else if c = Char.ofNat 39 then "&apos;".toList
  else if c = Char.ofNat 60 then "&lt;".toList
  else if c = Char.ofNat 62 then "&gt;".toList
  else [c]

/-- The five entities. -/
def entities : List (List Char) :=
  ["&quot;".toList, "&amp;".toList, "&apos;".toList, "&lt;".toList, "&gt;".toList]

end Text

end svg

/-! ## map_renderer.cpp: the field of the map -/

namespace renderer

open domain transport_catalogue

namespace MapRenderer

/-- The loop of `ComputeFieldSize` over `catalogue.GetStops()`. -/
def ComputeFieldSize.loop (catalogue : TransportCatalogue) :
    List (String × Stop) → geo.Coordinates → geo.Coordinates →
      Except Error (geo.Coordinates × geo.Coordinates)
  | [], min, max => .ok (min, max)
  | stop :: rest, min, max =>
    match catalogue.GetBusesOnStop stop.1 with
    | .error e => .error e
    | .ok none => ComputeFieldSize.loop catalogue rest min max
    | .ok (some _) =>
      let coordinates := stop.2.coordinate
      let min1 : geo.Coordinates :=
        if coordinates.lat < min.lat then { min with lat := coordinates.lat } else min
      let max1 : geo.Coordinates :=
        if coordinates.lat > max.lat then { max with lat := coordinates.lat } else max
      let min2 : geo.Coordinates :=
        if coordinates.lng < min1.lng then { min1 with lng := coordinates.lng } else min1
      let max2 : geo.Coordinates :=
        if coordinates.lng > max1.lng then { max1 with lng := coordinates.lng } else max1
      ComputeFieldSize.loop catalogue rest min2 max2

/-- `ComputeFieldSize`. -/
def ComputeFieldSize (_m : MapRenderer) (catalogue : TransportCatalogue) :
    Except Error (geo.Coordinates × geo.Coordinates) :=
  ComputeFieldSize.loop catalogue catalogue.stops_by_names_ ⟨90, 180⟩ ⟨-90, -180⟩

end MapRenderer

end renderer

/-! ## Scenario S11 -/

namespace S11

open transport_catalogue domain

/-- Two stops a millionth of a degree of latitude and nine ten-millionths of a degree of
longitude apart, on one route. -/
def calls : List Call :=
  [ Call.AddStop "A" ⟨0, 0⟩,
    Call.AddStop "B" ⟨1 / 1000000, 9 / 10000000⟩,
    Call.AddRoute "1" RouteType.LINEAR ["A", "B"] ]

def catalogue : TransportCatalogue := (run {} calls).2

/-- A canvas of 200 by 1100 with a padding of 50. -/
def settings : renderer.RenderSettings :=
  { size := { x := 200, y := 1100 }, padding := 50 }

/-- The field of the catalogue of S11. -/
def field : geo.Coordinates × geo.Coordinates := (⟨0, 0⟩, ⟨1 / 1000000, 9 / 10000000⟩)

/-- The renderer of S11 after `RenderMap` has computed the field. -/
def renderer : renderer.MapRenderer := { settings_ := settings, field_size_ := field }

/-- A renderer over the catalogue of S3, whose stops `A` and `B` are in a route: a canvas
of 600 by 400 with a padding of 50, and the field from `(0, 0)` to `(0, 1)`. -/
def renderer3 : renderer.MapRenderer :=
  { settings_ := S5.render_settings, field_size_ := (⟨0, 0⟩, ⟨0, 1⟩) }

end S11

/-! ## Scenario S12 -/

namespace S12

open transport_catalogue domain

def stopA : json.Node :=
  json.Node.map
    [("type", json.Node.string "Stop"), ("name", json.Node.string "A"),
     ("latitude", json.Node.double 0), ("longitude", json.Node.double 0),
     ("road_distances", json.Node.map [("B", json.Node.int 900)])]

def stopB : json.Node :=
  json.Node.map
    [("type", json.Node.string "Stop"), ("name", json.Node.string "B"),
     ("latitude", json.Node.double 0), ("longitude", json.Node.double 1),
     ("road_distances", json.Node.map [])]

def bus : json.Node :=
  json.Node.map
    [("type", json.Node.string "Bus"), ("name", json.Node.string "828"),
     ("is_roundtrip", json.Node.bool false),
     ("stops", json.Node.array [json.Node.string "A", json.Node.string "B"])]

/-- A document whose `Bus` entry comes before the `Stop` entries it names, and whose stop
`A` names the stop `B` before the entry of `B`. -/
def busFirst : json.Node :=
  json.Node.map [("base_requests", json.Node.array [bus, stopA, stopB])]

/-- The same entries with the stops first. -/
def stopsFirst : json.Node :=
  json.Node.map [("base_requests", json.Node.array [stopA, stopB, bus])]

/-- The catalogue both documents give. -/
def catalogue : TransportCatalogue :=
  (run {} [Call.AddStop "A" ⟨0, 0⟩, Call.AddStop "B" ⟨0, 1⟩,
    Call.AddRoute "828" RouteType.LINEAR ["A", "B"], Call.SetDistance "A" "B" 900]).2

end S12

/-! ## Scenario S13 -/

namespace S13

open transport_catalogue domain

/-- A handler over the catalogue of S3 with neither a router nor routing settings. -/
def bare : TransportCatalogueHandler := { catalogue_ := S3.catalogue }

/-- A handler over the catalogue of S3 with routing settings and no router yet. -/
def withSettings : TransportCatalogueHandler :=
  { catalogue_ := S3.catalogue, routing_settings_ := some S4.settings }

/-- A document with a `Stop` request for the stop `A` and a `Bus` request for the route
828. -/
def requests : json.Node :=
  json.Node.map
    [("stat_requests", json.Node.array
      [json.Node.map S6.stopRequest,
       json.Node.map [("type", json.Node.string "Bus"), ("id", json.Node.int 4),
                      ("name", json.Node.string "828")]])]

end S13

/-! ## Scenario S14 -/

namespace S14

open transport_catalogue domain

/-- Two stops and a LINEAR route `M` over them, with the largest `int`, 2147483647 metres,
as the road distance from `A` to `B`. -/
def calls : List Call :=
  [ Call.AddStop "A" ⟨0, 0⟩,
    Call.AddStop "B" ⟨0, 1⟩,
    Call.AddRoute "M" RouteType.LINEAR ["A", "B"],
    Call.SetDistance "A" "B" 2147483647 ]

def catalogue : TransportCatalogue := (run {} calls).2

/-- The route the catalogue of S14 stores under the name M. -/
def routeM : Route :=
  { name := "M", route_type := RouteType.LINEAR, stops := [⟨"A", ⟨0, 0⟩⟩, ⟨"B", ⟨0, 1⟩⟩] }

end S14

/-! ## Scenario S15 -/

namespace S15

open transport_catalogue domain

/-- A base request for a bus `E` that is not a round trip and has no stops. -/
def bus : json.Node :=
  json.Node.map
    [("type", json.Node.string "Bus"), ("name", json.Node.string "E"),
     ("is_roundtrip", json.Node.bool false), ("stops", json.Node.array [])]

/-- The document with that base request alone. -/
def document : json.Node :=
  json.Node.map [("base_requests", json.Node.array [bus])]

/-- The same route added through the catalogue. -/
def calls : List Call := [Call.AddRoute "E" RouteType.LINEAR []]

def catalogue : TransportCatalogue := (run {} calls).2

/-- The route the catalogue of S15 stores under the name E. -/
def routeE : Route := { name := "E", route_type := RouteType.LINEAR, stops := [] }

end S15

/-! ## Scenario S16 -/

namespace S16

open transport_catalogue domain

/-- Two stops one degree of longitude apart on the equator, whose great-circle distance is
`6371000 · π / 180`, a little less than 111195 metres; a LINEAR route `L` over them; and a
road distance of 120000 metres between them. -/
def calls : List Call :=
  [ Call.AddStop "A" ⟨0, 0⟩,
    Call.AddStop "B" ⟨0, 1⟩,
    Call.AddRoute "L" RouteType.LINEAR ["A", "B"],
    Call.SetDistance "A" "B" 120000 ]

def catalogue : TransportCatalogue := (run {} calls).2

/-- The route the catalogue of S16 stores under the name L. -/
def routeL : Route :=
  { name := "L", route_type := RouteType.LINEAR, stops := [⟨"A", ⟨0, 0⟩⟩, ⟨"B", ⟨0, 1⟩⟩] }

end S16

/-! ## Containers: lemmas -/

namespace unordered_map

theorem count_eq_zero {κ ν : Type} [DecidableEq κ] (m : List (κ × ν)) (k : κ) :
    count m k = 0 ↔ find m k = none := by
  unfold count
  cases find m k <;> simp

theorem find_assign {κ ν : Type} [DecidableEq κ] (m : List (κ × ν)) (k k' : κ) (v : ν) :
    find (assign m k v) k' = if k = k' then some v else find m k' := by
  induction m with
  | nil => simp [assign, find]
  | cons p m ih =>
    obtain ⟨k0, v0⟩ := p
    by_cases h0 : k0 = k
    · subst h0
      by_cases h1 : k0 = k' <;> simp [assign, find, h1]
    · by_cases h1 : k = k'
      · subst h1
        simp [assign, find, h0, ih]
      · by_cases h2 : k0 = k'
        · subst h2
          simp [assign, find, h0, h1]
        · simp [assign, find, h0, h1, h2, ih]

theorem find_append_singleton {κ ν : Type} [DecidableEq κ] (m : List (κ × ν)) (k k' : κ) (v : ν) :
    find (m ++ [(k, v)]) k' =
      match find m k' with
      | some w => some w
      | none => if k = k' then some v else none := by
  induction m with
  | nil => simp [find]
  | cons p m ih =>
    obtain ⟨k0, v0⟩ := p
    by_cases h0 : k0 = k' <;> simp [find, h0, ih]

theorem find_insert {κ ν : Type} [DecidableEq κ] (m : List (κ × ν)) (k k' : κ) (v : ν) :
    find (insert m k v) k' =
      match find m k' with
      | some w => some w
      | none => if k = k' then some v else none := by
  unfold insert
  cases hk : find m k with
  | some w =>
    simp only
    cases hk' : find m k' with
    | some w' => rfl
    | none =>
      have : k ≠ k' := by
        rintro rfl
        rw [hk] at hk'
        exact Option.noConfusion hk'
      simp [this]
  | none => exact find_append_singleton m k k' v

end unordered_map

/-! ## Distances -/

namespace transport_catalogue

open domain

namespace TransportCatalogue

theorem GetForwardDistance_eq (c : TransportCatalogue) (a b : String) :
    c.GetForwardDistance a b =
      match storedDistance c a b with
      | some d => .ok d
      | none => .error .out_of_range := by
  unfold GetForwardDistance storedDistance
  cases h : unordered_map.find c.distances_ a with
  | none => rfl
  | some row =>
    simp only [Option.bind, unordered_map.count, unordered_map.at_]
    cases unordered_map.find row b <;> simp

theorem GetDistance_eq (c : TransportCatalogue) (a b : String) :
    c.GetDistance a b =
      match storedDistance c a b with
      | some d => .ok d
      | none =>
        match storedDistance c b a with
        | some d => .ok d
        | none => .error .out_of_range := by
  unfold GetDistance
  rw [GetForwardDistance_eq, GetForwardDistance_eq]
  cases storedDistance c a b <;> cases storedDistance c b a <;> rfl

theorem GetDistance_error (c : TransportCatalogue) (a b : String) (e : Error)
    (h : c.GetDistance a b = .error e) : e = .out_of_range := by
  rw [GetDistance_eq] at h
  cases h1 : storedDistance c a b <;> cases h2 : storedDistance c b a <;>
    simp [h1, h2] at h
  exact h.symm

theorem GetDistance_isOk_symm (c : TransportCatalogue) (a b : String) (d : Int)
    (h : c.GetDistance a b = .ok d) : ∃ d', c.GetDistance b a = .ok d' := by
  rw [GetDistance_eq] at h ⊢
  cases h1 : storedDistance c a b <;> cases h2 : storedDistance c b a <;>
    simp [h1, h2] at h ⊢

theorem GetDistance_ok_iff (c : TransportCatalogue) (a b : String) :
    (∃ d, c.GetDistance a b = .ok d) ↔
      ¬ (storedDistance c a b = none ∧ storedDistance c b a = none) := by
  rw [GetDistance_eq]
  cases h1 : storedDistance c a b <;> cases h2 : storedDistance c b a <;> simp

end TransportCatalogue

/-- Claim C1.  `GetDistance(a, b)` returns the stored forward distance of `(a, b)` when
there is one, otherwise the stored forward distance of `(b, a)` when there is one,
otherwise it throws `std::out_of_range`.  Hence when only `(a, b)` is stored both
directions return that value, and when both are stored each direction returns its own. -/
theorem GetDistance_forward_then_reverse (c : TransportCatalogue) (a b : String) :
    (c.GetDistance a b =
      match storedDistance c a b with
      | some d => .ok d
      | none =>
        match storedDistance c b a with
        | some d => .ok d
        | none => .error .out_of_range) ∧
    (∀ d, storedDistance c a b = some d → storedDistance c b a = none →
      c.GetDistance a b = .ok d ∧ c.GetDistance b a = .ok d) ∧
    (∀ d d', storedDistance c a b = some d → storedDistance c b a = some d' →
      c.GetDistance a b = .ok d ∧ c.GetDistance b a = .ok d') := by
  refine ⟨TransportCatalogue.GetDistance_eq c a b, ?_, ?_⟩
  · intro d h1 h2
    simp [TransportCatalogue.GetDistance_eq, h1, h2]
  · intro d d' h1 h2
    simp [TransportCatalogue.GetDistance_eq, h1, h2]

/-- In scenario S1 only `A → B` is stored: both directions return 3900; `A → C` is
answered from the stored `C → A`; nothing is stored between `A` and `A`. -/
theorem GetDistance_forward_then_reverse_witness :
    storedDistance S1.catalogue "A" "B" = some 3900 ∧
    storedDistance S1.catalogue "B" "A" = none ∧
    S1.catalogue.GetDistance "A" "B" = .ok 3900 ∧
    S1.catalogue.GetDistance "B" "A" = .ok 3900 :=
  ⟨by decide, by decide,
    (GetDistance_forward_then_reverse S1.catalogue "A" "B").2.1 3900 (by decide) (by decide)⟩

end transport_catalogue

/-! ## AddRoute -/

namespace transport_catalogue

open domain

namespace TransportCatalogue

theorem FindStop_eq (c : TransportCatalogue) (s : String) :
    c.FindStop s =
      match unordered_map.find c.stops_by_names_ s with
      | some stop => .ok stop
      | none => .error .out_of_range := by
  unfold FindStop unordered_map.count unordered_map.at_
  cases unordered_map.find c.stops_by_names_ s <;> simp

theorem FindRoute_eq (c : TransportCatalogue) (r : String) :
    c.FindRoute r =
      match unordered_map.find c.routes_by_names_ r with
      | some route => .ok route
      | none => .error .out_of_range := by
  unfold FindRoute unordered_map.count unordered_map.at_
  cases unordered_map.find c.routes_by_names_ r <;> simp

theorem AddRoute_loop_eq (c : TransportCatalogue) (stops : List String) (acc : List Stop) :
    AddRoute.loop c stops acc =
      if ∀ s ∈ stops, hasStop c s then
        .ok (acc ++ stops.filterMap (unordered_map.find c.stops_by_names_))
      else .error .out_of_range := by
  induction stops generalizing acc with
  | nil => simp [AddRoute.loop]
  | cons s rest ih =>
    unfold AddRoute.loop
    rw [FindStop_eq]
    cases h : unordered_map.find c.stops_by_names_ s with
    | none => simp [hasStop, h]
    | some stop =>
      simp only [ih, List.mem_cons, forall_eq_or_imp, hasStop, h, List.filterMap_cons]
      by_cases hall : ∀ a ∈ rest, unordered_map.find c.stops_by_names_ a ≠ none
      · simp [hall]
      · simp [hall]

end TransportCatalogue

/-- Claim C2, as the code has it.  For a non-empty list of names: `AddRoute` returns
normally exactly when every listed name is a stop of the catalogue and the type is not
CIRCLE or the first and last names are equal; a CIRCLE route whose first and last names
differ throws `std::invalid_argument` (whether or not its names are stops, the check
comes first); in every other case a listed name that is absent throws
`std::out_of_range`. -/
theorem AddRoute_outcome (c : TransportCatalogue) (route_name : String)
    (route_type : RouteType) (stops : List String) (hne : stops ≠ []) :
    ((c.AddRoute route_name route_type stops).1 = .ok () ↔
      (∀ s ∈ stops, hasStop c s) ∧
        (route_type ≠ RouteType.CIRCLE ∨ stops.head hne = stops.getLast hne)) ∧
    (route_type = RouteType.CIRCLE → stops.head hne ≠ stops.getLast hne →
      (c.AddRoute route_name route_type stops).1 = .error .invalid_argument) ∧
    ((route_type ≠ RouteType.CIRCLE ∨ stops.head hne = stops.getLast hne) →
      (∃ s ∈ stops, ¬ hasStop c s) →
      (c.AddRoute route_name route_type stops).1 = .error .out_of_range) := by
  have hhead : (stops.head? ≠ stops.getLast?) ↔ stops.head hne ≠ stops.getLast hne := by
    rw [List.head?_eq_head hne, List.getLast?_eq_getLast _ hne]
    simp
  have key : (c.AddRoute route_name route_type stops).1 =
      if route_type = RouteType.CIRCLE ∧ stops.head hne ≠ stops.getLast hne then
        .error .invalid_argument
      else if ∀ s ∈ stops, hasStop c s then .ok () else .error .out_of_range := by
    unfold TransportCatalogue.AddRoute
    rw [TransportCatalogue.AddRoute_loop_eq, if_neg (fun h => hne h.2)]
    by_cases h1 : route_type = RouteType.CIRCLE ∧ stops.head hne ≠ stops.getLast hne
    · rw [if_pos h1, if_pos ⟨h1.1, hhead.2 h1.2⟩]
    · rw [if_neg h1, if_neg (fun h => h1 ⟨h.1, hhead.1 h.2⟩)]
      by_cases hall : ∀ s ∈ stops, hasStop c s
      · rw [if_pos hall, if_pos hall]
      · rw [if_neg hall, if_neg hall]
  rw [key]
  refine ⟨?_, ?_, ?_⟩
  · by_cases h1 : route_type = RouteType.CIRCLE ∧ stops.head hne ≠ stops.getLast hne
    · rw [if_pos h1]
      constructor
      · intro h
        exact Except.noConfusion h
      · rintro ⟨-, h | h⟩
        · exact absurd h1.1 h
        · exact absurd h h1.2
    · rw [if_neg h1]
      have h2 : route_type ≠ RouteType.CIRCLE ∨ stops.head hne = stops.getLast hne := by
        by_cases ht : route_type = RouteType.CIRCLE
        · right
          by_contra hfl
          exact h1 ⟨ht, hfl⟩
        · exact Or.inl ht
      by_cases hall : ∀ s ∈ stops, hasStop c s
      · rw [if_pos hall]
        exact ⟨fun _ => ⟨hall, h2⟩, fun _ => rfl⟩
      · rw [if_neg hall]
        exact ⟨fun h => Except.noConfusion h, fun h => absurd h.1 hall⟩
  · intro ht hfl
    rw [if_pos ⟨ht, hfl⟩]
  · intro h2 habs
    have h1 : ¬ (route_type = RouteType.CIRCLE ∧ stops.head hne ≠ stops.getLast hne) := by
      rintro ⟨ht, hfl⟩
      rcases h2 with h | h
      · exact h ht
      · exact hfl h
    have hall : ¬ ∀ s ∈ stops, hasStop c s := by
      intro hall
      obtain ⟨s, hs, hns⟩ := habs
      exact hns (hall s hs)
    rw [if_neg h1, if_neg hall]

/-- Scenario S2: LINEAR `[X, Y, X]` is accepted, CIRCLE `[X, Y]` throws
`std::invalid_argument`, LINEAR `[X, Z]` with `Z` absent throws `std::out_of_range`. -/
theorem AddRoute_outcome_witness :
    (S2.catalogue.AddRoute "L" RouteType.LINEAR ["X", "Y", "X"]).1 = .ok () ∧
    (S2.catalogue.AddRoute "C1" RouteType.CIRCLE ["X", "Y"]).1 = .error .invalid_argument ∧
    (S2.catalogue.AddRoute "L" RouteType.LINEAR ["X", "Z"]).1 = .error .out_of_range :=
  ⟨(AddRoute_outcome S2.catalogue "L" RouteType.LINEAR ["X", "Y", "X"] (by decide)).1.2
      ⟨by decide, by decide⟩,
    (AddRoute_outcome S2.catalogue "C1" RouteType.CIRCLE ["X", "Y"] (by decide)).2.1
      rfl (by decide),
    (AddRoute_outcome S2.catalogue "L" RouteType.LINEAR ["X", "Z"] (by decide)).2.2
      (by decide) (by decide)⟩

/-- Claim C2 as stated fails: in the catalogue of S2 the name `Z` is absent, yet CIRCLE
`[X, Z]` throws `std::invalid_argument`, not `std::out_of_range`. -/
theorem AddRoute_absent_stop_not_out_of_range :
    ¬ hasStop S2.catalogue "Z" ∧
    (S2.catalogue.AddRoute "C1" RouteType.CIRCLE ["X", "Z"]).1 = .error .invalid_argument ∧
    (S2.catalogue.AddRoute "C1" RouteType.CIRCLE ["X", "Z"]).1 ≠ .error .out_of_range := by
  decide

end transport_catalogue

/-! ## GetRouteInfo -/

namespace transport_catalogue

open domain

theorem consecutive_cons_cons (a b : Stop) (rest : List Stop) :
    consecutive (a :: b :: rest) = (a, b) :: consecutive (b :: rest) := by
  simp [consecutive]

theorem consecutive_append_singleton (l : List Stop) (x : Stop) :
    consecutive (l ++ [x]) =
      consecutive l ++ (match l.getLast? with
        | some y => [(y, x)]
        | none => []) := by
  induction l with
  | nil => simp [consecutive]
  | cons a l ih =>
    cases l with
    | nil => simp [consecutive]
    | cons b rest =>
      have h : a :: b :: rest ++ [x] = a :: b :: (rest ++ [x]) := rfl
      rw [h, consecutive_cons_cons, consecutive_cons_cons]
      have h' : b :: (rest ++ [x]) = (b :: rest) ++ [x] := rfl
      rw [h', ih, List.getLast?_cons_cons]
      rfl

theorem consecutive_reverse (l : List Stop) :
    consecutive l.reverse = ((consecutive l).map Prod.swap).reverse := by
  induction l with
  | nil => simp [consecutive]
  | cons a l ih =>
    cases l with
    | nil => simp [consecutive]
    | cons b rest =>
      rw [List.reverse_cons, consecutive_append_singleton, ih, consecutive_cons_cons]
      simp

theorem available_swap (c : TransportCatalogue) (p : Stop × Stop) :
    available c p.swap ↔ available c p := by
  unfold available
  simp only [Prod.fst_swap, Prod.snd_swap]
  tauto

theorem available_reverse (c : TransportCatalogue) (l : List Stop) :
    (∀ p ∈ consecutive l.reverse, available c p) ↔ ∀ p ∈ consecutive l, available c p := by
  rw [consecutive_reverse]
  constructor
  · intro h p hp
    have := h p.swap (by
      rw [List.mem_reverse, List.mem_map]
      exact ⟨p, hp, rfl⟩)
    exact (available_swap c p).1 this
  · intro h p hp
    rw [List.mem_reverse, List.mem_map] at hp
    obtain ⟨q, hq, rfl⟩ := hp
    exact (available_swap c q).2 (h q hq)

theorem forwardLength_reverse (c : TransportCatalogue) (l : List Stop) :
    forwardLength c l.reverse = backwardLength c l := by
  unfold forwardLength backwardLength
  rw [consecutive_reverse, List.map_reverse, List.sum_reverse, List.map_map]
  rfl

namespace TransportCatalogue

theorem GetDistance_of_available (c : TransportCatalogue) (p : Stop × Stop)
    (h : available c p) : c.GetDistance p.1.name p.2.name = .ok (distanceValue c p.1.name p.2.name) := by
  obtain ⟨d, hd⟩ := (GetDistance_ok_iff c p.1.name p.2.name).2 h
  unfold distanceValue
  rw [hd]

theorem GetDistance_of_not_available (c : TransportCatalogue) (p : Stop × Stop)
    (h : ¬ available c p) : c.GetDistance p.1.name p.2.name = .error .out_of_range := by
  unfold available at h
  rw [not_not] at h
  rw [GetDistance_eq, h.1, h.2]

theorem wrap_int_of_range (x : Int) (h1 : -2147483648 ≤ x) (h2 : x ≤ 2147483647) :
    wrap_int x = x := by
  unfold wrap_int
  omega

theorem wrap_int_wrap_int (x : Int) : wrap_int (wrap_int x) = wrap_int x := by
  unfold wrap_int
  omega

theorem wrap_int_add (x y : Int) : wrap_int (wrap_int x + y) = wrap_int (x + y) := by
  unfold wrap_int
  omega

theorem wrap_int_range (x : Int) : -2147483648 ≤ wrap_int x ∧ wrap_int x ≤ 2147483647 := by
  unfold wrap_int
  omega

theorem CalculateRealRouteLength_loop_eq (c : TransportCatalogue) (stops : List Stop)
    (result : Int) (hres : wrap_int result = result) :
    CalculateRealRouteLength.loop c stops result =
      if ∀ p ∈ consecutive stops, available c p then
        .ok (wrap_int (result + forwardLength c stops))
      else .error .out_of_range := by
  induction stops generalizing result with
  | nil => simp [CalculateRealRouteLength.loop, consecutive, forwardLength, hres]
  | cons a l ih =>
    cases l with
    | nil => simp [CalculateRealRouteLength.loop, consecutive, forwardLength, hres]
    | cons b rest =>
      unfold CalculateRealRouteLength.loop
      by_cases hab : available c (a, b)
      · have hd := GetDistance_of_available c (a, b) hab
        simp only at hd
        rw [hd]
        simp only
        rw [ih _ (wrap_int_wrap_int _)]
        by_cases hrest : ∀ p ∈ consecutive (b :: rest), available c p
        · have hall : ∀ p ∈ consecutive (a :: b :: rest), available c p := by
            intro p hp
            rw [consecutive_cons_cons, List.mem_cons] at hp
            rcases hp with rfl | hp
            · exact hab
            · exact hrest p hp
          rw [if_pos hrest, if_pos hall, wrap_int_add]
          simp only [forwardLength, consecutive_cons_cons, List.map_cons, List.sum_cons]
          rw [add_assoc]
        · have hall : ¬ ∀ p ∈ consecutive (a :: b :: rest), available c p := by
            intro hall
            apply hrest
            intro p hp
            apply hall
            rw [consecutive_cons_cons]
            exact List.mem_cons_of_mem _ hp
          rw [if_neg hrest, if_neg hall]
      · have hd := GetDistance_of_not_available c (a, b) hab
        simp only at hd
        rw [hd]
        have hall : ¬ ∀ p ∈ consecutive (a :: b :: rest), available c p := by
          intro hall
          apply hab
          apply hall
          rw [consecutive_cons_cons]
          exact List.mem_cons_self _ _
        rw [if_neg hall]

theorem CalculateRealRouteLength_eq (c : TransportCatalogue) (route : Route) :
    c.CalculateRealRouteLength (some route) =
      if ∀ p ∈ consecutive route.stops, available c p then
        if route.route_type = RouteType.LINEAR ∧ route.stops = [] then
          .error .undefined_behaviour
        else
          .ok (wrap_int (forwardLength c route.stops +
            if route.route_type = RouteType.LINEAR then backwardLength c route.stops else 0))
      else .error .out_of_range := by
  unfold CalculateRealRouteLength
  simp only
  rw [CalculateRealRouteLength_loop_eq c route.stops 0 rfl]
  by_cases hall : ∀ p ∈ consecutive route.stops, available c p
  · rw [if_pos hall, if_pos hall]
    simp only
    by_cases ht : route.route_type = RouteType.LINEAR
    · rw [if_pos ht]
      by_cases he : route.stops = []
      · rw [if_pos he, if_pos ⟨ht, he⟩]
      · rw [if_neg he, if_neg (fun h => he h.2), if_pos ht,
          CalculateRealRouteLength_loop_eq c _ _ (wrap_int_wrap_int _),
          if_pos ((available_reverse c route.stops).2 hall), forwardLength_reverse, zero_add,
          wrap_int_add]
    · rw [if_neg ht, if_neg (fun h => ht h.1), if_neg ht, zero_add, add_zero]
  · rw [if_neg hall, if_neg hall]

theorem GetRouteInfo_eq (ComputeDistance : geo.Coordinates → geo.Coordinates → Rat)
    (c : TransportCatalogue) (route_name : String) (route : Route)
    (hfind : c.FindRoute route_name = .ok route) :
    c.GetRouteInfo ComputeDistance route_name =
      if ∀ p ∈ consecutive route.stops, available c p then
        if route.route_type = RouteType.LINEAR ∧ route.stops = [] then
          .error .undefined_behaviour
        else
          .ok { name := route.name
                route_type := route.route_type
                num_of_stops := CalculateStops (some route)
                num_of_unique_stops := CalculateUniqueStops (some route)
                route_length := wrap_int (forwardLength c route.stops +
                  if route.route_type = RouteType.LINEAR then backwardLength c route.stops
                  else 0)
                curvature :=
                  ((wrap_int (forwardLength c route.stops +
                    if route.route_type = RouteType.LINEAR then backwardLength c route.stops
                    else 0) : Int) : Rat) /
                    CalculateRouteLength ComputeDistance (some route) }
      else .error .out_of_range := by
  unfold GetRouteInfo
  rw [hfind]
  simp only
  rw [CalculateRealRouteLength_eq]
  by_cases hall : ∀ p ∈ consecutive route.stops, available c p
  · rw [if_pos hall, if_pos hall]
    by_cases he : route.route_type = RouteType.LINEAR ∧ route.stops = []
    · rw [if_pos he, if_pos he]
    · rw [if_neg he, if_neg he]
  · rw [if_neg hall, if_neg hall]

/-- What `GetRouteInfo` has returned when it returns: every consecutive pair of the route
has a distance, the route is not a LINEAR route with no stops, and the fields are these. -/
theorem GetRouteInfo_of_ok (ComputeDistance : geo.Coordinates → geo.Coordinates → Rat)
    (c : TransportCatalogue) (route_name : String) (route : Route) (info : RouteInfo)
    (hfind : c.FindRoute route_name = .ok route)
    (hinfo : c.GetRouteInfo ComputeDistance route_name = .ok info) :
    (∀ p ∈ consecutive route.stops, available c p) ∧
    ¬ (route.route_type = RouteType.LINEAR ∧ route.stops = []) ∧
    info =
      { name := route.name
        route_type := route.route_type
        num_of_stops := CalculateStops (some route)
        num_of_unique_stops := CalculateUniqueStops (some route)
        route_length := wrap_int (forwardLength c route.stops +
          if route.route_type = RouteType.LINEAR then backwardLength c route.stops else 0)
        curvature :=
          ((wrap_int (forwardLength c route.stops +
            if route.route_type = RouteType.LINEAR then backwardLength c route.stops
            else 0) : Int) : Rat) /
            CalculateRouteLength ComputeDistance (some route) } := by
  rw [GetRouteInfo_eq ComputeDistance c route_name route hfind] at hinfo
  by_cases hall : ∀ p ∈ consecutive route.stops, available c p
  · rw [if_pos hall] at hinfo
    by_cases he : route.route_type = RouteType.LINEAR ∧ route.stops = []
    · rw [if_pos he] at hinfo
      exact Except.noConfusion hinfo
    · rw [if_neg he] at hinfo
      injection hinfo with hinfo
      exact ⟨hall, he, hinfo.symm⟩
  · rw [if_neg hall] at hinfo
    exact Except.noConfusion hinfo

/-- `GetRouteInfo` returns for a route with a distance for every consecutive pair, unless
it is a LINEAR route with no stops. -/
theorem GetRouteInfo_returns (ComputeDistance : geo.Coordinates → geo.Coordinates → Rat)
    (c : TransportCatalogue) (route_name : String) (route : Route)
    (hfind : c.FindRoute route_name = .ok route)
    (havail : ∀ p ∈ consecutive route.stops, available c p)
    (hne : ¬ (route.route_type = RouteType.LINEAR ∧ route.stops = [])) :
    c.GetRouteInfo ComputeDistance route_name =
      .ok { name := route.name
            route_type := route.route_type
            num_of_stops := CalculateStops (some route)
            num_of_unique_stops := CalculateUniqueStops (some route)
            route_length := wrap_int (forwardLength c route.stops +
              if route.route_type = RouteType.LINEAR then backwardLength c route.stops
              else 0)
            curvature :=
              ((wrap_int (forwardLength c route.stops +
                if route.route_type = RouteType.LINEAR then backwardLength c route.stops
                else 0) : Int) : Rat) /
                CalculateRouteLength ComputeDistance (some route) } := by
  rw [GetRouteInfo_eq ComputeDistance c route_name route hfind, if_pos havail, if_neg hne]

end TransportCatalogue

end transport_catalogue

namespace transport_catalogue

open domain

/-- Claim C3.  Stop count law: when `GetRouteInfo` returns for a stored route with `k`
stops, `num_of_stops` is `2k − 1` for a LINEAR route and `k` for a CIRCLE route. -/
theorem stop_count_law (ComputeDistance : geo.Coordinates → geo.Coordinates → Rat)
    (c : TransportCatalogue) (route_name : String) (route : Route) (info : RouteInfo)
    (hfind : c.FindRoute route_name = .ok route)
    (hinfo : c.GetRouteInfo ComputeDistance route_name = .ok info) :
    (route.route_type = RouteType.LINEAR →
      info.num_of_stops = 2 * (route.stops.length : Int) - 1) ∧
    (route.route_type = RouteType.CIRCLE →
      info.num_of_stops = (route.stops.length : Int)) := by
  obtain ⟨-, -, hinfo⟩ := TransportCatalogue.GetRouteInfo_of_ok ComputeDistance c route_name
    route info hfind hinfo
  subst hinfo
  constructor
  · intro ht
    simp only [CalculateStops, ht, if_true]
    ring
  · intro ht
    simp [CalculateStops, ht]

/-- Scenario S1: CIRCLE `[A, B, C, A]` has `num_of_stops = 4`. -/
theorem stop_count_law_witness :
    S1.catalogue.GetRouteInfo S1.ComputeDistance "256" = .ok S1.info ∧
    S1.info.num_of_stops = 4 :=
  ⟨rfl, (stop_count_law S1.ComputeDistance S1.catalogue "256" S1.route S1.info rfl rfl).2 rfl⟩

/-- Claim C4 as stated fails.  In the catalogue of S14 the LINEAR route `M` runs over the
stops `A` and `B`, and the one road distance stored, 2147483647 metres from `A` to `B`, is
what `GetDistance` returns in both directions.  The sum over the forward pair plus the sum
over the reverse traversal is 4294967294; `GetRouteInfo` returns the route length `-2`,
the value the 32 bits of the `int` hold. -/
theorem road_length_overflow :
    S14.catalogue.FindRoute "M" = .ok S14.routeM ∧
    (∀ p ∈ consecutive S14.routeM.stops, available S14.catalogue p) ∧
    S14.catalogue.GetDistance "A" "B" = .ok 2147483647 ∧
    S14.catalogue.GetDistance "B" "A" = .ok 2147483647 ∧
    ((consecutive S14.routeM.stops).map
        (fun p => distanceValue S14.catalogue p.1.name p.2.name)).sum +
      ((consecutive S14.routeM.stops).map
        (fun p => distanceValue S14.catalogue p.2.name p.1.name)).sum = 4294967294 ∧
    ∃ info, S14.catalogue.GetRouteInfo S7.ComputeDistance "M" = .ok info ∧
      info.route_length = -2 ∧
      info.route_length ≠
        ((consecutive S14.routeM.stops).map
          (fun p => distanceValue S14.catalogue p.1.name p.2.name)).sum +
          (if S14.routeM.route_type = RouteType.LINEAR then
            ((consecutive S14.routeM.stops).map
              (fun p => distanceValue S14.catalogue p.2.name p.1.name)).sum
          else 0) := by
  refine ⟨by decide, by decide, by decide, by decide, by decide, _, rfl, by decide, ?_⟩
  decide

/-- Claim C4, amended.  For a stored route with at least one stop all of whose consecutive
pairs have a distance available, `GetRouteInfo` returns, and `route_length` is the value an
`int` holds for the sum of `GetDistance(sᵢ, sᵢ₊₁)` over the consecutive pairs plus, for a
LINEAR route only, the sum of `GetDistance(sᵢ₊₁, sᵢ)` over the same pairs; it is that sum
when the sum lies in the range of `int`. -/
theorem road_length_sum (ComputeDistance : geo.Coordinates → geo.Coordinates → Rat)
    (c : TransportCatalogue) (route_name : String) (route : Route)
    (hfind : c.FindRoute route_name = .ok route)
    (havail : ∀ p ∈ consecutive route.stops, available c p)
    (hne : route.stops ≠ []) :
    ∃ info, c.GetRouteInfo ComputeDistance route_name = .ok info ∧
      info.route_length =
        wrap_int
          (((consecutive route.stops).map (fun p => distanceValue c p.1.name p.2.name)).sum +
            (if route.route_type = RouteType.LINEAR then
              ((consecutive route.stops).map (fun p => distanceValue c p.2.name p.1.name)).sum
            else 0)) ∧
      (-2147483648 ≤
          ((consecutive route.stops).map (fun p => distanceValue c p.1.name p.2.name)).sum +
            (if route.route_type = RouteType.LINEAR then
              ((consecutive route.stops).map (fun p => distanceValue c p.2.name p.1.name)).sum
            else 0) →
        ((consecutive route.stops).map (fun p => distanceValue c p.1.name p.2.name)).sum +
            (if route.route_type = RouteType.LINEAR then
              ((consecutive route.stops).map (fun p => distanceValue c p.2.name p.1.name)).sum
            else 0) ≤ 2147483647 →
        info.route_length =
          ((consecutive route.stops).map (fun p => distanceValue c p.1.name p.2.name)).sum +
            (if route.route_type = RouteType.LINEAR then
              ((consecutive route.stops).map (fun p => distanceValue c p.2.name p.1.name)).sum
            else 0)) := by
  rw [TransportCatalogue.GetRouteInfo_returns ComputeDistance c route_name route hfind havail
    (fun h => hne h.2)]
  refine ⟨_, rfl, rfl, ?_⟩
  intro h1 h2
  exact TransportCatalogue.wrap_int_of_range _ h1 h2

/-- Scenario S1: the distances 3900, 600 and 5600 on CIRCLE `[A, B, C, A]` give the route
length 10100. -/
theorem road_length_sum_witness :
    (∀ p ∈ consecutive S1.route.stops, available S1.catalogue p) ∧
    S1.route.stops ≠ [] ∧
    ∃ info, S1.catalogue.GetRouteInfo S1.ComputeDistance "256" = .ok info ∧
      info.route_length = 10100 :=
  ⟨by decide, by decide,
    (road_length_sum S1.ComputeDistance S1.catalogue "256" S1.route rfl (by decide)
      (by decide)).imp
      (fun _ h => ⟨h.1, (h.2.2 (by decide) (by decide)).trans (by decide)⟩)⟩

end transport_catalogue

namespace transport_catalogue

open domain

theorem CalculateUniqueStops_loop_nodup (stops : List Stop) (uniques : List String)
    (h : uniques.Nodup) : (CalculateUniqueStops.loop stops uniques).Nodup := by
  induction stops generalizing uniques with
  | nil => exact h
  | cons stop rest ih =>
    unfold CalculateUniqueStops.loop
    apply ih
    by_cases hm : stop.name ∈ uniques
    · rw [if_pos hm]
      exact h
    · rw [if_neg hm]
      exact List.Nodup.append h (List.nodup_singleton _) (by simpa using hm)

theorem CalculateUniqueStops_loop_mem (stops : List Stop) (uniques : List String) (x : String) :
    x ∈ CalculateUniqueStops.loop stops uniques ↔
      x ∈ uniques ∨ x ∈ stops.map (fun stop => stop.name) := by
  induction stops generalizing uniques with
  | nil => simp [CalculateUniqueStops.loop]
  | cons stop rest ih =>
    unfold CalculateUniqueStops.loop
    rw [ih]
    by_cases hm : stop.name ∈ uniques
    · rw [if_pos hm]
      simp only [List.map_cons, List.mem_cons]
      constructor
      · rintro (h | h)
        · exact Or.inl h
        · exact Or.inr (Or.inr h)
      · rintro (h | h | h)
        · exact Or.inl h
        · exact Or.inl (h ▸ hm)
        · exact Or.inr h
    · rw [if_neg hm]
      simp only [List.map_cons, List.mem_cons, List.mem_append, List.mem_singleton]
      tauto

theorem CalculateUniqueStops_eq (route : Route) :
    CalculateUniqueStops (some route) =
      ((route.stops.map (fun stop => stop.name)).toFinset.card : Int) := by
  unfold CalculateUniqueStops
  simp only
  rw [← List.toFinset_card_of_nodup (CalculateUniqueStops_loop_nodup route.stops [] List.nodup_nil)]
  congr 2
  ext x
  simp [CalculateUniqueStops_loop_mem]

/-- Claim C5.  When `GetRouteInfo` returns for a stored route, `num_of_unique_stops` is the
number of distinct stop names in the route's stop sequence. -/
theorem unique_stop_count (ComputeDistance : geo.Coordinates → geo.Coordinates → Rat)
    (c : TransportCatalogue) (route_name : String) (route : Route) (info : RouteInfo)
    (hfind : c.FindRoute route_name = .ok route)
    (hinfo : c.GetRouteInfo ComputeDistance route_name = .ok info) :
    info.num_of_unique_stops =
      ((route.stops.map (fun stop => stop.name)).toFinset.card : Int) := by
  obtain ⟨-, -, hinfo⟩ := TransportCatalogue.GetRouteInfo_of_ok ComputeDistance c route_name
    route info hfind hinfo
  subst hinfo
  exact CalculateUniqueStops_eq route

/-- Scenario S1: `[A, B, C, A]` has three distinct stop names. -/
theorem unique_stop_count_witness :
    S1.catalogue.GetRouteInfo S1.ComputeDistance "256" = .ok S1.info ∧
    S1.info.num_of_unique_stops = 3 ∧
    ((S1.route.stops.map (fun stop => stop.name)).toFinset.card : Int) = 3 :=
  ⟨rfl, rfl,
    (unique_stop_count S1.ComputeDistance S1.catalogue "256" S1.route S1.info rfl rfl).symm⟩

/-- `GetRouteInfo(name)` throws `std::out_of_range` exactly when no route is stored under
`name`, or the stored route has a consecutive pair of stops with no distance stored in
either direction; for a stored route with a distance for every pair that is not a LINEAR
route with no stops it returns a `RouteInfo` with the route's name and type. -/
theorem GetRouteInfo_outcome (ComputeDistance : geo.Coordinates → geo.Coordinates → Rat)
    (c : TransportCatalogue) (route_name : String) :
    (c.GetRouteInfo ComputeDistance route_name = .error .out_of_range ↔
      (unordered_map.find c.routes_by_names_ route_name = none ∨
        ∃ route, unordered_map.find c.routes_by_names_ route_name = some route ∧
          ∃ p ∈ consecutive route.stops,
            storedDistance c p.1.name p.2.name = none ∧
            storedDistance c p.2.name p.1.name = none)) ∧
    (∀ route, unordered_map.find c.routes_by_names_ route_name = some route →
      (∀ p ∈ consecutive route.stops,
        ¬ (storedDistance c p.1.name p.2.name = none ∧
            storedDistance c p.2.name p.1.name = none)) →
      ¬ (route.route_type = RouteType.LINEAR ∧ route.stops = []) →
      ∃ info, c.GetRouteInfo ComputeDistance route_name = .ok info ∧
        info.name = route.name ∧ info.route_type = route.route_type) := by
  cases hf : unordered_map.find c.routes_by_names_ route_name with
  | none =>
    have hfind : c.FindRoute route_name = .error .out_of_range := by
      rw [TransportCatalogue.FindRoute_eq, hf]
    refine ⟨⟨fun _ => Or.inl rfl, fun _ => ?_⟩, fun route h => Option.noConfusion h⟩
    unfold TransportCatalogue.GetRouteInfo
    rw [hfind]
  | some route =>
    have hfind : c.FindRoute route_name = .ok route := by
      rw [TransportCatalogue.FindRoute_eq, hf]
    rw [TransportCatalogue.GetRouteInfo_eq ComputeDistance c route_name route hfind]
    by_cases hall : ∀ p ∈ consecutive route.stops, available c p
    · rw [if_pos hall]
      refine ⟨⟨fun h => ?_, ?_⟩, ?_⟩
      · split at h
        · injection h with h
          exact Error.noConfusion h
        · exact Except.noConfusion h
      · rintro (h | ⟨route', h, p, hp, hnone⟩)
        · exact Option.noConfusion h
        · injection h with h
          subst h
          exact absurd hnone (hall p hp)
      · intro route' h _ hne
        injection h with h
        subst h
        rw [if_neg hne]
        exact ⟨_, rfl, rfl, rfl⟩
    · rw [if_neg hall]
      refine ⟨⟨fun _ => Or.inr ⟨route, rfl, ?_⟩, fun _ => rfl⟩, ?_⟩
      · by_contra hex
        apply hall
        intro p hp hnone
        exact hex ⟨p, hp, hnone⟩
      · intro route' h hall'
        injection h with h
        subst h
        exact absurd hall' hall

/-- Claim C6 on the code.  The document of S15 has one bus `E` that is not a round trip and
has no stops; `LoadData` accepts it and stores the LINEAR route `E` with no stops, as a call
of `AddRoute` does.  The route is stored and has no consecutive pair of stops, so no pair
lacks a distance; `GetRouteInfo` neither throws `std::out_of_range` nor returns a
`RouteInfo`: the loop of `CalculateRealRouteLength` over the reverse iterators of the empty
vector is undefined. -/
theorem GetRouteInfo_empty_linear_route :
    json_reader.LoadData S15.document {} = (.ok true, S15.catalogue) ∧
    (({} : TransportCatalogue).AddRoute "E" RouteType.LINEAR []) = (.ok (), S15.catalogue) ∧
    unordered_map.find S15.catalogue.routes_by_names_ "E" = some S15.routeE ∧
    (∀ p ∈ consecutive S15.routeE.stops,
      ¬ (storedDistance S15.catalogue p.1.name p.2.name = none ∧
          storedDistance S15.catalogue p.2.name p.1.name = none)) ∧
    S15.catalogue.GetRouteInfo S1.ComputeDistance "E" = .error .undefined_behaviour ∧
    S15.catalogue.GetRouteInfo S1.ComputeDistance "E" ≠ .error .out_of_range ∧
    ¬ ∃ info, S15.catalogue.GetRouteInfo S1.ComputeDistance "E" = .ok info := by
  refine ⟨by decide, by decide, by decide, by decide, rfl, by decide, ?_⟩
  rintro ⟨info, h⟩
  exact Except.noConfusion h

end transport_catalogue

/-! ## The buses-on-stop index -/

namespace set

theorem mem_insert (x r : String) (l : List String) :
    r ∈ insert x l ↔ r = x ∨ r ∈ l := by
  induction l with
  | nil => simp [insert]
  | cons y ys ih =>
    unfold insert
    by_cases h1 : x.toList < y.toList
    · rw [if_pos h1]
      simp
    · rw [if_neg h1]
      by_cases h2 : x = y
      · rw [if_pos h2]
        subst h2
        simp
      · rw [if_neg h2]
        simp only [List.mem_cons, ih]
        tauto

theorem insert_ne_nil (x : String) (l : List String) : insert x l ≠ [] := by
  intro h
  have : x ∈ insert x l := (mem_insert x x l).2 (Or.inl rfl)
  rw [h] at this
  exact List.not_mem_nil _ this

theorem insert_insert (x : String) (l : List String) : insert x (insert x l) = insert x l := by
  induction l with
  | nil => simp [insert]
  | cons y ys ih =>
    by_cases h1 : x.toList < y.toList
    · have h : insert x (y :: ys) = x :: y :: ys := by
        unfold insert
        rw [if_pos h1]
      rw [h]
      unfold insert
      simp
    · by_cases h2 : x = y
      · have h : insert x (y :: ys) = y :: ys := by
          unfold insert
          rw [if_neg h1, if_pos h2]
        rw [h, h]
      · have h : ∀ zs, insert x (y :: zs) = y :: insert x zs := by
          intro zs
          conv_lhs => unfold insert
          rw [if_neg h1, if_neg h2]
        rw [h, h, ih]

theorem toList_injective (a b : String) (h : a.toList = b.toList) : a = b := by
  cases a
  cases b
  simp only [String.toList] at h
  rw [h]

theorem pairwise_insert (x : String) (l : List String)
    (h : l.Pairwise (fun a b => a.toList < b.toList)) :
    (insert x l).Pairwise (fun a b => a.toList < b.toList) := by
  induction l with
  | nil => simp [insert]
  | cons y ys ih =>
    rw [List.pairwise_cons] at h
    unfold insert
    by_cases h1 : x.toList < y.toList
    · rw [if_pos h1, List.pairwise_cons]
      refine ⟨?_, List.pairwise_cons.2 h⟩
      intro z hz
      rw [List.mem_cons] at hz
      rcases hz with rfl | hz
      · exact h1
      · exact lt_trans h1 (h.1 z hz)
    · rw [if_neg h1]
      by_cases h2 : x = y
      · rw [if_pos h2]
        exact List.pairwise_cons.2 h
      · rw [if_neg h2, List.pairwise_cons]
        refine ⟨?_, ih h.2⟩
        intro z hz
        rw [mem_insert] at hz
        rcases hz with rfl | hz
        · rcases lt_trichotomy z.toList y.toList with h3 | h3 | h3
          · exact absurd h3 h1
          · exact absurd (toList_injective _ _ h3) h2
          · exact h3
        · exact h.1 z hz

end set

namespace transport_catalogue

open domain

namespace TransportCatalogue

theorem find_AddRoute_private_loop (route_name : String) (stops : List Stop)
    (buses : List (String × List String)) (s : String) :
    unordered_map.find (AddRoute_private.loop route_name stops buses) s =
      if s ∈ stops.map (fun stop => stop.name) then
        some (set.insert route_name (unordered_map.index buses s []))
      else unordered_map.find buses s := by
  induction stops generalizing buses with
  | nil => simp [AddRoute_private.loop]
  | cons stop rest ih =>
    unfold AddRoute_private.loop
    rw [ih]
    by_cases hs : stop.name = s
    · subst hs
      by_cases hr : stop.name ∈ rest.map (fun stop => stop.name)
      · rw [if_pos hr, if_pos (by simp)]
        simp [unordered_map.index, unordered_map.find_assign, set.insert_insert]
      · rw [if_neg hr, if_pos (by simp)]
        simp [unordered_map.find_assign]
    · have hne : ¬ s = stop.name := fun h => hs h.symm
      by_cases hr : s ∈ rest.map (fun stop => stop.name)
      · rw [if_pos hr, if_pos (by simp [hr])]
        simp [unordered_map.index, unordered_map.find_assign, hs]
      · rw [if_neg hr, if_neg (by simp [hne]; simpa using hr)]
        simp [unordered_map.find_assign, hs]

end TransportCatalogue

end transport_catalogue

/-! ## What every reachable catalogue satisfies -/

namespace transport_catalogue

open domain

theorem Consistent_empty : Consistent {} := by
  constructor
  · intro n stop h
    exact Option.noConfusion h
  · intro r route h
    exact Option.noConfusion h
  · intro route h
    exact absurd h (List.not_mem_nil _)
  · intro s buses h
    exact Option.noConfusion h
  · intro s buses h
    exact Option.noConfusion h
  · intro s r
    simp [unordered_map.index, unordered_map.find]

theorem Consistent_AddStop (c : TransportCatalogue) (stop_name : String)
    (coordinate : geo.Coordinates) (h : Consistent c) :
    Consistent (c.AddStop stop_name coordinate) := by
  constructor
  · intro n stop hf
    simp only [TransportCatalogue.AddStop, TransportCatalogue.AddStop_private,
      unordered_map.find_insert] at hf
    cases hold : unordered_map.find c.stops_by_names_ n with
    | some w =>
      rw [hold] at hf
      simp only [Option.some.injEq] at hf
      subst hf
      exact h.stop_key n w hold
    | none =>
      rw [hold] at hf
      simp only at hf
      split at hf
      · rename_i heq
        injection hf with hf
        subst hf
        exact heq
      · exact Option.noConfusion hf
  · exact h.route_key
  · exact h.route_indexed
  · exact h.buses_sorted
  · exact h.buses_nonempty
  · exact h.buses_mem

theorem Consistent_AddRoute_private (c : TransportCatalogue) (route : Route)
    (h : Consistent c) : Consistent (c.AddRoute_private route) := by
  constructor
  · exact h.stop_key
  · intro r route' hf
    simp only [TransportCatalogue.AddRoute_private, unordered_map.find_insert] at hf
    cases hold : unordered_map.find c.routes_by_names_ r with
    | some w =>
      rw [hold] at hf
      simp only [Option.some.injEq] at hf
      subst hf
      have := h.route_key r w hold
      exact ⟨List.mem_append_left _ this.1, this.2⟩
    | none =>
      rw [hold] at hf
      simp only at hf
      split at hf
      · rename_i heq
        injection hf with hf
        subst hf
        exact ⟨by simp [TransportCatalogue.AddRoute_private], heq⟩
      · exact Option.noConfusion hf
  · intro route' hmem
    simp only [TransportCatalogue.AddRoute_private, List.mem_append, List.mem_singleton] at hmem
    simp only [TransportCatalogue.AddRoute_private, unordered_map.find_insert]
    cases hold : unordered_map.find c.routes_by_names_ route'.name with
    | some w => simp
    | none =>
      rcases hmem with hmem | hmem
      · exact absurd hold (h.route_indexed route' hmem)
      · subst hmem
        simp
  · intro s buses hf
    simp only [TransportCatalogue.AddRoute_private,
      TransportCatalogue.find_AddRoute_private_loop] at hf
    split at hf
    · injection hf with hf
      subst hf
      apply set.pairwise_insert
      unfold unordered_map.index
      cases hold : unordered_map.find c.buses_on_stops_ s with
      | some w => exact h.buses_sorted s w hold
      | none => exact List.Pairwise.nil
    · exact h.buses_sorted s buses hf
  · intro s buses hf
    simp only [TransportCatalogue.AddRoute_private,
      TransportCatalogue.find_AddRoute_private_loop] at hf
    split at hf
    · injection hf with hf
      subst hf
      exact set.insert_ne_nil _ _
    · exact h.buses_nonempty s buses hf
  · intro s r
    have hold := h.buses_mem s r
    simp only [TransportCatalogue.AddRoute_private, unordered_map.index,
      TransportCatalogue.find_AddRoute_private_loop] at hold ⊢
    by_cases hs : s ∈ route.stops.map (fun stop => stop.name)
    · rw [if_pos hs]
      simp only [Option.getD_some, set.mem_insert, hold, List.mem_append, List.mem_singleton]
      constructor
      · rintro (hr | ⟨route', hmem, hn, hs'⟩)
        · exact ⟨route, Or.inr rfl, hr.symm, hs⟩
        · exact ⟨route', Or.inl hmem, hn, hs'⟩
      · rintro ⟨route', hmem | hmem, hn, hs'⟩
        · exact Or.inr ⟨route', hmem, hn, hs'⟩
        · subst hmem
          exact Or.inl hn.symm
    · rw [if_neg hs, hold]
      simp only [List.mem_append, List.mem_singleton]
      constructor
      · rintro ⟨route', hmem, hn, hs'⟩
        exact ⟨route', Or.inl hmem, hn, hs'⟩
      · rintro ⟨route', hmem | hmem, hn, hs'⟩
        · exact ⟨route', hmem, hn, hs'⟩
        · subst hmem
          exact absurd hs' hs

theorem AddRoute_state (c : TransportCatalogue) (route_name : String) (route_type : RouteType)
    (stops : List String) :
    (c.AddRoute route_name route_type stops).2 = c ∨
      ∃ route_stops, (c.AddRoute route_name route_type stops).2 =
        c.AddRoute_private
          { name := route_name, route_type := route_type, stops := route_stops } := by
  unfold TransportCatalogue.AddRoute
  split
  · exact Or.inl rfl
  · split
    · exact Or.inl rfl
    · split
      · exact Or.inl rfl
      · exact Or.inr ⟨_, rfl⟩

theorem SetDistance_state (c : TransportCatalogue) (stop_from stop_to : String) (distance : Int) :
    (c.SetDistance stop_from stop_to distance).2 = c ∨
      ∃ d, (c.SetDistance stop_from stop_to distance).2 = { c with distances_ := d } := by
  unfold TransportCatalogue.SetDistance
  split
  · exact Or.inl rfl
  · split
    · exact Or.inl rfl
    · exact Or.inr ⟨_, rfl⟩

theorem Consistent_apply (c : TransportCatalogue) (call : Call) (h : Consistent c) :
    Consistent (call.apply c).2 := by
  cases call with
  | AddStop stop_name coordinate => exact Consistent_AddStop c stop_name coordinate h
  | AddRoute route_name route_type stops =>
    rcases AddRoute_state c route_name route_type stops with heq | ⟨route_stops, heq⟩
    · simp only [Call.apply, heq]
      exact h
    · simp only [Call.apply, heq]
      exact Consistent_AddRoute_private c _ h
  | SetDistance stop_from stop_to distance =>
    rcases SetDistance_state c stop_from stop_to distance with heq | ⟨d, heq⟩
    · simp only [Call.apply, heq]
      exact h
    · simp only [Call.apply, heq]
      exact ⟨h.stop_key, h.route_key, h.route_indexed, h.buses_sorted, h.buses_nonempty,
        h.buses_mem⟩

theorem Consistent_run (c : TransportCatalogue) (calls : List Call) (h : Consistent c) :
    Consistent (run c calls).2 := by
  induction calls generalizing c with
  | nil => exact h
  | cons call rest ih => exact ih _ (Consistent_apply c call h)

theorem Consistent_of_Reachable (c : TransportCatalogue) (h : Reachable c) : Consistent c := by
  obtain ⟨calls, rfl⟩ := h
  exact Consistent_run _ calls Consistent_empty

end transport_catalogue

namespace transport_catalogue

open domain

theorem routes_apply (c : TransportCatalogue) (call : Call) :
    ((call.apply c).2.routes_.map (fun route => route.name)).Sublist
      (c.routes_.map (fun route => route.name) ++ routeNames [call]) := by
  cases call with
  | AddStop stop_name coordinate =>
    simp [Call.apply, TransportCatalogue.AddStop, TransportCatalogue.AddStop_private, routeNames]
  | AddRoute route_name route_type stops =>
    rcases AddRoute_state c route_name route_type stops with heq | ⟨route_stops, heq⟩
    · simp only [Call.apply, heq, routeNames]
      exact List.sublist_append_left _ _
    · simp only [Call.apply, heq, routeNames, TransportCatalogue.AddRoute_private,
        List.map_append, List.map_cons, List.map_nil]
      exact List.Sublist.refl _
  | SetDistance stop_from stop_to distance =>
    rcases SetDistance_state c stop_from stop_to distance with heq | ⟨d, heq⟩
    · simp only [Call.apply, heq, routeNames]
      exact List.sublist_append_left _ _
    · simp only [Call.apply, heq, routeNames]
      exact List.sublist_append_left _ _

theorem routeNames_cons (call : Call) (rest : List Call) :
    routeNames (call :: rest) = routeNames [call] ++ routeNames rest := by
  cases call <;> simp [routeNames]

theorem routes_run (c : TransportCatalogue) (calls : List Call) :
    ((run c calls).2.routes_.map (fun route => route.name)).Sublist
      (c.routes_.map (fun route => route.name) ++ routeNames calls) := by
  induction calls generalizing c with
  | nil => simp [run, routeNames]
  | cons call rest ih =>
    have h1 := ih (call.apply c).2
    have h2 := routes_apply c call
    rw [routeNames_cons, ← List.append_assoc]
    exact h1.trans (List.Sublist.append h2 (List.Sublist.refl _))

theorem GetBusesOnStop_eq (c : TransportCatalogue) (h : Consistent c) (s : String) :
    c.GetBusesOnStop s =
      if hasStop c s then .ok (unordered_map.find c.buses_on_stops_ s)
      else .error .out_of_range := by
  unfold TransportCatalogue.GetBusesOnStop
  rw [TransportCatalogue.FindStop_eq]
  cases hf : unordered_map.find c.stops_by_names_ s with
  | none => simp [hasStop, hf]
  | some stop =>
    have hn := h.stop_key s stop hf
    simp only [hasStop, hf, hn]
    cases unordered_map.find c.buses_on_stops_ s <;> simp

/-- The buses-on-stop index of a consistent catalogue whose stored routes have pairwise
distinct names: each set is strictly increasing and holds exactly the names of the stored
routes that reference the stop. -/
theorem buses_sorted_exact (c : TransportCatalogue) (h : Consistent c)
    (hnodup : (c.routes_.map (fun route => route.name)).Nodup) (s : String) :
    (unordered_map.index c.buses_on_stops_ s []).Pairwise (fun a b => a < b) ∧
    ∀ r, r ∈ unordered_map.index c.buses_on_stops_ s [] ↔
      ∃ route, c.FindRoute r = .ok route ∧ s ∈ route.stops.map (fun stop => stop.name) := by
  constructor
  · have hs : (unordered_map.index c.buses_on_stops_ s []).Pairwise
        (fun a b => a.toList < b.toList) := by
      unfold unordered_map.index
      cases hf : unordered_map.find c.buses_on_stops_ s with
      | none => exact List.Pairwise.nil
      | some buses => exact h.buses_sorted s buses hf
    exact hs.imp (fun hab => String.lt_iff_toList_lt.2 hab)
  · intro r
    rw [h.buses_mem]
    constructor
    · rintro ⟨route, hmem, hn, hs⟩
      cases hf : unordered_map.find c.routes_by_names_ r with
      | none =>
        subst hn
        exact absurd hf (h.route_indexed route hmem)
      | some route' =>
        have hkey := h.route_key r route' hf
        have heq : route' = route := by
          have hinj := List.inj_on_of_nodup_map hnodup
          exact hinj hkey.1 hmem (hkey.2.trans hn.symm)
        subst heq
        refine ⟨route', ?_, hs⟩
        rw [TransportCatalogue.FindRoute_eq, hf]
    · rintro ⟨route, hfind, hs⟩
      rw [TransportCatalogue.FindRoute_eq] at hfind
      cases hf : unordered_map.find c.routes_by_names_ r with
      | none =>
        rw [hf] at hfind
        exact Except.noConfusion hfind
      | some route' =>
        rw [hf] at hfind
        injection hfind with hfind
        subst hfind
        have hkey := h.route_key r route' hf
        exact ⟨route', hkey.1, hkey.2, hs⟩

/-- Claim C7.  In a catalogue built from the empty one by successful calls whose stop
names are pairwise distinct and whose route names are pairwise distinct, for every stop
`s` of the catalogue `GetBusesOnStop(s)` returns, the route names it reports (none for
`std::nullopt`) are in strictly increasing lexicographic order, and a name `r` is among
them exactly when the stored route `r` references `s`. -/
theorem GetBusesOnStop_sorted_exact (calls : List Call) (c : TransportCatalogue)
    (hrun : (run {} calls).2 = c)
    (_hok : ∀ outcome ∈ (run {} calls).1, outcome = .ok ())
    (_hstops : (stopNames calls).Nodup) (hroutes : (routeNames calls).Nodup)
    (s : String) (hs : hasStop c s) :
    ∃ reported, c.GetBusesOnStop s = .ok reported ∧
      (reported.getD []).Pairwise (fun a b => a < b) ∧
      ∀ r, r ∈ reported.getD [] ↔
        ∃ route, c.FindRoute r = .ok route ∧ s ∈ route.stops.map (fun stop => stop.name) := by
  have hcons : Consistent c := Consistent_of_Reachable c ⟨calls, hrun⟩
  have hnodup : (c.routes_.map (fun route => route.name)).Nodup := by
    have hsub := routes_run {} calls
    rw [hrun] at hsub
    exact List.Nodup.sublist hsub (by simpa using hroutes)
  refine ⟨unordered_map.find c.buses_on_stops_ s, ?_, buses_sorted_exact c hcons hnodup s⟩
  rw [GetBusesOnStop_eq c hcons, if_pos hs]

end transport_catalogue

namespace transport_catalogue

open domain

/-- Scenario S3: the stop `A` is on the routes 828 and 256, added in that order;
`GetBusesOnStop` reports them as `256`, `828`. -/
theorem GetBusesOnStop_sorted_exact_witness :
    S3.catalogue.GetBusesOnStop "A" = .ok (some ["256", "828"]) ∧
    ∃ reported, S3.catalogue.GetBusesOnStop "A" = .ok reported ∧
      (reported.getD []).Pairwise (fun a b => a < b) ∧
      ∀ r, r ∈ reported.getD [] ↔
        ∃ route, S3.catalogue.FindRoute r = .ok route ∧
          "A" ∈ route.stops.map (fun stop => stop.name) :=
  ⟨by decide,
    GetBusesOnStop_sorted_exact S3.calls S3.catalogue rfl (by decide) (by decide) (by decide)
      "A" (by decide)⟩

/-- Claim C8.  `GetBusesOnStop(name)` throws `std::out_of_range` exactly when `name` is not
a stop of the catalogue; in a reachable catalogue, for a stop that no stored route
references it returns `std::nullopt`. -/
theorem GetBusesOnStop_not_found_iff (c : TransportCatalogue) (stop_name : String) :
    (c.GetBusesOnStop stop_name = .error .out_of_range ↔ ¬ hasStop c stop_name) ∧
    (Reachable c → hasStop c stop_name →
      (∀ route ∈ c.routes_, stop_name ∉ route.stops.map (fun stop => stop.name)) →
      c.GetBusesOnStop stop_name = .ok none) := by
  constructor
  · unfold TransportCatalogue.GetBusesOnStop
    rw [TransportCatalogue.FindStop_eq]
    cases hf : unordered_map.find c.stops_by_names_ stop_name with
    | none => simp [hasStop, hf]
    | some stop =>
      simp only [hasStop, hf]
      cases unordered_map.find c.buses_on_stops_ stop.name <;> simp
  · intro hreach hs hno
    have hcons := Consistent_of_Reachable c hreach
    rw [GetBusesOnStop_eq c hcons, if_pos hs]
    cases hf : unordered_map.find c.buses_on_stops_ stop_name with
    | none => rfl
    | some buses =>
      exfalso
      have hne := hcons.buses_nonempty stop_name buses hf
      obtain ⟨r, hr⟩ := List.exists_mem_of_ne_nil buses hne
      have hmem : r ∈ unordered_map.index c.buses_on_stops_ stop_name [] := by
        simpa [unordered_map.index, hf] using hr
      obtain ⟨route, hroute, -, href⟩ := (hcons.buses_mem stop_name r).1 hmem
      exact hno route hroute href

/-- Scenario S3: `D` is a stop in no route and `GetBusesOnStop` returns `std::nullopt`
for it; `unknown` is not a stop and `GetBusesOnStop` throws `std::out_of_range`. -/
theorem GetBusesOnStop_not_found_iff_witness :
    S3.catalogue.GetBusesOnStop "D" = .ok none ∧
    S3.catalogue.GetBusesOnStop "unknown" = .error .out_of_range :=
  ⟨(GetBusesOnStop_not_found_iff S3.catalogue "D").2 ⟨S3.calls, rfl⟩ (by decide) (by decide),
    (GetBusesOnStop_not_found_iff S3.catalogue "unknown").1.2 (by decide)⟩

theorem storedDistance_SetDistance (c : TransportCatalogue) (a b : String) (m : Int)
    (x y : String) :
    storedDistance
      { c with
        distances_ := (unordered_map.assign c.distances_ a
          (unordered_map.assign (unordered_map.index c.distances_ a []) b m)) } x y =
      if a = x ∧ b = y then some m else storedDistance c x y := by
  unfold storedDistance
  simp only [unordered_map.find_assign]
  by_cases hx : a = x
  · subst hx
    simp only [if_true, Option.bind, true_and, unordered_map.find_assign, unordered_map.index]
    by_cases hy : b = y
    · rw [if_pos hy, if_pos hy]
    · rw [if_neg hy, if_neg hy]
      cases unordered_map.find c.distances_ a <;> simp [unordered_map.find]
  · rw [if_neg hx, if_neg (fun h => hx h.1)]

/-- Claim C9.  In a reachable catalogue, `SetDistance(from, to, m)` throws
`std::out_of_range` and leaves the catalogue as it was when `from` or `to` is not a stop;
otherwise it returns, afterwards the stored forward distance of `(from, to)` is `m`
whatever was stored before, the entry of `(to, from)` is as before when `from ≠ to`, and
so is the entry of every other pair. -/
theorem SetDistance_effect (c : TransportCatalogue) (hc : Reachable c)
    (stop_from stop_to : String) (m : Int) :
    ((¬ hasStop c stop_from ∨ ¬ hasStop c stop_to) →
      c.SetDistance stop_from stop_to m = (.error .out_of_range, c)) ∧
    (hasStop c stop_from → hasStop c stop_to →
      (c.SetDistance stop_from stop_to m).1 = .ok () ∧
      storedDistance (c.SetDistance stop_from stop_to m).2 stop_from stop_to = some m ∧
      (stop_from ≠ stop_to →
        storedDistance (c.SetDistance stop_from stop_to m).2 stop_to stop_from =
          storedDistance c stop_to stop_from) ∧
      ∀ x y, ¬ (x = stop_from ∧ y = stop_to) →
        storedDistance (c.SetDistance stop_from stop_to m).2 x y = storedDistance c x y) := by
  have hcons := Consistent_of_Reachable c hc
  unfold TransportCatalogue.SetDistance
  rw [TransportCatalogue.FindStop_eq, TransportCatalogue.FindStop_eq]
  cases hf : unordered_map.find c.stops_by_names_ stop_from with
  | none =>
    refine ⟨fun _ => rfl, fun h => ?_⟩
    exact absurd hf h
  | some Stop_from =>
    have hnf := hcons.stop_key stop_from Stop_from hf
    cases ht : unordered_map.find c.stops_by_names_ stop_to with
    | none =>
      refine ⟨fun _ => rfl, fun _ h => ?_⟩
      exact absurd ht h
    | some Stop_to =>
      have hnt := hcons.stop_key stop_to Stop_to ht
      simp only [hnf, hnt]
      refine ⟨?_, fun _ _ => ⟨?_, ?_, ?_, ?_⟩⟩
      · rintro (h | h)
        · exact absurd (show hasStop c stop_from by simp [hasStop, hf]) h
        · exact absurd (show hasStop c stop_to by simp [hasStop, ht]) h
      · trivial
      · rw [storedDistance_SetDistance, if_pos ⟨rfl, rfl⟩]
      · intro hne
        rw [storedDistance_SetDistance, if_neg (fun h => hne h.1)]
      · intro x y hxy
        rw [storedDistance_SetDistance, if_neg (fun h => hxy ⟨h.1.symm, h.2.symm⟩)]

/-- Scenario S3: a second `SetDistance("A", "B", _)` replaces the 900 stored for
`(A, B)` and stores nothing for `(B, A)`; with an absent stop it throws and changes
nothing. -/
theorem SetDistance_effect_witness :
    storedDistance S3.catalogue "A" "B" = some 900 ∧
    storedDistance (S3.catalogue.SetDistance "A" "B" 1000).2 "A" "B" = some 1000 ∧
    storedDistance (S3.catalogue.SetDistance "A" "B" 1000).2 "B" "A" = none ∧
    S3.catalogue.SetDistance "A" "Z" 5 = (.error .out_of_range, S3.catalogue) :=
  ⟨by decide,
    ((SetDistance_effect S3.catalogue ⟨S3.calls, rfl⟩ "A" "B" 1000).2
      (by decide) (by decide)).2.1,
    (((SetDistance_effect S3.catalogue ⟨S3.calls, rfl⟩ "A" "B" 1000).2
      (by decide) (by decide)).2.2.1 (by decide)).trans (by decide),
    (SetDistance_effect S3.catalogue ⟨S3.calls, rfl⟩ "A" "Z" 5).1 (Or.inr (by decide))⟩

end transport_catalogue

/-! ## The router -/

namespace transport_router

open domain transport_catalogue

/-- Claim C10.  For every string `a`, every router state (initialised or not, over any
catalogue, with or without a stop named `a`) and whatever the shortest-path engine is,
`BuildRoute(a, a)` returns a present route with no edges, whose total time is zero, and
leaves the router as it was. -/
theorem BuildRoute_self (code : RouterCode) (r : TransportRouter) (a : String) :
    ∃ route, (r.BuildRoute code a a).1 = .ok (some route) ∧
      route.length = 0 ∧ TransportRouter.totalTime route = 0 ∧
      (r.BuildRoute code a a).2 = r := by
  refine ⟨[], ?_, rfl, rfl, ?_⟩
  · unfold TransportRouter.BuildRoute
    rw [if_pos rfl]
  · unfold TransportRouter.BuildRoute
    rw [if_pos rfl]

end transport_router

/-! ## The edges BuildEdges adds -/

namespace transport_router

open domain transport_catalogue

namespace TransportRouter

theorem stopAt_natCast (route : Route) (k : Nat) (stop : Stop)
    (h : stopAt route (k : Int) = .ok stop) : route.stops.get? k = some stop := by
  unfold stopAt at h
  rw [if_neg (by omega)] at h
  simp only [Int.toNat_ofNat] at h
  cases hg : route.stops.get? k with
  | none =>
    rw [hg] at h
    exact Except.noConfusion h
  | some stop' =>
    rw [hg] at h
    injection h with h
    rw [h]

theorem stopNameAt_of_get (route : Route) (k : Nat) (stop : Stop)
    (h : route.stops.get? k = some stop) : stopNameAt route k = stop.name := by
  unfold stopNameAt
  rw [h]
  rfl

theorem at_ok {κ ν : Type} [DecidableEq κ] (m : List (κ × ν)) (k : κ) (v : ν)
    (h : unordered_map.at_ m k = .ok v) : unordered_map.find m k = some v := by
  unfold unordered_map.at_ at h
  cases hf : unordered_map.find m k with
  | none =>
    rw [hf] at h
    exact Except.noConfusion h
  | some w =>
    rw [hf] at h
    injection h with h
    rw [h]

theorem MakeEdge_ok (r : TransportRouter) (route : Route) (a b : Nat)
    (edge : graph.Edge RouteWeight) (h : r.MakeEdge route (a : Int) (b : Int) = .ok edge) :
    edge = { from_ := vertexOf r (stopNameAt route a)
             to_ := vertexOf r (stopNameAt route b)
             weight := { bus_name := route.name, span_count := (b : Int) - (a : Int) } } ∧
    unordered_map.find r.id_by_stop_name_ (stopNameAt route a) ≠ none ∧
    unordered_map.find r.id_by_stop_name_ (stopNameAt route b) ≠ none ∧
    a < route.stops.length ∧ b < route.stops.length := by
  unfold MakeEdge at h
  cases ha : stopAt route (a : Int) with
  | error e =>
    rw [ha] at h
    exact Except.noConfusion h
  | ok stop_from =>
    rw [ha] at h
    simp only at h
    cases hida : unordered_map.at_ r.id_by_stop_name_ stop_from.name with
    | error e =>
      rw [hida] at h
      exact Except.noConfusion h
    | ok from_id =>
      rw [hida] at h
      simp only at h
      cases hb : stopAt route (b : Int) with
      | error e =>
        rw [hb] at h
        exact Except.noConfusion h
      | ok stop_to =>
        rw [hb] at h
        simp only at h
        cases hidb : unordered_map.at_ r.id_by_stop_name_ stop_to.name with
        | error e =>
          rw [hidb] at h
          exact Except.noConfusion h
        | ok to_id =>
          rw [hidb] at h
          simp only at h
          injection h with h
          have hga := stopAt_natCast route a stop_from ha
          have hgb := stopAt_natCast route b stop_to hb
          have hfa := at_ok _ _ _ hida
          have hfb := at_ok _ _ _ hidb
          have hna := stopNameAt_of_get route a stop_from hga
          have hnb := stopNameAt_of_get route b stop_to hgb
          refine ⟨?_, ?_, ?_, ?_, ?_⟩
          · rw [← h]
            simp [vertexOf, hna, hnb, hfa, hfb]
          · rw [hna, hfa]
            exact Option.some_ne_none _
          · rw [hnb, hfb]
            exact Option.some_ne_none _
          · exact (List.get?_eq_some.1 hga).1
          · exact (List.get?_eq_some.1 hgb).1

theorem ComputeRouteTime_ok (r : TransportRouter) (route : Route) (a b : Nat) (t : Rat)
    (h : r.ComputeRouteTime route (a : Int) (b : Int) = .ok t) :
    t = rideTime r route a b ∧
    ∃ d, r.catalogue_.GetDistance (stopNameAt route a) (stopNameAt route b) = .ok d := by
  unfold ComputeRouteTime at h
  cases ha : stopAt route (a : Int) with
  | error e =>
    rw [ha] at h
    exact Except.noConfusion h
  | ok stop_from =>
    rw [ha] at h
    simp only at h
    cases hb : stopAt route (b : Int) with
    | error e =>
      rw [hb] at h
      exact Except.noConfusion h
    | ok stop_to =>
      rw [hb] at h
      simp only at h
      cases hd : r.catalogue_.GetDistance stop_from.name stop_to.name with
      | error e =>
        rw [hd] at h
        exact Except.noConfusion h
      | ok d =>
        rw [hd] at h
        simp only at h
        injection h with h
        have hga := stopAt_natCast route a stop_from ha
        have hgb := stopAt_natCast route b stop_to hb
        have hna := stopNameAt_of_get route a stop_from hga
        have hnb := stopNameAt_of_get route b stop_to hgb
        refine ⟨?_, d, ?_⟩
        · rw [← h, rideTime, hna, hnb, distanceValue, hd]
        · rw [hna, hnb, hd]

theorem AddEdge_ok {Weight : Type} (g g' : graph.DirectedWeightedGraph Weight)
    (edge : graph.Edge Weight) (id : Nat) (h : g.AddEdge edge = (.ok id, g')) :
    g'.edges_ = g.edges_ ++ [edge] ∧
    g'.incidence_lists_.length = g.incidence_lists_.length := by
  unfold graph.DirectedWeightedGraph.AddEdge at h
  simp only at h
  split at h
  · injection h with h1 h2
    subst h2
    simp
  · injection h with h1 h2
    exact Except.noConfusion h1

theorem addEdge_ok (r : TransportRouter) (route : Route) (edge_from edge_to time_from time_to : Nat)
    (route_time route_time' : Rat) (g g' : graph.DirectedWeightedGraph RouteWeight)
    (h : BuildEdges.addEdge r route (edge_from : Int) (edge_to : Int) (time_from : Int)
      (time_to : Int) route_time g = (.ok route_time', g')) :
    route_time' = route_time + rideTime r route time_from time_to ∧
    g'.edges_ = g.edges_ ++
      [{ from_ := vertexOf r (stopNameAt route edge_from)
         to_ := vertexOf r (stopNameAt route edge_to)
         weight := { bus_name := route.name
                     span_count := (edge_to : Int) - (edge_from : Int)
                     total_time := route_time + rideTime r route time_from time_to } }] ∧
    g'.incidence_lists_.length = g.incidence_lists_.length ∧
    unordered_map.find r.id_by_stop_name_ (stopNameAt route edge_from) ≠ none ∧
    unordered_map.find r.id_by_stop_name_ (stopNameAt route edge_to) ≠ none ∧
    ∃ d, r.catalogue_.GetDistance (stopNameAt route time_from) (stopNameAt route time_to) =
      .ok d := by
  unfold BuildEdges.addEdge at h
  cases hm : r.MakeEdge route (edge_from : Int) (edge_to : Int) with
  | error e =>
    rw [hm] at h
    simp only at h
    injection h with h1 h2
    exact Except.noConfusion h1
  | ok edge =>
    rw [hm] at h
    simp only at h
    cases hc : r.ComputeRouteTime route (time_from : Int) (time_to : Int) with
    | error e =>
      rw [hc] at h
      simp only at h
      injection h with h1 h2
      exact Except.noConfusion h1
    | ok t =>
      rw [hc] at h
      simp only at h
      obtain ⟨hedge, hfa, hfb, -, -⟩ := MakeEdge_ok r route edge_from edge_to edge hm
      obtain ⟨ht, hdist⟩ := ComputeRouteTime_ok r route time_from time_to t hc
      cases ha : g.AddEdge
          { edge with weight := { edge.weight with total_time := route_time + t } } with
      | mk res g1 =>
        rw [ha] at h
        cases res with
        | error e =>
          simp only at h
          injection h with h1 h2
          exact Except.noConfusion h1
        | ok id =>
          simp only at h
          injection h with h1 h2
          injection h1 with h1
          subst h2
          obtain ⟨he, hl⟩ := AddEdge_ok _ _ _ _ ha
          refine ⟨?_, ?_, hl, hfa, hfb, hdist⟩
          · rw [← h1, ht]
          · rw [he, hedge, ht]

end TransportRouter

end transport_router

namespace transport_router

open domain transport_catalogue

namespace TransportRouter

theorem forwardTime_self (r : TransportRouter) (route : Route) (i : Nat) :
    forwardTime r route i i = (r.settings_.wait_time : Rat) := by
  simp [forwardTime]

theorem forwardTime_succ (r : TransportRouter) (route : Route) (i j : Nat) (h : i < j) :
    forwardTime r route i j = forwardTime r route i (j - 1) + rideTime r route (j - 1) j := by
  unfold forwardTime
  have h1 : j - i = (j - 1 - i) + 1 := by omega
  have h2 : i + 1 * (j - 1 - i) = j - 1 := by omega
  have h3 : j - 1 + 1 = j := by omega
  rw [h1, List.range'_concat, List.map_append, List.sum_append, h2]
  simp only [List.map_cons, List.map_nil, List.sum_cons, List.sum_nil, add_zero, h3]
  ring

theorem backwardTime_self (r : TransportRouter) (route : Route) (p : Nat) :
    backwardTime r route p p = (r.settings_.wait_time : Rat) := by
  simp [backwardTime]

theorem backwardTime_pred (r : TransportRouter) (route : Route) (p q : Nat) (h : q < p) :
    backwardTime r route p q = backwardTime r route p (q + 1) + rideTime r route (q + 1) q := by
  unfold backwardTime
  have h1 : p - q = (p - (q + 1)) + 1 := by omega
  rw [h1, List.range'_succ]
  simp only [List.map_cons, List.sum_cons]
  ring

/-- When the inner loop of `BuildEdges` returns, it has appended the edges of the pairs
`(i, j)` in order, and the vertex lookups of `MakeEdge` have succeeded. -/
theorem loop_j_edges (r : TransportRouter) (route : Route) (n i len : Nat) :
    ∀ (j0 : Nat) (rt rtb : Rat) (g g' : graph.DirectedWeightedGraph RouteWeight),
      i < j0 → (len = 0 ∨ j0 + len ≤ n) →
      rt = forwardTime r route i (j0 - 1) →
      (route.route_type = RouteType.LINEAR → rtb = backwardTime r route (n - 1 - i) (n - j0)) →
      BuildEdges.loop_j r route (n : Int) (i : Int) ((List.range' j0 len).map Int.ofNat)
        rt rtb g = (.ok (), g') →
      g'.edges_ = g.edges_ ++ (List.range' j0 len).flatMap (edgesOfPair r route n i) ∧
      g'.incidence_lists_.length = g.incidence_lists_.length ∧
      ∀ j ∈ List.range' j0 len,
        unordered_map.find r.id_by_stop_name_ (stopNameAt route i) ≠ none ∧
        unordered_map.find r.id_by_stop_name_ (stopNameAt route j) ≠ none ∧
        ∃ d, r.catalogue_.GetDistance (stopNameAt route (j - 1)) (stopNameAt route j) =
          .ok d := by
  induction len with
  | zero =>
    intro j0 rt rtb g g' _ _ _ _ h
    simp only [List.range'_zero, List.map_nil, BuildEdges.loop_j] at h
    injection h with h1 h2
    subst h2
    simp
  | succ len ih =>
    intro j0 rt rtb g g' hij hn hrt hrtb h
    have hn' : j0 + (len + 1) ≤ n := by
      rcases hn with hn | hn
      · omega
      · exact hn
    rw [List.range'_succ] at h ⊢
    simp only [List.map_cons] at h
    unfold BuildEdges.loop_j at h
    have hc1 : (Int.ofNat j0 - 1 : Int) = ((j0 - 1 : Nat) : Int) := by
      simp only [Int.ofNat_eq_coe]
      omega
    have hc0 : (Int.ofNat j0 : Int) = ((j0 : Nat) : Int) := rfl
    rw [hc1, hc0] at h
    cases hf : BuildEdges.addEdge r route (i : Int) (j0 : Int) ((j0 - 1 : Nat) : Int)
        (j0 : Int) rt g with
    | mk res g1 =>
      rw [hf] at h
      cases res with
      | error e =>
        simp only at h
        injection h with h1 h2
        exact Except.noConfusion h1
      | ok rt' =>
        simp only at h
        obtain ⟨hrt', he1, hl1, hvi, hvj, hvd⟩ :=
          addEdge_ok r route i j0 (j0 - 1) j0 rt rt' g g1 hf
        have hrt'' : rt' = forwardTime r route i (j0 + 1 - 1) := by
          rw [hrt', hrt, Nat.add_sub_cancel, forwardTime_succ r route i j0 hij]
        have hfe : ({ from_ := vertexOf r (stopNameAt route i)
                      to_ := vertexOf r (stopNameAt route j0)
                      weight := { bus_name := route.name
                                  span_count := (j0 : Int) - (i : Int)
                                  total_time := rt + rideTime r route (j0 - 1) j0 } } :
            graph.Edge RouteWeight) = forwardEdge r route i j0 := by
          unfold forwardEdge
          rw [forwardTime_succ r route i j0 hij, hrt]
        rw [hfe] at he1
        by_cases ht : route.route_type = RouteType.LINEAR
        · rw [if_pos ht] at h
          have hb1 : ((n : Int) - 1 - (i : Int)) = ((n - 1 - i : Nat) : Int) := by omega
          have hb2 : ((n : Int) - 1 - (j0 : Int)) = ((n - 1 - j0 : Nat) : Int) := by omega
          have hb3 : (((n - 1 - j0 : Nat) : Int) + 1) = ((n - 1 - j0 + 1 : Nat) : Int) := by
            omega
          rw [hb1, hb2, hb3] at h
          cases hbk : BuildEdges.addEdge r route ((n - 1 - i : Nat) : Int)
              ((n - 1 - j0 : Nat) : Int) ((n - 1 - j0 + 1 : Nat) : Int)
              ((n - 1 - j0 : Nat) : Int) rtb g1 with
          | mk res2 g2 =>
            rw [hbk] at h
            cases res2 with
            | error e =>
              simp only at h
              injection h with h1 h2
              exact Except.noConfusion h1
            | ok rtb' =>
              simp only at h
              obtain ⟨hrtb', he2, hl2, -, -, -⟩ :=
                addEdge_ok r route (n - 1 - i) (n - 1 - j0) (n - 1 - j0 + 1) (n - 1 - j0)
                  rtb rtb' g1 g2 hbk
              have hq : n - 1 - j0 + 1 = n - j0 := by omega
              have hrtb0 := hrtb ht
              have hbt : rtb + rideTime r route (n - 1 - j0 + 1) (n - 1 - j0) =
                  backwardTime r route (n - 1 - i) (n - 1 - j0) := by
                rw [backwardTime_pred r route (n - 1 - i) (n - 1 - j0) (by omega), hq, hrtb0]
              have hrtb'' : route.route_type = RouteType.LINEAR →
                  rtb' = backwardTime r route (n - 1 - i) (n - (j0 + 1)) := by
                intro _
                have : n - (j0 + 1) = n - 1 - j0 := by omega
                rw [this, hrtb', hbt]
              rw [hbt] at he2
              obtain ⟨he3, hl3, hv3⟩ := ih (j0 + 1) rt' rtb' g2 g' (by omega)
                (by omega) hrt'' hrtb'' h
              refine ⟨?_, ?_, ?_⟩
              · rw [he3, he2, he1]
                simp only [List.flatMap_cons, edgesOfPair, if_pos ht, backwardEdge,
                  List.append_assoc, List.cons_append, List.nil_append, List.singleton_append]
              · rw [hl3, hl2, hl1]
              · intro j hj
                rw [List.mem_cons] at hj
                rcases hj with rfl | hj
                · exact ⟨hvi, hvj, hvd⟩
                · exact hv3 j hj
        · rw [if_neg ht] at h
          have hrtb'' : route.route_type = RouteType.LINEAR →
              rtb = backwardTime r route (n - 1 - i) (n - (j0 + 1)) := fun h => absurd h ht
          obtain ⟨he3, hl3, hv3⟩ := ih (j0 + 1) rt' rtb g1 g' (by omega)
            (by omega) hrt'' hrtb'' h
          refine ⟨?_, ?_, ?_⟩
          · rw [he3, he1]
            simp only [List.flatMap_cons, edgesOfPair, if_neg ht, List.append_assoc,
              List.cons_append, List.nil_append, List.singleton_append]
          · rw [hl3, hl1]
          · intro j hj
            rw [List.mem_cons] at hj
            rcases hj with rfl | hj
            · exact ⟨hvi, hvj, hvd⟩
            · exact hv3 j hj

end TransportRouter

end transport_router

namespace transport_router

open domain transport_catalogue

namespace TransportRouter

/-- The edges of the passes `j = i + 1 .. n − 1` of the inner loop. -/
theorem loop_i_edges (r : TransportRouter) (route : Route) (n : Nat) (is_ : List Nat) :
    ∀ (g g' : graph.DirectedWeightedGraph RouteWeight),
      BuildEdges.loop_i r route (n : Int) (is_.map Int.ofNat) g = (.ok (), g') →
      g'.edges_ = g.edges_ ++ is_.flatMap (fun i =>
        (List.range' (i + 1) (n - (i + 1))).flatMap (edgesOfPair r route n i)) ∧
      g'.incidence_lists_.length = g.incidence_lists_.length ∧
      ∀ i ∈ is_, ∀ j ∈ List.range' (i + 1) (n - (i + 1)),
        unordered_map.find r.id_by_stop_name_ (stopNameAt route i) ≠ none ∧
        unordered_map.find r.id_by_stop_name_ (stopNameAt route j) ≠ none ∧
        ∃ d, r.catalogue_.GetDistance (stopNameAt route (j - 1)) (stopNameAt route j) =
          .ok d := by
  induction is_ with
  | nil =>
    intro g g' h
    simp only [List.map_nil, BuildEdges.loop_i] at h
    injection h with h1 h2
    subst h2
    simp
  | cons i rest ih =>
    intro g g' h
    simp only [List.map_cons] at h
    unfold BuildEdges.loop_i at h
    have hc1 : (Int.ofNat i + 1).toNat = i + 1 := by
      simp only [Int.ofNat_eq_coe]
      omega
    have hc2 : ((n : Int) - (Int.ofNat i + 1)).toNat = n - (i + 1) := by
      simp only [Int.ofNat_eq_coe]
      omega
    simp only [hc1, hc2] at h
    cases hj : BuildEdges.loop_j r route (n : Int) (Int.ofNat i)
        ((List.range' (i + 1) (n - (i + 1))).map Int.ofNat)
        (r.settings_.wait_time : Rat) (r.settings_.wait_time : Rat) g with
    | mk res g1 =>
      rw [hj] at h
      cases res with
      | error e =>
        simp only at h
        injection h with h1 h2
        exact Except.noConfusion h1
      | ok u =>
        simp only at h
        obtain ⟨he1, hl1, hv1⟩ := loop_j_edges r route n i (n - (i + 1)) (i + 1)
          (r.settings_.wait_time : Rat) (r.settings_.wait_time : Rat) g g1 (by omega)
          (by omega)
          (by rw [Nat.add_sub_cancel, forwardTime_self])
          (by
            intro _
            have hq : n - (i + 1) = n - 1 - i := by omega
            rw [hq, backwardTime_self])
          hj
        obtain ⟨he2, hl2, hv2⟩ := ih g1 g' h
        refine ⟨?_, ?_, ?_⟩
        · rw [he2, he1, List.flatMap_cons, List.append_assoc]
        · rw [hl2, hl1]
        · intro i' hi'
          rw [List.mem_cons] at hi'
          rcases hi' with rfl | hi'
          · exact hv1
          · exact hv2 i' hi'

/-- When the loop of `BuildEdges` over the routes returns, it has appended the edges of
every route, in order. -/
theorem loop_edges (r : TransportRouter) (routes : List (String × Route)) :
    ∀ (g g' : graph.DirectedWeightedGraph RouteWeight),
      BuildEdges.loop r routes g = (.ok (), g') →
      g'.edges_ = g.edges_ ++ routes.flatMap (fun p => edgesOfRoute r p.2) ∧
      g'.incidence_lists_.length = g.incidence_lists_.length ∧
      ∀ p ∈ routes, ∀ i j, i < j → j < p.2.stops.length →
        unordered_map.find r.id_by_stop_name_ (stopNameAt p.2 i) ≠ none ∧
        unordered_map.find r.id_by_stop_name_ (stopNameAt p.2 j) ≠ none ∧
        ∃ d, r.catalogue_.GetDistance (stopNameAt p.2 (j - 1)) (stopNameAt p.2 j) = .ok d := by
  induction routes with
  | nil =>
    intro g g' h
    simp only [BuildEdges.loop] at h
    injection h with h1 h2
    subst h2
    simp
  | cons p rest ih =>
    intro g g' h
    obtain ⟨name, route⟩ := p
    unfold BuildEdges.loop at h
    simp only at h
    have hc : (((route.stops.length : Nat) : Int) - 1).toNat = route.stops.length - 1 := by
      omega
    rw [hc] at h
    cases hi : BuildEdges.loop_i r route ((route.stops.length : Nat) : Int)
        ((List.range (route.stops.length - 1)).map Int.ofNat) g with
    | mk res g1 =>
      rw [hi] at h
      cases res with
      | error e =>
        simp only at h
        injection h with h1 h2
        exact Except.noConfusion h1
      | ok u =>
        simp only at h
        obtain ⟨he1, hl1, hv1⟩ := loop_i_edges r route route.stops.length _ g g1 hi
        obtain ⟨he2, hl2, hv2⟩ := ih g1 g' h
        refine ⟨?_, ?_, ?_⟩
        · rw [he2, he1, List.flatMap_cons, List.append_assoc]
          rfl
        · rw [hl2, hl1]
        · intro p hp
          rw [List.mem_cons] at hp
          rcases hp with rfl | hp
          · intro i j hij hj
            have hj' : j < route.stops.length := hj
            exact hv1 i (List.mem_range.2 (by omega)) j
              (List.mem_range'_1.2 ⟨by omega, by omega⟩)
          · exact hv2 p hp

/-- When `BuildEdges` returns, the edge list of the graph is the former one followed by
the edges of every route of the catalogue, and nothing else of the router has changed. -/
theorem BuildEdges_edges (r : TransportRouter) (h : r.BuildEdges.1 = .ok ()) :
    r.BuildEdges.2.graph_.edges_ =
      r.graph_.edges_ ++ r.catalogue_.routes_by_names_.flatMap (fun p => edgesOfRoute r p.2) ∧
    r.BuildEdges.2 = { r with graph_ := r.BuildEdges.2.graph_ } ∧
    ∀ p ∈ r.catalogue_.routes_by_names_, ∀ i j, i < j → j < p.2.stops.length →
      unordered_map.find r.id_by_stop_name_ (stopNameAt p.2 i) ≠ none ∧
      unordered_map.find r.id_by_stop_name_ (stopNameAt p.2 j) ≠ none ∧
      ∃ d, r.catalogue_.GetDistance (stopNameAt p.2 (j - 1)) (stopNameAt p.2 j) = .ok d := by
  unfold BuildEdges at h ⊢
  simp only at h ⊢
  cases hl : BuildEdges.loop r r.catalogue_.routes_by_names_ r.graph_ with
  | mk res g' =>
    rw [hl] at h
    simp only at h
    subst h
    obtain ⟨he, -, hv⟩ := loop_edges r _ _ _ hl
    exact ⟨he, trivial, hv⟩

theorem forwardEdge_mem_edgesOfRoute (r : TransportRouter) (route : Route) (i j : Nat)
    (hij : i < j) (hj : j < route.stops.length) :
    forwardEdge r route i j ∈ edgesOfRoute r route := by
  unfold edgesOfRoute
  rw [List.mem_flatMap]
  refine ⟨i, List.mem_range.2 (by omega), ?_⟩
  rw [List.mem_flatMap]
  refine ⟨j, List.mem_range'_1.2 ⟨by omega, by omega⟩, ?_⟩
  unfold edgesOfPair
  exact List.mem_cons_self _ _

end TransportRouter

end transport_router

namespace transport_router

open domain transport_catalogue

namespace TransportRouter

theorem length_flatMap_const {α β : Type} (l : List α) (f : α → List β) (c : Nat)
    (h : ∀ x, (f x).length = c) : (l.flatMap f).length = l.length * c := by
  induction l with
  | nil => simp
  | cons x xs ih =>
    rw [List.flatMap_cons, List.length_append, ih, h, List.length_cons]
    ring

theorem sum_range_sub (m k : Nat) (hk : k ≤ m) :
    2 * ((List.range k).map (fun i => m - i)).sum + k * k = k * (2 * m + 1) := by
  induction k with
  | zero => simp
  | succ k ih =>
    have ih' := ih (by omega)
    obtain ⟨d, rfl⟩ : ∃ d, m = k + 1 + d := ⟨m - (k + 1), by omega⟩
    rw [List.range_succ, List.map_append, List.sum_append]
    simp only [List.map_cons, List.map_nil, List.sum_cons, List.sum_nil, add_zero]
    have hd : k + 1 + d - k = d + 1 := by omega
    rw [hd]
    nlinarith [ih']

theorem sum_map_two_mul {α : Type} (l : List α) (f : α → Nat) :
    (l.map (fun x => 2 * f x)).sum = 2 * (l.map f).sum := by
  induction l with
  | nil => simp
  | cons x xs ih =>
    simp only [List.map_cons, List.sum_cons, ih]
    ring

theorem edgesOfPair_length (r : TransportRouter) (route : Route) (n i j : Nat) :
    (edgesOfPair r route n i j).length =
      if route.route_type = RouteType.LINEAR then 2 else 1 := by
  unfold edgesOfPair
  split <;> simp

theorem edgesOfRoute_length (r : TransportRouter) (route : Route) :
    (edgesOfRoute r route).length = edgeCount route := by
  have hsum := sum_range_sub (route.stops.length - 1) (route.stops.length - 1) (le_refl _)
  have hmap : ((List.range (route.stops.length - 1)).map
      (fun i => route.stops.length - (i + 1))) =
      ((List.range (route.stops.length - 1)).map (fun i => route.stops.length - 1 - i)) := by
    apply List.map_congr_left
    intro i _
    omega
  have hmul : route.stops.length * (route.stops.length - 1) =
      (route.stops.length - 1) * (route.stops.length - 1) + (route.stops.length - 1) := by
    cases route.stops.length with
    | zero => rfl
    | succ n =>
      simp only [Nat.add_sub_cancel]
      ring
  unfold edgesOfRoute edgeCount
  rw [List.length_flatMap]
  by_cases ht : route.route_type = RouteType.LINEAR
  · have hin : (List.length ∘ fun i =>
        (List.range' (i + 1) (route.stops.length - (i + 1))).flatMap
          (edgesOfPair r route route.stops.length i)) =
        fun i => 2 * (route.stops.length - (i + 1)) := by
      funext i
      simp only [Function.comp]
      rw [length_flatMap_const _ _ 2 (fun j => by rw [edgesOfPair_length, if_pos ht]),
        List.length_range']
      ring
    rw [hin, if_pos ht, sum_map_two_mul, hmap]
    nlinarith [hsum, hmul]
  · have hin : (List.length ∘ fun i =>
        (List.range' (i + 1) (route.stops.length - (i + 1))).flatMap
          (edgesOfPair r route route.stops.length i)) =
        fun i => route.stops.length - (i + 1) := by
      funext i
      simp only [Function.comp]
      rw [length_flatMap_const _ _ 1 (fun j => by rw [edgesOfPair_length, if_neg ht]),
        List.length_range']
      ring
    rw [hin, if_neg ht, hmap]
    have h2 : 2 * ((List.range (route.stops.length - 1)).map
        (fun i => route.stops.length - 1 - i)).sum =
        route.stops.length * (route.stops.length - 1) := by
      nlinarith [hsum, hmul]
    omega

end TransportRouter

end transport_router

namespace transport_router

open domain transport_catalogue

/-- Claim C11.  When `BuildEdges` returns, for every route `R` of the catalogue and every
index pair `i < j` of its stops the graph has an edge from the vertex of `s_i` to the
vertex of `s_j` with `bus_name` the name of `R`, `span_count = j − i` and
`total_time = wait_time + Σ_{k = i .. j − 1} GetDistance(s_k, s_{k+1}) / velocity`, every
`GetDistance` of the sum having returned. -/
theorem BuildEdges_forward_edge (r : TransportRouter) (hok : r.BuildEdges.1 = .ok ())
    (name : String) (route : Route) (hmem : (name, route) ∈ r.catalogue_.routes_by_names_)
    (i j : Nat) (hij : i < j) (hj : j < route.stops.length) :
    ∃ edge ∈ r.BuildEdges.2.graph_.edges_,
      unordered_map.find r.id_by_stop_name_ (stopNameAt route i) = some edge.from_ ∧
      unordered_map.find r.id_by_stop_name_ (stopNameAt route j) = some edge.to_ ∧
      edge.weight.bus_name = route.name ∧
      edge.weight.span_count = (j : Int) - (i : Int) ∧
      edge.weight.total_time = (r.settings_.wait_time : Rat) +
        ((List.range' i (j - i)).map (fun k =>
          (distanceValue r.catalogue_ (stopNameAt route k) (stopNameAt route (k + 1)) : Rat) /
            r.settings_.velocity)).sum ∧
      ∀ k ∈ List.range' i (j - i), ∃ d,
        r.catalogue_.GetDistance (stopNameAt route k) (stopNameAt route (k + 1)) = .ok d := by
  obtain ⟨hedges, -, hv⟩ := TransportRouter.BuildEdges_edges r hok
  refine ⟨forwardEdge r route i j, ?_, ?_, ?_, rfl, rfl, rfl, ?_⟩
  · rw [hedges]
    apply List.mem_append_right
    rw [List.mem_flatMap]
    exact ⟨(name, route), hmem, TransportRouter.forwardEdge_mem_edgesOfRoute r route i j hij hj⟩
  · have h1 := (hv (name, route) hmem i j hij hj).1
    cases hf : unordered_map.find r.id_by_stop_name_ (stopNameAt route i) with
    | none => exact absurd hf h1
    | some v => simp [forwardEdge, vertexOf, hf]
  · have h1 := (hv (name, route) hmem i j hij hj).2.1
    cases hf : unordered_map.find r.id_by_stop_name_ (stopNameAt route j) with
    | none => exact absurd hf h1
    | some v => simp [forwardEdge, vertexOf, hf]
  · intro k hk
    rw [List.mem_range'_1] at hk
    exact (hv (name, route) hmem k (k + 1) (by omega) (show k + 1 < route.stops.length by
      omega)).2.2

end transport_router

namespace transport_router

open domain transport_catalogue

/-- Scenario S4: with a wait of 6 minutes, 2000/3 metres per minute and 900 metres from
`A` to `B`, the edge of the pair `(0, 1)` of the route 828 goes from the vertex of `A` to
the vertex of `B`, spans 1 segment and takes 6 + 1.35 = 7.35 minutes. -/
theorem BuildEdges_forward_edge_witness :
    S4.router.BuildEdges.1 = .ok () ∧
    ∃ edge ∈ S4.router.BuildEdges.2.graph_.edges_,
      unordered_map.find S4.router.id_by_stop_name_ "A" = some edge.from_ ∧
      unordered_map.find S4.router.id_by_stop_name_ "B" = some edge.to_ ∧
      edge.weight.bus_name = "828" ∧
      edge.weight.span_count = 1 ∧
      edge.weight.total_time = 147 / 20 := by
  refine ⟨by decide, ?_⟩
  obtain ⟨edge, hmem, hf, ht, hb, hs, htime, -⟩ :=
    BuildEdges_forward_edge S4.router (by decide) "828" S4.route828 (by decide) 0 1
      (by decide) (by decide)
  refine ⟨edge, hmem, hf, ht, hb, hs, ?_⟩
  have h1 : S4.router.settings_ = S4.settings := rfl
  have h2 : S4.router.catalogue_ = S3.catalogue := rfl
  have h3 : distanceValue S3.catalogue (stopNameAt S4.route828 0)
      (stopNameAt S4.route828 (0 + 1)) = 900 := by decide
  rw [htime, h1, h2]
  simp only [Nat.sub_zero, List.range'_one, List.map_cons, List.map_nil, List.sum_cons,
    List.sum_nil, h3, S4.settings]
  norm_num

/-- Claim C12 fails on the code.  In scenario S4 the LINEAR route 828 over `[A, B]` gets,
for its reverse traversal from index 1 to index 0, an edge from the vertex of `B` to the
vertex of `A` whose `span_count` is −1, not 1: `MakeEdge` computes
`stop_to_index − stop_from_index`. -/
theorem BuildEdges_reverse_span_count_negative :
    S4.router.BuildEdges.1 = .ok () ∧
    (S4.router.BuildEdges.2.graph_.edges_.map
      (fun edge => (edge.from_, edge.to_, edge.weight.bus_name, edge.weight.span_count))) =
      [(0, 1, "828", 1), (1, 0, "828", -1), (0, 1, "256", 1), (0, 0, "256", 2),
        (1, 0, "256", 1)] := by
  decide

/-- Claim C13.  When `BuildEdges` returns, the edge list is the former one followed by one
block of edges per route of the catalogue; the block of a route with `n` stops has
`n(n − 1)/2` edges if the route is CIRCLE and `n(n − 1)` edges if it is LINEAR; and the
pair `(0, n − 1)` of a route whose first and last stops have the same name has its edge,
from a vertex to itself. -/
theorem BuildEdges_edge_count (r : TransportRouter) (hok : r.BuildEdges.1 = .ok ()) :
    r.BuildEdges.2.graph_.edges_ =
      r.graph_.edges_ ++ r.catalogue_.routes_by_names_.flatMap (fun p => edgesOfRoute r p.2) ∧
    (∀ route : Route,
      (route.route_type = RouteType.CIRCLE →
        (edgesOfRoute r route).length = route.stops.length * (route.stops.length - 1) / 2) ∧
      (route.route_type = RouteType.LINEAR →
        (edgesOfRoute r route).length = route.stops.length * (route.stops.length - 1))) ∧
    r.BuildEdges.2.graph_.edges_.length = r.graph_.edges_.length +
      (r.catalogue_.routes_by_names_.map (fun p =>
        if p.2.route_type = RouteType.LINEAR then p.2.stops.length * (p.2.stops.length - 1)
        else p.2.stops.length * (p.2.stops.length - 1) / 2)).sum ∧
    (∀ name route, (name, route) ∈ r.catalogue_.routes_by_names_ →
      2 ≤ route.stops.length →
      stopNameAt route 0 = stopNameAt route (route.stops.length - 1) →
      ∃ edge ∈ edgesOfRoute r route, edge ∈ r.BuildEdges.2.graph_.edges_ ∧
        edge.from_ = edge.to_ ∧ edge.weight.bus_name = route.name ∧
        edge.weight.span_count = (route.stops.length : Int) - 1) := by
  obtain ⟨hedges, -, -⟩ := TransportRouter.BuildEdges_edges r hok
  refine ⟨hedges, ?_, ?_, ?_⟩
  · intro route
    constructor
    · intro ht
      rw [TransportRouter.edgesOfRoute_length, edgeCount, if_neg (by rw [ht]; decide)]
    · intro ht
      rw [TransportRouter.edgesOfRoute_length, edgeCount, if_pos ht]
  · rw [hedges, List.length_append, List.length_flatMap]
    congr 2
    apply List.map_congr_left
    intro p _
    simp only [Function.comp, TransportRouter.edgesOfRoute_length, edgeCount]
  · intro name route hmem hn hsame
    have hin := TransportRouter.forwardEdge_mem_edgesOfRoute r route 0
      (route.stops.length - 1) (by omega) (by omega)
    refine ⟨forwardEdge r route 0 (route.stops.length - 1), hin, ?_, ?_, rfl, ?_⟩
    · rw [hedges]
      apply List.mem_append_right
      rw [List.mem_flatMap]
      exact ⟨(name, route), hmem, hin⟩
    · simp only [forwardEdge, hsame]
    · simp only [forwardEdge]
      omega

/-- Scenario S4: the CIRCLE route 256 over `[A, B, A]` gets 3 edges, one of them from the
vertex of `A` to itself; the LINEAR route 828 over `[A, B]` gets 2. -/
theorem BuildEdges_edge_count_witness :
    S4.router.BuildEdges.1 = .ok () ∧
    S4.router.BuildEdges.2.graph_.edges_.length = 5 ∧
    (edgesOfRoute S4.router S4.route828).length = 2 ∧
    ∃ edge ∈ S4.router.BuildEdges.2.graph_.edges_,
      edge.from_ = edge.to_ ∧ edge.weight.bus_name = "256" :=
  ⟨by decide,
    ((BuildEdges_edge_count S4.router (by decide)).2.2.1).trans (by decide),
    ((BuildEdges_edge_count S4.router (by decide)).2.1 S4.route828).2 rfl,
    by
      obtain ⟨edge, -, hmem, hsame, hname, -⟩ :=
        (BuildEdges_edge_count S4.router (by decide)).2.2.2 "256"
          ⟨"256", RouteType.CIRCLE, [⟨"A", ⟨0, 0⟩⟩, ⟨"B", ⟨0, 1⟩⟩, ⟨"A", ⟨0, 0⟩⟩]⟩
          (by decide) (by decide) (by decide)
      exact ⟨edge, hmem, hsame, hname⟩⟩

end transport_router

/-! ## The request adapter -/

namespace json_reader

open domain transport_catalogue transport_router

theorem LoadRouteBuildAnswer_loop_eq (wait_time : Int) (route : List RouterEdge)
    (total_time : Rat) (items : List json.Node) :
    LoadRouteBuildAnswer.loop wait_time route total_time items =
      (total_time + (route.map (fun edge => edge.total_time)).sum,
        items ++ route.flatMap (fun edge =>
          [json.Node.map (waitElem wait_time edge), json.Node.map (rideElem wait_time edge)])) := by
  induction route generalizing total_time items with
  | nil => simp [LoadRouteBuildAnswer.loop]
  | cons edge rest ih =>
    unfold LoadRouteBuildAnswer.loop
    rw [ih]
    simp only [List.map_cons, List.sum_cons, List.flatMap_cons, List.append_assoc,
      List.cons_append, List.nil_append, add_assoc]

/-- Claim C15 fails on the code.  In scenario S6 the request `{type: Route, id: 1,
from: A, to: Z}` is a valid Route request and `Z` is not a stop of the catalogue;
`LoadRouteBuildAnswer` has no `try` around `BuildRoute`, the `std::out_of_range` of the
router leaves it and no response is produced. -/
theorem LoadRouteBuildAnswer_absent_stop_throws (ext : Collaborators) :
    IsRouteBuildRequest (json.Node.map S6.routeRequest) = true ∧
    ¬ hasStop S3.catalogue "Z" ∧
    (LoadRouteBuildAnswer ext S6.routeRequest S6.router).1 = .error .out_of_range ∧
    (LoadRouteBuildAnswer ext S6.routeRequest S6.router).1 ≠ .ok (ErrorMessage 1) := by
  refine ⟨by decide, by decide, rfl, ?_⟩
  intro h
  have h' : (LoadRouteBuildAnswer ext S6.routeRequest S6.router).1 = .error .out_of_range := rfl
  rw [h'] at h
  exact Except.noConfusion h

/-- Claim C16.  For a request with an int `id` and strings `from` and `to`: when
`BuildRoute` returns a route `e_1 .. e_n`, the response has the `request_id`, as
`total_time` the sum of the `total_time` of the edges, and as `items` the `2n` items
`Wait(e_1), Bus(e_1), .., Wait(e_n), Bus(e_n)`, where `Wait(e)` has `stop_name`
`e.stop_from` and `time` `wait_time`, and `Bus(e)` has `bus` `e.bus_name`, `span_count`
`e.span_count` and `time` `e.total_time − wait_time`; the `total_time` is the sum of the
times of all the items.  When `BuildRoute` returns no route the response is the error
message. -/
theorem LoadRouteBuildAnswer_shape (ext : Collaborators) (request : List (String × json.Node))
    (router : TransportRouter) (id : Int) (stop_from stop_to : String)
    (hid : intAt request "id" = .ok id)
    (hfrom : stringAt request "from" = .ok stop_from)
    (hto : stringAt request "to" = .ok stop_to) :
    (∀ route router',
      router.BuildRoute ext.router_code stop_from stop_to = (.ok (some route), router') →
      LoadRouteBuildAnswer ext request router =
        (.ok [("request_id", json.Node.int id),
              ("total_time", json.Node.double (route.map (fun edge => edge.total_time)).sum),
              ("items", json.Node.array (route.flatMap (fun edge =>
                [json.Node.map
                  [("type", json.Node.string "Wait"),
                   ("stop_name", json.Node.string edge.stop_from),
                   ("time", json.Node.int router'.settings_.wait_time)],
                 json.Node.map
                  [("type", json.Node.string "Bus"),
                   ("bus", json.Node.string edge.bus_name),
                   ("span_count", json.Node.int edge.span_count),
                   ("time", json.Node.double
                     (edge.total_time - (router'.settings_.wait_time : Rat)))]])))],
          router') ∧
      (route.flatMap (fun edge =>
        [json.Node.map (waitElem router'.settings_.wait_time edge),
         json.Node.map (rideElem router'.settings_.wait_time edge)])).length =
        2 * route.length ∧
      (route.map (fun edge => (router'.settings_.wait_time : Rat) +
        (edge.total_time - (router'.settings_.wait_time : Rat)))).sum =
        (route.map (fun edge => edge.total_time)).sum) ∧
    (∀ router',
      router.BuildRoute ext.router_code stop_from stop_to = (.ok none, router') →
      LoadRouteBuildAnswer ext request router = (.ok (ErrorMessage id), router')) := by
  constructor
  · intro route router' hbuild
    refine ⟨?_, ?_, ?_⟩
    · unfold LoadRouteBuildAnswer
      rw [hid, hfrom, hto]
      simp only [hbuild, LoadRouteBuildAnswer_loop_eq, zero_add, List.nil_append]
      rfl
    · rw [TransportRouter.length_flatMap_const route (fun edge =>
        [json.Node.map (waitElem router'.settings_.wait_time edge),
         json.Node.map (rideElem router'.settings_.wait_time edge)]) 2 (fun _ => rfl)]
      ring
    · congr 1
      apply List.map_congr_left
      intro edge _
      ring
  · intro router' hbuild
    unfold LoadRouteBuildAnswer
    rw [hid, hfrom, hto]
    simp only [hbuild]

/-- Scenario S6: the route from `A` to `B` is the one edge of the bus 828, of 7 minutes
with a wait of 6; the response has the items `Wait(A, 6)` and `Bus(828, 1, 7 − 6)` and
the total time 7. -/
theorem LoadRouteBuildAnswer_shape_witness :
    LoadRouteBuildAnswer S6.collaborators S6.routeRequestAB S6.loadedRouter =
      (.ok [("request_id", json.Node.int 3),
            ("total_time", json.Node.double
              (([{ bus_name := "828", stop_from := "A", stop_to := "B", span_count := 1,
                   total_time := 7 }] : List RouterEdge).map (fun edge => edge.total_time)).sum),
            ("items", json.Node.array
              [json.Node.map
                [("type", json.Node.string "Wait"),
                 ("stop_name", json.Node.string "A"),
                 ("time", json.Node.int 6)],
               json.Node.map
                [("type", json.Node.string "Bus"),
                 ("bus", json.Node.string "828"),
                 ("span_count", json.Node.int 1),
                 ("time", json.Node.double (7 - ((6 : Int) : Rat)))]])],
        S6.loadedRouter) :=
  ((LoadRouteBuildAnswer_shape S6.collaborators S6.routeRequestAB S6.loadedRouter 3 "A" "B"
    rfl rfl rfl).1
      [{ bus_name := "828", stop_from := "A", stop_to := "B", span_count := 1,
         total_time := 7 }] S6.loadedRouter rfl).1

/-- Claim C17 fails on the code, by the defect of C15.  In scenario S6 the array holds a
valid Route request whose `to` is not a stop, then a valid Stop request; `LoadAnswers`
throws `std::out_of_range` and returns no response, neither for the first request nor for
the second. -/
theorem LoadAnswers_absent_stop_throws (ext : Collaborators)
    (render_settings : renderer.RenderSettings) :
    IsRouteBuildRequest (json.Node.map S6.routeRequest) = true ∧
    IsStopRequest (json.Node.map S6.stopRequest) = true ∧
    (LoadAnswers ext [json.Node.map S6.routeRequest, json.Node.map S6.stopRequest]
      S3.catalogue render_settings S6.router).1 = .error .out_of_range ∧
    (LoadAnswers ext [json.Node.map S6.stopRequest] S3.catalogue render_settings
      S6.router).1 =
      .ok [json.Node.map [("request_id", json.Node.int 2),
        ("buses", json.Node.array [json.Node.string "256", json.Node.string "828"])]] :=
  ⟨by decide, by decide, rfl, rfl⟩

end json_reader

/-! ## The binary codec -/

namespace serialize

open domain transport_catalogue

theorem LoadRenderSettings_none (s : Serializator) (settings : Option renderer.RenderSettings)
    (h : s.proto_catalogue_.render_settings = none) :
    s.LoadRenderSettings settings = settings := by
  unfold Serializator.LoadRenderSettings
  rw [h]

theorem LoadStops_loop_proto (stops : List transport_catalogue_serialize.Stop)
    (s : Serializator) (catalogue : TransportCatalogue) :
    (Serializator.LoadStops.loop stops s catalogue).1.proto_catalogue_ = s.proto_catalogue_ := by
  induction stops generalizing s catalogue with
  | nil => rfl
  | cons p_stop rest ih =>
    unfold Serializator.LoadStops.loop
    rw [ih]

theorem LoadRoutes_loop_proto (routes : List transport_catalogue_serialize.Route)
    (s : Serializator) (catalogue : TransportCatalogue) :
    (Serializator.LoadRoutes.loop routes s catalogue).2.1.proto_catalogue_ =
      s.proto_catalogue_ := by
  induction routes generalizing s catalogue with
  | nil => rfl
  | cons p_route rest ih =>
    unfold Serializator.LoadRoutes.loop
    cases h : s.LoadRoute catalogue p_route with
    | mk res catalogue' =>
      cases res with
      | error e => rfl
      | ok u =>
        simp only
        rw [ih]

/-- The message the loading functions of `Deserialize` read is the parsed one. -/
theorem Deserialize_message (s : Serializator)
    (message : transport_catalogue_serialize.TransportCatalogue)
    (catalogue : TransportCatalogue) :
    (({ s with proto_catalogue_ := message } : Serializator).LoadStops catalogue).1.proto_catalogue_
        = message ∧
    ((({ s with proto_catalogue_ := message } : Serializator).LoadStops catalogue).1.LoadRoutes
      (({ s with proto_catalogue_ := message } : Serializator).LoadStops
        catalogue).2).2.1.proto_catalogue_ = message := by
  have h1 : (({ s with proto_catalogue_ := message } : Serializator).LoadStops
      catalogue).1.proto_catalogue_ = message := by
    unfold Serializator.LoadStops
    rw [LoadStops_loop_proto]
  refine ⟨h1, ?_⟩
  unfold Serializator.LoadRoutes
  rw [LoadRoutes_loop_proto, h1]

theorem LoadTransportRouter_loop_frame (s : Serializator) (catalogue : TransportCatalogue)
    (entries : List transport_router_serialize.StopById)
    (router : transport_router.TransportRouter) :
    (Serializator.LoadTransportRouter.loop s catalogue entries router).2.settings_ =
        router.settings_ ∧
    (Serializator.LoadTransportRouter.loop s catalogue entries router).2.catalogue_ =
        router.catalogue_ := by
  induction entries generalizing router with
  | nil => exact ⟨rfl, rfl⟩
  | cons p rest ih =>
    unfold Serializator.LoadTransportRouter.loop
    cases h1 : unordered_map.at_ s.stop_name_by_id_ p.stop_id with
    | error e => exact ⟨rfl, rfl⟩
    | ok name =>
      simp only
      cases h2 : unordered_map.at_ catalogue.stops_by_names_ name with
      | error e => exact ⟨rfl, rfl⟩
      | ok stop =>
        simp only
        exact ih _

theorem LoadTransportRouter_some (s : Serializator) (catalogue : TransportCatalogue)
    (handle : Option transport_router.TransportRouter)
    (p_router : transport_router_serialize.TransportRouter)
    (h : s.proto_catalogue_.router = some p_router)
    (r : Option transport_router.TransportRouter)
    (hres : s.LoadTransportRouter catalogue handle = (.ok (), r)) :
    ∃ router, r = some router ∧ router.is_initialized_ = true ∧
      router.settings_ = { wait_time := p_router.settings.wait_time
                           velocity := p_router.settings.velocity } ∧
      router.catalogue_ = catalogue := by
  unfold Serializator.LoadTransportRouter at hres
  rw [h] at hres
  simp only at hres
  have hframe := LoadTransportRouter_loop_frame s catalogue p_router.stop_by_id
    (transport_router.TransportRouter.create catalogue
      (Serializator.LoadTransportRouterSettings p_router))
  cases h1 : Serializator.LoadTransportRouter.loop s catalogue p_router.stop_by_id
      (transport_router.TransportRouter.create catalogue
        (Serializator.LoadTransportRouterSettings p_router)) with
  | mk res1 r1 =>
    rw [h1] at hres hframe
    simp only at hframe
    cases res1 with
    | error e =>
      simp only at hres
      injection hres with hres _
      exact Except.noConfusion hres
    | ok u1 =>
      simp only at hres
      cases h2 : s.LoadGraph catalogue p_router.graph r1.graph_ with
      | mk res2 g =>
        rw [h2] at hres
        cases res2 with
        | error e =>
          simp only at hres
          injection hres with hres _
          exact Except.noConfusion hres
        | ok u2 =>
          simp only at hres
          cases h3 : Serializator.LoadRouter p_router.router
              (Serializator.Router_unprocessed g) with
          | mk res3 table =>
            rw [h3] at hres
            cases res3 with
            | error e =>
              simp only at hres
              injection hres with hres _
              exact Except.noConfusion hres
            | ok u3 =>
              simp only at hres
              injection hres with _ hres
              refine ⟨_, hres.symm, rfl, ?_, ?_⟩
              · simp only [transport_router.TransportRouter.InternalInit, hframe.1]
                rfl
              · simp only [transport_router.TransportRouter.InternalInit, hframe.2]
                rfl

end serialize

/-! ## Association lists: keys -/

namespace unordered_map

theorem find_eq_none_iff {κ ν : Type} [DecidableEq κ] (m : List (κ × ν)) (k : κ) :
    find m k = none ↔ k ∉ m.map Prod.fst := by
  induction m with
  | nil => simp [find]
  | cons p m ih =>
    obtain ⟨k0, v0⟩ := p
    by_cases h : k0 = k
    · simp [find, h]
    · simp only [find, if_neg h, ih, List.map_cons, List.mem_cons]
      constructor
      · rintro h1 (h2 | h2)
        · exact h h2.symm
        · exact h1 h2
      · intro h1 h2
        exact h1 (Or.inr h2)

theorem mem_of_find {κ ν : Type} [DecidableEq κ] (m : List (κ × ν)) (k : κ) (v : ν)
    (h : find m k = some v) : (k, v) ∈ m := by
  induction m with
  | nil => exact Option.noConfusion h
  | cons p m ih =>
    obtain ⟨k0, v0⟩ := p
    by_cases h0 : k0 = k
    · simp only [find, if_pos h0] at h
      injection h with h
      subst h0 h
      exact List.mem_cons_self _ _
    · simp only [find, if_neg h0] at h
      exact List.mem_cons_of_mem _ (ih h)

theorem find_of_mem {κ ν : Type} [DecidableEq κ] (m : List (κ × ν)) (k : κ) (v : ν)
    (hn : (m.map Prod.fst).Nodup) (h : (k, v) ∈ m) : find m k = some v := by
  induction m with
  | nil => exact absurd h (List.not_mem_nil _)
  | cons p m ih =>
    obtain ⟨k0, v0⟩ := p
    rw [List.map_cons, List.nodup_cons] at hn
    rw [List.mem_cons] at h
    rcases h with h | h
    · injection h with h1 h2
      subst h1 h2
      simp [find]
    · have hne : k0 ≠ k := by
        rintro rfl
        exact hn.1 (List.mem_map.2 ⟨(k0, v), h, rfl⟩)
      simp only [find, if_neg hne]
      exact ih hn.2 h

theorem insert_eq_of_none {κ ν : Type} [DecidableEq κ] (m : List (κ × ν)) (k : κ) (v : ν)
    (h : find m k = none) : insert m k v = m ++ [(k, v)] := by
  unfold insert
  rw [h]

theorem insert_eq_of_not_mem {κ ν : Type} [DecidableEq κ] (m : List (κ × ν)) (k : κ) (v : ν)
    (h : k ∉ m.map Prod.fst) : insert m k v = m ++ [(k, v)] :=
  insert_eq_of_none m k v ((find_eq_none_iff m k).2 h)

theorem insert_cases {κ ν : Type} [DecidableEq κ] (m : List (κ × ν)) (k : κ) (v : ν) :
    (insert m k v = m ∧ k ∈ m.map Prod.fst) ∨
      (insert m k v = m ++ [(k, v)] ∧ k ∉ m.map Prod.fst) := by
  by_cases h : k ∈ m.map Prod.fst
  · left
    refine ⟨?_, h⟩
    unfold insert
    cases hf : find m k with
    | none => exact absurd h ((find_eq_none_iff m k).1 hf)
    | some w => rfl
  · right
    exact ⟨insert_eq_of_not_mem m k v h, h⟩

theorem nodup_insert {κ ν : Type} [DecidableEq κ] (m : List (κ × ν)) (k : κ) (v : ν)
    (hn : (m.map Prod.fst).Nodup) : ((insert m k v).map Prod.fst).Nodup := by
  rcases insert_cases m k v with ⟨h, _⟩ | ⟨h, hk⟩
  · rw [h]
    exact hn
  · rw [h, List.map_append]
    exact List.Nodup.append hn (List.nodup_singleton _) (by simpa using hk)

theorem mem_of_mem_insert {κ ν : Type} [DecidableEq κ] (m : List (κ × ν)) (k : κ) (v : ν)
    (p : κ × ν) (h : p ∈ insert m k v) : p ∈ m ∨ p = (k, v) := by
  rcases insert_cases m k v with ⟨h1, _⟩ | ⟨h1, _⟩
  · rw [h1] at h
    exact Or.inl h
  · rw [h1, List.mem_append, List.mem_singleton] at h
    exact h

theorem find_insert_of_some {κ ν : Type} [DecidableEq κ] (m : List (κ × ν)) (k k' : κ)
    (v w : ν) (h : find m k' = some w) : find (insert m k v) k' = some w := by
  rw [find_insert, h]

theorem keys_assign {κ ν : Type} [DecidableEq κ] (m : List (κ × ν)) (k : κ) (v : ν) :
    (assign m k v).map Prod.fst =
      if k ∈ m.map Prod.fst then m.map Prod.fst else m.map Prod.fst ++ [k] := by
  induction m with
  | nil => simp [assign]
  | cons p m ih =>
    obtain ⟨k0, v0⟩ := p
    by_cases h0 : k0 = k
    · subst h0
      simp [assign]
    · have hne : ¬ k = k0 := fun h => h0 h.symm
      simp only [assign, if_neg h0, List.map_cons, ih, List.mem_cons, hne, false_or]
      split <;> simp

theorem nodup_assign {κ ν : Type} [DecidableEq κ] (m : List (κ × ν)) (k : κ) (v : ν)
    (hn : (m.map Prod.fst).Nodup) : ((assign m k v).map Prod.fst).Nodup := by
  rw [keys_assign]
  split
  · exact hn
  · rename_i hk
    exact List.Nodup.append hn (List.nodup_singleton _) (by simpa using hk)

theorem mem_assign {κ ν : Type} [DecidableEq κ] (m : List (κ × ν)) (k : κ) (v : ν)
    (p : κ × ν) (h : p ∈ assign m k v) : p = (k, v) ∨ p ∈ m := by
  induction m with
  | nil =>
    simp only [assign, List.mem_singleton] at h
    exact Or.inl h
  | cons p0 m ih =>
    obtain ⟨k0, v0⟩ := p0
    by_cases h0 : k0 = k
    · simp only [assign, if_pos h0, List.mem_cons] at h
      rcases h with h | h
      · left
        rw [h, h0]
      · exact Or.inr (List.mem_cons_of_mem _ h)
    · simp only [assign, if_neg h0, List.mem_cons] at h
      rcases h with h | h
      · right
        rw [h]
        exact List.mem_cons_self _ _
      · rcases ih h with h1 | h1
        · exact Or.inl h1
        · exact Or.inr (List.mem_cons_of_mem _ h1)

theorem assign_ne_nil {κ ν : Type} [DecidableEq κ] (m : List (κ × ν)) (k : κ) (v : ν) :
    assign m k v ≠ [] := by
  cases m with
  | nil => simp [assign]
  | cons p m =>
    obtain ⟨k0, v0⟩ := p
    unfold assign
    split <;> simp

theorem index_mem {κ ν : Type} [DecidableEq κ] (m : List (κ × ν)) (k : κ) (dflt : ν) :
    index m k dflt = dflt ∨ (k, index m k dflt) ∈ m := by
  unfold index
  cases h : find m k with
  | none => exact Or.inl rfl
  | some v => exact Or.inr (mem_of_find m k v h)

end unordered_map

/-! ## Every reachable catalogue is well formed -/

namespace transport_catalogue

open domain

theorem hasStop_iff (c : TransportCatalogue) (n : String) :
    hasStop c n ↔ n ∈ c.stops_by_names_.map Prod.fst := by
  unfold hasStop
  rw [Ne, unordered_map.find_eq_none_iff, not_not]

theorem WellFormed_empty : WellFormed {} := by
  constructor
  · exact List.nodup_nil
  · exact List.nodup_nil
  · intro p h
    exact absurd h (List.not_mem_nil _)
  · intro p h
    exact absurd h (List.not_mem_nil _)
  · intro p h
    exact absurd h (List.not_mem_nil _)
  · intro p h
    exact absurd h (List.not_mem_nil _)
  · exact List.nodup_nil
  · intro p h
    exact absurd h (List.not_mem_nil _)

theorem hasStop_AddStop (c : TransportCatalogue) (stop_name : String)
    (coordinate : geo.Coordinates) (n : String) (h : hasStop c n) :
    hasStop (c.AddStop stop_name coordinate) n := by
  unfold hasStop at h ⊢
  cases hf : unordered_map.find c.stops_by_names_ n with
  | none => exact absurd hf h
  | some w =>
    simp only [TransportCatalogue.AddStop, TransportCatalogue.AddStop_private]
    rw [unordered_map.find_insert_of_some _ _ _ _ _ hf]
    exact Option.some_ne_none _

theorem WellFormed_AddStop (c : TransportCatalogue) (stop_name : String)
    (coordinate : geo.Coordinates) (h : WellFormed c) :
    WellFormed (c.AddStop stop_name coordinate) := by
  constructor
  · exact unordered_map.nodup_insert _ _ _ h.stops_nodup
  · exact h.routes_nodup
  · intro p hp
    rcases unordered_map.mem_of_mem_insert _ _ _ _ hp with h1 | h1
    · exact h.stop_key p h1
    · rw [h1]
  · exact h.route_key
  · intro p hp stop hs
    exact unordered_map.find_insert_of_some _ _ _ _ _ (h.route_stops p hp stop hs)
  · exact h.route_circle
  · exact h.dist_nodup
  · intro p hp
    obtain ⟨h1, h2, h3, h4⟩ := h.dist_rows p hp
    exact ⟨h1, h2, hasStop_AddStop c _ _ _ h3,
      fun q hq => hasStop_AddStop c _ _ _ (h4 q hq)⟩

end transport_catalogue

namespace transport_catalogue

open domain

theorem AddRoute_eq (c : TransportCatalogue) (route_name : String) (route_type : RouteType)
    (stops : List String) :
    c.AddRoute route_name route_type stops =
      if route_type = RouteType.CIRCLE ∧ stops = [] then (.error .undefined_behaviour, c)
      else if route_type = RouteType.CIRCLE ∧ stops.head? ≠ stops.getLast? then
        (.error .invalid_argument, c)
      else if ∀ s ∈ stops, hasStop c s then
        (.ok (), c.AddRoute_private
          { name := route_name, route_type := route_type
            stops := stops.filterMap (unordered_map.find c.stops_by_names_) })
      else (.error .out_of_range, c) := by
  unfold TransportCatalogue.AddRoute
  rw [TransportCatalogue.AddRoute_loop_eq]
  by_cases h1 : route_type = RouteType.CIRCLE ∧ stops = []
  · rw [if_pos h1, if_pos h1]
  · rw [if_neg h1, if_neg h1]
    by_cases h2 : route_type = RouteType.CIRCLE ∧ stops.head? ≠ stops.getLast?
    · rw [if_pos h2, if_pos h2]
    · rw [if_neg h2, if_neg h2]
      by_cases h3 : ∀ s ∈ stops, hasStop c s
      · rw [if_pos h3, if_pos h3]
        rfl
      · rw [if_neg h3, if_neg h3]

theorem find_name_of_wellFormed (c : TransportCatalogue) (h : WellFormed c) (n : String)
    (stop : Stop) (hf : unordered_map.find c.stops_by_names_ n = some stop) : stop.name = n :=
  h.stop_key (n, stop) (unordered_map.mem_of_find _ _ _ hf)

theorem resolved_names (c : TransportCatalogue) (h : WellFormed c) (names : List String)
    (hall : ∀ s ∈ names, hasStop c s) :
    (names.filterMap (unordered_map.find c.stops_by_names_)).map (fun stop => stop.name) =
      names := by
  induction names with
  | nil => rfl
  | cons n rest ih =>
    have hn := hall n (List.mem_cons_self _ _)
    unfold hasStop at hn
    cases hf : unordered_map.find c.stops_by_names_ n with
    | none => exact absurd hf hn
    | some stop =>
      rw [List.filterMap_cons, hf]
      simp only [List.map_cons]
      rw [ih (fun s hs => hall s (List.mem_cons_of_mem _ hs)),
        find_name_of_wellFormed c h n stop hf]

theorem resolved_found (c : TransportCatalogue) (h : WellFormed c) (names : List String)
    (stop : Stop) (hs : stop ∈ names.filterMap (unordered_map.find c.stops_by_names_)) :
    unordered_map.find c.stops_by_names_ stop.name = some stop := by
  rw [List.mem_filterMap] at hs
  obtain ⟨n, -, hf⟩ := hs
  rw [find_name_of_wellFormed c h n stop hf]
  exact hf

theorem WellFormed_AddRoute_private (c : TransportCatalogue) (route : Route)
    (h : WellFormed c)
    (hstops : ∀ stop ∈ route.stops,
      unordered_map.find c.stops_by_names_ stop.name = some stop)
    (hcircle : route.route_type = RouteType.CIRCLE →
      route.stops ≠ [] ∧
      (route.stops.map (fun stop => stop.name)).head? =
        (route.stops.map (fun stop => stop.name)).getLast?) :
    WellFormed (c.AddRoute_private route) := by
  constructor
  · exact h.stops_nodup
  · exact unordered_map.nodup_insert _ _ _ h.routes_nodup
  · exact h.stop_key
  · intro p hp
    rcases unordered_map.mem_of_mem_insert _ _ _ _ hp with h1 | h1
    · exact h.route_key p h1
    · rw [h1]
  · intro p hp stop hs
    rcases unordered_map.mem_of_mem_insert _ _ _ _ hp with h1 | h1
    · exact h.route_stops p h1 stop hs
    · rw [h1] at hs
      exact hstops stop hs
  · intro p hp ht
    rcases unordered_map.mem_of_mem_insert _ _ _ _ hp with h1 | h1
    · exact h.route_circle p h1 ht
    · rw [h1] at ht ⊢
      exact hcircle ht
  · exact h.dist_nodup
  · exact h.dist_rows

theorem WellFormed_AddRoute (c : TransportCatalogue) (route_name : String)
    (route_type : RouteType) (stops : List String) (h : WellFormed c) :
    WellFormed (c.AddRoute route_name route_type stops).2 := by
  rw [AddRoute_eq]
  split
  · exact h
  · split
    · exact h
    · rename_i hub hinv
      split
      · rename_i hall
        apply WellFormed_AddRoute_private c _ h
        · intro stop hs
          exact resolved_found c h stops stop hs
        · intro ht
          simp only at ht
          have hne : stops ≠ [] := fun hnil => hub ⟨ht, hnil⟩
          have hfl : stops.head? = stops.getLast? := by
            by_contra hcon
            exact hinv ⟨ht, hcon⟩
          have hmap := resolved_names c h stops hall
          simp only
          rw [hmap]
          refine ⟨?_, hfl⟩
          intro hnil
          rw [hnil] at hmap
          exact hne hmap.symm
      · exact h

theorem SetDistance_eq (c : TransportCatalogue) (h : WellFormed c)
    (stop_from stop_to : String) (m : Int) :
    c.SetDistance stop_from stop_to m =
      if hasStop c stop_from ∧ hasStop c stop_to then
        (.ok (), { c with
          distances_ := (unordered_map.assign c.distances_ stop_from
            (unordered_map.assign (unordered_map.index c.distances_ stop_from []) stop_to m)) })
      else (.error .out_of_range, c) := by
  unfold TransportCatalogue.SetDistance
  rw [TransportCatalogue.FindStop_eq, TransportCatalogue.FindStop_eq]
  cases hf : unordered_map.find c.stops_by_names_ stop_from with
  | none =>
    rw [if_neg]
    rintro ⟨h1, -⟩
    exact h1 hf
  | some Stop_from =>
    cases ht : unordered_map.find c.stops_by_names_ stop_to with
    | none =>
      rw [if_neg]
      rintro ⟨-, h1⟩
      exact h1 ht
    | some Stop_to =>
      have h1 : hasStop c stop_from := by
        unfold hasStop
        rw [hf]
        exact Option.some_ne_none _
      have h2 : hasStop c stop_to := by
        unfold hasStop
        rw [ht]
        exact Option.some_ne_none _
      rw [if_pos ⟨h1, h2⟩]
      simp only [find_name_of_wellFormed c h _ _ hf, find_name_of_wellFormed c h _ _ ht]

theorem WellFormed_SetDistance (c : TransportCatalogue) (stop_from stop_to : String)
    (m : Int) (h : WellFormed c) : WellFormed (c.SetDistance stop_from stop_to m).2 := by
  rw [SetDistance_eq c h]
  split
  · rename_i hab
    constructor
    · exact h.stops_nodup
    · exact h.routes_nodup
    · exact h.stop_key
    · exact h.route_key
    · exact h.route_stops
    · exact h.route_circle
    · exact unordered_map.nodup_assign _ _ _ h.dist_nodup
    · intro p hp
      rcases unordered_map.mem_assign _ _ _ _ hp with h1 | h1
      · rw [h1]
        refine ⟨unordered_map.assign_ne_nil _ _ _, ?_, hab.1, ?_⟩
        · apply unordered_map.nodup_assign
          rcases unordered_map.index_mem c.distances_ stop_from [] with h2 | h2
          · rw [h2]
            exact List.nodup_nil
          · exact (h.dist_rows _ h2).2.1
        · intro q hq
          rcases unordered_map.mem_assign _ _ _ _ hq with h3 | h3
          · rw [h3]
            exact hab.2
          · rcases unordered_map.index_mem c.distances_ stop_from [] with h2 | h2
            · rw [h2] at h3
              exact absurd h3 (List.not_mem_nil _)
            · exact (h.dist_rows _ h2).2.2.2 q h3
      · exact h.dist_rows p h1
  · exact h

theorem WellFormed_run (c : TransportCatalogue) (calls : List Call) (h : WellFormed c) :
    WellFormed (run c calls).2 := by
  induction calls generalizing c with
  | nil => exact h
  | cons call rest ih =>
    apply ih
    cases call with
    | AddStop stop_name coordinate => exact WellFormed_AddStop c stop_name coordinate h
    | AddRoute route_name route_type stops =>
      exact WellFormed_AddRoute c route_name route_type stops h
    | SetDistance stop_from stop_to distance =>
      exact WellFormed_SetDistance c stop_from stop_to distance h

theorem WellFormed_of_Reachable (c : TransportCatalogue) (h : Reachable c) : WellFormed c := by
  obtain ⟨calls, rfl⟩ := h
  exact WellFormed_run _ calls WellFormed_empty

end transport_catalogue

namespace unordered_map

theorem find_append_of_none {κ ν : Type} [DecidableEq κ] (m m' : List (κ × ν)) (k : κ)
    (h : find m k = none) : find (m ++ m') k = find m' k := by
  induction m with
  | nil => rfl
  | cons p m ih =>
    obtain ⟨k0, v0⟩ := p
    by_cases h0 : k0 = k
    · simp [find, h0] at h
    · simp only [find, if_neg h0] at h
      simp only [List.cons_append, find, if_neg h0]
      exact ih h

theorem find_append_of_some {κ ν : Type} [DecidableEq κ] (m m' : List (κ × ν)) (k : κ) (v : ν)
    (h : find m k = some v) : find (m ++ m') k = some v := by
  induction m with
  | nil => exact Option.noConfusion h
  | cons p m ih =>
    obtain ⟨k0, v0⟩ := p
    by_cases h0 : k0 = k
    · simp only [find, if_pos h0] at h
      simp only [List.cons_append, find, if_pos h0]
      exact h
    · simp only [find, if_neg h0] at h
      simp only [List.cons_append, find, if_neg h0]
      exact ih h

theorem assign_eq_append {κ ν : Type} [DecidableEq κ] (m : List (κ × ν)) (k : κ) (v : ν)
    (h : k ∉ m.map Prod.fst) : assign m k v = m ++ [(k, v)] := by
  induction m with
  | nil => rfl
  | cons p m ih =>
    obtain ⟨k0, v0⟩ := p
    rw [List.map_cons, List.mem_cons, not_or] at h
    have h0 : ¬ k0 = k := fun e => h.1 e.symm
    simp only [assign, if_neg h0, List.cons_append]
    rw [ih h.2]

theorem assign_append_singleton {κ ν : Type} [DecidableEq κ] (m : List (κ × ν)) (k : κ)
    (v w : ν) (h : k ∉ m.map Prod.fst) : assign (m ++ [(k, v)]) k w = m ++ [(k, w)] := by
  induction m with
  | nil => simp [assign]
  | cons p m ih =>
    obtain ⟨k0, v0⟩ := p
    rw [List.map_cons, List.mem_cons, not_or] at h
    have h0 : ¬ k0 = k := fun e => h.1 e.symm
    rw [List.cons_append]
    simp only [assign, if_neg h0]
    rw [ih h.2]
    rfl

theorem index_append_singleton {κ ν : Type} [DecidableEq κ] (m : List (κ × ν)) (k : κ)
    (v dflt : ν) (h : k ∉ m.map Prod.fst) : index (m ++ [(k, v)]) k dflt = v := by
  unfold index
  rw [find_append_of_none m _ k ((find_eq_none_iff m k).2 h)]
  simp [find]

theorem index_of_not_mem {κ ν : Type} [DecidableEq κ] (m : List (κ × ν)) (k : κ)
    (dflt : ν) (h : k ∉ m.map Prod.fst) : index m k dflt = dflt := by
  unfold index
  rw [(find_eq_none_iff m k).2 h]
  rfl

/-- Writing the entries of a row one by one, as `m[k][k2] = v` does, rebuilds the row. -/
theorem replay_row_aux {ν : Type} (m : List (String × List (String × ν))) (k : String)
    (pre row : List (String × ν)) (hk : k ∉ m.map Prod.fst)
    (hn : ((pre ++ row).map Prod.fst).Nodup) :
    row.foldl (fun acc q => assign acc k (assign (index acc k []) q.1 q.2)) (m ++ [(k, pre)]) =
      m ++ [(k, pre ++ row)] := by
  induction row generalizing pre with
  | nil => simp
  | cons q rest ih =>
    obtain ⟨k2, v⟩ := q
    rw [List.foldl_cons]
    simp only
    rw [index_append_singleton m k pre [] hk]
    have hk2 : k2 ∉ pre.map Prod.fst := by
      rw [List.map_append, List.map_cons] at hn
      have := (List.nodup_append.1 hn).2.2
      intro hmem
      exact this hmem (List.mem_cons_self _ _)
    rw [assign_eq_append pre k2 v hk2, assign_append_singleton m k pre _ hk]
    have := ih (pre ++ [(k2, v)]) (by simpa using hn)
    rw [this]
    simp

theorem replay_row {ν : Type} (m : List (String × List (String × ν))) (k : String)
    (row : List (String × ν)) (hk : k ∉ m.map Prod.fst) (hne : row ≠ [])
    (hn : (row.map Prod.fst).Nodup) :
    row.foldl (fun acc q => assign acc k (assign (index acc k []) q.1 q.2)) m =
      m ++ [(k, row)] := by
  cases row with
  | nil => exact absurd rfl hne
  | cons q rest =>
    obtain ⟨k2, v⟩ := q
    rw [List.foldl_cons]
    simp only
    rw [index_of_not_mem m k [] hk]
    have h1 : assign ([] : List (String × ν)) k2 v = [(k2, v)] := rfl
    rw [h1, assign_eq_append m k _ hk]
    exact replay_row_aux m k [(k2, v)] rest hk (by simpa using hn)

theorem replay_table {ν : Type} (m rows : List (String × List (String × ν)))
    (hn : ((m ++ rows).map Prod.fst).Nodup)
    (hrows : ∀ p ∈ rows, p.2 ≠ [] ∧ (p.2.map Prod.fst).Nodup) :
    rows.foldl (fun acc p =>
      p.2.foldl (fun acc q => assign acc p.1 (assign (index acc p.1 []) q.1 q.2)) acc) m =
      m ++ rows := by
  induction rows generalizing m with
  | nil => simp
  | cons p rest ih =>
    obtain ⟨k, row⟩ := p
    rw [List.foldl_cons]
    simp only
    have hk : k ∉ m.map Prod.fst := by
      rw [List.map_append, List.map_cons] at hn
      have := (List.nodup_append.1 hn).2.2
      intro hmem
      exact this hmem (List.mem_cons_self _ _)
    obtain ⟨h1, h2⟩ := hrows (k, row) (List.mem_cons_self _ _)
    rw [replay_row m k row hk h1 h2]
    have := ih (m ++ [(k, row)]) (by simpa using hn)
      (fun p hp => hrows p (List.mem_cons_of_mem _ hp))
    rw [this]
    simp

end unordered_map

namespace serialize

open domain transport_catalogue

theorem idsOf_keys {ν : Type} (l : List (String × ν)) (id : Nat) :
    (idsOf l id).map Prod.fst = l.map Prod.fst := by
  induction l generalizing id with
  | nil => rfl
  | cons p rest ih =>
    obtain ⟨name, v⟩ := p
    simp only [idsOf, List.map_cons, ih]

theorem SaveStops_loop_eq (l : List (String × Stop)) (id : Nat) (s : Serializator)
    (hn : (s.stop_id_by_name_.map Prod.fst ++ l.map Prod.fst).Nodup) :
    Serializator.SaveStops.loop l id s =
      { s with
        stop_id_by_name_ := s.stop_id_by_name_ ++ idsOf l id
        proto_catalogue_ := { s.proto_catalogue_ with
          catalogue := { s.proto_catalogue_.catalogue with
            stops := s.proto_catalogue_.catalogue.stops ++ protoStopsOf l id } } } := by
  induction l generalizing id s with
  | nil => simp [Serializator.SaveStops.loop, idsOf, protoStopsOf]
  | cons p rest ih =>
    obtain ⟨name, stop⟩ := p
    have hk : name ∉ s.stop_id_by_name_.map Prod.fst := by
      have := (List.nodup_append.1 hn).2.2
      intro hmem
      exact this hmem (List.mem_cons_self _ _)
    unfold Serializator.SaveStops.loop
    rw [ih]
    · simp only [unordered_map.insert_eq_of_not_mem _ _ _ hk, idsOf, protoStopsOf,
        List.append_assoc, List.singleton_append]
    · simp only [unordered_map.insert_eq_of_not_mem _ _ _ hk]
      simpa using hn

theorem find_idsOf {ν : Type} (l : List (String × ν)) (id : Nat) (n : String)
    (hn : n ∈ l.map Prod.fst) :
    ∃ k, unordered_map.find (idsOf l id) n = some k ∧ id ≤ k ∧
      unordered_map.find (namesOf l id) k = some n := by
  induction l generalizing id with
  | nil => exact absurd hn (List.not_mem_nil _)
  | cons p rest ih =>
    obtain ⟨name, v⟩ := p
    by_cases h0 : name = n
    · refine ⟨id, ?_, Nat.le_refl _, ?_⟩
      · simp [idsOf, unordered_map.find, h0]
      · simp [namesOf, unordered_map.find, h0]
    · have hrest : n ∈ rest.map Prod.fst := by
        rw [List.map_cons, List.mem_cons] at hn
        rcases hn with h | h
        · exact absurd h.symm h0
        · exact h
      obtain ⟨k, h1, h2, h3⟩ := ih (id + 1) hrest
      refine ⟨k, ?_, by omega, ?_⟩
      · simp only [idsOf, unordered_map.find, if_neg h0]
        exact h1
      · have hne : ¬ id = k := by omega
        simp only [namesOf, unordered_map.find, if_neg hne]
        exact h3

theorem index_idsOf {ν : Type} (l : List (String × ν)) (n : String)
    (hn : n ∈ l.map Prod.fst) :
    unordered_map.find (idsOf l 0) n = some (unordered_map.index (idsOf l 0) n 0) ∧
    unordered_map.find (namesOf l 0) (unordered_map.index (idsOf l 0) n 0) = some n := by
  obtain ⟨k, h1, -, h3⟩ := find_idsOf l 0 n hn
  have hk : unordered_map.index (idsOf l 0) n 0 = k := by
    unfold unordered_map.index
    rw [h1]
    rfl
  rw [hk]
  exact ⟨h1, h3⟩

theorem at_of_find {κ ν : Type} [DecidableEq κ] (m : List (κ × ν)) (k : κ) (v : ν)
    (h : unordered_map.find m k = some v) : unordered_map.at_ m k = .ok v := by
  unfold unordered_map.at_
  rw [h]

theorem SaveRouteStops_eq (s : Serializator) (stops : List Stop) (acc : List Nat)
    (h : ∀ stop ∈ stops, unordered_map.find s.stop_id_by_name_ stop.name ≠ none) :
    s.SaveRouteStops stops acc =
      .ok (acc ++ stops.map (fun stop => unordered_map.index s.stop_id_by_name_ stop.name 0)) := by
  induction stops generalizing acc with
  | nil => simp [Serializator.SaveRouteStops]
  | cons stop rest ih =>
    have h1 := h stop (List.mem_cons_self _ _)
    cases hf : unordered_map.find s.stop_id_by_name_ stop.name with
    | none => exact absurd hf h1
    | some id =>
      unfold Serializator.SaveRouteStops
      rw [at_of_find _ _ _ hf]
      simp only
      rw [ih _ (fun x hx => h x (List.mem_cons_of_mem _ hx))]
      simp [unordered_map.index, hf]

theorem SaveRoutes_loop_eq (l : List (String × Route)) (id : Nat) (s : Serializator)
    (hn : (s.route_id_by_name_.map Prod.fst ++ l.map Prod.fst).Nodup)
    (h : ∀ p ∈ l, ∀ stop ∈ p.2.stops,
      unordered_map.find s.stop_id_by_name_ stop.name ≠ none) :
    Serializator.SaveRoutes.loop l id s =
      (.ok (), { s with
        route_id_by_name_ := s.route_id_by_name_ ++ idsOf l id
        proto_catalogue_ := { s.proto_catalogue_ with
          catalogue := { s.proto_catalogue_.catalogue with
            routes := s.proto_catalogue_.catalogue.routes ++
              protoRoutesOf s.stop_id_by_name_ l id } } }) := by
  induction l generalizing id s with
  | nil => simp [Serializator.SaveRoutes.loop, idsOf, protoRoutesOf]
  | cons p rest ih =>
    obtain ⟨name, route⟩ := p
    have hk : name ∉ s.route_id_by_name_.map Prod.fst := by
      have := (List.nodup_append.1 hn).2.2
      intro hmem
      exact this hmem (List.mem_cons_self _ _)
    unfold Serializator.SaveRoutes.loop
    rw [SaveRouteStops_eq s route.stops [] (h (name, route) (List.mem_cons_self _ _))]
    simp only
    rw [ih]
    · simp only [unordered_map.insert_eq_of_not_mem _ _ _ hk, idsOf, protoRoutesOf,
        List.append_assoc, List.singleton_append, List.nil_append]
    · simp only [unordered_map.insert_eq_of_not_mem _ _ _ hk]
      simpa using hn
    · intro p hp stop hs
      exact h p (List.mem_cons_of_mem _ hp) stop hs

theorem SaveDistances_loop_to_eq (stop1 : String) (row : List (String × Int))
    (s : Serializator)
    (h1 : unordered_map.find s.stop_id_by_name_ stop1 ≠ none)
    (h : ∀ q ∈ row, unordered_map.find s.stop_id_by_name_ q.1 ≠ none) :
    Serializator.SaveDistances.loop_to stop1 row s =
      (.ok (), { s with
        proto_catalogue_ := { s.proto_catalogue_ with
          catalogue := { s.proto_catalogue_.catalogue with
            distances := s.proto_catalogue_.catalogue.distances ++
              protoRowOf s.stop_id_by_name_ stop1 row } } }) := by
  induction row generalizing s with
  | nil => simp [Serializator.SaveDistances.loop_to, protoRowOf]
  | cons q rest ih =>
    obtain ⟨stop2, distance⟩ := q
    have h2 := h (stop2, distance) (List.mem_cons_self _ _)
    cases hf1 : unordered_map.find s.stop_id_by_name_ stop1 with
    | none => exact absurd hf1 h1
    | some id1 =>
      cases hf2 : unordered_map.find s.stop_id_by_name_ stop2 with
      | none => exact absurd hf2 h2
      | some id2 =>
        unfold Serializator.SaveDistances.loop_to
        rw [at_of_find _ _ _ hf1, at_of_find _ _ _ hf2]
        simp only
        rw [ih]
        · simp [protoRowOf, unordered_map.index, hf1, hf2]
        · exact h1
        · intro q hq
          exact h q (List.mem_cons_of_mem _ hq)

theorem SaveDistances_loop_eq (distances : List (String × List (String × Int)))
    (s : Serializator)
    (h : ∀ p ∈ distances, unordered_map.find s.stop_id_by_name_ p.1 ≠ none ∧
      ∀ q ∈ p.2, unordered_map.find s.stop_id_by_name_ q.1 ≠ none) :
    Serializator.SaveDistances.loop distances s =
      (.ok (), { s with
        proto_catalogue_ := { s.proto_catalogue_ with
          catalogue := { s.proto_catalogue_.catalogue with
            distances := s.proto_catalogue_.catalogue.distances ++
              protoDistancesOf s.stop_id_by_name_ distances } } }) := by
  induction distances generalizing s with
  | nil => simp [Serializator.SaveDistances.loop, protoDistancesOf]
  | cons p rest ih =>
    obtain ⟨stop1, row⟩ := p
    obtain ⟨h1, h2⟩ := h (stop1, row) (List.mem_cons_self _ _)
    unfold Serializator.SaveDistances.loop
    rw [SaveDistances_loop_to_eq stop1 row s h1 h2]
    simp only
    rw [ih]
    · simp [protoDistancesOf]
    · intro p hp
      exact h p (List.mem_cons_of_mem _ hp)

theorem find_idsOf_ne_none {ν : Type} (l : List (String × ν)) (n : String)
    (h : unordered_map.find l n ≠ none) : unordered_map.find (idsOf l 0) n ≠ none := by
  have hmem : n ∈ l.map Prod.fst := by
    by_contra hcon
    exact h ((unordered_map.find_eq_none_iff l n).2 hcon)
  rw [(index_idsOf l n hmem).1]
  exact Option.some_ne_none _

/-- What `AddTransportCatalogue` leaves in a new serializer for a well-formed catalogue. -/
theorem AddTransportCatalogue_eq (c : TransportCatalogue) (h : WellFormed c) :
    ({} : Serializator).AddTransportCatalogue c =
      (.ok (),
        { proto_catalogue_ :=
            { catalogue :=
                { stops := protoStopsOf c.stops_by_names_ 0
                  routes := protoRoutesOf (idsOf c.stops_by_names_ 0) c.routes_by_names_ 0
                  distances := protoDistancesOf (idsOf c.stops_by_names_ 0) c.distances_ } }
          stop_id_by_name_ := idsOf c.stops_by_names_ 0
          route_id_by_name_ := idsOf c.routes_by_names_ 0 }) := by
  unfold Serializator.AddTransportCatalogue Serializator.SaveStops Serializator.SaveRoutes
    Serializator.SaveDistances
  rw [SaveStops_loop_eq _ _ _ (by simpa using h.stops_nodup)]
  rw [SaveRoutes_loop_eq _ _ _ (by simpa using h.routes_nodup)]
  · simp only
    rw [SaveDistances_loop_eq]
    · simp
    · intro p hp
      obtain ⟨-, -, h3, h4⟩ := h.dist_rows p hp
      exact ⟨find_idsOf_ne_none _ _ h3, fun q hq => find_idsOf_ne_none _ _ (h4 q hq)⟩
  · intro p hp stop hs
    simp only [List.nil_append]
    apply find_idsOf_ne_none
    rw [h.route_stops p hp stop hs]
    exact Option.some_ne_none _

theorem namesOf_keys_ge {ν : Type} (l : List (String × ν)) (id : Nat) :
    ∀ p ∈ namesOf l id, id ≤ p.1 := by
  induction l generalizing id with
  | nil => intro p hp; exact absurd hp (List.not_mem_nil _)
  | cons q rest ih =>
    obtain ⟨name, v⟩ := q
    intro p hp
    simp only [namesOf, List.mem_cons] at hp
    rcases hp with hp | hp
    · rw [hp]
    · have := ih (id + 1) p hp
      omega

theorem LoadStops_loop_eq (l : List (String × Stop)) (id : Nat) (s : Serializator)
    (catalogue : TransportCatalogue)
    (hkey : ∀ p ∈ l, p.2.name = p.1)
    (hn : (catalogue.stops_by_names_.map Prod.fst ++ l.map Prod.fst).Nodup)
    (hid : ∀ p ∈ s.stop_name_by_id_, p.1 < id) :
    Serializator.LoadStops.loop (protoStopsOf l id) s catalogue =
      ({ s with stop_name_by_id_ := s.stop_name_by_id_ ++ namesOf l id },
       { catalogue with
         stops_ := catalogue.stops_ ++ l.map Prod.snd
         stops_by_names_ := catalogue.stops_by_names_ ++ l }) := by
  induction l generalizing id s catalogue with
  | nil => simp [Serializator.LoadStops.loop, protoStopsOf, namesOf]
  | cons p rest ih =>
    obtain ⟨name, stop⟩ := p
    have hname : stop.name = name := hkey (name, stop) (List.mem_cons_self _ _)
    have hk : name ∉ catalogue.stops_by_names_.map Prod.fst := by
      have := (List.nodup_append.1 hn).2.2
      intro hmem
      exact this hmem (List.mem_cons_self _ _)
    have hidk : id ∉ s.stop_name_by_id_.map Prod.fst := by
      intro hmem
      obtain ⟨q, hq, hq1⟩ := List.mem_map.1 hmem
      have := hid q hq
      omega
    simp only [protoStopsOf, Serializator.LoadStops.loop]
    rw [ih]
    · simp only [TransportCatalogue.AddStop, TransportCatalogue.AddStop_private,
        Serializator.MakeCoordinates, Serializator.MakeProtoCoordinates, hname,
        unordered_map.insert_eq_of_not_mem _ _ _ hk,
        unordered_map.insert_eq_of_not_mem _ _ _ hidk, namesOf, List.append_assoc,
        List.singleton_append, List.map_cons]
      subst hname
      rfl
    · intro p hp
      exact hkey p (List.mem_cons_of_mem _ hp)
    · simp only [TransportCatalogue.AddStop, TransportCatalogue.AddStop_private, hname,
        unordered_map.insert_eq_of_not_mem _ _ _ hk]
      simpa using hn
    · intro p hp
      simp only [unordered_map.insert_eq_of_not_mem _ _ _ hidk, List.mem_append,
        List.mem_singleton] at hp
      rcases hp with hp | hp
      · have := hid p hp
        omega
      · rw [hp]
        exact Nat.lt_succ_self _

theorem LoadRoute_loop_eq (s : Serializator) (table : List (String × Stop))
    (hs : s.stop_name_by_id_ = namesOf table 0) (stops : List Stop) (acc : List String)
    (h : ∀ stop ∈ stops, stop.name ∈ table.map Prod.fst) :
    Serializator.LoadRoute.loop s
      (stops.map (fun stop => unordered_map.index (idsOf table 0) stop.name 0)) acc =
      .ok (acc ++ stops.map (fun stop => stop.name)) := by
  induction stops generalizing acc with
  | nil => simp [Serializator.LoadRoute.loop]
  | cons stop rest ih =>
    have h1 := (index_idsOf table stop.name (h stop (List.mem_cons_self _ _))).2
    rw [List.map_cons]
    unfold Serializator.LoadRoute.loop
    rw [hs, at_of_find _ _ _ h1]
    simp only
    rw [ih _ (fun x hx => h x (List.mem_cons_of_mem _ hx))]
    simp

theorem filterMap_find_names (table : List (String × Stop)) (stops : List Stop)
    (h : ∀ stop ∈ stops, unordered_map.find table stop.name = some stop) :
    (stops.map (fun stop => stop.name)).filterMap (unordered_map.find table) = stops := by
  induction stops with
  | nil => rfl
  | cons stop rest ih =>
    rw [List.map_cons, List.filterMap_cons, h stop (List.mem_cons_self _ _)]
    simp only
    rw [ih (fun x hx => h x (List.mem_cons_of_mem _ hx))]

theorem MakeRouteType_MakeProtoRouteType (route_type : RouteType) :
    Serializator.MakeRouteType (Serializator.MakeProtoRouteType route_type) = route_type := by
  cases route_type <;> rfl

theorem mem_keys_of_find {κ ν : Type} [DecidableEq κ] (m : List (κ × ν)) (k : κ) (v : ν)
    (h : unordered_map.find m k = some v) : k ∈ m.map Prod.fst :=
  List.mem_map.2 ⟨(k, v), unordered_map.mem_of_find m k v h, rfl⟩

theorem LoadRoute_eq (c : TransportCatalogue) (hc : WellFormed c) (s : Serializator)
    (catalogue : TransportCatalogue)
    (hs : s.stop_name_by_id_ = namesOf c.stops_by_names_ 0)
    (hcat : catalogue.stops_by_names_ = c.stops_by_names_)
    (name : String) (route : Route) (hmem : (name, route) ∈ c.routes_by_names_) (id : Nat) :
    s.LoadRoute catalogue
      { id := id, name := route.name
        type := Serializator.MakeProtoRouteType route.route_type
        stop_ids := route.stops.map
          (fun stop => unordered_map.index (idsOf c.stops_by_names_ 0) stop.name 0) } =
      (.ok (), catalogue.AddRoute_private route) := by
  have hstops := hc.route_stops (name, route) hmem
  unfold Serializator.LoadRoute
  simp only
  rw [LoadRoute_loop_eq s c.stops_by_names_ hs route.stops []
    (fun stop h => mem_keys_of_find _ _ _ (hstops stop h))]
  simp only [List.nil_append]
  rw [AddRoute_eq, MakeRouteType_MakeProtoRouteType]
  have h1 : ¬ (route.route_type = RouteType.CIRCLE ∧
      route.stops.map (fun stop => stop.name) = []) := by
    rintro ⟨ht, hnil⟩
    have := (hc.route_circle (name, route) hmem ht).1
    exact this (List.map_eq_nil_iff.1 hnil)
  have h2 : ¬ (route.route_type = RouteType.CIRCLE ∧
      (route.stops.map (fun stop => stop.name)).head? ≠
        (route.stops.map (fun stop => stop.name)).getLast?) := by
    rintro ⟨ht, hne⟩
    exact hne (hc.route_circle (name, route) hmem ht).2
  have h3 : ∀ n ∈ route.stops.map (fun stop => stop.name), hasStop catalogue n := by
    intro n hn
    obtain ⟨stop, hstop, rfl⟩ := List.mem_map.1 hn
    unfold hasStop
    rw [hcat, hstops stop hstop]
    exact Option.some_ne_none _
  rw [if_neg h1, if_neg h2, if_pos h3, hcat, filterMap_find_names _ _ hstops]

theorem LoadRoutes_loop_eq (c : TransportCatalogue) (hc : WellFormed c)
    (l : List (String × Route)) (id : Nat) (s : Serializator) (catalogue : TransportCatalogue)
    (hs : s.stop_name_by_id_ = namesOf c.stops_by_names_ 0)
    (hcat : catalogue.stops_by_names_ = c.stops_by_names_)
    (hl : ∀ p ∈ l, p ∈ c.routes_by_names_)
    (hn : (catalogue.routes_by_names_.map Prod.fst ++ l.map Prod.fst).Nodup)
    (hid : ∀ p ∈ s.route_name_by_id_, p.1 < id) :
    ∃ loaded : TransportCatalogue,
      Serializator.LoadRoutes.loop (protoRoutesOf (idsOf c.stops_by_names_ 0) l id)
          s catalogue =
        (.ok (), { s with route_name_by_id_ := s.route_name_by_id_ ++ namesOf l id }, loaded) ∧
      loaded.stops_by_names_ = c.stops_by_names_ ∧
      loaded.routes_by_names_ = catalogue.routes_by_names_ ++ l ∧
      loaded.distances_ = catalogue.distances_ := by
  induction l generalizing id s catalogue with
  | nil =>
    refine ⟨catalogue, ?_, hcat, by simp, rfl⟩
    simp [Serializator.LoadRoutes.loop, protoRoutesOf, namesOf]
  | cons p rest ih =>
    obtain ⟨name, route⟩ := p
    have hmem := hl (name, route) (List.mem_cons_self _ _)
    have hname : route.name = name := hc.route_key (name, route) hmem
    have hk : name ∉ catalogue.routes_by_names_.map Prod.fst := by
      have := (List.nodup_append.1 hn).2.2
      intro hmem
      exact this hmem (List.mem_cons_self _ _)
    have hidk : id ∉ s.route_name_by_id_.map Prod.fst := by
      intro hmem
      obtain ⟨q, hq, hq1⟩ := List.mem_map.1 hmem
      have := hid q hq
      omega
    have hroutes : (catalogue.AddRoute_private route).routes_by_names_ =
        catalogue.routes_by_names_ ++ [(name, route)] := by
      simp only [TransportCatalogue.AddRoute_private, hname,
        unordered_map.insert_eq_of_not_mem _ _ _ hk]
    obtain ⟨loaded, h1, h2, h3, h4⟩ := ih (id + 1)
      { s with
        route_name_by_id_ := unordered_map.insert s.route_name_by_id_ id route.name }
      (catalogue.AddRoute_private route) hs hcat
      (fun p hp => hl p (List.mem_cons_of_mem _ hp))
      (by rw [hroutes]; simpa using hn)
      (by
        intro p hp
        simp only [unordered_map.insert_eq_of_not_mem _ _ _ hidk, List.mem_append,
          List.mem_singleton] at hp
        rcases hp with hp | hp
        · have := hid p hp
          omega
        · rw [hp]
          exact Nat.lt_succ_self _)
    refine ⟨loaded, ?_, h2, ?_, h4⟩
    · simp only [protoRoutesOf, Serializator.LoadRoutes.loop]
      rw [LoadRoute_eq c hc s catalogue hs hcat name route hmem id]
      simp only
      rw [h1]
      simp only [unordered_map.insert_eq_of_not_mem _ _ _ hidk, namesOf, hname,
        List.append_assoc, List.singleton_append]
    · rw [h3, hroutes]
      simp

theorem SetDistance_of_keys (c : TransportCatalogue)
    (hkey : ∀ p ∈ c.stops_by_names_, p.2.name = p.1) (stop_from stop_to : String) (m : Int)
    (hfrom : hasStop c stop_from) (hto : hasStop c stop_to) :
    c.SetDistance stop_from stop_to m =
      (.ok (), { c with
        distances_ := (unordered_map.assign c.distances_ stop_from
          (unordered_map.assign (unordered_map.index c.distances_ stop_from []) stop_to m)) }) := by
  unfold TransportCatalogue.SetDistance
  rw [TransportCatalogue.FindStop_eq, TransportCatalogue.FindStop_eq]
  unfold hasStop at hfrom hto
  cases hf : unordered_map.find c.stops_by_names_ stop_from with
  | none => exact absurd hf hfrom
  | some Stop_from =>
    cases ht : unordered_map.find c.stops_by_names_ stop_to with
    | none => exact absurd ht hto
    | some Stop_to =>
      have h1 : Stop_from.name = stop_from :=
        hkey (stop_from, Stop_from) (unordered_map.mem_of_find _ _ _ hf)
      have h2 : Stop_to.name = stop_to :=
        hkey (stop_to, Stop_to) (unordered_map.mem_of_find _ _ _ ht)
      simp only [h1, h2]

theorem LoadDistances_loop_append (s : Serializator)
    (l1 l2 : List transport_catalogue_serialize.Distance) (catalogue : TransportCatalogue) :
    Serializator.LoadDistances.loop s (l1 ++ l2) catalogue =
      match Serializator.LoadDistances.loop s l1 catalogue with
      | (.error e, catalogue') => (.error e, catalogue')
      | (.ok _, catalogue') => Serializator.LoadDistances.loop s l2 catalogue' := by
  induction l1 generalizing catalogue with
  | nil => rfl
  | cons p rest ih =>
    rw [List.cons_append]
    simp only [Serializator.LoadDistances.loop]
    cases unordered_map.at_ s.stop_name_by_id_ p.stop_id_from with
    | error e => rfl
    | ok stop_from =>
      cases unordered_map.at_ s.stop_name_by_id_ p.stop_id_to with
      | error e => rfl
      | ok stop_to =>
        simp only
        cases hset : catalogue.SetDistance stop_from stop_to p.distance with
        | mk res catalogue' =>
          cases res with
          | error e => rfl
          | ok u =>
            simp only
            exact ih catalogue'

theorem LoadDistances_row (c : TransportCatalogue) (hc : WellFormed c) (s : Serializator)
    (hs : s.stop_name_by_id_ = namesOf c.stops_by_names_ 0)
    (stop1 : String) (h1 : hasStop c stop1) (row : List (String × Int))
    (hrow : ∀ q ∈ row, hasStop c q.1) (catalogue : TransportCatalogue)
    (hcat : catalogue.stops_by_names_ = c.stops_by_names_) :
    Serializator.LoadDistances.loop s (protoRowOf (idsOf c.stops_by_names_ 0) stop1 row)
        catalogue =
      (.ok (), { catalogue with
        distances_ := row.foldl (fun acc q =>
          unordered_map.assign acc stop1
            (unordered_map.assign (unordered_map.index acc stop1 []) q.1 q.2))
          catalogue.distances_ }) := by
  have hmem : ∀ n, hasStop c n → n ∈ c.stops_by_names_.map Prod.fst := by
    intro n hn
    by_contra hcon
    exact hn ((unordered_map.find_eq_none_iff _ n).2 hcon)
  induction row generalizing catalogue with
  | nil => rfl
  | cons q rest ih =>
    obtain ⟨stop2, distance⟩ := q
    have h2 := hrow (stop2, distance) (List.mem_cons_self _ _)
    have hkey : ∀ p ∈ catalogue.stops_by_names_, p.2.name = p.1 := by
      rw [hcat]
      exact hc.stop_key
    have hset := SetDistance_of_keys catalogue hkey stop1 stop2 distance
      (by unfold hasStop; rw [hcat]; exact h1) (by unfold hasStop; rw [hcat]; exact h2)
    simp only [protoRowOf, List.map_cons]
    unfold Serializator.LoadDistances.loop
    simp only
    rw [hs, at_of_find _ _ _ (index_idsOf _ stop1 (hmem _ h1)).2,
      at_of_find _ _ _ (index_idsOf _ stop2 (hmem _ h2)).2]
    simp only
    rw [hset]
    simp only
    have := ih (fun q hq => hrow q (List.mem_cons_of_mem _ hq))
      { catalogue with
        distances_ := (unordered_map.assign catalogue.distances_ stop1
          (unordered_map.assign (unordered_map.index catalogue.distances_ stop1 [])
            stop2 distance)) } hcat
    simp only [protoRowOf, hs] at this
    rw [this]
    rfl

theorem LoadDistances_table (c : TransportCatalogue) (hc : WellFormed c) (s : Serializator)
    (hs : s.stop_name_by_id_ = namesOf c.stops_by_names_ 0)
    (rows : List (String × List (String × Int)))
    (hrows : ∀ p ∈ rows, hasStop c p.1 ∧ ∀ q ∈ p.2, hasStop c q.1)
    (catalogue : TransportCatalogue)
    (hcat : catalogue.stops_by_names_ = c.stops_by_names_) :
    Serializator.LoadDistances.loop s (protoDistancesOf (idsOf c.stops_by_names_ 0) rows)
        catalogue =
      (.ok (), { catalogue with
        distances_ := rows.foldl (fun acc p =>
          p.2.foldl (fun acc q =>
            unordered_map.assign acc p.1
              (unordered_map.assign (unordered_map.index acc p.1 []) q.1 q.2)) acc)
          catalogue.distances_ }) := by
  induction rows generalizing catalogue with
  | nil => rfl
  | cons p rest ih =>
    obtain ⟨stop1, row⟩ := p
    obtain ⟨h1, h2⟩ := hrows (stop1, row) (List.mem_cons_self _ _)
    simp only [protoDistancesOf, List.flatMap_cons]
    rw [LoadDistances_loop_append, LoadDistances_row c hc s hs stop1 h1 row h2 catalogue hcat]
    simp only
    have := ih (fun p hp => hrows p (List.mem_cons_of_mem _ hp))
      { catalogue with
        distances_ := row.foldl (fun acc q =>
          unordered_map.assign acc stop1
            (unordered_map.assign (unordered_map.index acc stop1 []) q.1 q.2))
          catalogue.distances_ } hcat
    simp only [protoDistancesOf] at this
    rw [this]
    rfl

/-- The catalogue part of the message `AddTransportCatalogue` writes for a catalogue. -/
theorem load_catalogue_phase (c : TransportCatalogue) (hc : WellFormed c)
    (message : transport_catalogue_serialize.TransportCatalogue)
    (hmsg : message.catalogue =
      { stops := protoStopsOf c.stops_by_names_ 0
        routes := protoRoutesOf (idsOf c.stops_by_names_ 0) c.routes_by_names_ 0
        distances := protoDistancesOf (idsOf c.stops_by_names_ 0) c.distances_ }) :
    ∃ loaded : TransportCatalogue,
      ((({ proto_catalogue_ := message } : Serializator).LoadStops {}).1.LoadRoutes
        (({ proto_catalogue_ := message } : Serializator).LoadStops {}).2).1 = .ok () ∧
      ((({ proto_catalogue_ := message } : Serializator).LoadStops {}).1.LoadRoutes
        (({ proto_catalogue_ := message } : Serializator).LoadStops {}).2).2.1 =
        { proto_catalogue_ := message
          stop_name_by_id_ := namesOf c.stops_by_names_ 0
          route_name_by_id_ := namesOf c.routes_by_names_ 0 } ∧
      (({ proto_catalogue_ := message
          stop_name_by_id_ := namesOf c.stops_by_names_ 0
          route_name_by_id_ := namesOf c.routes_by_names_ 0 } : Serializator).LoadDistances
        ((({ proto_catalogue_ := message } : Serializator).LoadStops {}).1.LoadRoutes
          (({ proto_catalogue_ := message } : Serializator).LoadStops {}).2).2.2) =
        (.ok (), loaded) ∧
      loaded.stops_by_names_ = c.stops_by_names_ ∧
      loaded.routes_by_names_ = c.routes_by_names_ ∧
      loaded.distances_ = c.distances_ := by
  have hstops : ({ proto_catalogue_ := message } : Serializator).LoadStops {} =
      ({ proto_catalogue_ := message, stop_name_by_id_ := namesOf c.stops_by_names_ 0 },
       { stops_ := c.stops_by_names_.map Prod.snd, stops_by_names_ := c.stops_by_names_ }) := by
    unfold Serializator.LoadStops
    simp only [hmsg]
    rw [LoadStops_loop_eq _ _ _ _ hc.stop_key (by simpa using hc.stops_nodup)
      (fun p hp => absurd hp (List.not_mem_nil _))]
    simp
  obtain ⟨loaded2, h1, h2, h3, h4⟩ := LoadRoutes_loop_eq c hc c.routes_by_names_ 0
    { proto_catalogue_ := message, stop_name_by_id_ := namesOf c.stops_by_names_ 0 }
    { stops_ := c.stops_by_names_.map Prod.snd, stops_by_names_ := c.stops_by_names_ }
    rfl rfl (fun p hp => hp) (by simpa using hc.routes_nodup)
    (fun p hp => absurd hp (List.not_mem_nil _))
  have hroutes : (({ proto_catalogue_ := message } : Serializator).LoadStops {}).1.LoadRoutes
      (({ proto_catalogue_ := message } : Serializator).LoadStops {}).2 =
      (.ok (), { proto_catalogue_ := message
                 stop_name_by_id_ := namesOf c.stops_by_names_ 0
                 route_name_by_id_ := namesOf c.routes_by_names_ 0 }, loaded2) := by
    rw [hstops]
    unfold Serializator.LoadRoutes
    simp only [hmsg]
    rw [h1]
    simp
  have hdist := LoadDistances_table c hc
    { proto_catalogue_ := message
      stop_name_by_id_ := namesOf c.stops_by_names_ 0
      route_name_by_id_ := namesOf c.routes_by_names_ 0 } rfl c.distances_
    (fun p hp => ⟨(hc.dist_rows p hp).2.2.1, (hc.dist_rows p hp).2.2.2⟩) loaded2 h2
  rw [h4] at hdist
  simp only at hdist
  rw [unordered_map.replay_table [] c.distances_ (by simpa using hc.dist_nodup)
    (fun p hp => ⟨(hc.dist_rows p hp).1, (hc.dist_rows p hp).2.1⟩)] at hdist
  refine ⟨{ loaded2 with distances_ := c.distances_ }, ?_, ?_, ?_, h2, ?_, rfl⟩
  · rw [hroutes]
  · rw [hroutes]
  · rw [hroutes]
    unfold Serializator.LoadDistances
    simp only [hmsg]
    rw [hdist]
    simp
  · rw [h3]
    simp

theorem triple_eq {α β γ : Type} (x : α × β × γ) (a : α) (b : β) (h1 : x.1 = a)
    (h2 : x.2.1 = b) : x = (a, b, x.2.2) := by
  obtain ⟨x1, x2, x3⟩ := x
  simp only at h1 h2
  rw [h1, h2]

/-- Claim C18.  For every catalogue `c` the public interface can produce from the empty one
(its stop names and its route names are pairwise distinct, being the keys of its tables, and
it holds no empty CIRCLE route): `AddTransportCatalogue` (`SaveStops`, `SaveRoutes`,
`SaveDistances`) on a new serializer succeeds, and `Deserialize` of the message it wrote
(`LoadStops`, `LoadRoutes`, `LoadDistances`), into an empty catalogue, returns `true` with a
catalogue that binds every name to the same stop (name, coordinates), every route name to
the same route (name, type, sequence of stops) and every ordered pair of stop names to the
same stored forward distance as `c`. -/
theorem catalogue_codec_round_trip (c : TransportCatalogue) (hc : Reachable c) :
    ∃ (saved : Serializator) (loaded : TransportCatalogue),
      ({} : Serializator).AddTransportCatalogue c = (.ok (), saved) ∧
      ({} : Serializator).Deserialize (.parsed saved.proto_catalogue_)
          { catalogue := {}, settings := none, router := none } =
        (.ok true, {}, { catalogue := loaded, settings := none, router := none }) ∧
      (∀ stop_name, unordered_map.find loaded.stops_by_names_ stop_name =
        unordered_map.find c.stops_by_names_ stop_name) ∧
      (∀ route_name, unordered_map.find loaded.routes_by_names_ route_name =
        unordered_map.find c.routes_by_names_ route_name) ∧
      (∀ stop_from stop_to, storedDistance loaded stop_from stop_to =
        storedDistance c stop_from stop_to) := by
  have hw := WellFormed_of_Reachable c hc
  obtain ⟨loaded, h1, h2, h3, h4, h5, h6⟩ := load_catalogue_phase c hw
    { catalogue :=
        { stops := protoStopsOf c.stops_by_names_ 0
          routes := protoRoutesOf (idsOf c.stops_by_names_ 0) c.routes_by_names_ 0
          distances := protoDistancesOf (idsOf c.stops_by_names_ 0) c.distances_ } } rfl
  refine ⟨_, loaded, AddTransportCatalogue_eq c hw, ?_, ?_, ?_, ?_⟩
  · have hX := triple_eq _ _ _ h1 h2
    unfold Serializator.Deserialize
    simp only
    rw [hX]
    simp only
    rw [h3]
    rfl
  · intro n
    rw [h4]
  · intro n
    rw [h5]
  · intro a b
    unfold storedDistance
    rw [h6]

/-- The catalogue of scenario S3 comes back from the codec. -/
theorem catalogue_codec_round_trip_witness :
    Reachable S3.catalogue ∧
    ∃ (saved : Serializator) (loaded : TransportCatalogue),
      ({} : Serializator).AddTransportCatalogue S3.catalogue = (.ok (), saved) ∧
      ({} : Serializator).Deserialize (.parsed saved.proto_catalogue_)
          { catalogue := {}, settings := none, router := none } =
        (.ok true, {}, { catalogue := loaded, settings := none, router := none }) ∧
      (∀ stop_name, unordered_map.find loaded.stops_by_names_ stop_name =
        unordered_map.find S3.catalogue.stops_by_names_ stop_name) ∧
      (∀ route_name, unordered_map.find loaded.routes_by_names_ route_name =
        unordered_map.find S3.catalogue.routes_by_names_ route_name) ∧
      (∀ stop_from stop_to, storedDistance loaded stop_from stop_to =
        storedDistance S3.catalogue stop_from stop_to) :=
  ⟨⟨S3.calls, rfl⟩, catalogue_codec_round_trip S3.catalogue ⟨S3.calls, rfl⟩⟩

end serialize

namespace serialize

open domain transport_catalogue transport_router

theorem CountStops_loop_eq (l : List (String × Stop)) (id : Nat) (r : TransportRouter)
    (hn : (r.id_by_stop_name_.map Prod.fst ++ l.map Prod.fst).Nodup)
    (hid : ∀ p ∈ r.stops_by_id_, p.1 < id) :
    TransportRouter.CountStops.loop l id r =
      (id + l.length,
        { r with
          id_by_stop_name_ := r.id_by_stop_name_ ++ idsOf l id
          stops_by_id_ := r.stops_by_id_ ++ stopsByIdOf l id }) := by
  induction l generalizing id r with
  | nil => simp [TransportRouter.CountStops.loop, idsOf, stopsByIdOf]
  | cons p rest ih =>
    obtain ⟨name, stop⟩ := p
    have hk : name ∉ r.id_by_stop_name_.map Prod.fst := by
      have := (List.nodup_append.1 hn).2.2
      intro hmem
      exact this hmem (List.mem_cons_self _ _)
    have hidk : id ∉ r.stops_by_id_.map Prod.fst := by
      intro hmem
      obtain ⟨q, hq, hq1⟩ := List.mem_map.1 hmem
      have := hid q hq
      omega
    unfold TransportRouter.CountStops.loop
    rw [ih]
    · simp only [unordered_map.insert_eq_of_not_mem _ _ _ hk,
        unordered_map.insert_eq_of_not_mem _ _ _ hidk, idsOf, stopsByIdOf, List.append_assoc,
        List.singleton_append, List.length_cons]
      congr 1
      omega
    · simp only [unordered_map.insert_eq_of_not_mem _ _ _ hk]
      simpa using hn
    · intro p hp
      simp only [unordered_map.insert_eq_of_not_mem _ _ _ hidk, List.mem_append,
        List.mem_singleton] at hp
      rcases hp with hp | hp
      · have := hid p hp
        omega
      · rw [hp]
        exact Nat.lt_succ_self _

theorem bus_name_edgesOfRoute (r : TransportRouter) (route : Route)
    (e : graph.Edge RouteWeight) (he : e ∈ edgesOfRoute r route) :
    e.weight.bus_name = route.name := by
  unfold edgesOfRoute at he
  simp only [List.mem_flatMap] at he
  obtain ⟨i, -, j, -, hmem⟩ := he
  unfold edgesOfPair at hmem
  rw [List.mem_cons] at hmem
  rcases hmem with h | h
  · rw [h]
    rfl
  · split at h
    · rw [List.mem_singleton] at h
      rw [h]
      rfl
    · exact absurd h (List.not_mem_nil _)

/-- The shape of a router that `InitRouter` has initialised over a well-formed catalogue. -/
theorem InitRouter_shape (code : RouterCode) (c : TransportCatalogue) (hc : WellFormed c)
    (settings : RoutingSettings) (r : TransportRouter)
    (h : (TransportRouter.create c settings).InitRouter code = (.ok (), r)) :
    r.settings_ = settings ∧
    r.id_by_stop_name_ = idsOf c.stops_by_names_ 0 ∧
    r.stops_by_id_ = stopsByIdOf c.stops_by_names_ 0 ∧
    r.is_initialized_ = true ∧
    r.router_ = some (code.construct r.graph_) ∧
    ∀ e ∈ r.graph_.edges_, e.weight.bus_name ∈ c.routes_by_names_.map Prod.fst := by
  unfold TransportRouter.InitRouter at h
  have hinit : (TransportRouter.create c settings).is_initialized_ = false := rfl
  rw [if_pos hinit] at h
  simp only at h
  have hcount : (TransportRouter.create c settings).CountStops =
      (0 + c.stops_by_names_.length,
        { TransportRouter.create c settings with
          id_by_stop_name_ := [] ++ idsOf c.stops_by_names_ 0
          stops_by_id_ := [] ++ stopsByIdOf c.stops_by_names_ 0 }) := by
    unfold TransportRouter.CountStops
    exact CountStops_loop_eq _ 0 _ (by simpa [TransportRouter.create] using hc.stops_nodup)
      (fun p hp => absurd hp (List.not_mem_nil _))
  rw [hcount] at h
  simp only [List.nil_append, Nat.zero_add] at h
  generalize hr1 : ({ catalogue_ := (TransportRouter.create c settings).catalogue_
                      settings_ := (TransportRouter.create c settings).settings_
                      is_initialized_ := (TransportRouter.create c settings).is_initialized_
                      graph_ := graph.DirectedWeightedGraph.create RouteWeight
                        c.stops_by_names_.length
                      router_ := (TransportRouter.create c settings).router_
                      id_by_stop_name_ := idsOf c.stops_by_names_ 0
                      stops_by_id_ := stopsByIdOf c.stops_by_names_ 0 } : TransportRouter) = r1
    at h
  cases hb : r1.BuildEdges with
  | mk res r2 =>
    rw [hb] at h
    cases res with
    | error e =>
      simp only at h
      exact absurd (congrArg Prod.fst h) (by simp)
    | ok u =>
      simp only at h
      have hok : r1.BuildEdges.1 = .ok () := by rw [hb]
      obtain ⟨hedges, hframe, -⟩ := TransportRouter.BuildEdges_edges r1 hok
      rw [hb] at hedges hframe
      simp only at hedges hframe
      have hr := (Prod.ext_iff.1 h).2
      simp only at hr
      subst hr
      simp only
      rw [hframe]
      subst hr1
      refine ⟨rfl, rfl, rfl, trivial, trivial, ?_⟩
      intro e he
      rw [hedges] at he
      simp only [graph.DirectedWeightedGraph.create, List.nil_append, List.mem_flatMap] at he
      obtain ⟨p, hp, hmem⟩ := he
      rw [bus_name_edgesOfRoute _ _ e hmem]
      simp only [TransportRouter.create] at hp
      rw [hc.route_key p hp]
      exact List.mem_map.2 ⟨p, hp, rfl⟩

theorem mutable_router_eq (s : Serializator) (pr : transport_router_serialize.TransportRouter)
    (hs : s.proto_catalogue_.router = some pr) : s.mutable_router = pr := by
  unfold Serializator.mutable_router
  rw [hs]
  rfl

theorem set_router_self (s : Serializator) (pr : transport_router_serialize.TransportRouter)
    (hs : s.proto_catalogue_.router = some pr) : s.set_router pr = s := by
  obtain ⟨⟨cat, rs, router⟩, a, b, c, d⟩ := s
  simp only at hs
  subst hs
  rfl

theorem set_router_set_router (s : Serializator)
    (p q : transport_router_serialize.TransportRouter) :
    (s.set_router p).set_router q = s.set_router q := rfl

theorem SaveTransportRouter_loop_eq (l : List (String × Nat)) (s : Serializator)
    (pr : transport_router_serialize.TransportRouter)
    (hs : s.proto_catalogue_.router = some pr)
    (h : ∀ p ∈ l, unordered_map.find s.stop_id_by_name_ p.1 ≠ none) :
    Serializator.SaveTransportRouter.loop l s =
      (.ok (), s.set_router { pr with
        stop_by_id := pr.stop_by_id ++ l.map (fun p =>
          { id := p.2, stop_id := unordered_map.index s.stop_id_by_name_ p.1 0 }) }) := by
  induction l generalizing s pr with
  | nil =>
    simp only [Serializator.SaveTransportRouter.loop, List.map_nil, List.append_nil]
    rw [set_router_self s pr hs]
  | cons p rest ih =>
    obtain ⟨name, id⟩ := p
    have h1 := h (name, id) (List.mem_cons_self _ _)
    cases hf : unordered_map.find s.stop_id_by_name_ name with
    | none => exact absurd hf h1
    | some stop_id =>
      unfold Serializator.SaveTransportRouter.loop
      rw [at_of_find _ _ _ hf]
      simp only
      rw [mutable_router_eq s pr hs]
      rw [ih (s.set_router { pr with
          stop_by_id := pr.stop_by_id ++ [{ id := id, stop_id := stop_id }] })
        { pr with stop_by_id := pr.stop_by_id ++ [{ id := id, stop_id := stop_id }] } rfl
        (fun p hp => h p (List.mem_cons_of_mem _ hp))]
      simp [unordered_map.index, hf, Serializator.set_router]

theorem SaveGraph_loop_edges_eq (edges : List (graph.Edge RouteWeight)) (s : Serializator)
    (pr : transport_router_serialize.TransportRouter)
    (hs : s.proto_catalogue_.router = some pr)
    (h : ∀ e ∈ edges, unordered_map.find s.route_id_by_name_ e.weight.bus_name ≠ none) :
    Serializator.SaveGraph.loop_edges edges s =
      (.ok (), s.set_router { pr with
        graph := { pr.graph with
          edges := pr.graph.edges ++ edges.map (fun e =>
            { from_ := e.from_, to_ := e.to_
              weight :=
                { bus_id := unordered_map.index s.route_id_by_name_ e.weight.bus_name 0
                  span_count := e.weight.span_count
                  total_time := e.weight.total_time } }) } }) := by
  induction edges generalizing s pr with
  | nil =>
    simp only [Serializator.SaveGraph.loop_edges, List.map_nil, List.append_nil]
    rw [set_router_self s pr hs]
  | cons e rest ih =>
    have h1 := h e (List.mem_cons_self _ _)
    cases hf : unordered_map.find s.route_id_by_name_ e.weight.bus_name with
    | none => exact absurd hf h1
    | some bus_id =>
      unfold Serializator.SaveGraph.loop_edges Serializator.MakeProtoWeight
      rw [at_of_find _ _ _ hf]
      simp only
      rw [mutable_router_eq s pr hs]
      rw [ih (s.set_router { pr with
          graph := { pr.graph with
            edges := pr.graph.edges ++
              [{ from_ := e.from_, to_ := e.to_
                 weight := { bus_id := bus_id, span_count := e.weight.span_count
                             total_time := e.weight.total_time } }] } })
        { pr with
          graph := { pr.graph with
            edges := pr.graph.edges ++
              [{ from_ := e.from_, to_ := e.to_
                 weight := { bus_id := bus_id, span_count := e.weight.span_count
                             total_time := e.weight.total_time } }] } } rfl
        (fun p hp => h p (List.mem_cons_of_mem _ hp))]
      simp [unordered_map.index, hf, Serializator.set_router]

theorem SaveGraph_loop_lists_eq (lists : List (List Nat)) (s : Serializator)
    (pr : transport_router_serialize.TransportRouter)
    (hs : s.proto_catalogue_.router = some pr) :
    Serializator.SaveGraph.loop_lists lists s =
      s.set_router { pr with
        graph := { pr.graph with
          incidence_lists := pr.graph.incidence_lists ++ lists } } := by
  induction lists generalizing s pr with
  | nil =>
    simp only [Serializator.SaveGraph.loop_lists, List.append_nil]
    rw [set_router_self s pr hs]
  | cons list rest ih =>
    unfold Serializator.SaveGraph.loop_lists
    rw [mutable_router_eq s pr hs]
    rw [ih (s.set_router { pr with
        graph := { pr.graph with
          incidence_lists := pr.graph.incidence_lists ++ [list] } })
      { pr with
        graph := { pr.graph with
          incidence_lists := pr.graph.incidence_lists ++ [list] } } rfl]
    simp [Serializator.set_router]

theorem SaveRouter_loop_eq (table : List (List (Option RouteInternalData)))
    (s : Serializator) (pr : transport_router_serialize.TransportRouter)
    (hs : s.proto_catalogue_.router = some pr) :
    Serializator.SaveRouter.loop table s =
      s.set_router { pr with
        router := { routes_internal_data :=
          pr.router.routes_internal_data ++
            table.map (fun data => data.map Serializator.SaveRouter.entry) } } := by
  induction table generalizing s pr with
  | nil =>
    simp only [Serializator.SaveRouter.loop, List.map_nil, List.append_nil]
    rw [set_router_self s pr hs]
  | cons data rest ih =>
    unfold Serializator.SaveRouter.loop
    rw [mutable_router_eq s pr hs]
    rw [ih (s.set_router { pr with
        router := { routes_internal_data :=
          pr.router.routes_internal_data ++ [data.map Serializator.SaveRouter.entry] } })
      { pr with
        router := { routes_internal_data :=
          pr.router.routes_internal_data ++ [data.map Serializator.SaveRouter.entry] } } rfl]
    simp [Serializator.set_router]

theorem SaveTransportRouter_eq (s : Serializator) (r : TransportRouter)
    (hs : s.proto_catalogue_.router = none)
    (hids : ∀ p ∈ r.id_by_stop_name_, unordered_map.find s.stop_id_by_name_ p.1 ≠ none) :
    s.SaveTransportRouter r =
      (.ok (), s.set_router
        { stop_by_id := r.id_by_stop_name_.map (fun p =>
            { id := p.2, stop_id := unordered_map.index s.stop_id_by_name_ p.1 0 }) }) := by
  have hm : s.mutable_router = {} := by
    unfold Serializator.mutable_router
    rw [hs]
    rfl
  unfold Serializator.SaveTransportRouter
  rw [hm, SaveTransportRouter_loop_eq r.id_by_stop_name_ (s.set_router {}) {} rfl hids]
  simp [Serializator.set_router]

theorem SaveGraph_eq (s : Serializator) (pr : transport_router_serialize.TransportRouter)
    (hs : s.proto_catalogue_.router = some pr) (g : graph.DirectedWeightedGraph RouteWeight)
    (h : ∀ e ∈ g.edges_, unordered_map.find s.route_id_by_name_ e.weight.bus_name ≠ none) :
    s.SaveGraph g =
      (.ok (), s.set_router { pr with
        graph :=
          { edges := pr.graph.edges ++ g.edges_.map (fun e =>
              { from_ := e.from_, to_ := e.to_
                weight :=
                  { bus_id := unordered_map.index s.route_id_by_name_ e.weight.bus_name 0
                    span_count := e.weight.span_count
                    total_time := e.weight.total_time } })
            incidence_lists := pr.graph.incidence_lists ++ g.incidence_lists_ } }) := by
  unfold Serializator.SaveGraph
  rw [mutable_router_eq s pr hs, set_router_self s pr hs,
    SaveGraph_loop_edges_eq g.edges_ s pr hs h]
  simp only
  rw [SaveGraph_loop_lists_eq g.incidence_lists_ _ _ rfl]
  rfl

theorem SaveRouter_eq (s : Serializator) (pr : transport_router_serialize.TransportRouter)
    (hs : s.proto_catalogue_.router = some pr) (table : Router) :
    s.SaveRouter (some table) =
      (.ok (), s.set_router { pr with
        router :=
          { routes_internal_data := pr.router.routes_internal_data ++
              table.routes_internal_data_.map
                (fun data => data.map Serializator.SaveRouter.entry) } }) := by
  unfold Serializator.SaveRouter
  simp only
  rw [mutable_router_eq s pr hs, set_router_self s pr hs,
    SaveRouter_loop_eq table.routes_internal_data_ s pr hs]

/-- The router sub-message `AddTransportRouter` writes. -/
theorem AddTransportRouter_eq (s : Serializator) (r : TransportRouter) (table : Router)
    (hs : s.proto_catalogue_.router = none)
    (hids : ∀ p ∈ r.id_by_stop_name_, unordered_map.find s.stop_id_by_name_ p.1 ≠ none)
    (hedges : ∀ e ∈ r.graph_.edges_,
      unordered_map.find s.route_id_by_name_ e.weight.bus_name ≠ none)
    (hr : r.router_ = some table) :
    s.AddTransportRouter r =
      (.ok (), s.set_router
        { stop_by_id := r.id_by_stop_name_.map (fun p =>
            { id := p.2, stop_id := unordered_map.index s.stop_id_by_name_ p.1 0 })
          settings := { wait_time := r.settings_.wait_time, velocity := r.settings_.velocity }
          graph :=
            { edges := r.graph_.edges_.map (fun e =>
                { from_ := e.from_, to_ := e.to_
                  weight :=
                    { bus_id := unordered_map.index s.route_id_by_name_ e.weight.bus_name 0
                      span_count := e.weight.span_count
                      total_time := e.weight.total_time } })
              incidence_lists := r.graph_.incidence_lists_ }
          router :=
            { routes_internal_data := table.routes_internal_data_.map
                (fun data => data.map Serializator.SaveRouter.entry) } }) := by
  unfold Serializator.AddTransportRouter
  rw [SaveTransportRouter_eq s r hs hids]
  simp only
  rw [SaveGraph_eq
    ((s.set_router
      { stop_by_id := r.id_by_stop_name_.map (fun p =>
          { id := p.2, stop_id := unordered_map.index s.stop_id_by_name_ p.1 0 })
      }).SaveTransportRouterSettings r.settings_)
    { stop_by_id := r.id_by_stop_name_.map (fun p =>
        { id := p.2, stop_id := unordered_map.index s.stop_id_by_name_ p.1 0 })
      settings := { wait_time := r.settings_.wait_time, velocity := r.settings_.velocity } }
    rfl r.graph_ hedges]
  simp only
  rw [hr, SaveRouter_eq _ _ rfl table]
  simp [Serializator.set_router, Serializator.SaveTransportRouterSettings]

theorem LoadTransportRouter_loop_eq (s : Serializator) (catalogue : TransportCatalogue)
    (l : List (String × Stop)) (id : Nat) (router : TransportRouter)
    (hnames : ∀ p ∈ idsOf l id, unordered_map.find s.stop_name_by_id_ p.2 = some p.1)
    (hstops : ∀ p ∈ l, unordered_map.find catalogue.stops_by_names_ p.1 = some p.2)
    (hkey : ∀ p ∈ l, p.2.name = p.1)
    (hn : (router.id_by_stop_name_.map Prod.fst ++ l.map Prod.fst).Nodup)
    (hid : ∀ p ∈ router.stops_by_id_, p.1 < id) :
    Serializator.LoadTransportRouter.loop s catalogue
        ((idsOf l id).map (fun p => { id := p.2, stop_id := p.2 })) router =
      (.ok (), { router with
        stops_by_id_ := router.stops_by_id_ ++ stopsByIdOf l id
        id_by_stop_name_ := router.id_by_stop_name_ ++ idsOf l id }) := by
  induction l generalizing id router with
  | nil => simp [Serializator.LoadTransportRouter.loop, idsOf, stopsByIdOf]
  | cons p rest ih =>
    obtain ⟨name, stop⟩ := p
    have hname : stop.name = name := hkey (name, stop) (List.mem_cons_self _ _)
    have hk : name ∉ router.id_by_stop_name_.map Prod.fst := by
      have := (List.nodup_append.1 hn).2.2
      intro hmem
      exact this hmem (List.mem_cons_self _ _)
    have hidk : id ∉ router.stops_by_id_.map Prod.fst := by
      intro hmem
      obtain ⟨q, hq, hq1⟩ := List.mem_map.1 hmem
      have := hid q hq
      omega
    have h1 : unordered_map.find s.stop_name_by_id_ id = some name :=
      hnames (name, id) (by simp [idsOf])
    have h2 : unordered_map.find catalogue.stops_by_names_ name = some stop :=
      hstops (name, stop) (List.mem_cons_self _ _)
    simp only [idsOf, List.map_cons, Serializator.LoadTransportRouter.loop]
    rw [at_of_find _ _ _ h1]
    simp only
    rw [at_of_find _ _ _ h2]
    simp only
    rw [ih]
    · simp only [hname, unordered_map.insert_eq_of_not_mem _ _ _ hk,
        unordered_map.insert_eq_of_not_mem _ _ _ hidk, stopsByIdOf, List.append_assoc,
        List.singleton_append]
    · intro p hp
      exact hnames p (by simp only [idsOf, List.mem_cons]; exact Or.inr hp)
    · intro p hp
      exact hstops p (List.mem_cons_of_mem _ hp)
    · intro p hp
      exact hkey p (List.mem_cons_of_mem _ hp)
    · simp only [hname, unordered_map.insert_eq_of_not_mem _ _ _ hk]
      simpa using hn
    · intro p hp
      simp only [unordered_map.insert_eq_of_not_mem _ _ _ hidk, List.mem_append,
        List.mem_singleton] at hp
      rcases hp with hp | hp
      · have := hid p hp
        omega
      · rw [hp]
        exact Nat.lt_succ_self _

theorem LoadGraph_loop_edges_eq (s : Serializator) (catalogue : TransportCatalogue)
    (rids : List (String × Nat)) (edges : List (graph.Edge RouteWeight))
    (g : graph.DirectedWeightedGraph RouteWeight)
    (h : ∀ e ∈ edges, ∃ route,
      unordered_map.find s.route_name_by_id_
        (unordered_map.index rids e.weight.bus_name 0) = some e.weight.bus_name ∧
      unordered_map.find catalogue.routes_by_names_ e.weight.bus_name = some route ∧
      route.name = e.weight.bus_name) :
    Serializator.LoadGraph.loop_edges s catalogue
        (edges.map (fun e =>
          { from_ := e.from_, to_ := e.to_
            weight :=
              { bus_id := unordered_map.index rids e.weight.bus_name 0
                span_count := e.weight.span_count
                total_time := e.weight.total_time } })) g =
      (.ok (), { g with edges_ := g.edges_ ++ edges }) := by
  induction edges generalizing g with
  | nil => simp [Serializator.LoadGraph.loop_edges]
  | cons e rest ih =>
    obtain ⟨route, h1, h2, h3⟩ := h e (List.mem_cons_self _ _)
    simp only [List.map_cons, Serializator.LoadGraph.loop_edges, Serializator.MakeWeight]
    rw [at_of_find _ _ _ h1]
    simp only
    rw [at_of_find _ _ _ h2]
    simp only
    rw [ih _ (fun x hx => h x (List.mem_cons_of_mem _ hx)), h3]
    simp



theorem set_of_get? {α : Type} (l : List α) (i : Nat) (a : α) (h : l.get? i = some a) :
    l.set i a = l := by
  induction l generalizing i with
  | nil => rfl
  | cons x rest ih =>
    cases i with
    | zero =>
      simp only [List.get?_cons_zero, Option.some.injEq] at h
      rw [List.set_cons_zero, h]
    | succ k =>
      simp only [List.get?_cons_succ] at h
      rw [List.set_cons_succ, ih k h]

theorem set_eq_take_append {α : Type} (l : List α) (i : Nat) (a : α) (h : i < l.length) :
    l.set i a = l.take i ++ a :: l.drop (i + 1) := by
  induction l generalizing i with
  | nil => exact absurd h (Nat.not_lt_zero _)
  | cons x rest ih =>
    cases i with
    | zero => rfl
    | succ k =>
      simp only [List.length_cons] at h
      simp only [List.set_cons_succ, List.take_succ_cons, List.drop_succ_cons, List.cons_append]
      rw [ih k (by omega)]

theorem LoadRouter_loop_j_eq (i : Nat) (ps : List (Option graph_serialize.RouteInternalData))
    (j : Nat) (table : List (List (Option RouteInternalData)))
    (row : List (Option RouteInternalData)) (hrow : table.get? i = some row)
    (hlen : j + ps.length ≤ row.length) :
    Serializator.LoadRouter.loop_j i ps j table =
      (.ok (), table.set i
        (row.take j ++ ps.map Serializator.LoadRouter.entry ++ row.drop (j + ps.length))) := by
  induction ps generalizing j table row with
  | nil =>
    simp only [Serializator.LoadRouter.loop_j, List.map_nil, List.append_nil, List.length_nil,
      Nat.add_zero, List.take_append_drop]
    rw [set_of_get? table i row hrow]
  | cons p rest ih =>
    simp only [List.length_cons] at hlen
    have hj : j < row.length := by omega
    have hi : i < table.length := by
      by_contra hcon
      rw [List.get?_eq_none.2 (by omega)] at hrow
      exact Option.noConfusion hrow
    unfold Serializator.LoadRouter.loop_j
    rw [hrow]
    simp only
    rw [if_pos hj]
    rw [ih (j + 1) (table.set i (row.set j (Serializator.LoadRouter.entry p)))
      (row.set j (Serializator.LoadRouter.entry p))
      (by rw [List.get?_eq_getElem?, List.getElem?_set_eq_of_lt _ hi])
      (by rw [List.length_set]; omega)]
    rw [List.set_set]
    congr 2
    rw [set_eq_take_append row j _ hj]
    have h1 : (row.take j).length = j := by
      rw [List.length_take]
      omega
    rw [List.take_append_eq_append_take, List.take_of_length_le (by omega : (row.take j).length ≤ j + 1)]
    rw [h1]
    simp only [Nat.add_sub_cancel_left, List.take_succ_cons, List.take_zero, List.length_cons,
      List.map_cons]
    rw [List.drop_append_eq_append_drop, List.drop_of_length_le (by omega : (row.take j).length ≤ j + 1 + rest.length)]
    rw [h1]
    have h2 : j + 1 + rest.length - j = rest.length + 1 := by omega
    rw [h2, List.drop_succ_cons, List.drop_drop]
    have h3 : j + 1 + rest.length = j + (rest.length + 1) := by omega
    rw [h3]
    simp

theorem LoadRouter_loop_eq (V : Nat)
    (pss : List (List (Option graph_serialize.RouteInternalData))) (i : Nat)
    (table : List (List (Option RouteInternalData)))
    (hrows : ∀ row ∈ table, row.length = V) (hps : ∀ ps ∈ pss, ps.length = V)
    (hlen : i + pss.length ≤ table.length) :
    Serializator.LoadRouter.loop pss i table =
      (.ok (), table.take i ++ pss.map (fun ps => ps.map Serializator.LoadRouter.entry) ++
        table.drop (i + pss.length)) := by
  induction pss generalizing i table with
  | nil =>
    simp [Serializator.LoadRouter.loop]
  | cons ps rest ih =>
    simp only [List.length_cons] at hlen
    have hi : i < table.length := by omega
    have hget : table.get? i = some (table.get ⟨i, hi⟩) := List.get?_eq_get hi
    have hrowlen : (table.get ⟨i, hi⟩).length = V := hrows _ (List.get_mem _ _ _)
    have hpslen : ps.length = V := hps ps (List.mem_cons_self _ _)
    unfold Serializator.LoadRouter.loop
    rw [LoadRouter_loop_j_eq i ps 0 table _ hget (by omega)]
    simp only
    have hrow' : List.take 0 (table.get ⟨i, hi⟩) ++ ps.map Serializator.LoadRouter.entry ++
        List.drop (0 + ps.length) (table.get ⟨i, hi⟩) = ps.map Serializator.LoadRouter.entry := by
      rw [List.take_zero, List.nil_append, List.drop_of_length_le (by omega), List.append_nil]
    rw [hrow']
    rw [ih (i + 1) (table.set i (ps.map Serializator.LoadRouter.entry))
      (by
        intro row hrow
        rcases List.mem_or_eq_of_mem_set hrow with h | h
        · exact hrows row h
        · rw [h, List.length_map]
          exact hpslen)
      (fun x hx => hps x (List.mem_cons_of_mem _ hx))
      (by rw [List.length_set]; omega)]
    congr 1
    rw [set_eq_take_append table i _ hi]
    have h1 : (table.take i).length = i := by
      rw [List.length_take]
      omega
    rw [List.take_append_eq_append_take, List.take_of_length_le (by omega : (table.take i).length ≤ i + 1)]
    rw [h1]
    simp only [Nat.add_sub_cancel_left, List.take_succ_cons, List.take_zero, List.length_cons,
      List.map_cons]
    rw [List.drop_append_eq_append_drop, List.drop_of_length_le (by omega : (table.take i).length ≤ i + 1 + rest.length)]
    rw [h1]
    have h2 : i + 1 + rest.length - i = rest.length + 1 := by omega
    rw [h2, List.drop_succ_cons, List.drop_drop]
    have h3 : i + 1 + rest.length = i + (rest.length + 1) := by omega
    rw [h3]
    simp

theorem entry_SaveRouter_entry (internal : Option RouteInternalData) :
    Serializator.LoadRouter.entry (Serializator.SaveRouter.entry internal) =
      internal.map keptEntry := by
  cases internal <;> rfl

/-- `LoadRouter` of the table `SaveRouter` wrote, into a table of the same shape. -/
theorem LoadRouter_saved (g : graph.DirectedWeightedGraph RouteWeight) (table : Router)
    (h : squareTable g table) :
    Serializator.LoadRouter
        { routes_internal_data := table.routes_internal_data_.map
            (fun data => data.map Serializator.SaveRouter.entry) }
        (Serializator.Router_unprocessed g) =
      (.ok (), { routes_internal_data_ :=
        table.routes_internal_data_.map (fun data => data.map (Option.map keptEntry)) }) := by
  obtain ⟨h1, h2⟩ := h
  unfold Serializator.LoadRouter Serializator.Router_unprocessed
  simp only
  rw [LoadRouter_loop_eq g.incidence_lists_.length _ 0 _
    (by
      intro row hrow
      rw [List.eq_of_mem_replicate hrow, List.length_replicate])
    (by
      intro ps hps
      obtain ⟨data, hdata, rfl⟩ := List.mem_map.1 hps
      rw [List.length_map]
      exact h2 data hdata)
    (by rw [List.length_map, List.length_replicate, h1]; omega)]
  simp only [List.take_zero, List.nil_append, Nat.zero_add, List.length_map, List.map_map]
  rw [List.drop_of_length_le (by rw [List.length_replicate, h1]), List.append_nil]
  congr 2
  apply List.map_congr_left
  intro data _
  simp only [Function.comp]
  rw [List.map_map]
  apply List.map_congr_left
  intro internal _
  exact entry_SaveRouter_entry internal

theorem index_of_mem_idsOf {ν : Type} (l : List (String × ν)) (hn : (l.map Prod.fst).Nodup)
    (p : String × Nat) (hp : p ∈ idsOf l 0) : unordered_map.index (idsOf l 0) p.1 0 = p.2 := by
  unfold unordered_map.index
  rw [unordered_map.find_of_mem (idsOf l 0) p.1 p.2 (by rw [idsOf_keys]; exact hn) hp]
  rfl

theorem find_ne_none_of_mem_keys {κ ν : Type} [DecidableEq κ] (m : List (κ × ν)) (k : κ)
    (h : k ∈ m.map Prod.fst) : unordered_map.find m k ≠ none := by
  intro hcon
  exact (unordered_map.find_eq_none_iff m k).1 hcon h

/-- `LoadTransportRouter` of the router sub-message `AddTransportRouter` wrote, after the
catalogue has been loaded. -/
theorem LoadTransportRouter_saved (c : TransportCatalogue) (hc : WellFormed c)
    (r : TransportRouter) (table : Router)
    (hids : r.id_by_stop_name_ = idsOf c.stops_by_names_ 0)
    (hbus : ∀ e ∈ r.graph_.edges_, e.weight.bus_name ∈ c.routes_by_names_.map Prod.fst)
    (hsquare : squareTable r.graph_ table)
    (s : Serializator)
    (hnames : s.stop_name_by_id_ = namesOf c.stops_by_names_ 0)
    (hroutes : s.route_name_by_id_ = namesOf c.routes_by_names_ 0)
    (hmsg : s.proto_catalogue_.router = some
      { stop_by_id := r.id_by_stop_name_.map (fun p =>
          { id := p.2, stop_id := unordered_map.index (idsOf c.stops_by_names_ 0) p.1 0 })
        settings := { wait_time := r.settings_.wait_time, velocity := r.settings_.velocity }
        graph :=
          { edges := r.graph_.edges_.map (fun e =>
              { from_ := e.from_, to_ := e.to_
                weight :=
                  { bus_id :=
                      unordered_map.index (idsOf c.routes_by_names_ 0) e.weight.bus_name 0
                    span_count := e.weight.span_count
                    total_time := e.weight.total_time } })
            incidence_lists := r.graph_.incidence_lists_ }
        router :=
          { routes_internal_data := table.routes_internal_data_.map
              (fun data => data.map Serializator.SaveRouter.entry) } })
    (catalogue : TransportCatalogue)
    (hcat_stops : catalogue.stops_by_names_ = c.stops_by_names_)
    (hcat_routes : catalogue.routes_by_names_ = c.routes_by_names_)
    (router_ptr : Option TransportRouter) :
    s.LoadTransportRouter catalogue router_ptr =
      (.ok (), some
        { catalogue_ := catalogue
          settings_ := r.settings_
          is_initialized_ := true
          graph_ := { edges_ := r.graph_.edges_, incidence_lists_ := r.graph_.incidence_lists_ }
          router_ := some { routes_internal_data_ :=
            table.routes_internal_data_.map (fun data => data.map (Option.map keptEntry)) }
          id_by_stop_name_ := idsOf c.stops_by_names_ 0
          stops_by_id_ := stopsByIdOf c.stops_by_names_ 0 }) := by
  have hentries : r.id_by_stop_name_.map (fun p =>
      ({ id := p.2, stop_id := unordered_map.index (idsOf c.stops_by_names_ 0) p.1 0 } :
        transport_router_serialize.StopById)) =
      (idsOf c.stops_by_names_ 0).map (fun p => { id := p.2, stop_id := p.2 }) := by
    rw [hids]
    apply List.map_congr_left
    intro p hp
    rw [index_of_mem_idsOf _ hc.stops_nodup p hp]
  have hloop := LoadTransportRouter_loop_eq s catalogue c.stops_by_names_ 0
    (TransportRouter.create catalogue
      { wait_time := r.settings_.wait_time, velocity := r.settings_.velocity })
    (by
      intro p hp
      have hmem : p.1 ∈ c.stops_by_names_.map Prod.fst := by
        rw [← idsOf_keys c.stops_by_names_ 0]
        exact List.mem_map.2 ⟨p, hp, rfl⟩
      have := (index_idsOf c.stops_by_names_ p.1 hmem).2
      rw [index_of_mem_idsOf _ hc.stops_nodup p hp] at this
      rw [hnames]
      exact this)
    (by
      intro p hp
      rw [hcat_stops]
      exact unordered_map.find_of_mem _ _ _ hc.stops_nodup hp)
    hc.stop_key
    (by simpa [TransportRouter.create] using hc.stops_nodup)
    (fun p hp => absurd hp (List.not_mem_nil _))
  have hgraph := LoadGraph_loop_edges_eq s catalogue (idsOf c.routes_by_names_ 0)
    r.graph_.edges_ {}
    (by
      intro e he
      have hmem := hbus e he
      have h1 := (index_idsOf c.routes_by_names_ e.weight.bus_name hmem).2
      cases hf : unordered_map.find c.routes_by_names_ e.weight.bus_name with
      | none => exact absurd hf (find_ne_none_of_mem_keys _ _ hmem)
      | some route =>
        refine ⟨route, ?_, ?_, ?_⟩
        · rw [hroutes]
          exact h1
        · rw [hcat_routes]
          exact hf
        · exact hc.route_key _ (unordered_map.mem_of_find _ _ _ hf))
  have hsq : squareTable
      ({ edges_ := [] ++ r.graph_.edges_
         incidence_lists_ := [] ++ r.graph_.incidence_lists_ } :
        graph.DirectedWeightedGraph RouteWeight) table := by
    unfold squareTable at hsquare ⊢
    simpa using hsquare
  have htable := LoadRouter_saved _ table hsq
  unfold Serializator.LoadTransportRouter
  rw [hmsg]
  simp only [Serializator.LoadTransportRouterSettings]
  rw [hentries, hloop]
  simp only [TransportRouter.create, Serializator.LoadGraph]
  rw [hgraph]
  simp only
  rw [htable]
  simp [TransportRouter.InternalInit]

/-- Claim C19.  For every catalogue `c` the public interface can produce, every routing
settings and every shortest-path engine: let `r` be the router constructed over `c` and
initialised by `InitRouter` (the call returned), whose engine built a table of one row and
one column per vertex of the graph.  Then `AddTransportCatalogue` followed by
`AddTransportRouter` (`SaveTransportRouter`, `SaveTransportRouterSettings`, `SaveGraph`,
`SaveRouter`) on a new serializer succeed, and `Deserialize` of the message they wrote
returns `true` with a router that has the routing settings of `r`, binds every stop name to
the same vertex id and every vertex id to the same stop, has the same list of edges (ends,
bus name, span count and total time, in the same order) and the same incidence lists, holds
a table of the same shape in which an absent entry is absent and a present entry has the
same total time and the same optional previous edge, and is marked initialised. -/
theorem router_codec_round_trip (code : RouterCode) (c : TransportCatalogue)
    (hc : Reachable c) (settings : RoutingSettings) (r : TransportRouter)
    (hinit : (TransportRouter.create c settings).InitRouter code = (.ok (), r))
    (hsquare : squareTable r.graph_ (code.construct r.graph_)) :
    ∃ (saved : Serializator) (loaded_catalogue : TransportCatalogue)
      (loaded : TransportRouter) (table loaded_table : Router),
      (({} : Serializator).AddTransportCatalogue c).1 = .ok () ∧
      (({} : Serializator).AddTransportCatalogue c).2.AddTransportRouter r = (.ok (), saved) ∧
      ({} : Serializator).Deserialize (.parsed saved.proto_catalogue_)
          { catalogue := {}, settings := none, router := none } =
        (.ok true, {},
          { catalogue := loaded_catalogue, settings := none, router := some loaded }) ∧
      loaded.settings_ = r.settings_ ∧
      (∀ stop_name, unordered_map.find loaded.id_by_stop_name_ stop_name =
        unordered_map.find r.id_by_stop_name_ stop_name) ∧
      (∀ id, unordered_map.find loaded.stops_by_id_ id =
        unordered_map.find r.stops_by_id_ id) ∧
      loaded.graph_.edges_ = r.graph_.edges_ ∧
      loaded.graph_.incidence_lists_ = r.graph_.incidence_lists_ ∧
      r.router_ = some table ∧
      loaded.router_ = some loaded_table ∧
      loaded_table.routes_internal_data_ =
        table.routes_internal_data_.map (fun row => row.map (Option.map keptEntry)) ∧
      loaded.is_initialized_ = true := by
  have hw := WellFormed_of_Reachable c hc
  obtain ⟨hset, hids, hsbi, hini, hrouter, hbus⟩ := InitRouter_shape code c hw settings r hinit
  have hsave1 := AddTransportCatalogue_eq c hw
  have hsave2 := AddTransportRouter_eq
    { proto_catalogue_ :=
        { catalogue :=
            { stops := protoStopsOf c.stops_by_names_ 0
              routes := protoRoutesOf (idsOf c.stops_by_names_ 0) c.routes_by_names_ 0
              distances := protoDistancesOf (idsOf c.stops_by_names_ 0) c.distances_ } }
      stop_id_by_name_ := idsOf c.stops_by_names_ 0
      route_id_by_name_ := idsOf c.routes_by_names_ 0 }
    r (code.construct r.graph_) rfl
    (by
      intro p hp
      apply find_ne_none_of_mem_keys
      rw [hids] at hp
      exact List.mem_map.2 ⟨p, hp, rfl⟩)
    (by
      intro e he
      apply find_ne_none_of_mem_keys
      rw [idsOf_keys]
      exact hbus e he)
    hrouter
  obtain ⟨loaded_catalogue, h1, h2, h3, h4, h5, -⟩ := load_catalogue_phase c hw
    { catalogue :=
        { stops := protoStopsOf c.stops_by_names_ 0
          routes := protoRoutesOf (idsOf c.stops_by_names_ 0) c.routes_by_names_ 0
          distances := protoDistancesOf (idsOf c.stops_by_names_ 0) c.distances_ }
      router := some
        { stop_by_id := r.id_by_stop_name_.map (fun p =>
            { id := p.2, stop_id := unordered_map.index (idsOf c.stops_by_names_ 0) p.1 0 })
          settings := { wait_time := r.settings_.wait_time, velocity := r.settings_.velocity }
          graph :=
            { edges := r.graph_.edges_.map (fun e =>
                { from_ := e.from_, to_ := e.to_
                  weight :=
                    { bus_id :=
                        unordered_map.index (idsOf c.routes_by_names_ 0) e.weight.bus_name 0
                      span_count := e.weight.span_count
                      total_time := e.weight.total_time } })
              incidence_lists := r.graph_.incidence_lists_ }
          router :=
            { routes_internal_data := (code.construct r.graph_).routes_internal_data_.map
                (fun data => data.map Serializator.SaveRouter.entry) } } } rfl
  have hload := LoadTransportRouter_saved c hw r (code.construct r.graph_) hids hbus hsquare
    { proto_catalogue_ :=
        { catalogue :=
            { stops := protoStopsOf c.stops_by_names_ 0
              routes := protoRoutesOf (idsOf c.stops_by_names_ 0) c.routes_by_names_ 0
              distances := protoDistancesOf (idsOf c.stops_by_names_ 0) c.distances_ }
          router := some
            { stop_by_id := r.id_by_stop_name_.map (fun p =>
                { id := p.2
                  stop_id := unordered_map.index (idsOf c.stops_by_names_ 0) p.1 0 })
              settings :=
                { wait_time := r.settings_.wait_time, velocity := r.settings_.velocity }
              graph :=
                { edges := r.graph_.edges_.map (fun e =>
                    { from_ := e.from_, to_ := e.to_
                      weight :=
                        { bus_id := unordered_map.index (idsOf c.routes_by_names_ 0)
                            e.weight.bus_name 0
                          span_count := e.weight.span_count
                          total_time := e.weight.total_time } })
                  incidence_lists := r.graph_.incidence_lists_ }
              router :=
                { routes_internal_data :=
                    (code.construct r.graph_).routes_internal_data_.map
                      (fun data => data.map Serializator.SaveRouter.entry) } } }
      stop_name_by_id_ := namesOf c.stops_by_names_ 0
      route_name_by_id_ := namesOf c.routes_by_names_ 0 }
    rfl rfl rfl loaded_catalogue h4 h5 none
  have hdes : ({} : Serializator).Deserialize
      (.parsed
        { catalogue :=
            { stops := protoStopsOf c.stops_by_names_ 0
              routes := protoRoutesOf (idsOf c.stops_by_names_ 0) c.routes_by_names_ 0
              distances := protoDistancesOf (idsOf c.stops_by_names_ 0) c.distances_ }
          router := some
            { stop_by_id := r.id_by_stop_name_.map (fun p =>
                { id := p.2
                  stop_id := unordered_map.index (idsOf c.stops_by_names_ 0) p.1 0 })
              settings :=
                { wait_time := r.settings_.wait_time, velocity := r.settings_.velocity }
              graph :=
                { edges := r.graph_.edges_.map (fun e =>
                    { from_ := e.from_, to_ := e.to_
                      weight :=
                        { bus_id := unordered_map.index (idsOf c.routes_by_names_ 0)
                            e.weight.bus_name 0
                          span_count := e.weight.span_count
                          total_time := e.weight.total_time } })
                  incidence_lists := r.graph_.incidence_lists_ }
              router :=
                { routes_internal_data :=
                    (code.construct r.graph_).routes_internal_data_.map
                      (fun data => data.map Serializator.SaveRouter.entry) } } })
      { catalogue := {}, settings := none, router := none } =
      (.ok true, {},
        { catalogue := loaded_catalogue
          settings := none
          router := some
            { catalogue_ := loaded_catalogue
              settings_ := r.settings_
              is_initialized_ := true
              graph_ :=
                { edges_ := r.graph_.edges_, incidence_lists_ := r.graph_.incidence_lists_ }
              router_ := some
                { routes_internal_data_ :=
                    (code.construct r.graph_).routes_internal_data_.map
                      (fun data => data.map (Option.map keptEntry)) }
              id_by_stop_name_ := idsOf c.stops_by_names_ 0
              stops_by_id_ := stopsByIdOf c.stops_by_names_ 0 } }) := by
    have hX := triple_eq _ _ _ h1 h2
    unfold Serializator.Deserialize
    simp only
    rw [hX]
    simp only
    rw [h3]
    simp only
    rw [hload]
    rfl
  have hA : (({} : Serializator).AddTransportCatalogue c).1 = .ok () := by rw [hsave1]
  have hB : (({} : Serializator).AddTransportCatalogue c).2.AddTransportRouter r =
      (.ok (),
        { proto_catalogue_ :=
            { catalogue :=
                { stops := protoStopsOf c.stops_by_names_ 0
                  routes := protoRoutesOf (idsOf c.stops_by_names_ 0) c.routes_by_names_ 0
                  distances := protoDistancesOf (idsOf c.stops_by_names_ 0) c.distances_ }
              router := some
                { stop_by_id := r.id_by_stop_name_.map (fun p =>
                    { id := p.2
                      stop_id := unordered_map.index (idsOf c.stops_by_names_ 0) p.1 0 })
                  settings :=
                    { wait_time := r.settings_.wait_time, velocity := r.settings_.velocity }
                  graph :=
                    { edges := r.graph_.edges_.map (fun e =>
                        { from_ := e.from_, to_ := e.to_
                          weight :=
                            { bus_id := unordered_map.index (idsOf c.routes_by_names_ 0)
                                e.weight.bus_name 0
                              span_count := e.weight.span_count
                              total_time := e.weight.total_time } })
                      incidence_lists := r.graph_.incidence_lists_ }
                  router :=
                    { routes_internal_data :=
                        (code.construct r.graph_).routes_internal_data_.map
                          (fun data => data.map Serializator.SaveRouter.entry) } } }
          stop_id_by_name_ := idsOf c.stops_by_names_ 0
          route_id_by_name_ := idsOf c.routes_by_names_ 0 }) := by
    rw [hsave1]
    simp only
    rw [hsave2]
    rfl
  have hfind1 : ∀ stop_name, unordered_map.find (idsOf c.stops_by_names_ 0) stop_name =
      unordered_map.find r.id_by_stop_name_ stop_name := by
    intro n
    rw [hids]
  have hfind2 : ∀ id, unordered_map.find (stopsByIdOf c.stops_by_names_ 0) id =
      unordered_map.find r.stops_by_id_ id := by
    intro n
    rw [hsbi]
  exact ⟨_, _, _, _, _, hA, hB, hdes, rfl, hfind1, hfind2, rfl, rfl, hrouter, rfl, rfl, rfl⟩

/-- The router of scenario S5, initialised over the catalogue of S3, comes back from the
codec. -/
theorem router_codec_round_trip_witness :
    Reachable S3.catalogue ∧
    (TransportRouter.create S3.catalogue S4.settings).InitRouter S5.code =
      (.ok (), S5.initialised) ∧
    squareTable S5.initialised.graph_ (S5.code.construct S5.initialised.graph_) ∧
    ∃ (saved : Serializator) (loaded_catalogue : TransportCatalogue)
      (loaded : TransportRouter) (table loaded_table : Router),
      (({} : Serializator).AddTransportCatalogue S3.catalogue).1 = .ok () ∧
      (({} : Serializator).AddTransportCatalogue S3.catalogue).2.AddTransportRouter
        S5.initialised = (.ok (), saved) ∧
      ({} : Serializator).Deserialize (.parsed saved.proto_catalogue_)
          { catalogue := {}, settings := none, router := none } =
        (.ok true, {},
          { catalogue := loaded_catalogue, settings := none, router := some loaded }) ∧
      loaded.settings_ = S5.initialised.settings_ ∧
      (∀ stop_name, unordered_map.find loaded.id_by_stop_name_ stop_name =
        unordered_map.find S5.initialised.id_by_stop_name_ stop_name) ∧
      (∀ id, unordered_map.find loaded.stops_by_id_ id =
        unordered_map.find S5.initialised.stops_by_id_ id) ∧
      loaded.graph_.edges_ = S5.initialised.graph_.edges_ ∧
      loaded.graph_.incidence_lists_ = S5.initialised.graph_.incidence_lists_ ∧
      S5.initialised.router_ = some table ∧
      loaded.router_ = some loaded_table ∧
      loaded_table.routes_internal_data_ =
        table.routes_internal_data_.map (fun row => row.map (Option.map keptEntry)) ∧
      loaded.is_initialized_ = true :=
  ⟨⟨S3.calls, rfl⟩, rfl, by decide,
    router_codec_round_trip S5.code S3.catalogue ⟨S3.calls, rfl⟩ S4.settings S5.initialised
      rfl (by decide)⟩

end serialize

/-! ## The shortest-path engine: Dijkstra settles shortest paths -/

namespace transport_router

namespace Router

open graph

theorem entry_set_eq (row : List (Option RouteInternalData)) (v : Nat)
    (x : Option RouteInternalData) (h : v < row.length) : entry (row.set v x) v = x := by
  unfold entry
  simp [List.getD_eq_getElem?_getD, List.getElem?_set_self, h]

theorem entry_set_ne (row : List (Option RouteInternalData)) (u v : Nat)
    (x : Option RouteInternalData) (h : v ≠ u) : entry (row.set v x) u = entry row u := by
  unfold entry
  simp [List.getD_eq_getElem?_getD, List.getElem?_set_ne h]

theorem entry_of_le (row : List (Option RouteInternalData)) (v : Nat) (h : row.length ≤ v) :
    entry row v = none := by
  unfold entry
  simp [List.getD_eq_getElem?_getD, List.getElem?_eq_none h]

theorem lt_of_entry (row : List (Option RouteInternalData)) (v : Nat) (h : entry row v ≠ none) :
    v < row.length := by
  by_contra hcon
  exact h (entry_of_le row v (by omega))

theorem timeOf_of_entry (row : List (Option RouteInternalData)) (v : Nat)
    (data : RouteInternalData) (h : entry row v = some data) :
    timeOf row v = data.weight.total_time := by
  unfold timeOf
  rw [h]
  rfl

theorem timeOf_congr (row row' : List (Option RouteInternalData)) (v : Nat)
    (h : entry row' v = entry row v) : timeOf row' v = timeOf row v := by
  unfold timeOf
  rw [h]

theorem Inv_init (g : DirectedWeightedGraph RouteWeight) (source : Nat)
    (hs : source < g.incidence_lists_.length) :
    Inv g source (initialRow g.incidence_lists_.length source) [] [] := by
  have hlen : (initialRow g.incidence_lists_.length source).length =
      g.incidence_lists_.length := by
    simp [initialRow]
  have hsrc : entry (initialRow g.incidence_lists_.length source) source =
      some { weight := {}, prev_edge := none } := by
    unfold initialRow
    rw [entry_set_eq _ _ _ (by simpa using hs)]
  have hother : ∀ v, v ≠ source →
      entry (initialRow g.incidence_lists_.length source) v = none := by
    intro v hv
    unfold initialRow
    rw [entry_set_ne _ _ _ _ (fun h => hv h.symm)]
    unfold entry
    simp only [List.getD_eq_getElem?_getD, List.getElem?_replicate]
    split <;> rfl
  constructor
  · exact hlen
  · exact hs
  · exact hsrc
  · intro _ v hv
    by_contra hne
    exact hv (hother v hne)
  · intro h
    exact absurd rfl h
  · exact List.nodup_nil
  · intro u hu
    exact absurd hu (List.not_mem_nil _)
  · intro u hu
    exact absurd hu (List.not_mem_nil _)
  · intro u hu
    exact absurd hu (List.not_mem_nil _)
  · intro u hu
    exact absurd hu (List.not_mem_nil _)
  · intro v
    by_cases hv : v = source
    · rw [hv, timeOf_of_entry _ _ _ hsrc]
    · unfold timeOf
      rw [hother v hv]
      rfl
  · intro v data hv hne
    rw [hother v hne] at hv
    exact Option.noConfusion hv
  · intro id e _ hmem
    exact absurd hmem (List.not_mem_nil _)
  · intro id hid
    exact absurd hid (List.not_mem_nil _)

theorem mem_candidates (row : List (Option RouteInternalData)) (settled : List Nat) (v : Nat) :
    v ∈ (List.range row.length).filter
      (fun vertex => vertex ∉ settled ∧ (entry row vertex).isSome) ↔
    v ∉ settled ∧ entry row v ≠ none := by
  rw [List.mem_filter, List.mem_range]
  simp only [decide_eq_true_eq]
  constructor
  · rintro ⟨-, h1, h2⟩
    refine ⟨h1, ?_⟩
    intro hcon
    rw [hcon] at h2
    exact absurd h2 (by simp)
  · rintro ⟨h1, h2⟩
    refine ⟨lt_of_entry row v h2, h1, ?_⟩
    cases h : entry row v with
    | none => exact absurd h h2
    | some d => rfl

theorem pickMin_some (row : List (Option RouteInternalData)) (settled : List Nat) (u : Nat)
    (h : pickMin row settled = some u) :
    u ∉ settled ∧ entry row u ≠ none ∧
    ∀ v, v ∉ settled → entry row v ≠ none → timeOf row u ≤ timeOf row v := by
  unfold pickMin at h
  have hmem := List.argmin_mem h
  rw [mem_candidates] at hmem
  refine ⟨hmem.1, hmem.2, ?_⟩
  intro v hv1 hv2
  exact List.le_of_mem_argmin ((mem_candidates row settled v).2 ⟨hv1, hv2⟩) h

theorem pickMin_none (row : List (Option RouteInternalData)) (settled : List Nat)
    (h : pickMin row settled = none) : ∀ v, v ∉ settled → entry row v = none := by
  unfold pickMin at h
  rw [List.argmin_eq_none] at h
  intro v hv
  by_contra hcon
  have := (mem_candidates row settled v).2 ⟨hv, hcon⟩
  rw [h] at this
  exact absurd this (List.not_mem_nil _)

theorem indexOf_append_le (settled : List Nat) (u v : Nat) :
    settled.indexOf v ≤ (settled ++ [u]).indexOf v := by
  by_cases hv : v ∈ settled
  · rw [List.indexOf_append_of_mem hv]
  · rw [List.indexOf_append_of_not_mem hv, List.indexOf_eq_length.2 hv]
    omega

theorem Inv_pick (g : DirectedWeightedGraph RouteWeight) (hg : Valid g) (source : Nat)
    (row : List (Option RouteInternalData)) (settled : List Nat) (u : Nat)
    (h : Inv g source row settled []) (hu : pickMin row settled = some u) :
    Inv g source row (settled ++ [u]) (g.incidence_lists_.getD u []) := by
  obtain ⟨hu1, hu2, hu3⟩ := pickMin_some row settled u hu
  have hulen : u < g.incidence_lists_.length := by
    rw [← h.len]
    exact lt_of_entry row u hu2
  constructor
  · exact h.len
  · exact h.src_lt
  · exact h.src
  · intro hnil
    exact absurd hnil (by simp)
  · intro _
    by_cases hs : settled = []
    · have := h.fresh hs u hu2
      rw [hs, this]
      simp
    · exact List.mem_append_left _ (h.src_settled hs)
  · rw [List.nodup_append]
    refine ⟨h.settled_nodup, List.nodup_singleton _, ?_⟩
    intro x hx1 hx2
    rw [List.mem_singleton] at hx2
    rw [hx2] at hx1
    exact hu1 hx1
  · intro x hx
    rw [List.mem_append, List.mem_singleton] at hx
    rcases hx with hx | hx
    · exact h.settled_lt x hx
    · rw [hx]
      exact hulen
  · intro x hx
    rw [List.mem_append, List.mem_singleton] at hx
    rcases hx with hx | hx
    · exact h.settled_some x hx
    · rw [hx]
      exact hu2
  · intro x hx v hv
    rw [List.mem_append, List.mem_singleton, not_or] at hv
    rw [List.mem_append, List.mem_singleton] at hx
    rcases hx with hx | hx
    · exact h.le_unsettled x hx v hv.1
    · by_cases hvn : entry row v = none
      · exact Or.inr hvn
      · left
        rw [hx]
        exact hu3 v hv.1 hvn
  · intro x hx l hl
    rw [List.getLast?_append, List.getLast?_singleton] at hl
    have hl' : u = l := by
      simpa [Option.or] using hl
    subst hl'
    rw [List.mem_append, List.mem_singleton] at hx
    rcases hx with hx | hx
    · rcases h.le_unsettled x hx u hu1 with h1 | h1
      · exact h1
      · exact absurd h1 hu2
    · rw [hx]
  · exact h.nonneg
  · intro v data hv hne
    obtain ⟨id, e, h1, h2, h3, h4, h5, h6⟩ := h.chain v data hv hne
    refine ⟨id, e, h1, h2, h3, h4, h5, ?_⟩
    have hmem : e.from_ ∈ settled := by
      rw [← List.indexOf_lt_length]
      exact lt_of_lt_of_le h6 List.indexOf_le_length
    rw [List.indexOf_append_of_mem hmem]
    exact lt_of_lt_of_le h6 (indexOf_append_le settled u v)
  · intro id e he hmem hpend
    rw [List.mem_append, List.mem_singleton] at hmem
    rcases hmem with hmem | hmem
    · exact h.relaxed id e he hmem (List.not_mem_nil _)
    · exfalso
      apply hpend
      rw [← hmem]
      exact (hg.1 id e he).2.2
  · intro id hid
    obtain ⟨e, he1, he2⟩ := hg.2 u id hid
    refine ⟨e, he1, ?_⟩
    rw [List.getLast?_append, List.getLast?_singleton, he2]
    rfl

theorem mem_of_getLast? {α : Type} (l : List α) (a : α) (h : l.getLast? = some a) : a ∈ l := by
  rw [List.getLast?_eq_some_iff] at h
  obtain ⟨ys, rfl⟩ := h
  simp

theorem Inv_keep (g : DirectedWeightedGraph RouteWeight) (source : Nat)
    (row : List (Option RouteInternalData)) (settled : List Nat) (edge_id : Nat)
    (rest : List Nat) (edge : Edge RouteWeight)
    (h : Inv g source row settled (edge_id :: rest))
    (he : g.edges_.get? edge_id = some edge)
    (hsome : entry row edge.to_ ≠ none)
    (hle : timeOf row edge.to_ ≤ timeOf row edge.from_ + edge.weight.total_time) :
    Inv g source row settled rest := by
  constructor
  · exact h.len
  · exact h.src_lt
  · exact h.src
  · exact h.fresh
  · exact h.src_settled
  · exact h.settled_nodup
  · exact h.settled_lt
  · exact h.settled_some
  · exact h.le_unsettled
  · exact h.last_max
  · exact h.nonneg
  · exact h.chain
  · intro id e hid hmem hpend
    by_cases hsame : id = edge_id
    · subst hsame
      rw [he] at hid
      injection hid with hid
      subst hid
      exact ⟨hsome, hle⟩
    · apply h.relaxed id e hid hmem
      intro hcon
      rw [List.mem_cons] at hcon
      rcases hcon with hcon | hcon
      · exact hsame hcon
      · exact hpend hcon
  · intro id hid
    exact h.pend id (List.mem_cons_of_mem _ hid)

theorem Inv_update (g : DirectedWeightedGraph RouteWeight) (hg : Valid g)
    (hn : NonNegative g) (source : Nat)
    (row : List (Option RouteInternalData)) (settled : List Nat) (edge_id : Nat)
    (rest : List Nat) (edge : Edge RouteWeight) (w : RouteWeight)
    (h : Inv g source row settled (edge_id :: rest))
    (he : g.edges_.get? edge_id = some edge)
    (hlast : settled.getLast? = some edge.from_)
    (hw : w.total_time = timeOf row edge.from_)
    (hbetter : entry row edge.to_ = none ∨
      w.total_time + edge.weight.total_time < timeOf row edge.to_) :
    Inv g source
      (row.set edge.to_ (some { weight := w.add edge.weight, prev_edge := some edge_id }))
      settled rest ∧
    ∀ x ∈ settled,
      entry (row.set edge.to_
        (some { weight := w.add edge.weight, prev_edge := some edge_id })) x = entry row x := by
  have hu : edge.from_ ∈ settled := mem_of_getLast? _ _ hlast
  have hvlt : edge.to_ < row.length := by
    rw [h.len]
    exact (hg.1 edge_id edge he).2.1
  have hpos : 0 ≤ edge.weight.total_time := hn edge (List.get?_mem he)
  have hv : edge.to_ ∉ settled := by
    intro hmem
    rcases hbetter with hb | hb
    · exact h.settled_some _ hmem hb
    · have := h.last_max _ hmem _ hlast
      linarith
  have hne : ∀ x ∈ settled, edge.to_ ≠ x := by
    intro x hx hcon
    rw [hcon] at hv
    exact hv hx
  have hframe : ∀ x, edge.to_ ≠ x →
      entry (row.set edge.to_
        (some { weight := w.add edge.weight, prev_edge := some edge_id })) x = entry row x :=
    fun x hx => entry_set_ne row x edge.to_ _ hx
  have hnew : entry (row.set edge.to_
      (some { weight := w.add edge.weight, prev_edge := some edge_id })) edge.to_ =
      some { weight := w.add edge.weight, prev_edge := some edge_id } :=
    entry_set_eq row edge.to_ _ hvlt
  have htnew : timeOf (row.set edge.to_
      (some { weight := w.add edge.weight, prev_edge := some edge_id })) edge.to_ =
      w.total_time + edge.weight.total_time := by
    rw [timeOf_of_entry _ _ _ hnew]
    rfl
  have htframe : ∀ x, edge.to_ ≠ x →
      timeOf (row.set edge.to_
        (some { weight := w.add edge.weight, prev_edge := some edge_id })) x = timeOf row x :=
    fun x hx => timeOf_congr _ _ _ (hframe x hx)
  have hsne : settled ≠ [] := by
    intro hnil
    rw [hnil] at hu
    exact absurd hu (List.not_mem_nil _)
  have hsrc : edge.to_ ≠ source := hne source (h.src_settled hsne)
  refine ⟨?_, fun x hx => hframe x (hne x hx)⟩
  constructor
  · rw [List.length_set]
    exact h.len
  · exact h.src_lt
  · rw [hframe source hsrc]
    exact h.src
  · intro hnil
    exact absurd hnil hsne
  · exact h.src_settled
  · exact h.settled_nodup
  · exact h.settled_lt
  · intro x hx
    rw [hframe x (hne x hx)]
    exact h.settled_some x hx
  · intro x hx v hvn
    rw [htframe x (hne x hx)]
    by_cases hcase : edge.to_ = v
    · left
      rw [← hcase, htnew, hw]
      have := h.last_max x hx _ hlast
      linarith
    · rw [htframe v hcase, hframe v hcase]
      exact h.le_unsettled x hx v hvn
  · intro x hx l hl
    rw [htframe x (hne x hx), htframe l (hne l (mem_of_getLast? _ _ hl))]
    exact h.last_max x hx l hl
  · intro v
    by_cases hcase : edge.to_ = v
    · rw [← hcase, htnew, hw]
      have := h.nonneg edge.from_
      linarith
    · rw [htframe v hcase]
      exact h.nonneg v
  · intro v data hvd hvs
    by_cases hcase : edge.to_ = v
    · subst hcase
      rw [hnew] at hvd
      injection hvd with hvd
      subst hvd
      refine ⟨edge_id, edge, rfl, he, rfl, ?_, ?_, ?_⟩
      · rw [hframe _ (hne _ hu)]
        exact h.settled_some _ hu
      · rw [htframe _ (hne _ hu), ← hw]
        rfl
      · rw [List.indexOf_eq_length.2 hv]
        exact List.indexOf_lt_length.2 hu
    · rw [hframe v hcase] at hvd
      obtain ⟨id, e, h1, h2, h3, h4, h5, h6⟩ := h.chain v data hvd hvs
      have hmem : e.from_ ∈ settled := by
        rw [← List.indexOf_lt_length]
        exact lt_of_lt_of_le h6 List.indexOf_le_length
      refine ⟨id, e, h1, h2, h3, ?_, ?_, h6⟩
      · rw [hframe _ (hne _ hmem)]
        exact h4
      · rw [htframe _ (hne _ hmem)]
        exact h5
  · intro id e hid hmem hpend
    rw [htframe _ (hne _ hmem)]
    by_cases hsame : id = edge_id
    · subst hsame
      rw [he] at hid
      injection hid with hid
      subst hid
      rw [hnew, htnew, hw]
      exact ⟨Option.some_ne_none _, le_refl _⟩
    · have hold := h.relaxed id e hid hmem (by
        intro hcon
        rw [List.mem_cons] at hcon
        rcases hcon with hcon | hcon
        · exact hsame hcon
        · exact hpend hcon)
      by_cases hcase : edge.to_ = e.to_
      · rw [← hcase, hnew, htnew]
        refine ⟨Option.some_ne_none _, ?_⟩
        rw [← hcase] at hold
        rcases hbetter with hb | hb
        · exact absurd hb hold.1
        · linarith [hold.2]
      · rw [hframe _ hcase, htframe _ hcase]
        exact hold
  · intro id hid
    exact h.pend id (List.mem_cons_of_mem _ hid)

theorem Inv_relax (g : DirectedWeightedGraph RouteWeight) (hg : Valid g)
    (hn : NonNegative g) (source : Nat)
    (row : List (Option RouteInternalData)) (settled : List Nat) (u edge_id : Nat)
    (rest : List Nat) (w : RouteWeight)
    (h : Inv g source row settled (edge_id :: rest))
    (hlast : settled.getLast? = some u)
    (hw : w.total_time = timeOf row u) :
    Inv g source (relaxEdge g w row edge_id) settled rest ∧
    ∀ x ∈ settled, entry (relaxEdge g w row edge_id) x = entry row x := by
  obtain ⟨edge, he, hfrom⟩ := h.pend edge_id (List.mem_cons_self _ _)
  have hu : edge.from_ = u := by
    rw [hlast] at hfrom
    injection hfrom with hfrom
    exact hfrom.symm
  subst hu
  unfold relaxEdge
  rw [he]
  simp only
  cases hentry : entry row edge.to_ with
  | none =>
    simp only
    exact Inv_update g hg hn source row settled edge_id rest edge w h he hlast hw
      (Or.inl hentry)
  | some data =>
    simp only
    have ht := timeOf_of_entry row edge.to_ data hentry
    by_cases hlt : (w.add edge.weight).lt data.weight
    · rw [if_pos hlt]
      apply Inv_update g hg hn source row settled edge_id rest edge w h he hlast hw
      right
      rw [ht]
      exact hlt
    · rw [if_neg hlt]
      refine ⟨Inv_keep g source row settled edge_id rest edge h he ?_ ?_, fun x _ => rfl⟩
      · rw [hentry]
        exact Option.some_ne_none _
      · rw [ht, ← hw]
        exact not_lt.1 hlt

theorem Inv_fold (g : DirectedWeightedGraph RouteWeight) (hg : Valid g)
    (hn : NonNegative g) (source : Nat) (settled : List Nat) (u : Nat) (w : RouteWeight)
    (hlast : settled.getLast? = some u) (pending : List Nat)
    (row : List (Option RouteInternalData))
    (h : Inv g source row settled pending) (hw : w.total_time = timeOf row u) :
    Inv g source (pending.foldl (relaxEdge g w) row) settled [] := by
  induction pending generalizing row with
  | nil => exact h
  | cons edge_id rest ih =>
    obtain ⟨h1, h2⟩ := Inv_relax g hg hn source row settled u edge_id rest w h hlast hw
    rw [List.foldl_cons]
    apply ih _ h1
    rw [hw]
    exact (timeOf_congr _ _ _ (h2 u (mem_of_getLast? _ _ hlast))).symm

theorem mem_of_full (settled : List Nat) (n : Nat) (hnd : settled.Nodup)
    (hlt : ∀ u ∈ settled, u < n) (hlen : settled.length = n) (v : Nat) (hv : v < n) :
    v ∈ settled := by
  have hsub : settled.toFinset ⊆ Finset.range n := by
    intro x hx
    rw [List.mem_toFinset] at hx
    exact Finset.mem_range.2 (hlt x hx)
  have hcard : settled.toFinset.card = n := by
    rw [List.toFinset_card_of_nodup hnd, hlen]
  have heq : settled.toFinset = Finset.range n :=
    Finset.eq_of_subset_of_card_le hsub (by rw [hcard, Finset.card_range])
  have : v ∈ settled.toFinset := by
    rw [heq]
    exact Finset.mem_range.2 hv
  exact List.mem_toFinset.1 this

/-- When the loop of Dijkstra ends every vertex that has an entry is settled. -/
theorem settle_done (g : DirectedWeightedGraph RouteWeight) (hg : Valid g)
    (hn : NonNegative g) (source : Nat) (fuel : Nat) (settled : List Nat)
    (row : List (Option RouteInternalData))
    (h : Inv g source row settled [])
    (hfuel : settled.length + fuel = g.incidence_lists_.length) :
    ∃ done, Inv g source (settle g fuel settled row) done [] ∧
      ∀ v, v ∉ done → entry (settle g fuel settled row) v = none := by
  induction fuel generalizing settled row with
  | zero =>
    refine ⟨settled, h, ?_⟩
    intro v hv
    unfold settle
    apply entry_of_le
    rw [h.len]
    by_contra hcon
    exact hv (mem_of_full settled _ h.settled_nodup h.settled_lt (by omega) v (by omega))
  | succ fuel ih =>
    unfold settle
    cases hpick : pickMin row settled with
    | none =>
      exact ⟨settled, h, pickMin_none row settled hpick⟩
    | some u =>
      simp only
      obtain ⟨hu1, hu2, -⟩ := pickMin_some row settled u hpick
      cases hentry : entry row u with
      | none => exact absurd hentry hu2
      | some data =>
        simp only
        have hpicked := Inv_pick g hg source row settled u h hpick
        have hlast : (settled ++ [u]).getLast? = some u := by simp
        have hfold := Inv_fold g hg hn source (settled ++ [u]) u data.weight hlast _ row
          hpicked (timeOf_of_entry row u data hentry).symm
        exact ih (settled ++ [u]) _ hfold (by rw [List.length_append]; simp; omega)

theorem isPath_append (g : DirectedWeightedGraph RouteWeight) (a b : Nat) (ids : List Nat)
    (edge_id : Nat) (edge : Edge RouteWeight) (h : isPath g a b ids)
    (he : g.edges_.get? edge_id = some edge) (hfrom : edge.from_ = b) :
    isPath g a edge.to_ (ids ++ [edge_id]) := by
  induction ids generalizing a with
  | nil =>
    unfold isPath at h
    subst h
    simp only [List.nil_append, isPath, he]
    exact ⟨hfrom, trivial⟩
  | cons id rest ih =>
    simp only [List.cons_append, isPath] at h ⊢
    cases hid : g.edges_.get? id with
    | none =>
      rw [hid] at h
      exact h.elim
    | some e =>
      rw [hid] at h
      simp only at h ⊢
      exact ⟨h.1, ih _ h.2⟩

theorem pathTime_append (g : DirectedWeightedGraph RouteWeight) (ids : List Nat)
    (edge_id : Nat) : pathTime g (ids ++ [edge_id]) = pathTime g ids + edgeTime g edge_id := by
  unfold pathTime
  simp

theorem edgeTime_of_get? (g : DirectedWeightedGraph RouteWeight) (edge_id : Nat)
    (edge : Edge RouteWeight) (he : g.edges_.get? edge_id = some edge) :
    edgeTime g edge_id = edge.weight.total_time := by
  unfold edgeTime
  rw [he]
  rfl

/-- No path from the source is shorter than the entry of its end, and the end of a path
from the source has an entry. -/
theorem lower_bound (g : DirectedWeightedGraph RouteWeight) (source : Nat)
    (row : List (Option RouteInternalData)) (done : List Nat)
    (h : Inv g source row done [])
    (hdone : ∀ v, v ∉ done → entry row v = none)
    (ids : List Nat) (a b : Nat) (ha : entry row a ≠ none) (hp : isPath g a b ids) :
    entry row b ≠ none ∧ timeOf row b ≤ timeOf row a + pathTime g ids := by
  induction ids generalizing a with
  | nil =>
    unfold isPath at hp
    subst hp
    refine ⟨ha, ?_⟩
    simp [pathTime]
  | cons id rest ih =>
    simp only [isPath] at hp
    cases hid : g.edges_.get? id with
    | none =>
      rw [hid] at hp
      exact hp.elim
    | some e =>
      rw [hid] at hp
      simp only at hp
      obtain ⟨hfrom, hrest⟩ := hp
      have hmem : e.from_ ∈ done := by
        by_contra hcon
        rw [hfrom] at hcon
        exact ha (hdone a hcon)
      obtain ⟨h1, h2⟩ := h.relaxed id e hid hmem (List.not_mem_nil _)
      obtain ⟨h3, h4⟩ := ih e.to_ h1 hrest
      refine ⟨h3, ?_⟩
      have h5 : pathTime g (id :: rest) = e.weight.total_time + pathTime g rest := by
        simp [pathTime, edgeTime_of_get? g id e hid]
      rw [h5, ← hfrom]
      linarith

/-- The entry of a vertex is the time of a path from the source, the one the back-pointers
give. -/
theorem realised (g : DirectedWeightedGraph RouteWeight) (source : Nat)
    (row : List (Option RouteInternalData)) (done : List Nat)
    (h : Inv g source row done []) (n : Nat) :
    ∀ v, done.indexOf v = n → entry row v ≠ none →
      ∃ ids, isPath g source v ids ∧ pathTime g ids = timeOf row v ∧
        ∀ fuel edges, n < fuel → walk g row fuel v edges = some (ids ++ edges) := by
  induction n using Nat.strong_induction_on with
  | _ n ih =>
    intro v hv hentry
    cases hdata : entry row v with
    | none => exact absurd hdata hentry
    | some data =>
      by_cases hsrc : v = source
      · subst hsrc
        refine ⟨[], rfl, ?_, ?_⟩
        · rw [timeOf_of_entry _ _ _ h.src]
          rfl
        · intro fuel edges hfuel
          cases fuel with
          | zero => exact absurd hfuel (Nat.not_lt_zero _)
          | succ fuel =>
            unfold walk
            rw [h.src]
            rfl
      · obtain ⟨id, e, h1, h2, h3, h4, h5, h6⟩ := h.chain v data hdata hsrc
        rw [hv] at h6
        obtain ⟨ids, hp, ht, hwalk⟩ := ih _ h6 e.from_ rfl h4
        refine ⟨ids ++ [id], ?_, ?_, ?_⟩
        · rw [← h3]
          exact isPath_append g source e.from_ ids id e hp h2 rfl
        · rw [pathTime_append, ht, edgeTime_of_get? g id e h2, timeOf_of_entry _ _ _ hdata, h5]
        · intro fuel edges hfuel
          cases fuel with
          | zero => exact absurd hfuel (Nat.not_lt_zero _)
          | succ fuel =>
            unfold walk
            rw [hdata]
            simp only
            rw [h1]
            simp only
            rw [h2]
            simp only
            rw [hwalk fuel (id :: edges) (by omega)]
            simp

theorem length_le_of_nodup (settled : List Nat) (n : Nat) (hnd : settled.Nodup)
    (hlt : ∀ u ∈ settled, u < n) : settled.length ≤ n := by
  have hsub : settled.toFinset ⊆ Finset.range n := by
    intro x hx
    rw [List.mem_toFinset] at hx
    exact Finset.mem_range.2 (hlt x hx)
  have := Finset.card_le_card hsub
  rw [List.toFinset_card_of_nodup hnd, Finset.card_range] at this
  exact this

/-- What the engine modelled from the spec answers on a graph whose lists agree and whose
edges have no negative time: no route exactly when there is no path, else a path of least
total time. -/
theorem BuildRoute_shortest (g : DirectedWeightedGraph RouteWeight) (hg : Valid g)
    (hn : NonNegative g) (a b : Nat) (ha : a < g.incidence_lists_.length)
    (hb : b < g.incidence_lists_.length) :
    ∃ res, BuildRoute g (construct g) a b = .ok res ∧
      (res = none ↔ ¬ ∃ ids, isPath g a b ids) ∧
      ∀ info, res = some info →
        isPath g a b info.edges ∧
        ∀ ids, isPath g a b ids → pathTime g info.edges ≤ pathTime g ids := by
  obtain ⟨done, hinv, hdone⟩ := settle_done g hg hn a g.incidence_lists_.length [] _
    (Inv_init g a ha) (by simp)
  have hrow : (construct g).routes_internal_data_.get? a = some (rowOf g a) := by
    unfold construct
    simp only [List.get?_eq_getElem?, List.getElem?_map, List.getElem?_range ha]
    rfl
  have hsrc_some : entry (rowOf g a) a ≠ none := by
    unfold rowOf
    rw [hinv.src]
    exact Option.some_ne_none _
  have hsrc_time : timeOf (rowOf g a) a = 0 := by
    unfold rowOf
    rw [timeOf_of_entry _ _ _ hinv.src]
  have hlen : (rowOf g a).length = g.incidence_lists_.length := hinv.len
  have hget : (rowOf g a).get? b = some (entry (rowOf g a) b) := by
    have hb' : b < (rowOf g a).length := by omega
    unfold entry
    rw [List.get?_eq_getElem?, List.getElem?_eq_getElem hb', List.getD_eq_getElem _ _ hb']
  unfold BuildRoute
  rw [hrow]
  simp only
  rw [hget]
  cases hentry : entry (rowOf g a) b with
  | none =>
    refine ⟨none, rfl, ?_, ?_⟩
    · constructor
      · intro _ hex
        obtain ⟨ids, hp⟩ := hex
        exact (lower_bound g a _ done hinv hdone ids a b hsrc_some hp).1 hentry
      · intro _
        rfl
    · intro info hinfo
      exact Option.noConfusion hinfo
  | some data =>
    have hbsome : entry (rowOf g a) b ≠ none := by
      rw [hentry]
      exact Option.some_ne_none _
    have hbdone : b ∈ done := by
      by_contra hcon
      exact hbsome (hdone b hcon)
    obtain ⟨ids, hp, ht, hwalk⟩ := realised g a _ done hinv (done.indexOf b) b rfl hbsome
    have hfuel : done.indexOf b < g.incidence_lists_.length + 1 := by
      have h1 := List.indexOf_lt_length.2 hbdone
      have h2 := length_le_of_nodup done _ hinv.settled_nodup hinv.settled_lt
      omega
    have hw : walk g (rowOf g a) (g.incidence_lists_.length + 1) b [] = some ids := by
      have := hwalk (g.incidence_lists_.length + 1) [] hfuel
      rw [List.append_nil] at this
      exact this
    have ht' : pathTime g ids = timeOf (rowOf g a) b := ht
    simp only
    rw [hw]
    refine ⟨some { weight := data.weight, edges := ids }, rfl, ?_, ?_⟩
    · constructor
      · intro hcon
        exact Option.noConfusion hcon
      · intro hno
        exact absurd ⟨ids, hp⟩ hno
    · intro info hinfo
      injection hinfo with hinfo
      subst hinfo
      refine ⟨hp, ?_⟩
      intro ids' hp'
      have hlow : timeOf (rowOf g a) b ≤ timeOf (rowOf g a) a + pathTime g ids' :=
        (lower_bound g a _ done hinv hdone ids' a b hsrc_some hp').2
      simp only
      rw [ht']
      linarith

end Router

end transport_router


namespace transport_router

open domain transport_catalogue graph

namespace TransportRouter

theorem addEdge_preserves (P : DirectedWeightedGraph RouteWeight → Prop)
    (hP : ∀ g edge id g', DirectedWeightedGraph.AddEdge g edge = (.ok id, g') → P g → P g')
    (r : TransportRouter) (route : Route) (edge_from edge_to time_from time_to : Int)
    (route_time route_time' : Rat) (g g' : DirectedWeightedGraph RouteWeight)
    (h : BuildEdges.addEdge r route edge_from edge_to time_from time_to route_time g =
      (.ok route_time', g')) (hg : P g) : P g' := by
  unfold BuildEdges.addEdge at h
  cases hm : r.MakeEdge route edge_from edge_to with
  | error e =>
    rw [hm] at h
    simp only at h
    injection h with h1 h2
    exact Except.noConfusion h1
  | ok edge =>
    rw [hm] at h
    simp only at h
    cases hc : r.ComputeRouteTime route time_from time_to with
    | error e =>
      rw [hc] at h
      simp only at h
      injection h with h1 h2
      exact Except.noConfusion h1
    | ok t =>
      rw [hc] at h
      simp only at h
      cases ha : g.AddEdge
          { edge with weight := { edge.weight with total_time := route_time + t } } with
      | mk res g1 =>
        rw [ha] at h
        cases res with
        | error e =>
          simp only at h
          injection h with h1 h2
          exact Except.noConfusion h1
        | ok id =>
          simp only at h
          injection h with h1 h2
          subst h2
          exact hP _ _ _ _ ha hg

theorem loop_j_preserves (P : DirectedWeightedGraph RouteWeight → Prop)
    (hP : ∀ g edge id g', DirectedWeightedGraph.AddEdge g edge = (.ok id, g') → P g → P g')
    (r : TransportRouter) (route : Route) (stops_count i : Int) (js : List Int)
    (route_time route_time_back : Rat) (g g' : DirectedWeightedGraph RouteWeight)
    (h : BuildEdges.loop_j r route stops_count i js route_time route_time_back g = (.ok (), g'))
    (hg : P g) : P g' := by
  induction js generalizing route_time route_time_back g with
  | nil =>
    unfold BuildEdges.loop_j at h
    injection h with h1 h2
    rw [← h2]
    exact hg
  | cons j js ih =>
    unfold BuildEdges.loop_j at h
    cases h1 : BuildEdges.addEdge r route i j (j - 1) j route_time g with
    | mk res g1 =>
      rw [h1] at h
      cases res with
      | error e =>
        simp only at h
        injection h with h2 h3
        exact Except.noConfusion h2
      | ok t1 =>
        simp only at h
        have hg1 := addEdge_preserves P hP r route _ _ _ _ _ _ _ _ h1 hg
        by_cases hlin : route.route_type = RouteType.LINEAR
        · rw [if_pos hlin] at h
          cases h2 : BuildEdges.addEdge r route (stops_count - 1 - i) (stops_count - 1 - j)
              (stops_count - 1 - j + 1) (stops_count - 1 - j) route_time_back g1 with
          | mk res2 g2 =>
            rw [h2] at h
            cases res2 with
            | error e =>
              simp only at h
              injection h with h3 h4
              exact Except.noConfusion h3
            | ok t2 =>
              simp only at h
              have hg2 := addEdge_preserves P hP r route _ _ _ _ _ _ _ _ h2 hg1
              exact ih _ _ _ h hg2
        · rw [if_neg hlin] at h
          exact ih _ _ _ h hg1

theorem loop_i_preserves (P : DirectedWeightedGraph RouteWeight → Prop)
    (hP : ∀ g edge id g', DirectedWeightedGraph.AddEdge g edge = (.ok id, g') → P g → P g')
    (r : TransportRouter) (route : Route) (stops_count : Int) (is_ : List Int)
    (g g' : DirectedWeightedGraph RouteWeight)
    (h : BuildEdges.loop_i r route stops_count is_ g = (.ok (), g'))
    (hg : P g) : P g' := by
  induction is_ generalizing g with
  | nil =>
    unfold BuildEdges.loop_i at h
    injection h with h1 h2
    rw [← h2]
    exact hg
  | cons i is_ ih =>
    unfold BuildEdges.loop_i at h
    simp only at h
    cases h1 : BuildEdges.loop_j r route stops_count i
        ((List.range' (i + 1).toNat (stops_count - (i + 1)).toNat).map Int.ofNat)
        r.settings_.wait_time r.settings_.wait_time g with
    | mk res g1 =>
      rw [h1] at h
      cases res with
      | error e =>
        simp only at h
        injection h with h2 h3
        exact Except.noConfusion h2
      | ok u =>
        simp only at h
        exact ih _ h (loop_j_preserves P hP r route _ _ _ _ _ _ _ h1 hg)

theorem loop_preserves (P : DirectedWeightedGraph RouteWeight → Prop)
    (hP : ∀ g edge id g', DirectedWeightedGraph.AddEdge g edge = (.ok id, g') → P g → P g')
    (r : TransportRouter) (routes : List (String × Route))
    (g g' : DirectedWeightedGraph RouteWeight)
    (h : BuildEdges.loop r routes g = (.ok (), g'))
    (hg : P g) : P g' := by
  induction routes generalizing g with
  | nil =>
    unfold BuildEdges.loop at h
    injection h with h1 h2
    rw [← h2]
    exact hg
  | cons p rest ih =>
    obtain ⟨name, route⟩ := p
    unfold BuildEdges.loop at h
    simp only at h
    cases h1 : BuildEdges.loop_i r route (route.stops.length : Int)
        ((List.range ((route.stops.length : Int) - 1).toNat).map Int.ofNat) g with
    | mk res g1 =>
      rw [h1] at h
      cases res with
      | error e =>
        simp only at h
        injection h with h2 h3
        exact Except.noConfusion h2
      | ok u =>
        simp only at h
        exact ih _ h (loop_i_preserves P hP r route _ _ _ _ h1 hg)

theorem getD_modify_append (lists : List (List Nat)) (k id u : Nat) :
    (lists.modify (fun l => l ++ [id]) k).getD u [] =
      if k = u ∧ u < lists.length then lists.getD u [] ++ [id] else lists.getD u [] := by
  simp only [List.getD_eq_getElem?_getD, List.getElem?_modify]
  by_cases hu : u < lists.length
  · rw [List.getElem?_eq_getElem hu]
    by_cases hk : k = u
    · simp [hk, hu]
    · simp [hk]
  · rw [List.getElem?_eq_none (by omega)]
    simp [hu]

/-- What `AddEdge` keeps: the number of vertices and the agreement of the incidence lists
with the edge list. -/
theorem AddEdge_incident (n : Nat) (g g' : DirectedWeightedGraph RouteWeight)
    (edge : Edge RouteWeight) (id : Nat)
    (h : DirectedWeightedGraph.AddEdge g edge = (.ok id, g'))
    (hg : g.incidence_lists_.length = n ∧
      (∀ edge_id e, g.edges_.get? edge_id = some e →
        e.from_ < n ∧ edge_id ∈ g.incidence_lists_.getD e.from_ []) ∧
      (∀ vertex edge_id, edge_id ∈ g.incidence_lists_.getD vertex [] →
        ∃ e, g.edges_.get? edge_id = some e ∧ e.from_ = vertex)) :
    g'.incidence_lists_.length = n ∧
      (∀ edge_id e, g'.edges_.get? edge_id = some e →
        e.from_ < n ∧ edge_id ∈ g'.incidence_lists_.getD e.from_ []) ∧
      (∀ vertex edge_id, edge_id ∈ g'.incidence_lists_.getD vertex [] →
        ∃ e, g'.edges_.get? edge_id = some e ∧ e.from_ = vertex) := by
  obtain ⟨hlen, h1, h2⟩ := hg
  unfold DirectedWeightedGraph.AddEdge at h
  simp only at h
  by_cases hfrom : edge.from_ < g.incidence_lists_.length
  · rw [if_pos hfrom] at h
    injection h with h3 h4
    subst h4
    simp only
    refine ⟨by rw [List.length_modify]; exact hlen, ?_, ?_⟩
    · intro edge_id e he
      rw [getD_modify_append]
      by_cases hlt : edge_id < g.edges_.length
      · rw [List.get?_eq_getElem?, List.getElem?_append_left hlt,
          ← List.get?_eq_getElem?] at he
        obtain ⟨h5, h6⟩ := h1 edge_id e he
        refine ⟨h5, ?_⟩
        split
        · exact List.mem_append_left _ h6
        · exact h6
      · have hge : g.edges_.length ≤ edge_id := by omega
        rw [List.get?_eq_getElem?, List.getElem?_append_right hge] at he
        have hzero : edge_id - g.edges_.length = 0 := by
          by_contra hcon
          rw [List.getElem?_eq_none (by simp; omega)] at he
          exact Option.noConfusion he
        rw [hzero] at he
        simp only [List.getElem?_cons_zero, Option.some.injEq] at he
        subst he
        refine ⟨by omega, ?_⟩
        rw [if_pos ⟨rfl, hfrom⟩]
        apply List.mem_append_right
        rw [List.mem_singleton]
        omega
    · intro vertex edge_id hmem
      rw [getD_modify_append] at hmem
      have hold : edge_id ∈ g.incidence_lists_.getD vertex [] →
          ∃ e, (g.edges_ ++ [edge]).get? edge_id = some e ∧ e.from_ = vertex := by
        intro hm
        obtain ⟨e, he1, he2⟩ := h2 vertex edge_id hm
        refine ⟨e, ?_, he2⟩
        have hlt : edge_id < g.edges_.length := by
          by_contra hcon
          rw [List.get?_eq_none.2 (by omega)] at he1
          exact Option.noConfusion he1
        rw [List.get?_eq_getElem?, List.getElem?_append_left hlt, ← List.get?_eq_getElem?]
        exact he1
      split at hmem
      · rename_i hcase
        rw [List.mem_append, List.mem_singleton] at hmem
        rcases hmem with hm | hm
        · exact hold hm
        · refine ⟨edge, ?_, hcase.1⟩
          rw [hm, List.get?_eq_getElem?, List.getElem?_append_right (le_refl _)]
          simp
      · exact hold hmem
  · rw [if_neg hfrom] at h
    injection h with h3 h4
    exact Except.noConfusion h3

theorem create_incident (n : Nat) :
    (DirectedWeightedGraph.create RouteWeight n).incidence_lists_.length = n ∧
      (∀ edge_id e, (DirectedWeightedGraph.create RouteWeight n).edges_.get? edge_id = some e →
        e.from_ < n ∧
        edge_id ∈ (DirectedWeightedGraph.create RouteWeight n).incidence_lists_.getD e.from_ []) ∧
      (∀ vertex edge_id,
        edge_id ∈ (DirectedWeightedGraph.create RouteWeight n).incidence_lists_.getD vertex [] →
        ∃ e, (DirectedWeightedGraph.create RouteWeight n).edges_.get? edge_id = some e ∧
          e.from_ = vertex) := by
  unfold DirectedWeightedGraph.create
  refine ⟨by simp, ?_, ?_⟩
  · intro edge_id e he
    simp at he
  · intro vertex edge_id hmem
    simp only [List.getD_eq_getElem?_getD, List.getElem?_replicate] at hmem
    split at hmem <;> simp at hmem

theorem storedDistance_nonneg (c : TransportCatalogue)
    (hdist : ∀ p ∈ c.distances_, ∀ q ∈ p.2, 0 ≤ q.2) (a b : String) (d : Int)
    (h : storedDistance c a b = some d) : 0 ≤ d := by
  unfold storedDistance at h
  cases hrow : unordered_map.find c.distances_ a with
  | none =>
    rw [hrow] at h
    exact Option.noConfusion h
  | some row =>
    rw [hrow] at h
    simp only [Option.bind] at h
    exact hdist (a, row) (unordered_map.mem_of_find _ _ _ hrow) (b, d)
      (unordered_map.mem_of_find _ _ _ h)

theorem distanceValue_nonneg (c : TransportCatalogue)
    (hdist : ∀ p ∈ c.distances_, ∀ q ∈ p.2, 0 ≤ q.2) (a b : String) :
    0 ≤ distanceValue c a b := by
  unfold distanceValue
  rw [TransportCatalogue.GetDistance_eq]
  cases h1 : storedDistance c a b with
  | some d => exact storedDistance_nonneg c hdist a b d h1
  | none =>
    cases h2 : storedDistance c b a with
    | some d => exact storedDistance_nonneg c hdist b a d h2
    | none => exact le_refl _

theorem rideTime_nonneg (r : TransportRouter)
    (hdist : ∀ p ∈ r.catalogue_.distances_, ∀ q ∈ p.2, 0 ≤ q.2)
    (hvel : 0 < r.settings_.velocity) (route : Route) (a b : Nat) :
    0 ≤ rideTime r route a b := by
  unfold rideTime
  apply div_nonneg
  · exact_mod_cast distanceValue_nonneg r.catalogue_ hdist _ _
  · exact le_of_lt hvel

theorem sum_map_nonneg {α : Type} (l : List α) (f : α → Rat) (h : ∀ x, 0 ≤ f x) :
    0 ≤ (l.map f).sum := by
  induction l with
  | nil => simp
  | cons x rest ih =>
    simp only [List.map_cons, List.sum_cons]
    exact add_nonneg (h x) ih

theorem forwardTime_nonneg (r : TransportRouter)
    (hdist : ∀ p ∈ r.catalogue_.distances_, ∀ q ∈ p.2, 0 ≤ q.2)
    (hvel : 0 < r.settings_.velocity) (hwait : 0 ≤ r.settings_.wait_time)
    (route : Route) (i j : Nat) : 0 ≤ forwardTime r route i j := by
  unfold forwardTime
  apply add_nonneg
  · exact_mod_cast hwait
  · exact sum_map_nonneg _ _ (fun k => rideTime_nonneg r hdist hvel route _ _)

theorem backwardTime_nonneg (r : TransportRouter)
    (hdist : ∀ p ∈ r.catalogue_.distances_, ∀ q ∈ p.2, 0 ≤ q.2)
    (hvel : 0 < r.settings_.velocity) (hwait : 0 ≤ r.settings_.wait_time)
    (route : Route) (p q : Nat) : 0 ≤ backwardTime r route p q := by
  unfold backwardTime
  apply add_nonneg
  · exact_mod_cast hwait
  · exact sum_map_nonneg _ _ (fun k => rideTime_nonneg r hdist hvel route _ _)

theorem mem_edgesOfRoute (r : TransportRouter) (route : Route) (e : Edge RouteWeight)
    (he : e ∈ edgesOfRoute r route) :
    ∃ i j, i < j ∧ j < route.stops.length ∧
      (e = forwardEdge r route i j ∨
        e = backwardEdge r route (route.stops.length - 1 - i) (route.stops.length - 1 - j)) := by
  unfold edgesOfRoute at he
  simp only [List.mem_flatMap, List.mem_range, List.mem_range'_1] at he
  obtain ⟨i, -, j, ⟨hj1, hj2⟩, hmem⟩ := he
  refine ⟨i, j, by omega, by omega, ?_⟩
  unfold edgesOfPair at hmem
  rw [List.mem_cons] at hmem
  rcases hmem with h | h
  · exact Or.inl h
  · split at h
    · rw [List.mem_singleton] at h
      exact Or.inr h
    · exact absurd h (List.not_mem_nil _)

theorem idsOf_lt {ν : Type} (l : List (String × ν)) (id : Nat) :
    ∀ p ∈ serialize.idsOf l id, p.2 < id + l.length := by
  induction l generalizing id with
  | nil => intro p hp; exact absurd hp (List.not_mem_nil _)
  | cons q rest ih =>
    obtain ⟨name, v⟩ := q
    intro p hp
    simp only [serialize.idsOf, List.mem_cons] at hp
    rcases hp with hp | hp
    · rw [hp]
      simp
    · have := ih (id + 1) p hp
      simp only [List.length_cons]
      omega

theorem vertexOf_lt (r : TransportRouter) (table : List (String × Stop))
    (hids : r.id_by_stop_name_ = serialize.idsOf table 0) (name : String)
    (h : unordered_map.find r.id_by_stop_name_ name ≠ none) :
    vertexOf r name < table.length := by
  unfold vertexOf
  cases hf : unordered_map.find r.id_by_stop_name_ name with
  | none => exact absurd hf h
  | some k =>
    have hmem := unordered_map.mem_of_find _ _ _ hf
    rw [hids] at hmem
    have := idsOf_lt table 0 (name, k) hmem
    simpa using this

/-- The graph `BuildEdges` leaves when it returns: its lists agree with each other, and no
edge has a negative time when no distance is negative, the wait time is not negative and the
velocity is positive. -/
theorem BuildEdges_graph (r1 : TransportRouter) (n : Nat)
    (hids : r1.id_by_stop_name_ = serialize.idsOf r1.catalogue_.stops_by_names_ 0)
    (hgraph : r1.graph_ = DirectedWeightedGraph.create RouteWeight
      r1.catalogue_.stops_by_names_.length)
    (hdist : ∀ p ∈ r1.catalogue_.distances_, ∀ q ∈ p.2, 0 ≤ q.2)
    (hvel : 0 < r1.settings_.velocity) (hwait : 0 ≤ r1.settings_.wait_time)
    (hn : n = r1.catalogue_.stops_by_names_.length)
    (hok : r1.BuildEdges.1 = .ok ()) :
    Valid r1.BuildEdges.2.graph_ ∧ NonNegative r1.BuildEdges.2.graph_ ∧
      r1.BuildEdges.2.graph_.incidence_lists_.length = n := by
  obtain ⟨hedges, -, hfind⟩ := BuildEdges_edges r1 hok
  have hloop : BuildEdges.loop r1 r1.catalogue_.routes_by_names_ r1.graph_ =
      (.ok (), r1.BuildEdges.2.graph_) := by
    unfold BuildEdges at hok ⊢
    simp only at hok ⊢
    exact Prod.ext hok rfl
  have hinc := loop_preserves
    (fun g => g.incidence_lists_.length = n ∧
      (∀ edge_id e, g.edges_.get? edge_id = some e →
        e.from_ < n ∧ edge_id ∈ g.incidence_lists_.getD e.from_ []) ∧
      (∀ vertex edge_id, edge_id ∈ g.incidence_lists_.getD vertex [] →
        ∃ e, g.edges_.get? edge_id = some e ∧ e.from_ = vertex))
    (fun g edge id g' h hg => AddEdge_incident n g g' edge id h hg)
    r1 _ _ _ hloop (by rw [hgraph, hn]; exact create_incident _)
  obtain ⟨hlen, hinc1, hinc2⟩ := hinc
  have hfacts : ∀ e ∈ r1.BuildEdges.2.graph_.edges_,
      e.to_ < n ∧ 0 ≤ e.weight.total_time := by
    intro e he
    rw [hedges, hgraph] at he
    simp only [DirectedWeightedGraph.create, List.nil_append, List.mem_flatMap] at he
    obtain ⟨p, hp, hmem⟩ := he
    obtain ⟨i, j, hij, hj, hcase⟩ := mem_edgesOfRoute r1 p.2 e hmem
    rcases hcase with hcase | hcase
    · rw [hcase, hn]
      refine ⟨vertexOf_lt r1 _ hids _ (hfind p hp i j hij hj).2.1, ?_⟩
      exact forwardTime_nonneg r1 hdist hvel hwait _ _ _
    · rw [hcase, hn]
      refine ⟨vertexOf_lt r1 _ hids _
        (hfind p hp (p.2.stops.length - 1 - j) (p.2.stops.length - 1 - i)
          (by omega) (by omega)).1, ?_⟩
      exact backwardTime_nonneg r1 hdist hvel hwait _ _ _
  refine ⟨⟨?_, ?_⟩, ?_, hlen⟩
  · intro edge_id e he
    rw [hlen]
    exact ⟨(hinc1 edge_id e he).1, (hfacts e (List.get?_mem he)).1, (hinc1 edge_id e he).2⟩
  · exact hinc2
  · intro e he
    exact (hfacts e he).2

theorem InitRouter_graph (code : RouterCode) (c : TransportCatalogue) (hc : WellFormed c)
    (settings : RoutingSettings)
    (hdist : ∀ p ∈ c.distances_, ∀ q ∈ p.2, 0 ≤ q.2)
    (hvel : 0 < settings.velocity) (hwait : 0 ≤ settings.wait_time)
    (r : TransportRouter)
    (h : (TransportRouter.create c settings).InitRouter code = (.ok (), r)) :
    Valid r.graph_ ∧ NonNegative r.graph_ ∧
      r.graph_.incidence_lists_.length = c.stops_by_names_.length := by
  unfold TransportRouter.InitRouter at h
  have hinit : (TransportRouter.create c settings).is_initialized_ = false := rfl
  rw [if_pos hinit] at h
  simp only at h
  have hcount : (TransportRouter.create c settings).CountStops =
      (0 + c.stops_by_names_.length,
        { TransportRouter.create c settings with
          id_by_stop_name_ := [] ++ serialize.idsOf c.stops_by_names_ 0
          stops_by_id_ := [] ++ serialize.stopsByIdOf c.stops_by_names_ 0 }) := by
    unfold TransportRouter.CountStops
    exact serialize.CountStops_loop_eq _ 0 _
      (by simpa [TransportRouter.create] using hc.stops_nodup)
      (fun p hp => absurd hp (List.not_mem_nil _))
  rw [hcount] at h
  simp only [List.nil_append, Nat.zero_add] at h
  have hfacts := BuildEdges_graph
    ({ catalogue_ := (TransportRouter.create c settings).catalogue_
       settings_ := (TransportRouter.create c settings).settings_
       is_initialized_ := (TransportRouter.create c settings).is_initialized_
       graph_ := graph.DirectedWeightedGraph.create RouteWeight c.stops_by_names_.length
       router_ := (TransportRouter.create c settings).router_
       id_by_stop_name_ := serialize.idsOf c.stops_by_names_ 0
       stops_by_id_ := serialize.stopsByIdOf c.stops_by_names_ 0 } : TransportRouter)
    c.stops_by_names_.length rfl rfl hdist hvel hwait rfl
  generalize hr1 : ({ catalogue_ := (TransportRouter.create c settings).catalogue_
                      settings_ := (TransportRouter.create c settings).settings_
                      is_initialized_ := (TransportRouter.create c settings).is_initialized_
                      graph_ := graph.DirectedWeightedGraph.create RouteWeight
                        c.stops_by_names_.length
                      router_ := (TransportRouter.create c settings).router_
                      id_by_stop_name_ := serialize.idsOf c.stops_by_names_ 0
                      stops_by_id_ := serialize.stopsByIdOf c.stops_by_names_ 0 } :
                    TransportRouter) = r1 at h hfacts
  cases hb : r1.BuildEdges with
  | mk res r2 =>
    rw [hb] at h hfacts
    cases res with
    | error e =>
      simp only at h
      exact absurd (congrArg Prod.fst h) (by simp)
    | ok u =>
      simp only at h
      have hr := (Prod.ext_iff.1 h).2
      simp only at hr
      subst hr
      exact hfacts rfl

end TransportRouter

end transport_router


namespace transport_router

open domain transport_catalogue graph

namespace TransportRouter

theorem find_stopsByIdOf (l : List (String × Stop)) (id : Nat) (n : String)
    (hkey : ∀ p ∈ l, p.2.name = p.1) (hn : n ∈ l.map Prod.fst) :
    ∃ k stop, unordered_map.find (serialize.idsOf l id) n = some k ∧ id ≤ k ∧
      unordered_map.find (serialize.stopsByIdOf l id) k = some stop ∧ stop.name = n := by
  induction l generalizing id with
  | nil => exact absurd hn (List.not_mem_nil _)
  | cons p rest ih =>
    obtain ⟨name, stop⟩ := p
    by_cases h0 : name = n
    · refine ⟨id, stop, ?_, Nat.le_refl _, ?_, ?_⟩
      · simp [serialize.idsOf, unordered_map.find, h0]
      · simp [serialize.stopsByIdOf, unordered_map.find]
      · rw [← h0]
        exact hkey (name, stop) (List.mem_cons_self _ _)
    · have hrest : n ∈ rest.map Prod.fst := by
        rw [List.map_cons, List.mem_cons] at hn
        rcases hn with h | h
        · exact absurd h.symm h0
        · exact h
      obtain ⟨k, st, h1, h2, h3, h4⟩ := ih (id + 1)
        (fun p hp => hkey p (List.mem_cons_of_mem _ hp)) hrest
      refine ⟨k, st, ?_, by omega, ?_, h4⟩
      · simp only [serialize.idsOf, unordered_map.find, if_neg h0]
        exact h1
      · have hne : ¬ id = k := by omega
        simp only [serialize.stopsByIdOf, unordered_map.find, if_neg hne]
        exact h3

theorem find_stopsByIdOf_lt (l : List (String × Stop)) (id k : Nat) (h1 : id ≤ k)
    (h2 : k < id + l.length) :
    ∃ stop, unordered_map.find (serialize.stopsByIdOf l id) k = some stop := by
  induction l generalizing id with
  | nil =>
    simp only [List.length_nil] at h2
    omega
  | cons p rest ih =>
    obtain ⟨name, stop⟩ := p
    by_cases h0 : id = k
    · exact ⟨stop, by simp [serialize.stopsByIdOf, unordered_map.find, h0]⟩
    · simp only [List.length_cons] at h2
      obtain ⟨st, hst⟩ := ih (id + 1) (by omega) (by omega)
      refine ⟨st, ?_⟩
      simp only [serialize.stopsByIdOf, unordered_map.find, if_neg h0]
      exact hst

/-- `BuildRoute` turns a path of the graph into records that lead from the stop of its
first vertex to the stop of its last vertex, of the same total time. -/
theorem BuildRoute_loop_path (r : TransportRouter) (hg : Valid r.graph_)
    (hstops : ∀ v, v < r.graph_.incidence_lists_.length →
      ∃ stop, unordered_map.find r.stops_by_id_ v = some stop)
    (ids : List Nat) (x y : Nat) (acc : List RouterEdge)
    (hp : isPath r.graph_ x y ids) :
    ∃ result, BuildRoute.loop r ids acc = .ok (acc ++ result) ∧
      totalTime result = pathTime r.graph_ ids ∧
      connected (((unordered_map.find r.stops_by_id_ x).map (fun stop => stop.name)).getD "")
        (((unordered_map.find r.stops_by_id_ y).map (fun stop => stop.name)).getD "")
        result := by
  induction ids generalizing x acc with
  | nil =>
    unfold isPath at hp
    subst hp
    refine ⟨[], ?_, ?_, ?_⟩
    · simp [BuildRoute.loop]
    · simp [totalTime, pathTime]
    · simp [connected]
  | cons id rest ih =>
    simp only [isPath] at hp
    cases hid : r.graph_.edges_.get? id with
    | none =>
      rw [hid] at hp
      exact hp.elim
    | some e =>
      rw [hid] at hp
      simp only at hp
      obtain ⟨hfrom, hrest⟩ := hp
      obtain ⟨hflt, htlt, -⟩ := hg.1 id e hid
      obtain ⟨stop_from, hsf⟩ := hstops e.from_ hflt
      obtain ⟨stop_to, hst⟩ := hstops e.to_ htlt
      obtain ⟨result, h1, h2, h3⟩ := ih e.to_
        (acc ++ [{ bus_name := e.weight.bus_name
                   stop_from := stop_from.name
                   stop_to := stop_to.name
                   span_count := e.weight.span_count
                   total_time := e.weight.total_time }]) hrest
      refine ⟨{ bus_name := e.weight.bus_name
                stop_from := stop_from.name
                stop_to := stop_to.name
                span_count := e.weight.span_count
                total_time := e.weight.total_time } :: result, ?_, ?_, ?_⟩
      · unfold BuildRoute.loop
        simp only [DirectedWeightedGraph.GetEdge, hid]
        rw [serialize.at_of_find _ _ _ hsf]
        simp only
        rw [serialize.at_of_find _ _ _ hst]
        simp only
        rw [h1]
        simp
      · have h5 : pathTime r.graph_ (id :: rest) =
            e.weight.total_time + pathTime r.graph_ rest := by
          simp [pathTime, Router.edgeTime_of_get? r.graph_ id e hid]
        rw [h5, ← h2]
        simp [totalTime]
      · simp only [connected]
        refine ⟨?_, ?_⟩
        · rw [← hfrom, hsf]
          rfl
        · rw [hst] at h3
          exact h3

theorem vertex_of_stop (c : TransportCatalogue) (hc : WellFormed c) (r : TransportRouter)
    (hids : r.id_by_stop_name_ = serialize.idsOf c.stops_by_names_ 0)
    (hsbi : r.stops_by_id_ = serialize.stopsByIdOf c.stops_by_names_ 0)
    (a : String) (ha : hasStop c a) :
    unordered_map.at_ r.id_by_stop_name_ a = .ok (vertexOf r a) ∧
    vertexOf r a < c.stops_by_names_.length ∧
    ((unordered_map.find r.stops_by_id_ (vertexOf r a)).map (fun stop => stop.name)).getD "" =
      a := by
  have hmem : a ∈ c.stops_by_names_.map Prod.fst := by
    by_contra hcon
    exact ha ((unordered_map.find_eq_none_iff _ a).2 hcon)
  obtain ⟨k, stop, h1, -, h3, h4⟩ := find_stopsByIdOf c.stops_by_names_ 0 a hc.stop_key hmem
  have hv : vertexOf r a = k := by
    unfold vertexOf
    rw [hids, h1]
    rfl
  have hfind : unordered_map.find r.id_by_stop_name_ a ≠ none := by
    rw [hids, h1]
    exact Option.some_ne_none _
  refine ⟨?_, vertexOf_lt r _ hids a hfind, ?_⟩
  · rw [hv]
    apply serialize.at_of_find
    rw [hids]
    exact h1
  · rw [hv, hsbi, h3]
    exact h4

end TransportRouter

/-- The route `BuildRoute` returns with the engine modelled from the spec, once `InitRouter`
has returned. -/
theorem optimal_of_InitRouter (c : TransportCatalogue) (hc : Reachable c)
    (settings : RoutingSettings)
    (hdist : ∀ p ∈ c.distances_, ∀ q ∈ p.2, 0 ≤ q.2)
    (hvel : 0 < settings.velocity) (hwait : 0 ≤ settings.wait_time)
    (a b : String) (hab : a ≠ b) (ha : hasStop c a) (hb : hasStop c b)
    (r : TransportRouter)
    (hinit : (TransportRouter.create c settings).InitRouter Router.code = (.ok (), r)) :
    ∃ result,
      TransportRouter.BuildRoute Router.code (TransportRouter.create c settings) a b =
        (.ok result, r) ∧
      (result ≠ none ↔ ∃ ids, isPath r.graph_ (vertexOf r a) (vertexOf r b) ids) ∧
      ∀ route, result = some route →
        connected a b route ∧
        (∃ ids, isPath r.graph_ (vertexOf r a) (vertexOf r b) ids ∧
          TransportRouter.BuildRoute.loop r ids [] = .ok route ∧
          TransportRouter.totalTime route = pathTime r.graph_ ids) ∧
        ∀ ids, isPath r.graph_ (vertexOf r a) (vertexOf r b) ids →
          TransportRouter.totalTime route ≤ pathTime r.graph_ ids := by
  have hw := WellFormed_of_Reachable c hc
  obtain ⟨-, hids, hsbi, -, hrouter, -⟩ :=
    serialize.InitRouter_shape Router.code c hw settings r hinit
  obtain ⟨hvalid, hnonneg, hlen⟩ :=
    TransportRouter.InitRouter_graph Router.code c hw settings hdist hvel hwait r hinit
  obtain ⟨ha1, ha2, ha3⟩ := TransportRouter.vertex_of_stop c hw r hids hsbi a ha
  obtain ⟨hb1, hb2, hb3⟩ := TransportRouter.vertex_of_stop c hw r hids hsbi b hb
  have hstops : ∀ v, v < r.graph_.incidence_lists_.length →
      ∃ stop, unordered_map.find r.stops_by_id_ v = some stop := by
    intro v hv
    rw [hsbi]
    exact TransportRouter.find_stopsByIdOf_lt _ 0 v (Nat.zero_le _) (by omega)
  obtain ⟨res, heq, hnone, hsome⟩ := Router.BuildRoute_shortest r.graph_ hvalid hnonneg
    (vertexOf r a) (vertexOf r b) (by omega) (by omega)
  have heq' : Router.code.BuildRoute r.graph_ (Router.code.construct r.graph_)
      (vertexOf r a) (vertexOf r b) = .ok res := heq
  unfold TransportRouter.BuildRoute
  rw [if_neg hab, hinit]
  simp only
  rw [ha1]
  simp only
  rw [hb1]
  simp only
  rw [hrouter]
  simp only
  rw [heq']
  cases res with
  | none =>
    refine ⟨none, rfl, ?_, ?_⟩
    · constructor
      · intro hcon
        exact absurd rfl hcon
      · intro hex
        exact absurd hex (hnone.1 rfl)
    · intro route hroute
      exact Option.noConfusion hroute
  | some info =>
    obtain ⟨hpath, hmin⟩ := hsome info rfl
    obtain ⟨route, h1, h2, h3⟩ := TransportRouter.BuildRoute_loop_path r hvalid hstops
      info.edges (vertexOf r a) (vertexOf r b) [] hpath
    rw [List.nil_append] at h1
    rw [ha3, hb3] at h3
    simp only
    rw [h1]
    refine ⟨some route, rfl, ?_, ?_⟩
    · constructor
      · intro _
        exact ⟨info.edges, hpath⟩
      · intro _
        exact Option.some_ne_none _
    · intro route' hroute
      injection hroute with hroute
      subst hroute
      refine ⟨h3, ⟨info.edges, hpath, h1, h2⟩, ?_⟩
      intro ids hp
      rw [h2]
      exact hmin ids hp

end transport_router

namespace transport_router

open domain transport_catalogue graph

namespace TransportRouter

theorem stopAt_returns (route : Route) (k : Int) (h0 : 0 ≤ k)
    (h1 : k < (route.stops.length : Int)) :
    ∃ stop, stopAt route k = .ok stop ∧ route.stops.get? k.toNat = some stop := by
  have hlt : k.toNat < route.stops.length := by omega
  refine ⟨route.stops.get ⟨k.toNat, hlt⟩, ?_, List.get?_eq_get hlt⟩
  unfold stopAt
  rw [if_neg (by omega), List.get?_eq_get hlt]

theorem mem_consecutive (stops : List Stop) (k : Nat) (sa sb : Stop)
    (ha : stops.get? k = some sa) (hb : stops.get? (k + 1) = some sb) :
    (sa, sb) ∈ consecutive stops := by
  unfold consecutive
  rw [List.mem_iff_get?]
  refine ⟨k, ?_⟩
  rw [List.get?_eq_getElem?] at ha hb ⊢
  rw [List.getElem?_zip_eq_some]
  refine ⟨ha, ?_⟩
  rw [List.getElem?_tail]
  exact hb

theorem addEdge_returns (r : TransportRouter) (route : Route)
    (edge_from edge_to time_from time_to : Int) (route_time : Rat)
    (g : DirectedWeightedGraph RouteWeight)
    (hf : 0 ≤ edge_from ∧ edge_from < (route.stops.length : Int))
    (ht : 0 ≤ edge_to ∧ edge_to < (route.stops.length : Int))
    (htf : 0 ≤ time_from ∧ time_from < (route.stops.length : Int))
    (htt : 0 ≤ time_to ∧ time_to < (route.stops.length : Int))
    (hadj : time_from.toNat + 1 = time_to.toNat ∨ time_to.toNat + 1 = time_from.toNat)
    (hids : ∀ stop ∈ route.stops, ∃ id,
      unordered_map.find r.id_by_stop_name_ stop.name = some id ∧
      id < g.incidence_lists_.length)
    (hav : ∀ pair ∈ consecutive route.stops, available r.catalogue_ pair) :
    ∃ route_time' g',
      BuildEdges.addEdge r route edge_from edge_to time_from time_to route_time g =
        (.ok route_time', g') ∧
      g'.incidence_lists_.length = g.incidence_lists_.length := by
  obtain ⟨sf, hsf1, hsf2⟩ := stopAt_returns route edge_from hf.1 hf.2
  obtain ⟨st, hst1, hst2⟩ := stopAt_returns route edge_to ht.1 ht.2
  obtain ⟨stf, hstf1, hstf2⟩ := stopAt_returns route time_from htf.1 htf.2
  obtain ⟨stt, hstt1, hstt2⟩ := stopAt_returns route time_to htt.1 htt.2
  obtain ⟨idf, hidf1, hidf2⟩ := hids sf (List.get?_mem hsf2)
  obtain ⟨idt, hidt1, -⟩ := hids st (List.get?_mem hst2)
  have havail : available r.catalogue_ (stf, stt) := by
    rcases hadj with h | h
    · rw [← h] at hstt2
      exact hav _ (mem_consecutive route.stops _ stf stt hstf2 hstt2)
    · rw [← h] at hstf2
      have := hav _ (mem_consecutive route.stops _ stt stf hstt2 hstf2)
      exact (available_swap r.catalogue_ (stf, stt)).1 this
  have hdist := TransportCatalogue.GetDistance_of_available r.catalogue_ (stf, stt) havail
  simp only at hdist
  unfold BuildEdges.addEdge MakeEdge ComputeRouteTime
  rw [hsf1]
  simp only
  rw [serialize.at_of_find _ _ _ hidf1]
  simp only
  rw [hst1]
  simp only
  rw [serialize.at_of_find _ _ _ hidt1]
  simp only
  rw [hstf1]
  simp only
  rw [hstt1]
  simp only
  rw [hdist]
  simp only
  unfold DirectedWeightedGraph.AddEdge
  simp only
  rw [if_pos hidf2]
  refine ⟨_, _, rfl, ?_⟩
  simp

theorem loop_j_returns (r : TransportRouter) (route : Route) (n : Nat) (i : Int)
    (hi : 0 ≤ i) (hids : ∀ stop ∈ route.stops, ∃ id,
      unordered_map.find r.id_by_stop_name_ stop.name = some id ∧ id < n)
    (hav : ∀ pair ∈ consecutive route.stops, available r.catalogue_ pair)
    (js : List Int) (hjs : ∀ j ∈ js, i < j ∧ j < (route.stops.length : Int))
    (route_time route_time_back : Rat) (g : DirectedWeightedGraph RouteWeight)
    (hg : g.incidence_lists_.length = n) :
    ∃ g', BuildEdges.loop_j r route (route.stops.length : Int) i js route_time
        route_time_back g = (.ok (), g') ∧
      g'.incidence_lists_.length = n := by
  induction js generalizing route_time route_time_back g with
  | nil => exact ⟨g, rfl, hg⟩
  | cons j js ih =>
    obtain ⟨hj1, hj2⟩ := hjs j (List.mem_cons_self _ _)
    obtain ⟨t1, g1, h1, hl1⟩ := addEdge_returns r route i j (j - 1) j route_time g
      ⟨hi, by omega⟩ ⟨by omega, hj2⟩ ⟨by omega, by omega⟩ ⟨by omega, hj2⟩
      (Or.inl (by omega)) (by rw [hg]; exact hids) hav
    unfold BuildEdges.loop_j
    rw [h1]
    simp only
    by_cases hlin : route.route_type = RouteType.LINEAR
    · rw [if_pos hlin]
      obtain ⟨t2, g2, h2, hl2⟩ := addEdge_returns r route
        ((route.stops.length : Int) - 1 - i) ((route.stops.length : Int) - 1 - j)
        ((route.stops.length : Int) - 1 - j + 1) ((route.stops.length : Int) - 1 - j)
        route_time_back g1
        ⟨by omega, by omega⟩ ⟨by omega, by omega⟩ ⟨by omega, by omega⟩ ⟨by omega, by omega⟩
        (Or.inr (by omega)) (by rw [hl1, hg]; exact hids) hav
      rw [h2]
      simp only
      exact ih (fun x hx => hjs x (List.mem_cons_of_mem _ hx)) _ _ g2 (by rw [hl2, hl1, hg])
    · rw [if_neg hlin]
      exact ih (fun x hx => hjs x (List.mem_cons_of_mem _ hx)) _ _ g1 (by rw [hl1, hg])

theorem loop_i_returns (r : TransportRouter) (route : Route) (n : Nat)
    (hids : ∀ stop ∈ route.stops, ∃ id,
      unordered_map.find r.id_by_stop_name_ stop.name = some id ∧ id < n)
    (hav : ∀ pair ∈ consecutive route.stops, available r.catalogue_ pair)
    (is_ : List Int) (his : ∀ i ∈ is_, 0 ≤ i)
    (g : DirectedWeightedGraph RouteWeight) (hg : g.incidence_lists_.length = n) :
    ∃ g', BuildEdges.loop_i r route (route.stops.length : Int) is_ g = (.ok (), g') ∧
      g'.incidence_lists_.length = n := by
  induction is_ generalizing g with
  | nil => exact ⟨g, rfl, hg⟩
  | cons i is_ ih =>
    have hi := his i (List.mem_cons_self _ _)
    obtain ⟨g1, h1, hl1⟩ := loop_j_returns r route n i hi hids hav
      ((List.range' (i + 1).toNat ((route.stops.length : Int) - (i + 1)).toNat).map Int.ofNat)
      (by
        intro j hj
        rw [List.mem_map] at hj
        obtain ⟨k, hk, rfl⟩ := hj
        rw [List.mem_range'_1] at hk
        simp only [Int.ofNat_eq_coe]
        omega)
      r.settings_.wait_time r.settings_.wait_time g hg
    unfold BuildEdges.loop_i
    simp only
    rw [h1]
    simp only
    exact ih (fun x hx => his x (List.mem_cons_of_mem _ hx)) g1 hl1

theorem loop_returns (r : TransportRouter) (n : Nat) (routes : List (String × Route))
    (hids : ∀ p ∈ routes, ∀ stop ∈ p.2.stops, ∃ id,
      unordered_map.find r.id_by_stop_name_ stop.name = some id ∧ id < n)
    (hav : ∀ p ∈ routes, ∀ pair ∈ consecutive p.2.stops, available r.catalogue_ pair)
    (g : DirectedWeightedGraph RouteWeight) (hg : g.incidence_lists_.length = n) :
    ∃ g', BuildEdges.loop r routes g = (.ok (), g') ∧ g'.incidence_lists_.length = n := by
  induction routes generalizing g with
  | nil => exact ⟨g, rfl, hg⟩
  | cons p rest ih =>
    obtain ⟨name, route⟩ := p
    obtain ⟨g1, h1, hl1⟩ := loop_i_returns r route n
      (hids (name, route) (List.mem_cons_self _ _))
      (hav (name, route) (List.mem_cons_self _ _))
      ((List.range ((route.stops.length : Int) - 1).toNat).map Int.ofNat)
      (by
        intro i hi
        rw [List.mem_map] at hi
        obtain ⟨k, -, rfl⟩ := hi
        simp)
      g hg
    unfold BuildEdges.loop
    simp only
    rw [h1]
    simp only
    exact ih (fun p hp => hids p (List.mem_cons_of_mem _ hp))
      (fun p hp => hav p (List.mem_cons_of_mem _ hp)) g1 hl1

/-- `InitRouter` returns when a distance is on record, in one direction or the other, for
every two consecutive stops of every route. -/
theorem InitRouter_returns (code : RouterCode) (c : TransportCatalogue) (hc : WellFormed c)
    (settings : RoutingSettings)
    (hav : ∀ p ∈ c.routes_by_names_, ∀ pair ∈ consecutive p.2.stops, available c pair) :
    ((TransportRouter.create c settings).InitRouter code).1 = .ok () := by
  unfold TransportRouter.InitRouter
  have hinit : (TransportRouter.create c settings).is_initialized_ = false := rfl
  rw [if_pos hinit]
  simp only
  have hcount : (TransportRouter.create c settings).CountStops =
      (0 + c.stops_by_names_.length,
        { TransportRouter.create c settings with
          id_by_stop_name_ := [] ++ serialize.idsOf c.stops_by_names_ 0
          stops_by_id_ := [] ++ serialize.stopsByIdOf c.stops_by_names_ 0 }) := by
    unfold TransportRouter.CountStops
    exact serialize.CountStops_loop_eq _ 0 _
      (by simpa [TransportRouter.create] using hc.stops_nodup)
      (fun p hp => absurd hp (List.not_mem_nil _))
  rw [hcount]
  simp only [List.nil_append, Nat.zero_add]
  obtain ⟨g', h1, -⟩ := loop_returns
    ({ catalogue_ := (TransportRouter.create c settings).catalogue_
       settings_ := (TransportRouter.create c settings).settings_
       is_initialized_ := (TransportRouter.create c settings).is_initialized_
       graph_ := graph.DirectedWeightedGraph.create RouteWeight c.stops_by_names_.length
       router_ := (TransportRouter.create c settings).router_
       id_by_stop_name_ := serialize.idsOf c.stops_by_names_ 0
       stops_by_id_ := serialize.stopsByIdOf c.stops_by_names_ 0 } : TransportRouter)
    c.stops_by_names_.length c.routes_by_names_
    (by
      intro p hp stop hs
      have hfind := hc.route_stops p hp stop hs
      have hmem : stop.name ∈ c.stops_by_names_.map Prod.fst :=
        serialize.mem_keys_of_find _ _ _ hfind
      obtain ⟨k, st, h1, -, -, -⟩ :=
        find_stopsByIdOf c.stops_by_names_ 0 stop.name hc.stop_key hmem
      refine ⟨k, h1, ?_⟩
      have := idsOf_lt c.stops_by_names_ 0 (stop.name, k)
        (unordered_map.mem_of_find _ _ _ h1)
      simpa using this)
    hav
    (graph.DirectedWeightedGraph.create RouteWeight c.stops_by_names_.length)
    (by simp [graph.DirectedWeightedGraph.create])
  have h1' : BuildEdges.loop
      ({ catalogue_ := (TransportRouter.create c settings).catalogue_
         settings_ := (TransportRouter.create c settings).settings_
         is_initialized_ := (TransportRouter.create c settings).is_initialized_
         graph_ := graph.DirectedWeightedGraph.create RouteWeight c.stops_by_names_.length
         router_ := (TransportRouter.create c settings).router_
         id_by_stop_name_ := serialize.idsOf c.stops_by_names_ 0
         stops_by_id_ := serialize.stopsByIdOf c.stops_by_names_ 0 } : TransportRouter)
      (TransportRouter.create c settings).catalogue_.routes_by_names_
      (graph.DirectedWeightedGraph.create RouteWeight c.stops_by_names_.length) =
      (.ok (), g') := h1
  unfold BuildEdges
  simp only
  rw [h1']

end TransportRouter

/-- Claim C14.  Spec-modelled: the shortest-path engine `graph::Router` is the one the spec
describes (Dijkstra from every vertex, `Router.code`), router.h not being among the sources.
For every catalogue the public interface can produce, with no negative distance and with a
distance on record (in one direction or the other) for every two consecutive stops of every
route, every routing settings with a positive velocity and no negative wait time, and every
two distinct stops `a` and `b` of the catalogue: `InitRouter` returns, `BuildRoute(a, b)`
returns, and it returns a route exactly when the graph has a path from the vertex of `a` to
the vertex of `b`.  The records of the route lead from `a` to `b`, they are the records of
the edges of a path of the graph from the vertex of `a` to the vertex of `b`, and their
summed total time is the summed total time of that path, which is the least over all the
paths of the graph from the vertex of `a` to the vertex of `b`. -/
theorem BuildRoute_optimal (c : TransportCatalogue) (hc : Reachable c)
    (settings : RoutingSettings)
    (hdist : ∀ p ∈ c.distances_, ∀ q ∈ p.2, 0 ≤ q.2)
    (hav : ∀ p ∈ c.routes_by_names_, ∀ pair ∈ consecutive p.2.stops, available c pair)
    (hvel : 0 < settings.velocity) (hwait : 0 ≤ settings.wait_time)
    (a b : String) (hab : a ≠ b) (ha : hasStop c a) (hb : hasStop c b) :
    ∃ r result,
      (TransportRouter.create c settings).InitRouter Router.code = (.ok (), r) ∧
      TransportRouter.BuildRoute Router.code (TransportRouter.create c settings) a b =
        (.ok result, r) ∧
      (result ≠ none ↔ ∃ ids, isPath r.graph_ (vertexOf r a) (vertexOf r b) ids) ∧
      ∀ route, result = some route →
        connected a b route ∧
        (∃ ids, isPath r.graph_ (vertexOf r a) (vertexOf r b) ids ∧
          TransportRouter.BuildRoute.loop r ids [] = .ok route ∧
          TransportRouter.totalTime route = pathTime r.graph_ ids) ∧
        ∀ ids, isPath r.graph_ (vertexOf r a) (vertexOf r b) ids →
          TransportRouter.totalTime route ≤ pathTime r.graph_ ids := by
  have hw := WellFormed_of_Reachable c hc
  have hret := TransportRouter.InitRouter_returns Router.code c hw settings hav
  have hinit : (TransportRouter.create c settings).InitRouter Router.code =
      (.ok (), ((TransportRouter.create c settings).InitRouter Router.code).2) :=
    Prod.ext hret rfl
  obtain ⟨result, h1, h2, h3⟩ := optimal_of_InitRouter c hc settings hdist hvel hwait a b
    hab ha hb _ hinit
  exact ⟨_, result, hinit, h1, h2, h3⟩

/-- The stops `A` and `B` of scenario S3, with the routing settings of S4. -/
theorem BuildRoute_optimal_witness :
    Reachable S3.catalogue ∧
    (∀ p ∈ S3.catalogue.distances_, ∀ q ∈ p.2, 0 ≤ q.2) ∧
    (∀ p ∈ S3.catalogue.routes_by_names_, ∀ pair ∈ consecutive p.2.stops,
      available S3.catalogue pair) ∧
    0 < S4.settings.velocity ∧ 0 ≤ S4.settings.wait_time ∧
    "A" ≠ "B" ∧ hasStop S3.catalogue "A" ∧ hasStop S3.catalogue "B" ∧
    ∃ r result,
      (TransportRouter.create S3.catalogue S4.settings).InitRouter Router.code = (.ok (), r) ∧
      TransportRouter.BuildRoute Router.code (TransportRouter.create S3.catalogue S4.settings)
          "A" "B" = (.ok result, r) ∧
      (result ≠ none ↔ ∃ ids, isPath r.graph_ (vertexOf r "A") (vertexOf r "B") ids) ∧
      ∀ route, result = some route →
        connected "A" "B" route ∧
        (∃ ids, isPath r.graph_ (vertexOf r "A") (vertexOf r "B") ids ∧
          TransportRouter.BuildRoute.loop r ids [] = .ok route ∧
          TransportRouter.totalTime route = pathTime r.graph_ ids) ∧
        ∀ ids, isPath r.graph_ (vertexOf r "A") (vertexOf r "B") ids →
          TransportRouter.totalTime route ≤ pathTime r.graph_ ids :=
  ⟨⟨S3.calls, rfl⟩, by decide, by decide, by simp [S4.settings], by decide, by decide,
    by decide, by decide,
    BuildRoute_optimal S3.catalogue ⟨S3.calls, rfl⟩ S4.settings (by decide) (by decide)
      (by simp [S4.settings]) (by decide) "A" "B" (by decide) (by decide) (by decide)⟩

end transport_router

namespace transport_router

namespace Router

open graph

theorem length_relaxEdge (g : DirectedWeightedGraph RouteWeight) (w : RouteWeight)
    (row : List (Option RouteInternalData)) (edge_id : Nat) :
    (relaxEdge g w row edge_id).length = row.length := by
  unfold relaxEdge
  split
  · rfl
  · split
    · rw [List.length_set]
    · split
      · rw [List.length_set]
      · rfl

theorem length_foldl_relaxEdge (g : DirectedWeightedGraph RouteWeight) (w : RouteWeight)
    (ids : List Nat) (row : List (Option RouteInternalData)) :
    (ids.foldl (relaxEdge g w) row).length = row.length := by
  induction ids generalizing row with
  | nil => rfl
  | cons id rest ih => rw [List.foldl_cons, ih, length_relaxEdge]

theorem length_settle (g : DirectedWeightedGraph RouteWeight) (fuel : Nat)
    (settled : List Nat) (row : List (Option RouteInternalData)) :
    (settle g fuel settled row).length = row.length := by
  induction fuel generalizing settled row with
  | zero => rfl
  | succ fuel ih =>
    unfold settle
    split
    · rfl
    · split
      · rfl
      · rw [ih, length_foldl_relaxEdge]

/-- The table the engine modelled from the spec builds has one row and one column per
vertex, for every graph. -/
theorem construct_square (g : DirectedWeightedGraph RouteWeight) :
    serialize.squareTable g (construct g) := by
  unfold serialize.squareTable construct
  refine ⟨by simp, ?_⟩
  intro row hrow
  simp only [List.mem_map, List.mem_range] at hrow
  obtain ⟨source, -, rfl⟩ := hrow
  unfold rowOf
  rw [length_settle]
  simp [initialRow]

end Router

end transport_router

/-! ## The curvature and the stop count of a route of any type -/

namespace transport_catalogue

open domain

/-- Claim C26 as stated fails: in the catalogue of S7 the route `U` of the type UNKNOWN has
two stops and `GetRouteInfo` returns `num_of_stops = 2`, not `2 · 2 − 1 = 3`. -/
theorem stop_count_unknown_not_doubled :
    S7.catalogue.FindRoute "U" = .ok S7.routeU ∧
    S7.routeU.route_type = RouteType.UNKNOWN ∧
    S7.routeU.stops.length = 2 ∧
    ∃ info, S7.catalogue.GetRouteInfo S7.ComputeDistance "U" = .ok info ∧
      info.num_of_stops = 2 ∧
      info.num_of_stops ≠
        (if S7.routeU.route_type = RouteType.CIRCLE then (S7.routeU.stops.length : Int)
          else 2 * (S7.routeU.stops.length : Int) - 1) := by
  refine ⟨by decide, rfl, rfl, _, rfl, rfl, ?_⟩
  decide

/-- Claim C26, amended.  When `GetRouteInfo` returns for a stored route with `k` stops,
`num_of_stops` is `2k − 1` if the route is LINEAR and `k` otherwise, that is for a CIRCLE
route and for a route of the type UNKNOWN. -/
theorem stop_count_by_type (ComputeDistance : geo.Coordinates → geo.Coordinates → Rat)
    (c : TransportCatalogue) (route_name : String) (route : Route) (info : RouteInfo)
    (hfind : c.FindRoute route_name = .ok route)
    (hinfo : c.GetRouteInfo ComputeDistance route_name = .ok info) :
    info.num_of_stops =
      if route.route_type = RouteType.LINEAR then 2 * (route.stops.length : Int) - 1
      else (route.stops.length : Int) := by
  obtain ⟨-, -, hinfo⟩ := TransportCatalogue.GetRouteInfo_of_ok ComputeDistance c route_name
    route info hfind hinfo
  subst hinfo
  simp only [CalculateStops]
  split
  · ring
  · rfl

/-- Scenario S7: the route `U` of the type UNKNOWN over `[A, B]` has `num_of_stops = 2`,
and the LINEAR route `L` over the same stops has `num_of_stops = 3`. -/
theorem stop_count_by_type_witness :
    (∃ info, S7.catalogue.GetRouteInfo S7.ComputeDistance "U" = .ok info ∧
      info.num_of_stops = 2) ∧
    (∃ info, S7.catalogue.GetRouteInfo S7.ComputeDistance "L" = .ok info ∧
      info.num_of_stops = 3) :=
  ⟨⟨_, rfl, stop_count_by_type S7.ComputeDistance S7.catalogue "U" S7.routeU _ rfl rfl⟩,
    ⟨_, rfl, stop_count_by_type S7.ComputeDistance S7.catalogue "L" S7.routeL _ rfl rfl⟩⟩

end transport_catalogue

/-! ## InitRouter twice, and the numbering of the vertices -/

namespace unordered_map

theorem insert_of_ne_none {κ ν : Type} [DecidableEq κ] (m : List (κ × ν)) (k : κ) (v : ν)
    (h : find m k ≠ none) : insert m k v = m := by
  unfold insert
  cases hf : find m k with
  | none => exact absurd hf h
  | some w => rfl

theorem find_insert_ne_none {κ ν : Type} [DecidableEq κ] (m : List (κ × ν)) (k k' : κ) (v : ν)
    (h : find m k' ≠ none) : find (insert m k v) k' ≠ none := by
  rw [find_insert]
  cases hf : find m k' with
  | none => exact absurd hf h
  | some w => exact Option.some_ne_none _

theorem find_insert_self_ne_none {κ ν : Type} [DecidableEq κ] (m : List (κ × ν)) (k : κ)
    (v : ν) : find (insert m k v) k ≠ none := by
  rw [find_insert]
  cases hf : find m k with
  | none => simp
  | some w => exact Option.some_ne_none _

end unordered_map

namespace transport_router

open domain transport_catalogue graph

namespace TransportRouter

/-- `CountStops` changes the two maps of the router only. -/
theorem CountStops_loop_fields (l : List (String × Stop)) (k : Nat) (r : TransportRouter) :
    (CountStops.loop l k r).1 = k + l.length ∧
    (CountStops.loop l k r).2.catalogue_ = r.catalogue_ ∧
    (CountStops.loop l k r).2.settings_ = r.settings_ ∧
    (CountStops.loop l k r).2.is_initialized_ = r.is_initialized_ ∧
    (CountStops.loop l k r).2.graph_ = r.graph_ ∧
    (CountStops.loop l k r).2.router_ = r.router_ := by
  induction l generalizing k r with
  | nil => exact ⟨rfl, rfl, rfl, rfl, rfl, rfl⟩
  | cons p rest ih =>
    unfold CountStops.loop
    obtain ⟨h1, h2, h3, h4, h5, h6⟩ := ih (k + 1)
      { r with
        id_by_stop_name_ := unordered_map.insert r.id_by_stop_name_ p.1 k
        stops_by_id_ := unordered_map.insert r.stops_by_id_ k p.2 }
    refine ⟨?_, h2, h3, h4, h5, h6⟩
    rw [h1, List.length_cons]
    omega

/-- After `CountStops` every name of the table and every id it has counted is bound, and
what was bound before stays bound. -/
theorem CountStops_loop_present (l : List (String × Stop)) (k : Nat) (r : TransportRouter) :
    (∀ p ∈ l, unordered_map.find (CountStops.loop l k r).2.id_by_stop_name_ p.1 ≠ none) ∧
    (∀ i, k ≤ i → i < k + l.length →
      unordered_map.find (CountStops.loop l k r).2.stops_by_id_ i ≠ none) ∧
    (∀ n, unordered_map.find r.id_by_stop_name_ n ≠ none →
      unordered_map.find (CountStops.loop l k r).2.id_by_stop_name_ n ≠ none) ∧
    (∀ i, unordered_map.find r.stops_by_id_ i ≠ none →
      unordered_map.find (CountStops.loop l k r).2.stops_by_id_ i ≠ none) := by
  induction l generalizing k r with
  | nil =>
    refine ⟨?_, ?_, ?_, ?_⟩
    · intro p hp
      exact absurd hp (List.not_mem_nil _)
    · intro i h1 h2
      simp only [List.length_nil] at h2
      omega
    · intro n h
      exact h
    · intro i h
      exact h
  | cons p rest ih =>
    unfold CountStops.loop
    obtain ⟨h1, h2, h3, h4⟩ := ih (k + 1)
      { r with
        id_by_stop_name_ := unordered_map.insert r.id_by_stop_name_ p.1 k
        stops_by_id_ := unordered_map.insert r.stops_by_id_ k p.2 }
    refine ⟨?_, ?_, ?_, ?_⟩
    · intro q hq
      rcases List.mem_cons.1 hq with rfl | hq
      · exact h3 _ (unordered_map.find_insert_self_ne_none _ _ _)
      · exact h1 q hq
    · intro i hi1 hi2
      by_cases hik : i = k
      · subst hik
        exact h4 _ (unordered_map.find_insert_self_ne_none _ _ _)
      · apply h2 i (by omega)
        rw [List.length_cons] at hi2
        omega
    · intro n hn
      exact h3 n (unordered_map.find_insert_ne_none _ _ _ _ hn)
    · intro i hi
      exact h4 i (unordered_map.find_insert_ne_none _ _ _ _ hi)

/-- `CountStops` on maps that bind every name of the table and every id it counts changes
nothing. -/
theorem CountStops_loop_of_present (l : List (String × Stop)) (k : Nat) (r : TransportRouter)
    (h1 : ∀ p ∈ l, unordered_map.find r.id_by_stop_name_ p.1 ≠ none)
    (h2 : ∀ i, k ≤ i → i < k + l.length → unordered_map.find r.stops_by_id_ i ≠ none) :
    CountStops.loop l k r = (k + l.length, r) := by
  induction l generalizing k with
  | nil => rfl
  | cons p rest ih =>
    unfold CountStops.loop
    rw [unordered_map.insert_of_ne_none _ _ _ (h1 p (List.mem_cons_self _ _)),
      unordered_map.insert_of_ne_none _ _ _
        (h2 k (Nat.le_refl _) (by rw [List.length_cons]; omega))]
    rw [ih (k + 1) (fun q hq => h1 q (List.mem_cons_of_mem _ hq))
      (fun i hi1 hi2 => h2 i (by omega) (by rw [List.length_cons]; omega))]
    rw [List.length_cons]
    congr 1
    omega

theorem InitRouter_twice (code : RouterCode) (r : TransportRouter) :
    (r.InitRouter code).2.InitRouter code = r.InitRouter code := by
  by_cases hinit : r.is_initialized_ = false
  · obtain ⟨hc1, hc2, hc3, hc4, hc5, hc6⟩ :=
      CountStops_loop_fields r.catalogue_.stops_by_names_ 0 r
    obtain ⟨hp1, hp2, -, -⟩ := CountStops_loop_present r.catalogue_.stops_by_names_ 0 r
    have hfirst : r.InitRouter code =
        match ({ r.CountStops.2 with
            graph_ := graph.DirectedWeightedGraph.create RouteWeight r.CountStops.1 } :
              TransportRouter).BuildEdges with
        | (.error e, r2) => (.error e, r2)
        | (.ok _, r2) =>
          (.ok (), { r2 with router_ := some (code.construct r2.graph_)
                             is_initialized_ := true }) := by
      unfold InitRouter
      rw [if_pos hinit]
    generalize hr1 : ({ r.CountStops.2 with
        graph_ := graph.DirectedWeightedGraph.create RouteWeight r.CountStops.1 } :
          TransportRouter) = r1 at hfirst
    have hr2 : r1.BuildEdges.2 = { r1 with graph_ := r1.BuildEdges.2.graph_ } := rfl
    cases hb : r1.BuildEdges with
    | mk out r2 =>
      rw [hb] at hr2
      simp only at hr2
      cases out with
      | error e =>
        rw [hfirst, hb]
        simp only
        have h2init : r2.is_initialized_ = false := by
          rw [hr2, ← hr1]
          simp only [CountStops]
          rw [hc4]
          exact hinit
        have h2cat : r2.catalogue_ = r.catalogue_ := by
          rw [hr2, ← hr1]
          simp only [CountStops]
          rw [hc2]
        have h2ids : r2.id_by_stop_name_ = r.CountStops.2.id_by_stop_name_ := by
          rw [hr2, ← hr1]
        have h2sbi : r2.stops_by_id_ = r.CountStops.2.stops_by_id_ := by
          rw [hr2, ← hr1]
        have hcount : r2.CountStops = (r.CountStops.1, r2) := by
          unfold CountStops
          rw [h2cat, CountStops_loop_of_present, hc1]
          · intro p hp
            rw [h2ids]
            exact hp1 p hp
          · intro i hi1 hi2
            rw [h2sbi]
            exact hp2 i hi1 hi2
        have hsame : ({ r2 with
            graph_ := graph.DirectedWeightedGraph.create RouteWeight r.CountStops.1 } :
              TransportRouter) = r1 := by
          rw [hr2, ← hr1]
        unfold InitRouter
        rw [if_pos h2init]
        simp only
        rw [hcount]
        simp only
        rw [hsame, hb]
      | ok u =>
        rw [hfirst, hb]
        simp only
        unfold InitRouter
        rw [if_neg (by simp)]
  · have h1 : r.InitRouter code = (.ok (), r) := by
      unfold InitRouter
      rw [if_neg hinit]
    rw [h1]
    exact h1

end TransportRouter

/-- Claim C22.  For every router state, `InitRouter` called on the state a first call has
left returns or throws what the first call did and leaves that state as it is: the two maps
of vertex ids, the graph and the flag are those of one call; and a call on a router whose
flag is set, by an earlier `InitRouter` or by `InternalInit`, returns with the router
unchanged. -/
theorem InitRouter_idempotent (code : RouterCode) (r : TransportRouter) :
    (r.InitRouter code).2.InitRouter code = r.InitRouter code ∧
    (r.is_initialized_ = true → r.InitRouter code = (.ok (), r)) ∧
    r.InternalInit.InitRouter code = (.ok (), r.InternalInit) := by
  refine ⟨TransportRouter.InitRouter_twice code r, ?_, ?_⟩
  · intro h
    unfold TransportRouter.InitRouter
    rw [if_neg (by simp [h])]
  · unfold TransportRouter.InitRouter
    rw [if_neg (by simp [TransportRouter.InternalInit])]

/-- Scenario S5: on the router that `InitRouter` has initialised a second call returns and
changes nothing; scenario S8: on a router whose catalogue lacks a distance `InitRouter`
throws, and a second call throws the same and leaves the same state. -/
theorem InitRouter_idempotent_witness :
    S5.initialised.is_initialized_ = true ∧
    S5.initialised.InitRouter S5.code = (.ok (), S5.initialised) ∧
    (S8.bare.InitRouter S5.code).1 = .error .out_of_range ∧
    (S8.bare.InitRouter S5.code).2.InitRouter S5.code = S8.bare.InitRouter S5.code :=
  ⟨by decide, (InitRouter_idempotent S5.code S5.initialised).2.1 (by decide), by decide,
    (InitRouter_idempotent S5.code S8.bare).1⟩

end transport_router

namespace serialize

open domain transport_catalogue transport_router

/-- The id of a name in the numbering of a table whose names are distinct is the position
of its binding. -/
theorem find_idsOf_iff {ν : Type} (l : List (String × ν)) (hn : (l.map Prod.fst).Nodup)
    (id : Nat) (n : String) (k : Nat) :
    unordered_map.find (idsOf l id) n = some k ↔
      id ≤ k ∧ ∃ v, l.get? (k - id) = some (n, v) := by
  induction l generalizing id with
  | nil => simp [idsOf, unordered_map.find]
  | cons p rest ih =>
    obtain ⟨name, v0⟩ := p
    have hn' : (rest.map Prod.fst).Nodup := (List.nodup_cons.1 hn).2
    have hnotin : name ∉ rest.map Prod.fst := (List.nodup_cons.1 hn).1
    simp only [idsOf, unordered_map.find]
    by_cases hname : name = n
    · subst hname
      rw [if_pos rfl]
      constructor
      · intro h
        injection h with h
        subst h
        exact ⟨Nat.le_refl _, v0, by simp⟩
      · rintro ⟨hle, v, hv⟩
        by_cases hk : k = id
        · rw [hk]
        · exfalso
          have hsucc : k - id = (k - id - 1) + 1 := by omega
          rw [hsucc, List.get?_cons_succ] at hv
          apply hnotin
          have hmem := List.get?_mem hv
          exact List.mem_map.2 ⟨_, hmem, rfl⟩
    · rw [if_neg hname, ih hn' (id + 1)]
      constructor
      · rintro ⟨hle, v, hv⟩
        refine ⟨by omega, v, ?_⟩
        have hsucc : k - id = (k - (id + 1)) + 1 := by omega
        rw [hsucc, List.get?_cons_succ]
        exact hv
      · rintro ⟨hle, v, hv⟩
        by_cases hk : k = id
        · exfalso
          rw [hk, Nat.sub_self, List.get?_cons_zero] at hv
          injection hv with hv
          injection hv with hv1 hv2
          exact hname hv1
        · refine ⟨by omega, v, ?_⟩
          have hsucc : k - id = (k - (id + 1)) + 1 := by omega
          rw [hsucc, List.get?_cons_succ] at hv
          exact hv

/-- The stop of an id in the numbering of a table is the stop of the binding at that
position. -/
theorem find_stopsByIdOf_iff (l : List (String × Stop)) (id k : Nat) (stop : Stop) :
    unordered_map.find (stopsByIdOf l id) k = some stop ↔
      id ≤ k ∧ ∃ n, l.get? (k - id) = some (n, stop) := by
  induction l generalizing id with
  | nil => simp [stopsByIdOf, unordered_map.find]
  | cons p rest ih =>
    obtain ⟨name, s0⟩ := p
    simp only [stopsByIdOf, unordered_map.find]
    by_cases hk : id = k
    · subst hk
      rw [if_pos rfl]
      constructor
      · intro h
        injection h with h
        subst h
        exact ⟨Nat.le_refl _, name, by simp⟩
      · rintro ⟨-, n, hv⟩
        rw [Nat.sub_self, List.get?_cons_zero] at hv
        injection hv with hv
        injection hv with hv1 hv2
        rw [hv2]
    · rw [if_neg hk, ih (id + 1)]
      constructor
      · rintro ⟨hle, n, hv⟩
        refine ⟨by omega, n, ?_⟩
        have hsucc : k - id = (k - (id + 1)) + 1 := by omega
        rw [hsucc, List.get?_cons_succ]
        exact hv
      · rintro ⟨hle, n, hv⟩
        refine ⟨by omega, n, ?_⟩
        have hsucc : k - id = (k - (id + 1)) + 1 := by omega
        rw [hsucc, List.get?_cons_succ] at hv
        exact hv

end serialize

namespace transport_router

open domain transport_catalogue

/-- Claim C24.  After `CountStops` on a router with empty maps over a catalogue that the
public interface has produced, with `V` stops under pairwise distinct names: the returned
count is `V`; `id_by_stop_name_` binds exactly the stop names, to ids below `V`, every id
below `V` is the id of a name and no two names share an id; `stops_by_id_` binds exactly the
ids below `V`; and the two maps are inverse to each other: the id of a name is bound to the
stop of that name in the catalogue, and the name of the stop of an id is bound to that
id. -/
theorem CountStops_bijection (r : TransportRouter) (hc : Reachable r.catalogue_)
    (h1 : r.id_by_stop_name_ = []) (h2 : r.stops_by_id_ = []) :
    (r.catalogue_.stops_by_names_.map Prod.fst).Nodup ∧
    r.CountStops.1 = r.catalogue_.stops_by_names_.length ∧
    (∀ n, hasStop r.catalogue_ n ↔
      ∃ id, unordered_map.find r.CountStops.2.id_by_stop_name_ n = some id) ∧
    (∀ n id, unordered_map.find r.CountStops.2.id_by_stop_name_ n = some id →
      id < r.catalogue_.stops_by_names_.length) ∧
    (∀ id, id < r.catalogue_.stops_by_names_.length →
      ∃ n, unordered_map.find r.CountStops.2.id_by_stop_name_ n = some id) ∧
    (∀ n n' id, unordered_map.find r.CountStops.2.id_by_stop_name_ n = some id →
      unordered_map.find r.CountStops.2.id_by_stop_name_ n' = some id → n = n') ∧
    (∀ id, id < r.catalogue_.stops_by_names_.length ↔
      ∃ stop, unordered_map.find r.CountStops.2.stops_by_id_ id = some stop) ∧
    (∀ n id, unordered_map.find r.CountStops.2.id_by_stop_name_ n = some id →
      ∃ stop, unordered_map.find r.CountStops.2.stops_by_id_ id = some stop ∧
        stop.name = n ∧ unordered_map.find r.catalogue_.stops_by_names_ n = some stop) ∧
    (∀ id stop, unordered_map.find r.CountStops.2.stops_by_id_ id = some stop →
      unordered_map.find r.CountStops.2.id_by_stop_name_ stop.name = some id) := by
  have hw := WellFormed_of_Reachable _ hc
  have hnodup := hw.stops_nodup
  have hcount : r.CountStops =
      (0 + r.catalogue_.stops_by_names_.length,
        { r with
          id_by_stop_name_ := r.id_by_stop_name_ ++
            serialize.idsOf r.catalogue_.stops_by_names_ 0
          stops_by_id_ := r.stops_by_id_ ++
            serialize.stopsByIdOf r.catalogue_.stops_by_names_ 0 }) := by
    unfold TransportRouter.CountStops
    apply serialize.CountStops_loop_eq
    · rw [h1]
      simpa using hnodup
    · intro p hp
      rw [h2] at hp
      exact absurd hp (List.not_mem_nil _)
  have hids : r.CountStops.2.id_by_stop_name_ =
      serialize.idsOf r.catalogue_.stops_by_names_ 0 := by
    rw [hcount, h1]
    rfl
  have hsbi : r.CountStops.2.stops_by_id_ =
      serialize.stopsByIdOf r.catalogue_.stops_by_names_ 0 := by
    rw [hcount, h2]
    rfl
  rw [hids, hsbi]
  have hkey : ∀ p ∈ r.catalogue_.stops_by_names_, p.2.name = p.1 := hw.stop_key
  have hget : ∀ (k : Nat) (p : String × Stop),
      r.catalogue_.stops_by_names_.get? k = some p →
        k < r.catalogue_.stops_by_names_.length ∧ p ∈ r.catalogue_.stops_by_names_ := by
    intro k p hp
    obtain ⟨hlt, hp'⟩ := List.get?_eq_some.1 hp
    exact ⟨hlt, List.get?_mem hp⟩
  refine ⟨hnodup, ?_, ?_, ?_, ?_, ?_, ?_, ?_, ?_⟩
  · rw [hcount]
    simp
  · intro n
    constructor
    · intro hn
      obtain ⟨k, hk, -, -⟩ := serialize.find_idsOf r.catalogue_.stops_by_names_ 0 n
        ((hasStop_iff _ n).1 hn)
      exact ⟨k, hk⟩
    · rintro ⟨id, hid⟩
      obtain ⟨-, v, hv⟩ := (serialize.find_idsOf_iff _ hnodup 0 n id).1 hid
      rw [hasStop_iff]
      exact List.mem_map.2 ⟨(n, v), (hget _ _ hv).2, rfl⟩
  · intro n id hid
    obtain ⟨-, v, hv⟩ := (serialize.find_idsOf_iff _ hnodup 0 n id).1 hid
    exact (hget _ _ hv).1
  · intro id hid
    refine ⟨(r.catalogue_.stops_by_names_.get ⟨id, hid⟩).1, ?_⟩
    rw [serialize.find_idsOf_iff _ hnodup]
    exact ⟨Nat.zero_le _, (r.catalogue_.stops_by_names_.get ⟨id, hid⟩).2,
      List.get?_eq_get hid⟩
  · intro n n' id hn hn'
    obtain ⟨-, v, hv⟩ := (serialize.find_idsOf_iff _ hnodup 0 n id).1 hn
    obtain ⟨-, v', hv'⟩ := (serialize.find_idsOf_iff _ hnodup 0 n' id).1 hn'
    rw [hv] at hv'
    injection hv' with hv'
    injection hv' with h3 h4
  · intro id
    constructor
    · intro hid
      refine ⟨(r.catalogue_.stops_by_names_.get ⟨id, hid⟩).2, ?_⟩
      rw [serialize.find_stopsByIdOf_iff]
      exact ⟨Nat.zero_le _, (r.catalogue_.stops_by_names_.get ⟨id, hid⟩).1,
        List.get?_eq_get hid⟩
    · rintro ⟨stop, hstop⟩
      obtain ⟨-, n, hv⟩ := (serialize.find_stopsByIdOf_iff _ 0 id stop).1 hstop
      exact (hget _ _ hv).1
  · intro n id hid
    obtain ⟨-, v, hv⟩ := (serialize.find_idsOf_iff _ hnodup 0 n id).1 hid
    refine ⟨v, ?_, hkey _ (hget _ _ hv).2, unordered_map.find_of_mem _ _ _ hnodup (hget _ _ hv).2⟩
    rw [serialize.find_stopsByIdOf_iff]
    exact ⟨Nat.zero_le _, n, hv⟩
  · intro id stop hstop
    obtain ⟨-, n, hv⟩ := (serialize.find_stopsByIdOf_iff _ 0 id stop).1 hstop
    have hname : stop.name = n := hkey _ (hget _ _ hv).2
    rw [serialize.find_idsOf_iff _ hnodup, hname]
    exact ⟨Nat.zero_le _, stop, hv⟩

/-- Scenario S3: the three stops `A`, `B` and `D` get the ids 0, 1 and 2, and the stops of
the ids 0, 1 and 2 are `A`, `B` and `D`. -/
theorem CountStops_bijection_witness :
    (TransportRouter.create S3.catalogue S4.settings).CountStops.1 = 3 ∧
    (∀ n id,
      unordered_map.find
        (TransportRouter.create S3.catalogue S4.settings).CountStops.2.id_by_stop_name_ n =
          some id →
      ∃ stop,
        unordered_map.find
          (TransportRouter.create S3.catalogue S4.settings).CountStops.2.stops_by_id_ id =
            some stop ∧
        stop.name = n ∧ unordered_map.find S3.catalogue.stops_by_names_ n = some stop) ∧
    (TransportRouter.create S3.catalogue S4.settings).CountStops.2.id_by_stop_name_ =
      [("A", 0), ("B", 1), ("D", 2)] :=
  ⟨(CountStops_bijection (TransportRouter.create S3.catalogue S4.settings)
      ⟨S3.calls, rfl⟩ rfl rfl).2.1,
    (CountStops_bijection (TransportRouter.create S3.catalogue S4.settings)
      ⟨S3.calls, rfl⟩ rfl rfl).2.2.2.2.2.2.2.1,
    by decide⟩

end transport_router

/-! ## The stops of the stored routes -/

namespace transport_catalogue

open domain

theorem head_eq_getLast_of_names (c : TransportCatalogue) (stops : List Stop)
    (hfound : ∀ stop ∈ stops, unordered_map.find c.stops_by_names_ stop.name = some stop)
    (hn : (stops.map (fun stop => stop.name)).head? =
      (stops.map (fun stop => stop.name)).getLast?) :
    stops.head? = stops.getLast? := by
  cases stops with
  | nil => rfl
  | cons a rest =>
    have hne : a :: rest ≠ [] := List.cons_ne_nil _ _
    rw [List.getLast?_map, List.head?_map, List.getLast?_eq_getLast _ hne] at hn
    rw [List.getLast?_eq_getLast _ hne]
    simp only [List.head?_cons, Option.map_some'] at hn ⊢
    injection hn with hn
    have h1 := hfound a (List.mem_cons_self _ _)
    have h2 := hfound _ (List.getLast_mem hne)
    rw [hn, h2] at h1
    rw [Option.some.injEq] at h1
    rw [h1]

/-- One call keeps what the stored routes satisfy: the stops of every route of the deque
`routes_` are bound in `stops_by_names_`, and a CIRCLE route is not empty and ends where it
starts. -/
theorem routes_sound_apply (c : TransportCatalogue) (call : Call) (h : WellFormed c)
    (hr : ∀ route ∈ c.routes_,
      (∀ stop ∈ route.stops, unordered_map.find c.stops_by_names_ stop.name = some stop) ∧
      (route.route_type = RouteType.CIRCLE → route.stops ≠ [] ∧
        (route.stops.map (fun stop => stop.name)).head? =
          (route.stops.map (fun stop => stop.name)).getLast?)) :
    ∀ route ∈ (call.apply c).2.routes_,
      (∀ stop ∈ route.stops,
        unordered_map.find (call.apply c).2.stops_by_names_ stop.name = some stop) ∧
      (route.route_type = RouteType.CIRCLE → route.stops ≠ [] ∧
        (route.stops.map (fun stop => stop.name)).head? =
          (route.stops.map (fun stop => stop.name)).getLast?) := by
  cases call with
  | AddStop stop_name coordinate =>
    intro route hroute
    have hroute' : route ∈ c.routes_ := hroute
    refine ⟨?_, (hr route hroute').2⟩
    intro stop hs
    exact unordered_map.find_insert_of_some _ _ _ _ _ ((hr route hroute').1 stop hs)
  | AddRoute route_name route_type stops =>
    simp only [Call.apply]
    rw [AddRoute_eq]
    split
    · exact hr
    · split
      · exact hr
      · rename_i hub hinv
        split
        · rename_i hall
          intro route hroute
          simp only [TransportCatalogue.AddRoute_private] at hroute ⊢
          rcases List.mem_append.1 hroute with hroute | hroute
          · exact hr route hroute
          · rw [List.mem_singleton] at hroute
            subst hroute
            refine ⟨?_, ?_⟩
            · intro stop hs
              exact resolved_found c h stops stop hs
            · intro ht
              simp only at ht
              have hne : stops ≠ [] := fun hnil => hub ⟨ht, hnil⟩
              have hfl : stops.head? = stops.getLast? := by
                by_contra hcon
                exact hinv ⟨ht, hcon⟩
              have hmap := resolved_names c h stops hall
              simp only
              rw [hmap]
              refine ⟨?_, hfl⟩
              intro hnil
              rw [hnil] at hmap
              exact hne hmap.symm
        · exact hr
  | SetDistance stop_from stop_to distance =>
    simp only [Call.apply]
    rw [SetDistance_eq c h]
    split
    · exact hr
    · exact hr

theorem routes_sound_run (c : TransportCatalogue) (calls : List Call) (h : WellFormed c)
    (hr : ∀ route ∈ c.routes_,
      (∀ stop ∈ route.stops, unordered_map.find c.stops_by_names_ stop.name = some stop) ∧
      (route.route_type = RouteType.CIRCLE → route.stops ≠ [] ∧
        (route.stops.map (fun stop => stop.name)).head? =
          (route.stops.map (fun stop => stop.name)).getLast?)) :
    ∀ route ∈ (run c calls).2.routes_,
      (∀ stop ∈ route.stops,
        unordered_map.find (run c calls).2.stops_by_names_ stop.name = some stop) ∧
      (route.route_type = RouteType.CIRCLE → route.stops ≠ [] ∧
        (route.stops.map (fun stop => stop.name)).head? =
          (route.stops.map (fun stop => stop.name)).getLast?) := by
  induction calls generalizing c with
  | nil => exact hr
  | cons call rest ih =>
    apply ih
    · cases call with
      | AddStop stop_name coordinate => exact WellFormed_AddStop c stop_name coordinate h
      | AddRoute route_name route_type stops =>
        exact WellFormed_AddRoute c route_name route_type stops h
      | SetDistance stop_from stop_to distance =>
        exact WellFormed_SetDistance c stop_from stop_to distance h
    · exact routes_sound_apply c call h hr

/-- Claim C23.  In the catalogue that any sequence of `AddStop`, `AddRoute` and
`SetDistance` calls leaves of the empty one, whatever the calls returned or threw and no
`AddRoute` being given an empty list of stops (`front()` of an empty vector is undefined):
every stop of every route of the deque `routes_` is the stop that `stops_by_names_` binds
to its name, every CIRCLE route of the deque has at least one stop and its first and last
stops are equal, and every route that `routes_by_names_` binds is a route of the deque. -/
theorem route_invariant (calls : List Call)
    (_hne : ∀ call ∈ calls, ∀ route_name route_type,
      call ≠ Call.AddRoute route_name route_type []) :
    (∀ route ∈ (run {} calls).2.routes_,
      (∀ stop ∈ route.stops,
        unordered_map.find (run {} calls).2.stops_by_names_ stop.name = some stop) ∧
      (route.route_type = RouteType.CIRCLE →
        route.stops ≠ [] ∧ route.stops.head? = route.stops.getLast?)) ∧
    (∀ name route, unordered_map.find (run {} calls).2.routes_by_names_ name = some route →
      route ∈ (run {} calls).2.routes_) := by
  constructor
  · intro route hroute
    obtain ⟨h1, h2⟩ := routes_sound_run {} calls WellFormed_empty
      (fun route hroute => absurd hroute (List.not_mem_nil _)) route hroute
    refine ⟨h1, fun ht => ⟨(h2 ht).1, ?_⟩⟩
    exact head_eq_getLast_of_names _ route.stops h1 (h2 ht).2
  · intro name route hfind
    exact ((Consistent_of_Reachable _ ⟨calls, rfl⟩).route_key name route hfind).1

/-- Scenario S3: the stops of the routes 828 and 256 are stops of the catalogue, and the
CIRCLE route 256 over `[A, B, A]` starts and ends at `A`. -/
theorem route_invariant_witness :
    (∀ route ∈ S3.catalogue.routes_,
      (∀ stop ∈ route.stops,
        unordered_map.find S3.catalogue.stops_by_names_ stop.name = some stop) ∧
      (route.route_type = RouteType.CIRCLE →
        route.stops ≠ [] ∧ route.stops.head? = route.stops.getLast?)) ∧
    (∀ name route, unordered_map.find S3.catalogue.routes_by_names_ name = some route →
      route ∈ S3.catalogue.routes_) :=
  route_invariant S3.calls (by
    intro call hcall route_name route_type
    simp only [S3.calls, List.mem_cons, List.mem_singleton, List.mem_nil_iff, or_false] at hcall
    rcases hcall with rfl | rfl | rfl | rfl | rfl | rfl <;> simp)

end transport_catalogue

/-! ## The edges of the reverse traversal -/

namespace transport_router

open domain transport_catalogue

namespace TransportRouter

theorem backwardEdge_mem_edgesOfRoute (r : TransportRouter) (route : Route) (p q : Nat)
    (hqp : q < p) (hp : p < route.stops.length) (ht : route.route_type = RouteType.LINEAR) :
    backwardEdge r route p q ∈ edgesOfRoute r route := by
  unfold edgesOfRoute
  rw [List.mem_flatMap]
  refine ⟨route.stops.length - 1 - p, List.mem_range.2 (by omega), ?_⟩
  rw [List.mem_flatMap]
  refine ⟨route.stops.length - 1 - q, List.mem_range'_1.2 ⟨by omega, by omega⟩, ?_⟩
  unfold edgesOfPair
  rw [if_pos ht]
  have h1 : route.stops.length - 1 - (route.stops.length - 1 - p) = p := by omega
  have h2 : route.stops.length - 1 - (route.stops.length - 1 - q) = q := by omega
  rw [h1, h2]
  exact List.mem_cons_of_mem _ (List.mem_singleton.2 rfl)

end TransportRouter

/-- Claim C25.  When `BuildEdges` returns, for every LINEAR route `R` of the catalogue and
every index pair `q < p` of its stops the graph has an edge from the vertex of `s_p` to the
vertex of `s_q` with `bus_name` the name of `R` and
`total_time = wait_time + Σ_{k = q .. p − 1} GetDistance(s_{k+1}, s_k) / velocity`, every
`GetDistance` of the sum having returned; the edge of the forward traversal from `s_q` to
`s_p` has the sum of `GetDistance(s_k, s_{k+1}) / velocity` instead. -/
theorem BuildEdges_reverse_edge (r : TransportRouter) (hok : r.BuildEdges.1 = .ok ())
    (name : String) (route : Route) (hmem : (name, route) ∈ r.catalogue_.routes_by_names_)
    (ht : route.route_type = RouteType.LINEAR)
    (p q : Nat) (hqp : q < p) (hp : p < route.stops.length) :
    (∃ edge ∈ r.BuildEdges.2.graph_.edges_,
      unordered_map.find r.id_by_stop_name_ (stopNameAt route p) = some edge.from_ ∧
      unordered_map.find r.id_by_stop_name_ (stopNameAt route q) = some edge.to_ ∧
      edge.weight.bus_name = route.name ∧
      edge.weight.total_time = (r.settings_.wait_time : Rat) +
        ((List.range' q (p - q)).map (fun k =>
          (distanceValue r.catalogue_ (stopNameAt route (k + 1)) (stopNameAt route k) : Rat) /
            r.settings_.velocity)).sum) ∧
    (∀ k ∈ List.range' q (p - q), ∃ d,
      r.catalogue_.GetDistance (stopNameAt route (k + 1)) (stopNameAt route k) = .ok d) ∧
    (∃ edge ∈ r.BuildEdges.2.graph_.edges_,
      unordered_map.find r.id_by_stop_name_ (stopNameAt route q) = some edge.from_ ∧
      unordered_map.find r.id_by_stop_name_ (stopNameAt route p) = some edge.to_ ∧
      edge.weight.bus_name = route.name ∧
      edge.weight.total_time = (r.settings_.wait_time : Rat) +
        ((List.range' q (p - q)).map (fun k =>
          (distanceValue r.catalogue_ (stopNameAt route k) (stopNameAt route (k + 1)) : Rat) /
            r.settings_.velocity)).sum) := by
  obtain ⟨hedges, -, hv⟩ := TransportRouter.BuildEdges_edges r hok
  have hfrom : ∃ v, unordered_map.find r.id_by_stop_name_ (stopNameAt route p) = some v := by
    have h1 := (hv (name, route) hmem q p hqp hp).2.1
    cases hf : unordered_map.find r.id_by_stop_name_ (stopNameAt route p) with
    | none => exact absurd hf h1
    | some v => exact ⟨v, rfl⟩
  have hto : ∃ v, unordered_map.find r.id_by_stop_name_ (stopNameAt route q) = some v := by
    have h1 := (hv (name, route) hmem q p hqp hp).1
    cases hf : unordered_map.find r.id_by_stop_name_ (stopNameAt route q) with
    | none => exact absurd hf h1
    | some v => exact ⟨v, rfl⟩
  obtain ⟨vp, hvp⟩ := hfrom
  obtain ⟨vq, hvq⟩ := hto
  refine ⟨⟨backwardEdge r route p q, ?_, ?_, ?_, rfl, rfl⟩, ?_,
    ⟨forwardEdge r route q p, ?_, ?_, ?_, rfl, rfl⟩⟩
  · rw [hedges]
    apply List.mem_append_right
    rw [List.mem_flatMap]
    exact ⟨(name, route), hmem,
      TransportRouter.backwardEdge_mem_edgesOfRoute r route p q hqp hp ht⟩
  · simp [backwardEdge, vertexOf, hvp]
  · simp [backwardEdge, vertexOf, hvq]
  · intro k hk
    rw [List.mem_range'_1] at hk
    obtain ⟨d, hd⟩ := (hv (name, route) hmem k (k + 1) (by omega)
      (show k + 1 < route.stops.length by omega)).2.2
    simp only [Nat.add_sub_cancel] at hd
    exact TransportCatalogue.GetDistance_isOk_symm r.catalogue_ _ _ d hd
  · rw [hedges]
    apply List.mem_append_right
    rw [List.mem_flatMap]
    exact ⟨(name, route), hmem, TransportRouter.forwardEdge_mem_edgesOfRoute r route q p hqp hp⟩
  · simp [forwardEdge, vertexOf, hvq]
  · simp [forwardEdge, vertexOf, hvp]

/-- Scenario S8: with a wait of 6 minutes, 2000/3 metres per minute, 900 metres from `A`
to `B` but 1200 from `B` to `A`, and 600 between `B` and `C`, the edge of the reverse
traversal of the route `L` from `C` to `A` takes 6 + 1800 · 3/2000 = 8.7 minutes, and the
edge of the forward traversal from `A` to `C` takes 6 + 1500 · 3/2000 = 8.25 minutes. -/
theorem BuildEdges_reverse_edge_witness :
    S8.router.BuildEdges.1 = .ok () ∧
    (∃ edge ∈ S8.router.BuildEdges.2.graph_.edges_,
      unordered_map.find S8.router.id_by_stop_name_ "C" = some edge.from_ ∧
      unordered_map.find S8.router.id_by_stop_name_ "A" = some edge.to_ ∧
      edge.weight.bus_name = "L" ∧
      edge.weight.total_time = 87 / 10) ∧
    (∃ edge ∈ S8.router.BuildEdges.2.graph_.edges_,
      unordered_map.find S8.router.id_by_stop_name_ "A" = some edge.from_ ∧
      unordered_map.find S8.router.id_by_stop_name_ "C" = some edge.to_ ∧
      edge.weight.bus_name = "L" ∧
      edge.weight.total_time = 33 / 4) := by
  refine ⟨by decide, ?_⟩
  obtain ⟨⟨edge, hmem, hf, ht, hb, htime⟩, -, ⟨edge', hmem', hf', ht', hb', htime'⟩⟩ :=
    BuildEdges_reverse_edge S8.router (by decide) "L" S8.routeL (by decide) rfl 2 0
      (by decide) (by decide)
  have h1 : S8.router.settings_ = S4.settings := rfl
  have h2 : S8.router.catalogue_ = S8.catalogue := rfl
  have hBA : distanceValue S8.catalogue (stopNameAt S8.routeL 1) (stopNameAt S8.routeL 0) =
      1200 := by decide
  have hCB : distanceValue S8.catalogue (stopNameAt S8.routeL 2) (stopNameAt S8.routeL 1) =
      600 := by decide
  have hAB : distanceValue S8.catalogue (stopNameAt S8.routeL 0) (stopNameAt S8.routeL 1) =
      900 := by decide
  have hBC : distanceValue S8.catalogue (stopNameAt S8.routeL 1) (stopNameAt S8.routeL 2) =
      600 := by decide
  have hrange : List.range' 0 (2 - 0) = [0, 1] := by decide
  refine ⟨⟨edge, hmem, hf, ht, hb, ?_⟩, ⟨edge', hmem', hf', ht', hb', ?_⟩⟩
  · rw [htime, h1, h2, hrange]
    simp only [List.map_cons, List.map_nil, List.sum_cons, List.sum_nil, Nat.zero_add,
      Nat.reduceAdd, hBA, hCB, S4.settings]
    norm_num
  · rw [htime', h1, h2, hrange]
    simp only [List.map_cons, List.map_nil, List.sum_cons, List.sum_nil, Nat.zero_add,
      Nat.reduceAdd, hAB, hBC, S4.settings]
    norm_num

end transport_router

/-! ## The state of the codec after a call, and the colours of the render settings -/

namespace serialize

open domain transport_catalogue

/-- Claim C27 as stated fails.  In scenario S5 the codec holds the catalogue of S3, the
render settings and the router; `Serialize` on a file that does not open returns `false`
and leaves the message and the tables as they were, with three stops in the message and
three names in the table of stop ids. -/
theorem Serialize_failure_keeps_state :
    (S5.saved.Serialize false).1 = false ∧
    (S5.saved.Serialize false).2.1 = S5.saved ∧
    (S5.saved.Serialize false).2.1.proto_catalogue_.catalogue.stops.length = 3 ∧
    (S5.saved.Serialize false).2.1.stop_id_by_name_ = [("A", 0), ("B", 1), ("D", 2)] ∧
    (S5.saved.Serialize false).2.1 ≠ {} := by
  refine ⟨rfl, rfl, by decide, by decide, by decide⟩

/-- Claim C27, amended.  After a call of `Serialize` or of `Deserialize` that returns
`true` the message and the four tables of the codec are empty; a call of `Serialize` that
returns `false` leaves the message and the tables as they were, with nothing written; a
call of `Deserialize` that returns `false` leaves the four tables and the caller's
variables as they were. -/
theorem codec_state_after_call (s : Serializator) :
    s.Serialize true = (true, {}, some s.proto_catalogue_) ∧
    s.Serialize false = (false, s, none) ∧
    (∀ file target s' target', s.Deserialize file target = (.ok true, s', target') →
      s' = {}) ∧
    (∀ file target s' target', s.Deserialize file target = (.ok false, s', target') →
      s'.stop_name_by_id_ = s.stop_name_by_id_ ∧
      s'.stop_id_by_name_ = s.stop_id_by_name_ ∧
      s'.route_name_by_id_ = s.route_name_by_id_ ∧
      s'.route_id_by_name_ = s.route_id_by_name_ ∧
      target' = target) := by
  refine ⟨rfl, rfl, ?_, ?_⟩
  · intro file target s' target' h
    unfold Serializator.Deserialize at h
    cases file with
    | not_open =>
      simp only at h
      injection h with h1 h2
      injection h1 with h1
      exact Bool.noConfusion h1
    | parse_failed partly =>
      simp only at h
      injection h with h1 h2
      injection h1 with h1
      exact Bool.noConfusion h1
    | parsed message =>
      simp only at h
      split at h
      · injection h with h1 h2
        exact Except.noConfusion h1
      · split at h
        · injection h with h1 h2
          exact Except.noConfusion h1
        · split at h
          · injection h with h1 h2
            exact Except.noConfusion h1
          · injection h with h1 h2
            injection h2 with h2 h3
            rw [← h2]
            rfl
  · intro file target s' target' h
    unfold Serializator.Deserialize at h
    cases file with
    | not_open =>
      simp only at h
      injection h with h1 h2
      injection h2 with h2 h3
      subst h2
      subst h3
      exact ⟨rfl, rfl, rfl, rfl, rfl⟩
    | parse_failed partly =>
      simp only at h
      injection h with h1 h2
      injection h2 with h2 h3
      subst h2
      subst h3
      exact ⟨rfl, rfl, rfl, rfl, rfl⟩
    | parsed message =>
      simp only at h
      split at h
      · injection h with h1 h2
        exact Except.noConfusion h1
      · split at h
        · injection h with h1 h2
          exact Except.noConfusion h1
        · split at h
          · injection h with h1 h2
            exact Except.noConfusion h1
          · injection h with h1 h2
            injection h1 with h1
            exact Bool.noConfusion h1

/-- Scenario S5: `Deserialize` of the saved message returns `true` and leaves the codec
empty; `Deserialize` of a file that does not open returns `false` and leaves the tables of
the codec of S5 as they were. -/
theorem codec_state_after_call_witness :
    (({} : Serializator).Deserialize (.parsed S5.saved.proto_catalogue_) S5.target).1 =
      .ok true ∧
    (({} : Serializator).Deserialize (.parsed S5.saved.proto_catalogue_) S5.target).2.1 =
      {} ∧
    (S5.saved.Deserialize .not_open S5.target).1 = .ok false ∧
    (S5.saved.Deserialize .not_open S5.target).2.1.stop_id_by_name_ =
      S5.saved.stop_id_by_name_ :=
  ⟨by decide,
    (codec_state_after_call {}).2.2.1 (.parsed S5.saved.proto_catalogue_) S5.target
      (({} : Serializator).Deserialize (.parsed S5.saved.proto_catalogue_) S5.target).2.1
      (({} : Serializator).Deserialize (.parsed S5.saved.proto_catalogue_) S5.target).2.2
      (triple_eq _ _ _ (by decide) rfl),
    rfl,
    ((codec_state_after_call S5.saved).2.2.2 .not_open S5.target
      (S5.saved.Deserialize .not_open S5.target).2.1
      (S5.saved.Deserialize .not_open S5.target).2.2 rfl).2.1⟩

/-- Claim C29.  `MakeColor` undoes `MakeProtoColor` on every colour of the four
alternatives whose components are `uint8_t` values, `MakeRouteType` undoes
`MakeProtoRouteType` on every route type and `MakePoint` undoes `MakeProtoPoint`; so
`LoadRenderSettings`, after `SaveRenderSettings` on a codec whose message has no render
settings yet, returns the render settings that were saved, the palette in its order. -/
theorem color_codec_round_trip :
    (∀ color : svg.Color, color.inRange →
      Serializator.MakeColor (Serializator.MakeProtoColor color) = color) ∧
    (∀ route_type : RouteType,
      Serializator.MakeRouteType (Serializator.MakeProtoRouteType route_type) = route_type) ∧
    (∀ point : svg.Point, Serializator.MakePoint (Serializator.MakeProtoPoint point) = point) ∧
    (∀ (s : Serializator) (settings : renderer.RenderSettings)
      (result_settings : Option renderer.RenderSettings),
      s.proto_catalogue_.render_settings = none →
      settings.underlayer_color.inRange →
      (∀ color ∈ settings.color_palette, color.inRange) →
      (s.SaveRenderSettings settings).LoadRenderSettings result_settings = some settings) := by
  have hcolor : ∀ color : svg.Color, color.inRange →
      Serializator.MakeColor (Serializator.MakeProtoColor color) = color := by
    intro color h
    cases color with
    | none => rfl
    | named name => rfl
    | rgb red green blue =>
      obtain ⟨h1, h2, h3⟩ := h
      simp only [Serializator.MakeProtoColor, Serializator.MakeColor, Nat.mod_eq_of_lt h1,
        Nat.mod_eq_of_lt h2, Nat.mod_eq_of_lt h3]
    | rgba red green blue opacity =>
      obtain ⟨h1, h2, h3⟩ := h
      simp only [Serializator.MakeProtoColor, Serializator.MakeColor, Nat.mod_eq_of_lt h1,
        Nat.mod_eq_of_lt h2, Nat.mod_eq_of_lt h3]
  refine ⟨hcolor, MakeRouteType_MakeProtoRouteType, fun point => rfl, ?_⟩
  intro s settings result_settings hnone hunder hpalette
  have hpal : (settings.color_palette.map Serializator.MakeProtoColor).map
      Serializator.MakeColor = settings.color_palette := by
    rw [List.map_map]
    conv_rhs => rw [← List.map_id settings.color_palette]
    apply List.map_congr_left
    intro color hmem
    exact hcolor color (hpalette color hmem)
  unfold Serializator.SaveRenderSettings Serializator.LoadRenderSettings
  simp only [hnone, Option.map_none', Option.getD_none, List.nil_append, hpal,
    hcolor _ hunder]
  rfl

/-- Scenario S5: the colour `rgb(255, 160, 0)` and the render settings of S5, whose palette
is `green` followed by that colour, come back as they were saved. -/
theorem color_codec_round_trip_witness :
    Serializator.MakeColor (Serializator.MakeProtoColor (svg.Color.rgb 255 160 0)) =
      svg.Color.rgb 255 160 0 ∧
    ((({} : Serializator).SaveRenderSettings S5.render_settings).LoadRenderSettings none =
      some S5.render_settings) ∧
    S5.render_settings.color_palette = [svg.Color.named "green", svg.Color.rgb 255 160 0] :=
  ⟨color_codec_round_trip.1 (svg.Color.rgb 255 160 0) (by decide),
    color_codec_round_trip.2.2.2 {} S5.render_settings none rfl (by decide) (by decide),
    rfl⟩

end serialize

/-! ## The validator of the stops of the base requests -/

namespace json_reader

open domain transport_catalogue

/-- Claim C28 fails on the code.  The node of S9 is an object of the type `Stop` with a
name, a latitude and a longitude whose `road_distances` is the number 5: `IsStop` accepts
it, because its last test reads the node of `longitude`, and `LoadDistances` then reads
`road_distances` with `AsMap`, which throws `std::logic_error`. -/
theorem IsStop_accepts_road_distances_not_a_map :
    IsStop S9.stop = true ∧
    unordered_map.count (asDict S9.stop) "road_distances" = 1 ∧
    (nodeAt (asDict S9.stop) "road_distances").IsMap = false ∧
    (LoadDistances [S9.stop] S9.catalogue).1 = .error .logic_error := by
  decide

end json_reader

/-! ## The colours of the routes on the map -/

namespace renderer

open domain transport_catalogue

namespace MapRenderer

theorem paletteAt_ok (m : MapRenderer) (hP : m.settings_.color_palette ≠ []) (k : Nat) :
    k % m.settings_.color_palette.length < m.settings_.color_palette.length ∧
    m.settings_.color_palette.get? (k % m.settings_.color_palette.length) =
      some (m.colorOf k) ∧
    m.paletteAt k = .ok (m.colorOf k) := by
  have hlen : 0 < m.settings_.color_palette.length := List.length_pos.2 hP
  have hlt : k % m.settings_.color_palette.length < m.settings_.color_palette.length :=
    Nat.mod_lt _ hlen
  have hget : m.settings_.color_palette.get? (k % m.settings_.color_palette.length) =
      some (m.colorOf k) := by
    unfold colorOf
    rw [List.get?_eq_get hlt, List.getD_eq_getElem _ _ hlt]
    rfl
  refine ⟨hlt, hget, ?_⟩
  unfold paletteAt
  simp only
  rw [if_neg (by omega), hget]

theorem RenderLines_loop_eq (m : MapRenderer) (hP : m.settings_.color_palette ≠ [])
    (routes : List (String × Route)) (k : Nat) (doc : svg.Document) :
    RenderLines.loop m routes k doc =
      (.ok (), { objects_ := doc.objects_ ++
        ((drawn routes).enumFrom k).map (fun kp =>
          svg.Object.polyline (RenderLines.line m kp.2.2 (m.colorOf kp.1))) }) := by
  induction routes generalizing k doc with
  | nil => simp [RenderLines.loop, drawn]
  | cons route rest ih =>
    unfold RenderLines.loop
    by_cases hlen : route.2.stops.length > 0
    · rw [if_pos hlen, (paletteAt_ok m hP k).2.2]
      simp only
      rw [ih]
      have hd : drawn (route :: rest) = route :: drawn rest := by
        unfold drawn
        rw [List.filter_cons_of_pos (by simpa using hlen)]
      rw [hd]
      simp only [svg.Document.Add, List.enumFrom_cons, List.map_cons, List.append_assoc,
        List.singleton_append]
    · rw [if_neg hlen, ih]
      have hd : drawn (route :: rest) = drawn rest := by
        unfold drawn
        rw [List.filter_cons_of_neg (by simpa using hlen)]
      rw [hd]

end MapRenderer

end renderer

/-! ## Failed and repeated additions -/

namespace transport_catalogue

open domain

/-- Claim C33.  For every catalogue and every non-empty list of stop names, a call of
`AddRoute` that does not return throws `std::out_of_range` or `std::invalid_argument` and
leaves the catalogue as it was: the deque of routes, the index of the routes and the index
of the buses of the stops are unchanged. -/
theorem AddRoute_atomic (c : TransportCatalogue) (route_name : String)
    (route_type : RouteType) (stops : List String) (hne : stops ≠ [])
    (hfail : (c.AddRoute route_name route_type stops).1 ≠ .ok ()) :
    (c.AddRoute route_name route_type stops).2 = c ∧
    ((c.AddRoute route_name route_type stops).1 = .error .out_of_range ∨
      (c.AddRoute route_name route_type stops).1 = .error .invalid_argument) ∧
    (c.AddRoute route_name route_type stops).2.routes_ = c.routes_ ∧
    (c.AddRoute route_name route_type stops).2.routes_by_names_ = c.routes_by_names_ ∧
    (c.AddRoute route_name route_type stops).2.buses_on_stops_ = c.buses_on_stops_ := by
  rw [AddRoute_eq] at hfail ⊢
  by_cases h1 : route_type = RouteType.CIRCLE ∧ stops = []
  · exact absurd h1.2 hne
  · rw [if_neg h1] at hfail ⊢
    by_cases h2 : route_type = RouteType.CIRCLE ∧ stops.head? ≠ stops.getLast?
    · rw [if_pos h2]
      exact ⟨rfl, Or.inr rfl, rfl, rfl, rfl⟩
    · rw [if_neg h2] at hfail ⊢
      by_cases h3 : ∀ s ∈ stops, hasStop c s
      · rw [if_pos h3] at hfail
        exact absurd rfl hfail
      · rw [if_neg h3]
        exact ⟨rfl, Or.inl rfl, rfl, rfl, rfl⟩

/-- Scenario S2: `AddRoute` of LINEAR `[X, Z]`, where `X` is a stop and `Z` is not, throws
and leaves the catalogue, with its empty index of buses, as it was. -/
theorem AddRoute_atomic_witness :
    (S2.catalogue.AddRoute "L" RouteType.LINEAR ["X", "Z"]).1 = .error .out_of_range ∧
    (S2.catalogue.AddRoute "L" RouteType.LINEAR ["X", "Z"]).2 = S2.catalogue ∧
    (S2.catalogue.AddRoute "L" RouteType.LINEAR ["X", "Z"]).2.buses_on_stops_ = [] :=
  ⟨by decide,
    (AddRoute_atomic S2.catalogue "L" RouteType.LINEAR ["X", "Z"] (by decide) (by decide)).1,
    (AddRoute_atomic S2.catalogue "L" RouteType.LINEAR ["X", "Z"] (by decide)
      (by decide)).2.2.2.2⟩

theorem GetRouteInfo_congr (ComputeDistance : geo.Coordinates → geo.Coordinates → Rat)
    (c c' : TransportCatalogue) (route_name : String)
    (hroute : unordered_map.find c'.routes_by_names_ route_name =
      unordered_map.find c.routes_by_names_ route_name)
    (hdist : c'.distances_ = c.distances_) :
    c'.GetRouteInfo ComputeDistance route_name = c.GetRouteInfo ComputeDistance route_name := by
  have hstored : ∀ a b, storedDistance c' a b = storedDistance c a b := by
    intro a b
    unfold storedDistance
    rw [hdist]
  have hget : ∀ a b, c'.GetDistance a b = c.GetDistance a b := by
    intro a b
    rw [TransportCatalogue.GetDistance_eq, TransportCatalogue.GetDistance_eq, hstored, hstored]
  have hloop : ∀ (stops : List Stop) (result : Int),
      TransportCatalogue.CalculateRealRouteLength.loop c' stops result =
        TransportCatalogue.CalculateRealRouteLength.loop c stops result := by
    intro stops
    induction stops with
    | nil =>
      intro result
      simp [TransportCatalogue.CalculateRealRouteLength.loop]
    | cons a l ih =>
      intro result
      cases l with
      | nil => simp [TransportCatalogue.CalculateRealRouteLength.loop]
      | cons b rest =>
        unfold TransportCatalogue.CalculateRealRouteLength.loop
        rw [hget]
        cases c.GetDistance a.name b.name with
        | error e => rfl
        | ok d => exact ih (wrap_int (result + d))
  have hfind : c'.FindRoute route_name = c.FindRoute route_name := by
    rw [TransportCatalogue.FindRoute_eq, TransportCatalogue.FindRoute_eq, hroute]
  unfold TransportCatalogue.GetRouteInfo
  rw [hfind]
  cases c.FindRoute route_name with
  | error e => rfl
  | ok route =>
    simp only [TransportCatalogue.CalculateRealRouteLength, hloop]

/-- Claim C34.  In a catalogue that the public interface has produced: `AddStop` with a
name that is bound leaves the stop bound to that name, with its coordinates, as it was;
and after an `AddRoute` that returns for a route name that is bound, `FindRoute` and
`GetRouteInfo` of the name give what they gave before, while every stop listed in the
call has the name in the set `GetBusesOnStop` returns. -/
theorem duplicate_names_first_wins
    (ComputeDistance : geo.Coordinates → geo.Coordinates → Rat)
    (c : TransportCatalogue) (hc : Reachable c) :
    (∀ stop_name coordinate stop,
      unordered_map.find c.stops_by_names_ stop_name = some stop →
      unordered_map.find (c.AddStop stop_name coordinate).stops_by_names_ stop_name =
        some stop ∧
      (c.AddStop stop_name coordinate).FindStop stop_name = .ok stop) ∧
    (∀ route_name route_type stops route,
      c.FindRoute route_name = .ok route →
      (c.AddRoute route_name route_type stops).1 = .ok () →
      (c.AddRoute route_name route_type stops).2.FindRoute route_name = .ok route ∧
      (c.AddRoute route_name route_type stops).2.GetRouteInfo ComputeDistance route_name =
        c.GetRouteInfo ComputeDistance route_name ∧
      (c.AddRoute route_name route_type stops).2.routes_.length = c.routes_.length + 1 ∧
      ∀ s ∈ stops, ∃ buses,
        (c.AddRoute route_name route_type stops).2.GetBusesOnStop s = .ok (some buses) ∧
        route_name ∈ buses) := by
  have hw := WellFormed_of_Reachable c hc
  constructor
  · intro stop_name coordinate stop hfind
    have h1 : unordered_map.find (c.AddStop stop_name coordinate).stops_by_names_ stop_name =
        some stop := unordered_map.find_insert_of_some _ _ _ _ _ hfind
    refine ⟨h1, ?_⟩
    rw [TransportCatalogue.FindStop_eq, h1]
  · intro route_name route_type stops route hfind hok
    rw [TransportCatalogue.FindRoute_eq] at hfind
    have hsome : unordered_map.find c.routes_by_names_ route_name = some route := by
      cases hf : unordered_map.find c.routes_by_names_ route_name with
      | none =>
        rw [hf] at hfind
        exact Except.noConfusion hfind
      | some r =>
        rw [hf] at hfind
        injection hfind with hfind
        rw [hfind]
    rw [AddRoute_eq] at hok ⊢
    by_cases h1 : route_type = RouteType.CIRCLE ∧ stops = []
    · rw [if_pos h1] at hok
      exact Except.noConfusion hok
    · rw [if_neg h1] at hok ⊢
      by_cases h2 : route_type = RouteType.CIRCLE ∧ stops.head? ≠ stops.getLast?
      · rw [if_pos h2] at hok
        exact Except.noConfusion hok
      · rw [if_neg h2] at hok ⊢
        by_cases h3 : ∀ s ∈ stops, hasStop c s
        · rw [if_pos h3]
          simp only
          have hroutes : unordered_map.find
              (c.AddRoute_private
                { name := route_name, route_type := route_type
                  stops := stops.filterMap (unordered_map.find c.stops_by_names_)
                }).routes_by_names_ route_name = some route :=
            unordered_map.find_insert_of_some _ _ _ _ _ hsome
          refine ⟨?_, ?_, ?_, ?_⟩
          · rw [TransportCatalogue.FindRoute_eq, hroutes]
          · exact GetRouteInfo_congr ComputeDistance c _ route_name (hroutes.trans hsome.symm)
              rfl
          · simp [TransportCatalogue.AddRoute_private]
          · intro s hs
            have hstop := h3 s hs
            unfold hasStop at hstop
            cases hf : unordered_map.find c.stops_by_names_ s with
            | none => exact absurd hf hstop
            | some stop =>
              have hname : stop.name = s := find_name_of_wellFormed c hw s stop hf
              have hmem : s ∈ (stops.filterMap (unordered_map.find c.stops_by_names_)).map
                  (fun stop => stop.name) := by
                rw [resolved_names c hw stops h3]
                exact hs
              refine ⟨set.insert route_name (unordered_map.index c.buses_on_stops_ s []), ?_,
                (set.mem_insert _ _ _).2 (Or.inl rfl)⟩
              unfold TransportCatalogue.GetBusesOnStop
              rw [TransportCatalogue.FindStop_eq]
              have hf' : unordered_map.find
                  (c.AddRoute_private
                    { name := route_name, route_type := route_type
                      stops := stops.filterMap (unordered_map.find c.stops_by_names_)
                    }).stops_by_names_ s = some stop := hf
              rw [hf']
              simp only [hname]
              have hb : unordered_map.find
                  (c.AddRoute_private
                    { name := route_name, route_type := route_type
                      stops := stops.filterMap (unordered_map.find c.stops_by_names_)
                    }).buses_on_stops_ s =
                  some (set.insert route_name (unordered_map.index c.buses_on_stops_ s [])) := by
                simp only [TransportCatalogue.AddRoute_private]
                rw [TransportCatalogue.find_AddRoute_private_loop, if_pos hmem]
              rw [hb]
        · rw [if_neg h3] at hok
          exact Except.noConfusion hok

/-- Scenario S3: a second `AddStop` of `A`, at other coordinates, leaves `A` at `(0, 0)`;
a second `AddRoute` under the name 828, over `[B, D]`, returns, `FindRoute` still gives the
route over `[A, B]`, and the stop `D` now has the bus 828. -/
theorem duplicate_names_first_wins_witness :
    (S3.catalogue.AddStop "A" ⟨5, 5⟩).FindStop "A" = .ok ⟨"A", ⟨0, 0⟩⟩ ∧
    (S3.catalogue.AddRoute "828" RouteType.LINEAR ["B", "D"]).2.FindRoute "828" =
      .ok S4.route828 ∧
    ∃ buses, (S3.catalogue.AddRoute "828" RouteType.LINEAR ["B", "D"]).2.GetBusesOnStop "D" =
      .ok (some buses) ∧ "828" ∈ buses :=
  ⟨((duplicate_names_first_wins S1.ComputeDistance S3.catalogue ⟨S3.calls, rfl⟩).1
      "A" ⟨5, 5⟩ ⟨"A", ⟨0, 0⟩⟩ (by decide)).2,
    ((duplicate_names_first_wins S1.ComputeDistance S3.catalogue ⟨S3.calls, rfl⟩).2
      "828" RouteType.LINEAR ["B", "D"] S4.route828 (by decide) (by decide)).1,
    ((duplicate_names_first_wins S1.ComputeDistance S3.catalogue ⟨S3.calls, rfl⟩).2
      "828" RouteType.LINEAR ["B", "D"] S4.route828 (by decide) (by decide)).2.2.2
      "D" (by decide)⟩

/-- Claim C35.  In a catalogue that the public interface has produced, every set of the
index `buses_on_stops_` is non-empty and its key is a stop of the catalogue; for a stop of
the catalogue `GetBusesOnStop` returns `std::nullopt` if and only if no route of the
catalogue has the stop; and `GetBusesOnStop` never returns an empty set. -/
theorem buses_on_stop_nonempty (c : TransportCatalogue) (hc : Reachable c) :
    (∀ s buses, unordered_map.find c.buses_on_stops_ s = some buses →
      buses ≠ [] ∧ hasStop c s) ∧
    (∀ s, hasStop c s →
      (c.GetBusesOnStop s = .ok none ↔
        ∀ route ∈ c.routes_, s ∉ route.stops.map (fun stop => stop.name))) ∧
    (∀ s, c.GetBusesOnStop s ≠ .ok (some [])) := by
  have hcons := Consistent_of_Reachable c hc
  have hkeys : ∀ s buses, unordered_map.find c.buses_on_stops_ s = some buses →
      buses ≠ [] ∧ hasStop c s := by
    intro s buses hfind
    have hne := hcons.buses_nonempty s buses hfind
    refine ⟨hne, ?_⟩
    obtain ⟨r, hr⟩ := List.exists_mem_of_ne_nil buses hne
    have hidx : unordered_map.index c.buses_on_stops_ s [] = buses := by
      unfold unordered_map.index
      rw [hfind]
      rfl
    obtain ⟨route, hroute, -, hs⟩ := (hcons.buses_mem s r).1 (hidx ▸ hr)
    obtain ⟨stop, hstop, hname⟩ := List.mem_map.1 hs
    obtain ⟨calls, rfl⟩ := hc
    have hsound := (routes_sound_run {} calls WellFormed_empty
      (fun route hroute => absurd hroute (List.not_mem_nil _)) route hroute).1 stop hstop
    unfold hasStop
    rw [← hname, hsound]
    exact Option.some_ne_none _
  refine ⟨hkeys, ?_, ?_⟩
  · intro s hs
    rw [GetBusesOnStop_eq c hcons, if_pos hs]
    constructor
    · intro h route hroute hmem
      injection h with h
      have hidx : unordered_map.index c.buses_on_stops_ s [] = [] := by
        unfold unordered_map.index
        rw [h]
        rfl
      have := (hcons.buses_mem s route.name).2 ⟨route, hroute, rfl, hmem⟩
      rw [hidx] at this
      exact absurd this (List.not_mem_nil _)
    · intro h
      cases hf : unordered_map.find c.buses_on_stops_ s with
      | none => rfl
      | some buses =>
        exfalso
        obtain ⟨r, hr⟩ := List.exists_mem_of_ne_nil buses (hkeys s buses hf).1
        have hidx : unordered_map.index c.buses_on_stops_ s [] = buses := by
          unfold unordered_map.index
          rw [hf]
          rfl
        obtain ⟨route, hroute, -, hmem⟩ := (hcons.buses_mem s r).1 (hidx ▸ hr)
        exact h route hroute hmem
  · intro s h
    rw [GetBusesOnStop_eq c hcons] at h
    by_cases hs : hasStop c s
    · rw [if_pos hs] at h
      injection h with h
      exact (hkeys s [] h).1 rfl
    · rw [if_neg hs] at h
      exact Except.noConfusion h

/-- Scenario S3: the stop `A` has the buses 256 and 828, and the stop `D`, which is in no
route, has `std::nullopt`. -/
theorem buses_on_stop_nonempty_witness :
    unordered_map.find S3.catalogue.buses_on_stops_ "A" = some ["256", "828"] ∧
    hasStop S3.catalogue "A" ∧
    S3.catalogue.GetBusesOnStop "D" = .ok none :=
  ⟨by decide,
    ((buses_on_stop_nonempty S3.catalogue ⟨S3.calls, rfl⟩).1 "A" ["256", "828"]
      (by decide)).2,
    ((buses_on_stop_nonempty S3.catalogue ⟨S3.calls, rfl⟩).2.1 "D" (by decide)).2
      (by decide)⟩

end transport_catalogue

/-! ## The counts of a route and of its round trip -/

namespace transport_catalogue

open domain

theorem toFinset_card_lt_of_head_eq_getLast (names : List String) (h2 : 2 ≤ names.length)
    (h : names.head? = names.getLast?) : names.toFinset.card + 1 ≤ names.length := by
  cases names with
  | nil => simp at h2
  | cons a rest =>
    cases rest with
    | nil => simp at h2
    | cons b rest' =>
      have hne : b :: rest' ≠ [] := List.cons_ne_nil _ _
      have hlast : (a :: b :: rest').getLast? = some ((b :: rest').getLast hne) := by
        rw [List.getLast?_cons_cons, List.getLast?_eq_getLast _ hne]
      rw [hlast] at h
      simp only [List.head?_cons, Option.some.injEq] at h
      have hmem : a ∈ b :: rest' := by
        rw [h]
        exact List.getLast_mem hne
      have hset : (a :: b :: rest').toFinset = (b :: rest').toFinset := by
        rw [List.toFinset_cons]
        exact Finset.insert_eq_of_mem (List.mem_toFinset.2 hmem)
      rw [hset]
      have := List.toFinset_card_le (b :: rest')
      simp only [List.length_cons] at this ⊢
      omega

/-- Claim C36.  When `GetRouteInfo` returns for a route with `n ≥ 1` stops of a catalogue
that the public interface has produced, `1 ≤ num_of_unique_stops ≤ n`; and for a CIRCLE
route with `n ≥ 2` stops, whose first and last stops `AddRoute` has made equal,
`num_of_unique_stops ≤ num_of_stops − 1`. -/
theorem unique_stop_count_bounds (ComputeDistance : geo.Coordinates → geo.Coordinates → Rat)
    (c : TransportCatalogue) (hc : Reachable c) (route_name : String) (route : Route)
    (info : RouteInfo)
    (hfind : c.FindRoute route_name = .ok route)
    (hinfo : c.GetRouteInfo ComputeDistance route_name = .ok info)
    (hn : 1 ≤ route.stops.length) :
    1 ≤ info.num_of_unique_stops ∧
    info.num_of_unique_stops ≤ (route.stops.length : Int) ∧
    (route.route_type = RouteType.CIRCLE → 2 ≤ route.stops.length →
      info.num_of_stops = (route.stops.length : Int) ∧
      info.num_of_unique_stops ≤ info.num_of_stops - 1) := by
  have hw := WellFormed_of_Reachable c hc
  have hmem : (route_name, route) ∈ c.routes_by_names_ := by
    rw [TransportCatalogue.FindRoute_eq] at hfind
    cases hf : unordered_map.find c.routes_by_names_ route_name with
    | none =>
      rw [hf] at hfind
      exact Except.noConfusion hfind
    | some r =>
      rw [hf] at hfind
      injection hfind with hfind
      subst hfind
      exact unordered_map.mem_of_find _ _ _ hf
  obtain ⟨-, -, hinfo⟩ := TransportCatalogue.GetRouteInfo_of_ok ComputeDistance c route_name
    route info hfind hinfo
  subst hinfo
  simp only
  rw [CalculateUniqueStops_eq]
  have hlen : (route.stops.map (fun stop => stop.name)).length = route.stops.length :=
    List.length_map _ _
  refine ⟨?_, ?_, ?_⟩
  · have hne : route.stops.map (fun stop => stop.name) ≠ [] := by
      intro h
      rw [h] at hlen
      simp only [List.length_nil] at hlen
      omega
    obtain ⟨x, hx⟩ := List.exists_mem_of_ne_nil _ hne
    have hpos : 0 < (route.stops.map (fun stop => stop.name)).toFinset.card :=
      Finset.card_pos.2 ⟨x, List.mem_toFinset.2 hx⟩
    exact_mod_cast hpos
  · have := List.toFinset_card_le (route.stops.map (fun stop => stop.name))
    rw [hlen] at this
    exact_mod_cast this
  · intro ht h2
    have hcircle := (hw.route_circle (route_name, route) hmem ht).2
    have := toFinset_card_lt_of_head_eq_getLast (route.stops.map (fun stop => stop.name))
      (by rw [hlen]; exact h2) hcircle
    rw [hlen] at this
    have hstops : CalculateStops (some route) = (route.stops.length : Int) := by
      simp [CalculateStops, ht]
    rw [hstops]
    refine ⟨rfl, ?_⟩
    have h3 : (((route.stops.map (fun stop => stop.name)).toFinset.card + 1 : Nat) : Int) ≤
        (route.stops.length : Int) := by exact_mod_cast this
    push_cast at h3
    linarith

/-- Scenario S3: the CIRCLE route 256 over `[A, B, A]` has 3 stops and 2 unique stops. -/
theorem unique_stop_count_bounds_witness :
    ∃ info, S3.catalogue.GetRouteInfo S1.ComputeDistance "256" = .ok info ∧
      info.num_of_stops = 3 ∧
      1 ≤ info.num_of_unique_stops ∧
      info.num_of_unique_stops ≤ info.num_of_stops - 1 :=
  ⟨_, rfl,
    ((unique_stop_count_bounds S1.ComputeDistance S3.catalogue ⟨S3.calls, rfl⟩ "256"
      ⟨"256", RouteType.CIRCLE, [⟨"A", ⟨0, 0⟩⟩, ⟨"B", ⟨0, 1⟩⟩, ⟨"A", ⟨0, 0⟩⟩]⟩ _ rfl rfl
      (by decide)).2.2 rfl (by decide)).1,
    (unique_stop_count_bounds S1.ComputeDistance S3.catalogue ⟨S3.calls, rfl⟩ "256"
      ⟨"256", RouteType.CIRCLE, [⟨"A", ⟨0, 0⟩⟩, ⟨"B", ⟨0, 1⟩⟩, ⟨"A", ⟨0, 0⟩⟩]⟩ _ rfl rfl
      (by decide)).1,
    ((unique_stop_count_bounds S1.ComputeDistance S3.catalogue ⟨S3.calls, rfl⟩ "256"
      ⟨"256", RouteType.CIRCLE, [⟨"A", ⟨0, 0⟩⟩, ⟨"B", ⟨0, 1⟩⟩, ⟨"A", ⟨0, 0⟩⟩]⟩ _ rfl rfl
      (by decide)).2.2 rfl (by decide)).2⟩

theorem consecutive_append (l m : List Stop) (hl : l ≠ []) :
    consecutive (l ++ m) = consecutive l ++ consecutive (l.getLast hl :: m) := by
  induction l with
  | nil => exact absurd rfl hl
  | cons a rest ih =>
    cases rest with
    | nil => simp [consecutive]
    | cons b rest' =>
      have hne : b :: rest' ≠ [] := List.cons_ne_nil _ _
      rw [List.cons_append, List.cons_append, consecutive_cons_cons, ← List.cons_append,
        ih hne, consecutive_cons_cons, List.cons_append]
      rfl

theorem reverse_eq_getLast_cons (l : List Stop) (hl : l ≠ []) :
    l.reverse = l.getLast hl :: l.reverse.tail := by
  have hne : l.reverse ≠ [] := by
    intro h
    exact hl (List.reverse_eq_nil_iff.1 h)
  have h1 := List.head_cons_tail l.reverse hne
  rw [List.head_reverse] at h1
  exact h1.symm

theorem consecutive_round_trip (l : List Stop) (hl : l ≠ []) :
    consecutive (l ++ l.reverse.tail) = consecutive l ++ consecutive l.reverse := by
  rw [consecutive_append l _ hl, ← reverse_eq_getLast_cons l hl]

theorem reverse_tail_eq (l : List Stop) : l.reverse.tail = l.dropLast.reverse := by
  induction l using List.reverseRecOn with
  | nil => rfl
  | append_singleton l a _ => simp

/-- Claim C37.  For a LINEAR route over the non-empty list `s_1 .. s_n` and a CIRCLE route
over `s_1 .. s_n, s_{n−1} .. s_1` in one catalogue, `GetRouteInfo` of the one throws
`std::out_of_range` exactly when `GetRouteInfo` of the other does, returns exactly when
the other does, and what the two return agrees on `num_of_stops`, `num_of_unique_stops`
and `route_length`. -/
theorem linear_equals_round_trip (ComputeDistance : geo.Coordinates → geo.Coordinates → Rat)
    (c : TransportCatalogue) (linear_name circle_name : String) (linear circle : Route)
    (hlinear : c.FindRoute linear_name = .ok linear)
    (hcircle : c.FindRoute circle_name = .ok circle)
    (htl : linear.route_type = RouteType.LINEAR)
    (htc : circle.route_type = RouteType.CIRCLE)
    (hne : linear.stops ≠ [])
    (hstops : circle.stops = linear.stops ++ linear.stops.dropLast.reverse) :
    (c.GetRouteInfo ComputeDistance linear_name = .error .out_of_range ↔
      c.GetRouteInfo ComputeDistance circle_name = .error .out_of_range) ∧
    ((∃ info, c.GetRouteInfo ComputeDistance linear_name = .ok info) ↔
      ∃ info, c.GetRouteInfo ComputeDistance circle_name = .ok info) ∧
    (∀ info_linear info_circle,
      c.GetRouteInfo ComputeDistance linear_name = .ok info_linear →
      c.GetRouteInfo ComputeDistance circle_name = .ok info_circle →
      info_linear.num_of_stops = info_circle.num_of_stops ∧
      info_linear.num_of_unique_stops = info_circle.num_of_unique_stops ∧
      info_linear.route_length = info_circle.route_length) := by
  rw [← reverse_tail_eq] at hstops
  have hcons : consecutive circle.stops =
      consecutive linear.stops ++ consecutive linear.stops.reverse := by
    rw [hstops, consecutive_round_trip _ hne]
  have havail : (∀ p ∈ consecutive circle.stops, available c p) ↔
      ∀ p ∈ consecutive linear.stops, available c p := by
    rw [hcons]
    constructor
    · intro h p hp
      exact h p (List.mem_append_left _ hp)
    · intro h p hp
      rcases List.mem_append.1 hp with hp | hp
      · exact h p hp
      · exact (available_reverse c linear.stops).2 h p hp
  rw [TransportCatalogue.GetRouteInfo_eq ComputeDistance c linear_name linear hlinear,
    TransportCatalogue.GetRouteInfo_eq ComputeDistance c circle_name circle hcircle]
  have hnl : ¬ (linear.route_type = RouteType.LINEAR ∧ linear.stops = []) :=
    fun h => hne h.2
  have hnc : ¬ (circle.route_type = RouteType.LINEAR ∧ circle.stops = []) := by
    intro h
    rw [htc] at h
    exact absurd h.1 (by decide)
  by_cases hall : ∀ p ∈ consecutive linear.stops, available c p
  · rw [if_pos hall, if_pos (havail.2 hall), if_neg hnl, if_neg hnc]
    refine ⟨?_, ?_, ?_⟩
    · constructor <;> intro h <;> exact Except.noConfusion h
    · constructor <;> intro _ <;> exact ⟨_, rfl⟩
    · intro info_linear info_circle h1 h2
      injection h1 with h1
      injection h2 with h2
      subst h1
      subst h2
      simp only
      refine ⟨?_, ?_, ?_⟩
      · have hlen : 1 ≤ linear.stops.length := List.length_pos.2 hne
        have hlen2 : circle.stops.length = linear.stops.length + (linear.stops.length - 1) := by
          rw [hstops, List.length_append, List.length_tail, List.length_reverse]
        simp only [CalculateStops, htl, htc, if_true]
        rw [if_neg (by decide), hlen2]
        push_cast [hlen]
        omega
      · rw [CalculateUniqueStops_eq, CalculateUniqueStops_eq]
        congr 1
        congr 1
        ext x
        simp only [List.mem_toFinset, hstops, List.map_append, List.mem_append]
        constructor
        · intro h
          exact Or.inl h
        · rintro (h | h)
          · exact h
          · obtain ⟨stop, hstop, rfl⟩ := List.mem_map.1 h
            exact List.mem_map.2 ⟨stop, List.mem_reverse.1 (List.mem_of_mem_tail hstop), rfl⟩
      · rw [if_pos htl, if_neg (by rw [htc]; decide), add_zero]
        congr 1
        unfold forwardLength
        rw [hcons, List.map_append, List.sum_append]
        congr 1
        exact (forwardLength_reverse c linear.stops).symm
  · rw [if_neg hall, if_neg (fun h => hall (havail.1 h))]
    refine ⟨?_, ?_, ?_⟩
    · exact ⟨fun _ => rfl, fun _ => rfl⟩
    · constructor <;> rintro ⟨info, h⟩ <;> exact Except.noConfusion h
    · intro info_linear info_circle h1
      exact Except.noConfusion h1

/-- Scenario S3: the LINEAR route 828 over `[A, B]` and the CIRCLE route 256 over
`[A, B, A]` both have 3 stops, 2 unique stops and the route length 900 + 900. -/
theorem linear_equals_round_trip_witness :
    ∃ info_linear info_circle,
      S3.catalogue.GetRouteInfo S1.ComputeDistance "828" = .ok info_linear ∧
      S3.catalogue.GetRouteInfo S1.ComputeDistance "256" = .ok info_circle ∧
      info_linear.num_of_stops = info_circle.num_of_stops ∧
      info_linear.num_of_unique_stops = info_circle.num_of_unique_stops ∧
      info_linear.route_length = info_circle.route_length ∧
      info_circle.route_length = 1800 :=
  ⟨_, _, rfl, rfl,
    ((linear_equals_round_trip S1.ComputeDistance S3.catalogue "828" "256" S4.route828
      ⟨"256", RouteType.CIRCLE, [⟨"A", ⟨0, 0⟩⟩, ⟨"B", ⟨0, 1⟩⟩, ⟨"A", ⟨0, 0⟩⟩]⟩
      rfl rfl rfl rfl (by decide) rfl).2.2 _ _ rfl rfl).1,
    ((linear_equals_round_trip S1.ComputeDistance S3.catalogue "828" "256" S4.route828
      ⟨"256", RouteType.CIRCLE, [⟨"A", ⟨0, 0⟩⟩, ⟨"B", ⟨0, 1⟩⟩, ⟨"A", ⟨0, 0⟩⟩]⟩
      rfl rfl rfl rfl (by decide) rfl).2.2 _ _ rfl rfl).2.1,
    ((linear_equals_round_trip S1.ComputeDistance S3.catalogue "828" "256" S4.route828
      ⟨"256", RouteType.CIRCLE, [⟨"A", ⟨0, 0⟩⟩, ⟨"B", ⟨0, 1⟩⟩, ⟨"A", ⟨0, 0⟩⟩]⟩
      rfl rfl rfl rfl (by decide) rfl).2.2 _ _ rfl rfl).2.2,
    by decide⟩

end transport_catalogue

/-! ## The points of a polyline -/

namespace renderer

open domain transport_catalogue

/-- Claim C31.  For every route with `n ≥ 1` stops, the polyline that `RenderLines` builds
has the projected stops `s_1 .. s_n` followed, for a LINEAR route only, by the projected
stops `s_{n−1} .. s_1`; the number of its points is the `num_of_stops` that `GetRouteInfo`
returns for the route, `n` for a CIRCLE route and `2n − 1` for a LINEAR one. -/
theorem polyline_points (m : MapRenderer) (color : svg.Color) (route : Route)
    (hn : 1 ≤ route.stops.length) :
    (MapRenderer.RenderLines.line m route color).points_ =
      route.stops.map (fun stop => m.GetRelativePoint stop.coordinate) ++
        (if route.route_type = RouteType.LINEAR then
          route.stops.dropLast.reverse.map (fun stop => m.GetRelativePoint stop.coordinate)
        else []) ∧
    ((MapRenderer.RenderLines.line m route color).points_.length : Int) =
      CalculateStops (some route) ∧
    (route.route_type = RouteType.CIRCLE →
      (MapRenderer.RenderLines.line m route color).points_.length = route.stops.length) ∧
    (route.route_type = RouteType.LINEAR →
      (MapRenderer.RenderLines.line m route color).points_.length =
        2 * route.stops.length - 1) ∧
    (∀ (ComputeDistance : geo.Coordinates → geo.Coordinates → Rat) (c : TransportCatalogue)
      (route_name : String) (info : RouteInfo),
      c.FindRoute route_name = .ok route →
      c.GetRouteInfo ComputeDistance route_name = .ok info →
      ((MapRenderer.RenderLines.line m route color).points_.length : Int) =
        info.num_of_stops) ∧
    (∀ (doc : svg.Document) (name : String) (color_index : Nat),
      m.settings_.color_palette ≠ [] →
      (MapRenderer.RenderLines.loop m [(name, route)] color_index doc).2.objects_ =
        doc.objects_ ++
          [svg.Object.polyline (MapRenderer.RenderLines.line m route (m.colorOf color_index))])
    := by
  have hpoints : (MapRenderer.RenderLines.line m route color).points_ =
      route.stops.map (fun stop => m.GetRelativePoint stop.coordinate) ++
        (if route.route_type = RouteType.LINEAR then
          route.stops.dropLast.reverse.map (fun stop => m.GetRelativePoint stop.coordinate)
        else []) := by
    unfold MapRenderer.RenderLines.line
    simp only
    rw [transport_catalogue.reverse_tail_eq]
  have hcount : ((MapRenderer.RenderLines.line m route color).points_.length : Int) =
      CalculateStops (some route) := by
    rw [hpoints]
    unfold CalculateStops
    simp only
    by_cases ht : route.route_type = RouteType.LINEAR
    · rw [if_pos ht, if_pos ht]
      simp only [List.length_append, List.length_map, List.length_reverse,
        List.length_dropLast]
      push_cast [hn]
      omega
    · rw [if_neg ht, if_neg ht]
      simp
  refine ⟨hpoints, hcount, ?_, ?_, ?_, ?_⟩
  · intro ht
    have := hcount
    simp only [CalculateStops, ht] at this
    rw [if_neg (by decide)] at this
    exact_mod_cast this
  · intro ht
    have := hcount
    simp only [CalculateStops, ht, if_true] at this
    omega
  · intro ComputeDistance c route_name info hfind hinfo
    rw [hcount]
    obtain ⟨-, -, hinfo⟩ := TransportCatalogue.GetRouteInfo_of_ok ComputeDistance c route_name
      route info hfind hinfo
    subst hinfo
    rfl
  · intro doc name color_index hP
    rw [MapRenderer.RenderLines_loop_eq m hP]
    have hd : MapRenderer.drawn [(name, route)] = [(name, route)] := by
      unfold MapRenderer.drawn
      rw [List.filter_cons_of_pos (by simpa using hn)]
      rfl
    rw [hd]
    rfl

/-- Scenario S4: the polyline of the LINEAR route 828 over `[A, B]` has 3 points, as many
as `GetRouteInfo` counts stops, and the polyline of a CIRCLE route over `[A, B, A]` has
3 points. -/
theorem polyline_points_witness :
    (MapRenderer.RenderLines.line S10.renderer S4.route828
      (svg.Color.named "green")).points_.length = 2 * 2 - 1 ∧
    (∃ info, S3.catalogue.GetRouteInfo S1.ComputeDistance "828" = .ok info ∧
      ((MapRenderer.RenderLines.line S10.renderer S4.route828
        (svg.Color.named "green")).points_.length : Int) = info.num_of_stops) ∧
    (MapRenderer.RenderLines.line S10.renderer
      ⟨"256", RouteType.CIRCLE, [⟨"A", ⟨0, 0⟩⟩, ⟨"B", ⟨0, 1⟩⟩, ⟨"A", ⟨0, 0⟩⟩]⟩
      (svg.Color.named "green")).points_.length = 3 :=
  ⟨(polyline_points S10.renderer (svg.Color.named "green") S4.route828 (by decide)).2.2.2.1
      rfl,
    ⟨_, rfl,
      (polyline_points S10.renderer (svg.Color.named "green") S4.route828
        (by decide)).2.2.2.2.1 S1.ComputeDistance S3.catalogue "828" _ rfl rfl⟩,
    (polyline_points S10.renderer (svg.Color.named "green")
      ⟨"256", RouteType.CIRCLE, [⟨"A", ⟨0, 0⟩⟩, ⟨"B", ⟨0, 1⟩⟩, ⟨"A", ⟨0, 0⟩⟩]⟩
      (by decide)).2.2.1 rfl⟩

end renderer

/-! ## The order of the base requests -/

namespace json_reader

open domain transport_catalogue transport_router

theorem LoadStops_loop_filter (data : List json.Node) :
    ∀ catalogue : TransportCatalogue,
      LoadStops.loop data catalogue = LoadStops.loop (data.filter IsStop) catalogue := by
  induction data with
  | nil =>
    intro catalogue
    rfl
  | cons elem rest ih =>
    intro catalogue
    by_cases h : IsStop elem = true
    · rw [List.filter_cons_of_pos h]
      simp only [LoadStops.loop, h, if_true]
      cases stringAt (asDict elem) "name" with
      | error e => rfl
      | ok name =>
        simp only
        cases doubleAt (asDict elem) "latitude" with
        | error e => rfl
        | ok lat =>
          simp only
          cases doubleAt (asDict elem) "longitude" with
          | error e => rfl
          | ok lng => exact ih _
    · rw [List.filter_cons_of_neg h]
      simp only [LoadStops.loop, h]
      exact ih catalogue

theorem LoadRoutes_loop_filter (data : List json.Node) :
    ∀ catalogue : TransportCatalogue,
      LoadRoutes.loop data catalogue = LoadRoutes.loop (data.filter IsRoute) catalogue := by
  induction data with
  | nil =>
    intro catalogue
    rfl
  | cons elem rest ih =>
    intro catalogue
    by_cases h : IsRoute elem = true
    · rw [List.filter_cons_of_pos h]
      simp only [LoadRoutes.loop, h, if_true]
      cases stringAt (asDict elem) "name" with
      | error e => rfl
      | ok name =>
        simp only
        cases boolAt (asDict elem) "is_roundtrip" with
        | error e => rfl
        | ok is_roundtrip =>
          simp only
          cases arrayAt (asDict elem) "stops" with
          | error e => rfl
          | ok stops =>
            simp only
            cases hadd : catalogue.AddRoute name
                (if is_roundtrip = true then RouteType.CIRCLE else RouteType.LINEAR)
                (LoadRoutes.stops_names stops) with
            | mk outcome catalogue' =>
              cases outcome with
              | error e => rfl
              | ok u => exact ih _
    · rw [List.filter_cons_of_neg h]
      simp only [LoadRoutes.loop, h]
      exact ih catalogue

theorem LoadDistances_loop_filter (data : List json.Node) :
    ∀ catalogue : TransportCatalogue,
      LoadDistances.loop data catalogue =
        LoadDistances.loop (data.filter IsStop) catalogue := by
  induction data with
  | nil =>
    intro catalogue
    rfl
  | cons elem rest ih =>
    intro catalogue
    by_cases h : IsStop elem = true
    · rw [List.filter_cons_of_pos h]
      simp only [LoadDistances.loop, h, if_true]
      cases stringAt (asDict elem) "name" with
      | error e => rfl
      | ok name_from =>
        simp only
        cases mapAt (asDict elem) "road_distances" with
        | error e => rfl
        | ok distances =>
          simp only
          cases hto : LoadDistances.loop_to name_from distances catalogue with
          | mk outcome catalogue' =>
            cases outcome with
            | error e => rfl
            | ok u => exact ih _
    · rw [List.filter_cons_of_neg h]
      simp only [LoadDistances.loop, h]
      exact ih catalogue

theorem LoadData_eq (root : List (String × json.Node)) (data : List json.Node)
    (h : unordered_map.find root "base_requests" = some (json.Node.array data))
    (catalogue : TransportCatalogue) :
    LoadData (json.Node.map root) catalogue =
      match LoadStops.loop (data.filter IsStop) catalogue with
      | (.error e, catalogue1) => (.error e, catalogue1)
      | (.ok _, catalogue1) =>
        match LoadRoutes.loop (data.filter IsRoute) catalogue1 with
        | (.error e, catalogue2) => (.error e, catalogue2)
        | (.ok _, catalogue2) =>
          match LoadDistances.loop (data.filter IsStop) catalogue2 with
          | (.error e, catalogue3) => (.error e, catalogue3)
          | (.ok _, catalogue3) => (.ok true, catalogue3) := by
  have hcount : unordered_map.count root "base_requests" > 0 := by
    unfold unordered_map.count
    rw [h]
    exact Nat.one_pos
  have hnode : nodeAt root "base_requests" = json.Node.array data := by
    unfold nodeAt unordered_map.index
    rw [h]
    rfl
  unfold LoadData
  rw [if_pos ⟨rfl, hcount⟩]
  simp only [asDict, hnode, json.Node.IsArray, if_true, asArray, LoadStops, LoadRoutes,
    LoadDistances]
  rw [LoadStops_loop_filter]
  cases LoadStops.loop (data.filter IsStop) catalogue with
  | mk outcome1 catalogue1 =>
    cases outcome1 with
    | error e => rfl
    | ok u =>
      simp only
      rw [LoadRoutes_loop_filter]
      cases LoadRoutes.loop (data.filter IsRoute) catalogue1 with
      | mk outcome2 catalogue2 =>
        cases outcome2 with
        | error e => rfl
        | ok u2 =>
          simp only
          rw [LoadDistances_loop_filter]

/-- Claim C38.  `LoadData` adds the entries of `base_requests` that `IsStop` accepts, in
their order, then the entries that `IsRoute` accepts, in their order, then the road
distances of the entries that `IsStop` accepts; so two documents whose arrays have the
same `Stop` entries in the same order and the same `Bus` entries in the same order (as
after a reordering that keeps these two orders) give the same outcome and the same
catalogue. -/
theorem LoadData_order_independent (root root' : List (String × json.Node))
    (data data' : List json.Node)
    (h : unordered_map.find root "base_requests" = some (json.Node.array data))
    (h' : unordered_map.find root' "base_requests" = some (json.Node.array data'))
    (hstops : data.filter IsStop = data'.filter IsStop)
    (hroutes : data.filter IsRoute = data'.filter IsRoute)
    (catalogue : TransportCatalogue) :
    LoadData (json.Node.map root) catalogue = LoadData (json.Node.map root') catalogue ∧
    LoadData (json.Node.map root) catalogue =
      match LoadStops (data.filter IsStop) catalogue with
      | (.error e, catalogue1) => (.error e, catalogue1)
      | (.ok _, catalogue1) =>
        match LoadRoutes (data.filter IsRoute) catalogue1 with
        | (.error e, catalogue2) => (.error e, catalogue2)
        | (.ok _, catalogue2) =>
          match LoadDistances (data.filter IsStop) catalogue2 with
          | (.error e, catalogue3) => (.error e, catalogue3)
          | (.ok _, catalogue3) => (.ok true, catalogue3) := by
  constructor
  · rw [LoadData_eq root data h, LoadData_eq root' data' h', hstops, hroutes]
  · exact LoadData_eq root data h catalogue

/-- Scenario S12: the document with the `Bus` entry before the two `Stop` entries it names
gives what the document with the stops first gives: `true`, and the catalogue with the
stops `A` and `B`, the route 828 over them and 900 metres from `A` to `B`. -/
theorem LoadData_order_independent_witness :
    LoadData S12.busFirst {} = LoadData S12.stopsFirst {} ∧
    LoadData S12.busFirst {} = (.ok true, S12.catalogue) ∧
    S12.catalogue.FindRoute "828" = .ok S4.route828 :=
  ⟨(LoadData_order_independent
      [("base_requests", json.Node.array [S12.bus, S12.stopA, S12.stopB])]
      [("base_requests", json.Node.array [S12.stopA, S12.stopB, S12.bus])]
      [S12.bus, S12.stopA, S12.stopB] [S12.stopA, S12.stopB, S12.bus]
      rfl rfl rfl rfl {}).1,
    by decide, by decide⟩

end json_reader

/-! ## The handler without a router -/

namespace transport_catalogue

open domain transport_router

/-- Claim C40.  When the handler has neither a router nor routing settings,
`LoadRequestsAndAnswer` returns with nothing written to `out`, whatever the document of
the requests holds, and leaves the handler as it was.  When it has a router, or routing
settings of which `ReInitRouter` makes one, and the adapter's `AnswerRequests` writes a
document of answers for that router, exactly that document is written to `out`. -/
theorem LoadRequestsAndAnswer_output (ext : json_reader.Collaborators)
    (h : TransportCatalogueHandler) (root : json.Node) :
    (h.router_ = none → h.routing_settings_ = none →
      h.LoadRequestsAndAnswer ext root =
        (.ok (), h, [], ["Can't find routing settings", "Can't init Transport Router"])) ∧
    (∀ router, h.router_ = some router →
      ∀ document router',
        json_reader.AnswerRequests ext root h.catalogue_ (h.render_settings_.getD {}) router =
          (.ok (some document), router') →
        h.LoadRequestsAndAnswer ext root =
          (.ok (), { h with router_ := some router' }, [document], [])) ∧
    (∀ routing_settings, h.router_ = none → h.routing_settings_ = some routing_settings →
      ∀ document router',
        json_reader.AnswerRequests ext root h.catalogue_ (h.render_settings_.getD {})
            (TransportRouter.create h.catalogue_ routing_settings) =
          (.ok (some document), router') →
        h.LoadRequestsAndAnswer ext root =
          (.ok (), { h with router_ := some router' }, [document], [])) ∧
    (∀ requests, root = json.Node.map [("stat_requests", json.Node.array requests)] →
      ∀ router answers router',
        json_reader.LoadAnswers ext requests h.catalogue_ (h.render_settings_.getD {}) router =
          (.ok answers, router') →
        json_reader.AnswerRequests ext root h.catalogue_ (h.render_settings_.getD {}) router =
          (.ok (some (json.Node.array answers)), router')) := by
  refine ⟨?_, ?_, ?_, ?_⟩
  · intro h1 h2
    unfold TransportCatalogueHandler.LoadRequestsAndAnswer TransportCatalogueHandler.InitRouter
      TransportCatalogueHandler.ReInitRouter
    rw [h1, h2]
    rfl
  · intro router h1 document router' hans
    unfold TransportCatalogueHandler.LoadRequestsAndAnswer TransportCatalogueHandler.InitRouter
    rw [h1]
    simp only
    rw [h1]
    simp only
    rw [hans]
  · intro routing_settings h1 h2 document router' hans
    unfold TransportCatalogueHandler.LoadRequestsAndAnswer TransportCatalogueHandler.InitRouter
      TransportCatalogueHandler.ReInitRouter
    rw [h1, h2]
    simp only
    rw [hans]
  · intro requests hroot router answers router' hans
    subst hroot
    have hcount : unordered_map.count
        (json_reader.asDict (json.Node.map [("stat_requests", json.Node.array requests)]))
        "stat_requests" > 0 := by
      simp only [json_reader.asDict, unordered_map.count, unordered_map.find, if_true]
      exact Nat.one_pos
    unfold json_reader.AnswerRequests
    rw [if_pos ⟨rfl, hcount⟩]
    simp only [json_reader.asDict, json_reader.nodeAt, unordered_map.index,
      unordered_map.find, if_true, Option.getD_some, json.Node.IsArray, json_reader.asArray]
    rw [hans]

/-- Scenario S13: the handler with neither a router nor routing settings writes nothing
for a `Stop` request and a `Bus` request; the handler with routing settings writes one
document, the array of the two answers. -/
theorem LoadRequestsAndAnswer_output_witness :
    (S13.bare.LoadRequestsAndAnswer S6.collaborators S13.requests).2.2.1 = [] ∧
    (S13.bare.LoadRequestsAndAnswer S6.collaborators S13.requests).1 = .ok () ∧
    (S13.withSettings.LoadRequestsAndAnswer S6.collaborators S13.requests).2.2.1.length = 1 :=
  ⟨congrArg (fun x => x.2.2.1)
      ((LoadRequestsAndAnswer_output S6.collaborators S13.bare S13.requests).1 rfl rfl),
    congrArg (fun x => x.1)
      ((LoadRequestsAndAnswer_output S6.collaborators S13.bare S13.requests).1 rfl rfl),
    by decide⟩

end transport_catalogue

namespace svg

namespace Text

theorem find_characters (c : Char) :
    (match unordered_map.find characters c with
      | some escaped => escaped.toList
      | none => [c]) = replacement c := by
  unfold replacement
  simp only [characters, unordered_map.find]
  by_cases h1 : c = Char.ofNat 34
  · subst h1; rfl
  · by_cases h2 : c = Char.ofNat 38
    · subst h2; rfl
    · by_cases h3 : c = Char.ofNat 39
      · subst h3; rfl
      · by_cases h4 : c = Char.ofNat 60
        · subst h4; rfl
        · by_cases h5 : c = Char.ofNat 62
          · subst h5; rfl
          · rw [if_neg (Ne.symm h1), if_neg (Ne.symm h2), if_neg (Ne.symm h3),
              if_neg (Ne.symm h4), if_neg (Ne.symm h5), if_neg h1, if_neg h2, if_neg h3,
              if_neg h4, if_neg h5]

theorem EscapeText_loop_toList (l : List Char) :
    ∀ result : String,
      (EscapeText.loop l result).toList = result.toList ++ l.flatMap replacement := by
  induction l with
  | nil =>
    intro result
    simp [EscapeText.loop]
  | cons c rest ih =>
    intro result
    rw [List.flatMap_cons, ← find_characters c]
    unfold EscapeText.loop
    cases unordered_map.find characters c with
    | some escaped =>
      simp only
      rw [ih, String.toList, String.toList, String.toList, String.data_append, List.append_assoc]
    | none =>
      simp only
      rw [ih, String.toList, String.toList, String.data_push, List.append_assoc]

theorem quot_toList : "&quot;".toList = ['&', 'q', 'u', 'o', 't', ';'] := rfl

theorem amp_toList : "&amp;".toList = ['&', 'a', 'm', 'p', ';'] := rfl

theorem apos_toList : "&apos;".toList = ['&', 'a', 'p', 'o', 's', ';'] := rfl

theorem lt_toList : "&lt;".toList = ['&', 'l', 't', ';'] := rfl

theorem gt_toList : "&gt;".toList = ['&', 'g', 't', ';'] := rfl

theorem amp_code : Char.ofNat 38 = '&' := rfl

/-- The replacements of two characters are never a prefix of one another. -/
theorem replacement_append_inj (a b : Char) (X Y : List Char)
    (h : replacement a ++ X = replacement b ++ Y) : a = b ∧ X = Y := by
  unfold replacement at h
  simp only [quot_toList, amp_toList, apos_toList, lt_toList, gt_toList] at h
  rw [amp_code] at h
  split_ifs at h <;> simp_all <;> exact absurd h.1.symm (by assumption)

theorem replacement_ne_nil (a : Char) : replacement a ≠ [] := by
  unfold replacement
  simp only [quot_toList, amp_toList, apos_toList, lt_toList, gt_toList]
  split_ifs <;> simp

theorem flatMap_replacement_inj (l1 : List Char) :
    ∀ l2 : List Char, l1.flatMap replacement = l2.flatMap replacement → l1 = l2 := by
  induction l1 with
  | nil =>
    intro l2 h
    cases l2 with
    | nil => rfl
    | cons b r2 =>
      rw [List.flatMap_nil, List.flatMap_cons] at h
      exact absurd (List.append_eq_nil.mp h.symm).1 (replacement_ne_nil b)
  | cons a r1 ih =>
    intro l2 h
    cases l2 with
    | nil =>
      rw [List.flatMap_nil, List.flatMap_cons] at h
      exact absurd (List.append_eq_nil.mp h).1 (replacement_ne_nil a)
    | cons b r2 =>
      rw [List.flatMap_cons, List.flatMap_cons] at h
      obtain ⟨hab, hrest⟩ := replacement_append_inj a b _ _ h
      rw [hab, ih r2 hrest]

/-- The characters of a replacement: none of the raw quote, apostrophe, less-than and
greater-than characters. -/
theorem mem_replacement (a c : Char) (h : c ∈ replacement a) :
    c ≠ Char.ofNat 34 ∧ c ≠ Char.ofNat 39 ∧ c ≠ Char.ofNat 60 ∧ c ≠ Char.ofNat 62 := by
  have hq : ∀ c ∈ "&quot;".toList,
      c ≠ Char.ofNat 34 ∧ c ≠ Char.ofNat 39 ∧ c ≠ Char.ofNat 60 ∧ c ≠ Char.ofNat 62 := by
    decide
  have ha : ∀ c ∈ "&amp;".toList,
      c ≠ Char.ofNat 34 ∧ c ≠ Char.ofNat 39 ∧ c ≠ Char.ofNat 60 ∧ c ≠ Char.ofNat 62 := by
    decide
  have hp : ∀ c ∈ "&apos;".toList,
      c ≠ Char.ofNat 34 ∧ c ≠ Char.ofNat 39 ∧ c ≠ Char.ofNat 60 ∧ c ≠ Char.ofNat 62 := by
    decide
  have hl : ∀ c ∈ "&lt;".toList,
      c ≠ Char.ofNat 34 ∧ c ≠ Char.ofNat 39 ∧ c ≠ Char.ofNat 60 ∧ c ≠ Char.ofNat 62 := by
    decide
  have hg : ∀ c ∈ "&gt;".toList,
      c ≠ Char.ofNat 34 ∧ c ≠ Char.ofNat 39 ∧ c ≠ Char.ofNat 60 ∧ c ≠ Char.ofNat 62 := by
    decide
  unfold replacement at h
  split_ifs at h with h1 h2 h3 h4 h5
  · exact hq c h
  · exact ha c h
  · exact hp c h
  · exact hl c h
  · exact hg c h
  · rw [List.mem_singleton] at h
    subst h
    exact ⟨h1, h3, h4, h5⟩

/-- An ampersand in a replacement is its first character, and the replacement is then one
of the five entities. -/
theorem replacement_amp (a : Char) (pre post : List Char)
    (h : replacement a = pre ++ Char.ofNat 38 :: post) :
    pre = [] ∧ replacement a ∈ entities := by
  have hq : Char.ofNat 38 ∉ ("&quot;".toList).tail := by decide
  have ha : Char.ofNat 38 ∉ ("&amp;".toList).tail := by decide
  have hp : Char.ofNat 38 ∉ ("&apos;".toList).tail := by decide
  have hl : Char.ofNat 38 ∉ ("&lt;".toList).tail := by decide
  have hg : Char.ofNat 38 ∉ ("&gt;".toList).tail := by decide
  have key : ∀ e : List Char, Char.ofNat 38 ∉ e.tail →
      e = pre ++ Char.ofNat 38 :: post → pre = [] := by
    intro e he heq
    cases pre with
    | nil => rfl
    | cons p pre' =>
      exfalso
      apply he
      rw [heq]
      simp
  unfold replacement at h ⊢
  unfold entities
  split_ifs at h ⊢ with h1 h2 h3 h4 h5
  · exact ⟨key _ hq h, by simp⟩
  · exact ⟨key _ ha h, by simp⟩
  · exact ⟨key _ hp h, by simp⟩
  · exact ⟨key _ hl h, by simp⟩
  · exact ⟨key _ hg h, by simp⟩
  · exfalso
    cases pre with
    | nil =>
      rw [List.nil_append] at h
      injection h with h6 h7
      exact h2 h6
    | cons p pre' =>
      rw [List.cons_append] at h
      injection h with h6 h7
      cases pre' with
      | nil => exact List.noConfusion h7
      | cons p2 pre2 => exact List.noConfusion h7

theorem flatMap_replacement_amp (l : List Char) :
    ∀ pre post : List Char, l.flatMap replacement = pre ++ Char.ofNat 38 :: post →
      ∃ e ∈ entities, e <+: Char.ofNat 38 :: post := by
  induction l with
  | nil =>
    intro pre post h
    rw [List.flatMap_nil] at h
    cases pre with
    | nil => exact List.noConfusion h
    | cons p pre' => exact List.noConfusion h
  | cons a rest ih =>
    intro pre post h
    rw [List.flatMap_cons, List.append_eq_append_iff] at h
    rcases h with ⟨mid, hpre, hrest⟩ | ⟨mid, hrep, hpost⟩
    · exact ih mid post hrest
    · cases mid with
      | nil =>
        rw [List.nil_append] at hpost
        exact ih [] post hpost.symm
      | cons m mid' =>
        rw [List.cons_append] at hpost
        injection hpost with hm hpost'
        subst hm
        obtain ⟨hnil, hent⟩ := replacement_amp a pre mid' hrep
        subst hnil
        rw [List.nil_append] at hrep
        refine ⟨replacement a, hent, ?_⟩
        rw [hrep, hpost']
        exact ⟨rest.flatMap replacement, rfl⟩

theorem EscapeText_toList (t : String) :
    (EscapeText t).toList = t.toList.flatMap replacement := by
  unfold EscapeText
  rw [EscapeText_loop_toList]
  rfl

/-- Claim C39.  `EscapeText` replaces each of the five characters by its entity and keeps
every other character; its result holds none of the raw quote, apostrophe, less-than and
greater-than characters, every ampersand in it starts one of the five entities, it maps a
concatenation to the concatenation of the results, and it is injective. -/
theorem EscapeText_spec :
    (∀ t : String, (EscapeText t).toList = t.toList.flatMap replacement) ∧
    (∀ (t : String) (c : Char), c ∈ (EscapeText t).toList →
      c ≠ Char.ofNat 34 ∧ c ≠ Char.ofNat 39 ∧ c ≠ Char.ofNat 60 ∧ c ≠ Char.ofNat 62) ∧
    (∀ (t : String) (pre post : List Char),
      (EscapeText t).toList = pre ++ Char.ofNat 38 :: post →
      ∃ e ∈ entities, e <+: Char.ofNat 38 :: post) ∧
    (∀ s t : String, EscapeText (s ++ t) = EscapeText s ++ EscapeText t) ∧
    (∀ s t : String, EscapeText s = EscapeText t → s = t) := by
  refine ⟨EscapeText_toList, ?_, ?_, ?_, ?_⟩
  · intro t c h
    rw [EscapeText_toList, List.mem_flatMap] at h
    obtain ⟨a, -, hc⟩ := h
    exact mem_replacement a c hc
  · intro t pre post h
    rw [EscapeText_toList] at h
    exact flatMap_replacement_amp t.toList pre post h
  · intro s t
    apply String.ext
    have h := EscapeText_toList (s ++ t)
    have hs := EscapeText_toList s
    have ht := EscapeText_toList t
    simp only [String.toList] at h hs ht
    rw [h, String.data_append, String.data_append, List.flatMap_append, hs, ht]
  · intro s t h
    apply String.ext
    apply flatMap_replacement_inj
    have hs := EscapeText_toList s
    have ht := EscapeText_toList t
    simp only [String.toList] at hs ht
    rw [← hs, ← ht, h]

/-- The text `a<b&c`: its result is `a&lt;b&amp;c`, without a raw less-than character, the
ampersand after `a` starts the entity of the less-than character, and a text with the
same result is the same text. -/
theorem EscapeText_spec_witness :
    EscapeText "a<b&c" = "a&lt;b&amp;c" ∧
    (Char.ofNat 60 ∉ (EscapeText "a<b&c").toList) ∧
    (∃ e ∈ entities, e <+: Char.ofNat 38 :: "lt;b&amp;c".toList) ∧
    (∀ t : String, EscapeText "a<b&c" = EscapeText t → "a<b&c" = t) :=
  ⟨by decide,
    fun h => (EscapeText_spec.2.1 "a<b&c" (Char.ofNat 60) h).2.2.1 rfl,
    EscapeText_spec.2.2.1 "a<b&c" ['a'] "lt;b&amp;c".toList (by decide),
    fun t h => EscapeText_spec.2.2.2.2 "a<b&c" t h⟩

end Text

end svg

/-! ## The projection onto the canvas -/

namespace renderer

open domain transport_catalogue

namespace MapRenderer

theorem GetBusesOnStop_of_mem (c : TransportCatalogue) (p : String × Stop)
    (h : p ∈ c.stops_by_names_) : ∃ r, c.GetBusesOnStop p.1 = .ok r := by
  unfold TransportCatalogue.GetBusesOnStop
  rw [TransportCatalogue.FindStop_eq]
  have hk : p.1 ∈ c.stops_by_names_.map Prod.fst := List.mem_map.2 ⟨p, h, rfl⟩
  cases hf : unordered_map.find c.stops_by_names_ p.1 with
  | none => exact absurd hk ((unordered_map.find_eq_none_iff _ _).1 hf)
  | some stop =>
    simp only
    cases unordered_map.find c.buses_on_stops_ stop.name with
    | none => exact ⟨none, rfl⟩
    | some found => exact ⟨some found, rfl⟩

/-- One step of the running minimum of `ComputeFieldSize`. -/
theorem min_step (mn co : geo.Coordinates) :
    (if co.lng < (if co.lat < mn.lat then { mn with lat := co.lat } else mn).lng then
        { (if co.lat < mn.lat then { mn with lat := co.lat } else mn) with lng := co.lng }
      else (if co.lat < mn.lat then { mn with lat := co.lat } else mn)).lat ≤ mn.lat ∧
    (if co.lng < (if co.lat < mn.lat then { mn with lat := co.lat } else mn).lng then
        { (if co.lat < mn.lat then { mn with lat := co.lat } else mn) with lng := co.lng }
      else (if co.lat < mn.lat then { mn with lat := co.lat } else mn)).lat ≤ co.lat ∧
    (if co.lng < (if co.lat < mn.lat then { mn with lat := co.lat } else mn).lng then
        { (if co.lat < mn.lat then { mn with lat := co.lat } else mn) with lng := co.lng }
      else (if co.lat < mn.lat then { mn with lat := co.lat } else mn)).lng ≤ mn.lng ∧
    (if co.lng < (if co.lat < mn.lat then { mn with lat := co.lat } else mn).lng then
        { (if co.lat < mn.lat then { mn with lat := co.lat } else mn) with lng := co.lng }
      else (if co.lat < mn.lat then { mn with lat := co.lat } else mn)).lng ≤ co.lng := by
  by_cases c1 : co.lat < mn.lat <;> by_cases c2 : co.lng < mn.lng <;>
    simp only [c1, c2, if_true, if_false] <;>
    (refine ⟨?_, ?_, ?_, ?_⟩ <;>
      first
      | exact le_refl _
      | exact le_of_lt c1
      | exact le_of_lt c2
      | exact not_lt.1 c1
      | exact not_lt.1 c2)

/-- One step of the running maximum of `ComputeFieldSize`. -/
theorem max_step (mx co : geo.Coordinates) :
    mx.lat ≤
      (if co.lng > (if co.lat > mx.lat then { mx with lat := co.lat } else mx).lng then
        { (if co.lat > mx.lat then { mx with lat := co.lat } else mx) with lng := co.lng }
      else (if co.lat > mx.lat then { mx with lat := co.lat } else mx)).lat ∧
    co.lat ≤
      (if co.lng > (if co.lat > mx.lat then { mx with lat := co.lat } else mx).lng then
        { (if co.lat > mx.lat then { mx with lat := co.lat } else mx) with lng := co.lng }
      else (if co.lat > mx.lat then { mx with lat := co.lat } else mx)).lat ∧
    mx.lng ≤
      (if co.lng > (if co.lat > mx.lat then { mx with lat := co.lat } else mx).lng then
        { (if co.lat > mx.lat then { mx with lat := co.lat } else mx) with lng := co.lng }
      else (if co.lat > mx.lat then { mx with lat := co.lat } else mx)).lng ∧
    co.lng ≤
      (if co.lng > (if co.lat > mx.lat then { mx with lat := co.lat } else mx).lng then
        { (if co.lat > mx.lat then { mx with lat := co.lat } else mx) with lng := co.lng }
      else (if co.lat > mx.lat then { mx with lat := co.lat } else mx)).lng := by
  by_cases c1 : co.lat > mx.lat <;> by_cases c2 : co.lng > mx.lng <;>
    simp only [c1, c2, if_true, if_false] <;>
    (refine ⟨?_, ?_, ?_, ?_⟩ <;>
      first
      | exact le_refl _
      | exact le_of_lt c1
      | exact le_of_lt c2
      | exact not_lt.1 c1
      | exact not_lt.1 c2)

/-- The loop of `ComputeFieldSize` returns when `GetBusesOnStop` does not throw for the
names it meets; its result lies around the running minimum and maximum and around every
stop of the list that has buses. -/
theorem ComputeFieldSize_loop_spec (c : TransportCatalogue) (l : List (String × Stop))
    (hl : ∀ p ∈ l, ∃ r, c.GetBusesOnStop p.1 = .ok r) :
    ∀ mn mx : geo.Coordinates, ∃ fs, ComputeFieldSize.loop c l mn mx = .ok fs ∧
      fs.1.lat ≤ mn.lat ∧ fs.1.lng ≤ mn.lng ∧ mx.lat ≤ fs.2.lat ∧ mx.lng ≤ fs.2.lng ∧
      ∀ p ∈ l, ∀ buses, c.GetBusesOnStop p.1 = .ok (some buses) →
        fs.1.lat ≤ p.2.coordinate.lat ∧ p.2.coordinate.lat ≤ fs.2.lat ∧
        fs.1.lng ≤ p.2.coordinate.lng ∧ p.2.coordinate.lng ≤ fs.2.lng := by
  induction l with
  | nil =>
    intro mn mx
    exact ⟨(mn, mx), rfl, le_refl _, le_refl _, le_refl _, le_refl _,
      fun p hp => absurd hp (List.not_mem_nil _)⟩
  | cons stop rest ih =>
    intro mn mx
    have ih := ih (fun p hp => hl p (List.mem_cons_of_mem _ hp))
    obtain ⟨r, hr⟩ := hl stop (List.mem_cons_self _ _)
    unfold ComputeFieldSize.loop
    rw [hr]
    cases r with
    | none =>
      simp only
      obtain ⟨fs, h1, h2, h3, h4, h5, h6⟩ := ih mn mx
      refine ⟨fs, h1, h2, h3, h4, h5, ?_⟩
      intro p hp buses hb
      rw [List.mem_cons] at hp
      rcases hp with hp | hp
      · subst hp
        rw [hr] at hb
        injection hb with hb
        exact Option.noConfusion hb
      · exact h6 p hp buses hb
    | some found =>
      simp only
      obtain ⟨fs, h1, h2, h3, h4, h5, h6⟩ := ih
        (if stop.2.coordinate.lng <
            (if stop.2.coordinate.lat < mn.lat then
              { mn with lat := stop.2.coordinate.lat } else mn).lng then
          { (if stop.2.coordinate.lat < mn.lat then
              { mn with lat := stop.2.coordinate.lat } else mn) with
            lng := stop.2.coordinate.lng }
          else (if stop.2.coordinate.lat < mn.lat then
              { mn with lat := stop.2.coordinate.lat } else mn))
        (if stop.2.coordinate.lng >
            (if stop.2.coordinate.lat > mx.lat then
              { mx with lat := stop.2.coordinate.lat } else mx).lng then
          { (if stop.2.coordinate.lat > mx.lat then
              { mx with lat := stop.2.coordinate.lat } else mx) with
            lng := stop.2.coordinate.lng }
          else (if stop.2.coordinate.lat > mx.lat then
              { mx with lat := stop.2.coordinate.lat } else mx))
      have m := min_step mn stop.2.coordinate
      have M := max_step mx stop.2.coordinate
      have a1 : fs.1.lat ≤ mn.lat ∧ fs.1.lat ≤ stop.2.coordinate.lat :=
        ⟨le_trans h2 m.1, le_trans h2 m.2.1⟩
      have a2 : fs.1.lng ≤ mn.lng ∧ fs.1.lng ≤ stop.2.coordinate.lng :=
        ⟨le_trans h3 m.2.2.1, le_trans h3 m.2.2.2⟩
      have a3 : mx.lat ≤ fs.2.lat ∧ stop.2.coordinate.lat ≤ fs.2.lat :=
        ⟨le_trans M.1 h4, le_trans M.2.1 h4⟩
      have a4 : mx.lng ≤ fs.2.lng ∧ stop.2.coordinate.lng ≤ fs.2.lng :=
        ⟨le_trans M.2.2.1 h5, le_trans M.2.2.2 h5⟩
      refine ⟨fs, h1, a1.1, a2.1, a3.1, a4.1, ?_⟩
      intro p hp buses hb
      rw [List.mem_cons] at hp
      rcases hp with hp | hp
      · subst hp
        exact ⟨a1.2, a3.2, a2.2, a4.2⟩
      · exact h6 p hp buses hb

theorem ComputeFieldSize_spec (m : MapRenderer) (c : TransportCatalogue) :
    ∃ fs, m.ComputeFieldSize c = .ok fs ∧
      ∀ p ∈ c.stops_by_names_, ∀ buses, c.GetBusesOnStop p.1 = .ok (some buses) →
        fs.1.lat ≤ p.2.coordinate.lat ∧ p.2.coordinate.lat ≤ fs.2.lat ∧
        fs.1.lng ≤ p.2.coordinate.lng ∧ p.2.coordinate.lng ≤ fs.2.lng := by
  obtain ⟨fs, h1, -, -, -, -, h6⟩ :=
    ComputeFieldSize_loop_spec c c.stops_by_names_ (GetBusesOnStop_of_mem c) ⟨90, 180⟩
      ⟨-90, -180⟩
  exact ⟨fs, h1, h6⟩

theorem scale_bounds (d f S : Rat) (hd0 : 0 ≤ d) (hdf : d ≤ f) (hf : 0 < f) (hS : 0 ≤ S) :
    0 ≤ d * (S / f) ∧ d * (S / f) ≤ S := by
  constructor
  · exact mul_nonneg hd0 (div_nonneg hS (le_of_lt hf))
  · rw [← mul_div_assoc, div_le_iff₀ hf, mul_comm d S]
    exact mul_le_mul_of_nonneg_left hdf hS

theorem pos_of_not_IsZero (v : Rat) (h0 : 0 ≤ v) (h : ¬ IsZero v = true) : 0 < v := by
  unfold IsZero at h
  rw [decide_eq_true_eq, abs_of_nonneg h0, not_lt] at h
  exact lt_of_lt_of_le (by norm_num) h

/-- The zoom coefficient of `GetRelativePoint` keeps an offset inside the field inside the
canvas without its padding, when a range that is taken for zero while the other is not is
zero. -/
theorem zoom_bounds (W H wf hf dx dy : Rat) (hW : 0 ≤ W) (hH : 0 ≤ H)
    (hdx0 : 0 ≤ dx) (hdx : dx ≤ wf) (hdy0 : 0 ≤ dy) (hdy : dy ≤ hf)
    (hcw : IsZero wf = true → IsZero hf = false → wf = 0)
    (hch : IsZero hf = true → IsZero wf = false → hf = 0) :
    0 ≤ dx * (if IsZero wf = true ∧ IsZero hf = true then 0
        else if IsZero wf = true then H / hf
        else if IsZero hf = true then W / wf
        else min (H / hf) (W / wf)) ∧
    dx * (if IsZero wf = true ∧ IsZero hf = true then 0
        else if IsZero wf = true then H / hf
        else if IsZero hf = true then W / wf
        else min (H / hf) (W / wf)) ≤ W ∧
    0 ≤ dy * (if IsZero wf = true ∧ IsZero hf = true then 0
        else if IsZero wf = true then H / hf
        else if IsZero hf = true then W / wf
        else min (H / hf) (W / wf)) ∧
    dy * (if IsZero wf = true ∧ IsZero hf = true then 0
        else if IsZero wf = true then H / hf
        else if IsZero hf = true then W / wf
        else min (H / hf) (W / wf)) ≤ H := by
  have hwf0 : 0 ≤ wf := le_trans hdx0 hdx
  have hhf0 : 0 ≤ hf := le_trans hdy0 hdy
  by_cases zw : IsZero wf = true
  · by_cases zh : IsZero hf = true
    · rw [if_pos ⟨zw, zh⟩, mul_zero, mul_zero]
      exact ⟨le_refl _, hW, le_refl _, hH⟩
    · rw [if_neg (fun hboth => zh hboth.2), if_pos zw]
      have hwf : wf = 0 := hcw zw (Bool.eq_false_iff.2 zh)
      have hdx' : dx = 0 := le_antisymm (hwf ▸ hdx) hdx0
      have hpos := pos_of_not_IsZero hf hhf0 zh
      have hy := scale_bounds dy hf H hdy0 hdy hpos hH
      rw [hdx', zero_mul]
      exact ⟨le_refl _, hW, hy.1, hy.2⟩
  · by_cases zh : IsZero hf = true
    · rw [if_neg (fun hboth => zw hboth.1), if_neg zw, if_pos zh]
      have hhf : hf = 0 := hch zh (Bool.eq_false_iff.2 zw)
      have hdy' : dy = 0 := le_antisymm (hhf ▸ hdy) hdy0
      have hpos := pos_of_not_IsZero wf hwf0 zw
      have hx := scale_bounds dx wf W hdx0 hdx hpos hW
      rw [hdy', zero_mul]
      exact ⟨hx.1, hx.2, le_refl _, hH⟩
    · rw [if_neg (fun hboth => zw hboth.1), if_neg zw, if_neg zh]
      have hposw := pos_of_not_IsZero wf hwf0 zw
      have hposh := pos_of_not_IsZero hf hhf0 zh
      have hx := scale_bounds dx wf W hdx0 hdx hposw hW
      have hy := scale_bounds dy hf H hdy0 hdy hposh hH
      have hmin : 0 ≤ min (H / hf) (W / wf) :=
        le_min (div_nonneg hH (le_of_lt hposh)) (div_nonneg hW (le_of_lt hposw))
      exact ⟨mul_nonneg hdx0 hmin,
        le_trans (mul_le_mul_of_nonneg_left (min_le_right _ _) hdx0) hx.2,
        mul_nonneg hdy0 hmin,
        le_trans (mul_le_mul_of_nonneg_left (min_le_left _ _) hdy0) hy.2⟩

/-- Claim C32 as stated fails.  In scenario S11 the canvas is 200 wide and 1100 high with
a padding of 50; the stops `A` and `B` are on the route `1`; the field `ComputeFieldSize`
gives has a range of longitude of nine ten-millionths of a degree, which `IsZero` takes
for zero, and a range of latitude of a millionth of a degree, which it does not; the stop
`B` is projected to the abscissa 950, beyond the width less the padding, 150. -/
theorem projection_outside_canvas :
    0 ≤ 2 * S11.settings.padding ∧
    2 * S11.settings.padding ≤ S11.settings.size.x ∧
    2 * S11.settings.padding ≤ S11.settings.size.y ∧
    S11.catalogue.GetBusesOnStop "B" = .ok (some ["1"]) ∧
    S11.catalogue.FindStop "B" = .ok ⟨"B", ⟨1 / 1000000, 9 / 10000000⟩⟩ ∧
    S11.renderer.ComputeFieldSize S11.catalogue = .ok S11.renderer.field_size_ ∧
    IsZero (S11.renderer.field_size_.2.lng - S11.renderer.field_size_.1.lng) = true ∧
    IsZero (S11.renderer.field_size_.2.lat - S11.renderer.field_size_.1.lat) = false ∧
    (S11.renderer.GetRelativePoint ⟨1 / 1000000, 9 / 10000000⟩).x = 950 ∧
    ¬ ((S11.renderer.GetRelativePoint ⟨1 / 1000000, 9 / 10000000⟩).x ≤
        S11.settings.size.x - S11.settings.padding) := by
  have hx : (S11.renderer.GetRelativePoint ⟨1 / 1000000, 9 / 10000000⟩).x = 950 := by
    simp only [GetRelativePoint, S11.renderer, S11.settings, S11.field, IsZero]
    norm_num [abs_of_nonneg]
  have hs : S11.catalogue.stops_by_names_ =
      [("A", ⟨"A", ⟨0, 0⟩⟩), ("B", ⟨"B", ⟨1 / 1000000, 9 / 10000000⟩⟩)] := rfl
  have hA : S11.catalogue.GetBusesOnStop "A" = .ok (some ["1"]) := by decide
  have hB : S11.catalogue.GetBusesOnStop "B" = .ok (some ["1"]) := by decide
  refine ⟨?_, ?_, ?_, hB, rfl, ?_, ?_, ?_, hx, ?_⟩
  · simp only [S11.settings]; norm_num
  · simp only [S11.settings]; norm_num
  · simp only [S11.settings]; norm_num
  · unfold ComputeFieldSize
    rw [hs]
    simp only [ComputeFieldSize.loop, hA, hB, S11.renderer, S11.field]
    norm_num
  · simp only [S11.renderer, S11.field, IsZero]; norm_num [abs_of_nonneg]
  · simp only [S11.renderer, S11.field, IsZero]; norm_num [abs_of_nonneg]
  · rw [hx]
    simp only [S11.settings]
    norm_num

/-- Claim C32, amended.  `ComputeFieldSize` returns a field for every catalogue; when the
width and the height of the canvas are at least twice the padding, and a range of the
field that `IsZero` takes for zero while it does not take the other for zero is zero,
`GetRelativePoint` with that field projects every stop that has buses to a point whose
abscissa lies from the padding to the width less the padding and whose ordinate lies from
the padding to the height less the padding. -/
theorem projection_inside_canvas (m : MapRenderer) (c : TransportCatalogue) :
    ∃ fs, m.ComputeFieldSize c = .ok fs ∧
      (2 * m.settings_.padding ≤ m.settings_.size.x →
        2 * m.settings_.padding ≤ m.settings_.size.y →
        (IsZero (fs.2.lng - fs.1.lng) = true → IsZero (fs.2.lat - fs.1.lat) = false →
          fs.2.lng - fs.1.lng = 0) →
        (IsZero (fs.2.lat - fs.1.lat) = true → IsZero (fs.2.lng - fs.1.lng) = false →
          fs.2.lat - fs.1.lat = 0) →
        ∀ p ∈ c.stops_by_names_, ∀ buses, c.GetBusesOnStop p.1 = .ok (some buses) →
          m.settings_.padding ≤
            ({ m with field_size_ := fs }.GetRelativePoint p.2.coordinate).x ∧
          ({ m with field_size_ := fs }.GetRelativePoint p.2.coordinate).x ≤
            m.settings_.size.x - m.settings_.padding ∧
          m.settings_.padding ≤
            ({ m with field_size_ := fs }.GetRelativePoint p.2.coordinate).y ∧
          ({ m with field_size_ := fs }.GetRelativePoint p.2.coordinate).y ≤
            m.settings_.size.y - m.settings_.padding) := by
  obtain ⟨fs, hfs, hin⟩ := ComputeFieldSize_spec m c
  refine ⟨fs, hfs, ?_⟩
  intro hW hH hcw hch p hp buses hb
  obtain ⟨b1, b2, b3, b4⟩ := hin p hp buses hb
  have z := zoom_bounds (m.settings_.size.x - 2 * m.settings_.padding)
    (m.settings_.size.y - 2 * m.settings_.padding) (fs.2.lng - fs.1.lng)
    (fs.2.lat - fs.1.lat) (p.2.coordinate.lng - fs.1.lng) (fs.2.lat - p.2.coordinate.lat)
    (by linarith) (by linarith) (by linarith) (by linarith) (by linarith) (by linarith)
    hcw hch
  simp only [GetRelativePoint]
  obtain ⟨z1, z2, z3, z4⟩ := z
  refine ⟨by linarith, by linarith, by linarith, by linarith⟩

/-- The catalogue of S3 on a canvas of 600 by 400 with a padding of 50: the field runs
from `(0, 0)` to `(0, 1)`, its range of latitude is zero, and the stop `B` is projected to
`(550, 50)`. -/
theorem projection_inside_canvas_witness :
    S11.renderer3.ComputeFieldSize S3.catalogue = .ok S11.renderer3.field_size_ ∧
    S3.catalogue.GetBusesOnStop "B" = .ok (some ["256", "828"]) ∧
    (S11.renderer3.settings_.padding ≤
        (S11.renderer3.GetRelativePoint ⟨0, 1⟩).x ∧
      (S11.renderer3.GetRelativePoint ⟨0, 1⟩).x ≤
        S11.renderer3.settings_.size.x - S11.renderer3.settings_.padding ∧
      S11.renderer3.settings_.padding ≤
        (S11.renderer3.GetRelativePoint ⟨0, 1⟩).y ∧
      (S11.renderer3.GetRelativePoint ⟨0, 1⟩).y ≤
        S11.renderer3.settings_.size.y - S11.renderer3.settings_.padding) := by
  have hfs : S11.renderer3.ComputeFieldSize S3.catalogue = .ok S11.renderer3.field_size_ := by
    decide
  obtain ⟨fs, h1, h2⟩ := projection_inside_canvas S11.renderer3 S3.catalogue
  rw [hfs] at h1
  injection h1 with h1
  subst h1
  refine ⟨hfs, by decide, ?_⟩
  exact h2 (by simp only [S11.renderer3, S5.render_settings]; norm_num)
    (by simp only [S11.renderer3, S5.render_settings]; norm_num)
    (by
      intro h _
      exact absurd h (by simp only [S11.renderer3, IsZero]; norm_num [abs_of_nonneg]))
    (by intro _ _; simp only [S11.renderer3]; norm_num)
    ("B", ⟨"B", ⟨0, 1⟩⟩) (by decide) ["256", "828"] (by decide)

end MapRenderer

end renderer

/-! ## What `Deserialize` restores of a router -/

namespace serialize

open domain transport_catalogue transport_router

theorem find_of_at {κ ν : Type} [DecidableEq κ] (m : List (κ × ν)) (k : κ) (v : ν)
    (h : unordered_map.at_ m k = .ok v) : unordered_map.find m k = some v := by
  unfold unordered_map.at_ at h
  cases hf : unordered_map.find m k with
  | none =>
    rw [hf] at h
    exact Except.noConfusion h
  | some w =>
    rw [hf] at h
    injection h with h
    rw [h]

/-- When the loop of `LoadTransportRouter` over the `stop_by_id` entries returns, every
entry names a stop of the catalogue through the table of the stop names, and the two maps
of the router have gained, entry after entry, the vertex id with that stop and the name of
the stop with the vertex id, by `insert`. -/
theorem LoadTransportRouter_loop_ok (s : Serializator) (catalogue : TransportCatalogue)
    (entries : List transport_router_serialize.StopById) :
    ∀ router r' : TransportRouter,
      Serializator.LoadTransportRouter.loop s catalogue entries router = (.ok (), r') →
      ∃ stops : List Stop,
        List.Forall₂
          (fun (e : transport_router_serialize.StopById) (stop : Stop) =>
            ∃ name, unordered_map.find s.stop_name_by_id_ e.stop_id = some name ∧
              unordered_map.find catalogue.stops_by_names_ name = some stop)
          entries stops ∧
        r' = { router with
          stops_by_id_ := (entries.zip stops).foldl
            (fun m p => unordered_map.insert m p.1.id p.2) router.stops_by_id_
          id_by_stop_name_ := (entries.zip stops).foldl
            (fun m p => unordered_map.insert m p.2.name p.1.id) router.id_by_stop_name_ } := by
  induction entries with
  | nil =>
    intro router r' h
    unfold Serializator.LoadTransportRouter.loop at h
    injection h with _ h
    subst h
    exact ⟨[], List.Forall₂.nil, rfl⟩
  | cons e rest ih =>
    intro router r' h
    unfold Serializator.LoadTransportRouter.loop at h
    cases h1 : unordered_map.at_ s.stop_name_by_id_ e.stop_id with
    | error err =>
      rw [h1] at h
      injection h with h _
      exact Except.noConfusion h
    | ok name =>
      rw [h1] at h
      simp only at h
      cases h2 : unordered_map.at_ catalogue.stops_by_names_ name with
      | error err =>
        rw [h2] at h
        injection h with h _
        exact Except.noConfusion h
      | ok stop =>
        rw [h2] at h
        simp only at h
        obtain ⟨stops, hall, hr⟩ := ih _ _ h
        refine ⟨stop :: stops, List.Forall₂.cons ⟨name, find_of_at _ _ _ h1, find_of_at _ _ _ h2⟩ hall, ?_⟩
        rw [hr]
        rfl

/-- When the loop of `LoadGraph` over the edges returns, `MakeWeight` has returned for the
weight of every edge of the message, and the graph has gained, edge after edge, the edge
with the ends of the message and that weight. -/
theorem LoadGraph_loop_edges_ok (s : Serializator) (catalogue : TransportCatalogue)
    (edges : List graph_serialize.Edge) :
    ∀ g g' : graph.DirectedWeightedGraph RouteWeight,
      Serializator.LoadGraph.loop_edges s catalogue edges g = (.ok (), g') →
      ∃ weights : List RouteWeight,
        List.Forall₂
          (fun (e : graph_serialize.Edge) (w : RouteWeight) =>
            s.MakeWeight catalogue e.weight = .ok w)
          edges weights ∧
        g' = { g with
          edges_ := g.edges_ ++ (edges.zip weights).map
            (fun p => { from_ := p.1.from_, to_ := p.1.to_, weight := p.2 }) } := by
  induction edges with
  | nil =>
    intro g g' h
    unfold Serializator.LoadGraph.loop_edges at h
    injection h with _ h
    subst h
    refine ⟨[], List.Forall₂.nil, ?_⟩
    simp
  | cons e rest ih =>
    intro g g' h
    unfold Serializator.LoadGraph.loop_edges at h
    cases h1 : s.MakeWeight catalogue e.weight with
    | error err =>
      rw [h1] at h
      injection h with h _
      exact Except.noConfusion h
    | ok w =>
      rw [h1] at h
      simp only at h
      obtain ⟨weights, hall, hg⟩ := ih _ _ h
      refine ⟨w :: weights, List.Forall₂.cons h1 hall, ?_⟩
      rw [hg]
      simp

theorem LoadRouter_loop_j_bounds (i : Nat)
    (ps : List (Option graph_serialize.RouteInternalData)) :
    ∀ (j : Nat) (table t' : List (List (Option RouteInternalData))),
      Serializator.LoadRouter.loop_j i ps j table = (.ok (), t') → ps ≠ [] →
      ∃ row, table.get? i = some row ∧ j + ps.length ≤ row.length := by
  induction ps with
  | nil =>
    intro j table t' _ hne
    exact absurd rfl hne
  | cons p rest ih =>
    intro j table t' h _
    unfold Serializator.LoadRouter.loop_j at h
    cases hrow : table.get? i with
    | none =>
      rw [hrow] at h
      injection h with h _
      exact Except.noConfusion h
    | some row =>
      rw [hrow] at h
      simp only at h
      by_cases hj : j < row.length
      · rw [if_pos hj] at h
        refine ⟨row, rfl, ?_⟩
        cases rest with
        | nil =>
          simp only [List.length_cons, List.length_nil]
          omega
        | cons q rest' =>
          obtain ⟨row', hrow', hlen⟩ := ih (j + 1) _ _ h (List.cons_ne_nil _ _)
          have hi : i < table.length := by
            by_contra hcon
            rw [List.get?_eq_none.2 (by omega)] at hrow
            exact Option.noConfusion hrow
          have hrow2 : row' = row.set j (Serializator.LoadRouter.entry p) := by
            simp only [List.get?_eq_getElem?] at hrow'
            rw [List.getElem?_set_self hi] at hrow'
            injection hrow' with hrow'
            exact hrow'.symm
          rw [hrow2, List.length_set] at hlen
          simp only [List.length_cons] at hlen ⊢
          omega
      · rw [if_neg hj] at h
        injection h with h _
        exact Except.noConfusion h

/-- One row of the message read into the table by the inner loop of `LoadRouter`. -/
theorem LoadRouter_loop_j_step (V i : Nat)
    (ps : List (Option graph_serialize.RouteInternalData))
    (table t' : List (List (Option RouteInternalData)))
    (h : Serializator.LoadRouter.loop_j i ps 0 table = (.ok (), t'))
    (hrows : ∀ row ∈ table, row.length = V) :
    t'.length = table.length ∧ (∀ row ∈ t', row.length = V) ∧
    (ps ≠ [] → i < table.length ∧ ps.length ≤ V) ∧
    ∀ a b, (t'.get? a).bind (fun row => row.get? b) =
      match (if a = i then ps.get? b else none) with
      | some p => some (Serializator.LoadRouter.entry p)
      | none => (table.get? a).bind (fun row => row.get? b) := by
  by_cases hps : ps = []
  · subst hps
    unfold Serializator.LoadRouter.loop_j at h
    injection h with _ h
    subst h
    refine ⟨rfl, hrows, fun hne => absurd rfl hne, ?_⟩
    intro a b
    by_cases ha : a = i <;> simp [ha]
  · obtain ⟨row, hrow, hlen⟩ := LoadRouter_loop_j_bounds i ps 0 table t' h hps
    rw [LoadRouter_loop_j_eq i ps 0 table row hrow hlen] at h
    injection h with _ h
    have hi : i < table.length := by
      by_contra hcon
      rw [List.get?_eq_none.2 (by omega)] at hrow
      exact Option.noConfusion hrow
    have hrowV : row.length = V := hrows row (List.mem_iff_get?.2 ⟨i, hrow⟩)
    have hnew : (List.take 0 row ++ ps.map Serializator.LoadRouter.entry ++
        List.drop (0 + ps.length) row).length = V := by
      simp only [List.take_zero, List.nil_append, List.length_append, List.length_map,
        List.length_drop]
      omega
    subst h
    refine ⟨List.length_set _ _ _, ?_, fun _ => ⟨hi, by omega⟩, ?_⟩
    · intro r hr
      rcases List.mem_or_eq_of_mem_set hr with hr | hr
      · exact hrows r hr
      · rw [hr]
        exact hnew
    · intro a b
      by_cases ha : a = i
      · subst ha
        have hrow' : table[a]? = some row := by
          rw [← List.get?_eq_getElem?]
          exact hrow
        simp only [List.get?_eq_getElem?, List.getElem?_set_self hi, Option.some_bind, if_true,
          List.take_zero, List.nil_append, Nat.zero_add, hrow']
        by_cases hb : b < ps.length
        · rw [List.getElem?_append_left (by rw [List.length_map]; exact hb),
            List.getElem?_map, List.getElem?_eq_getElem hb]
          rfl
        · rw [List.getElem?_append_right (by rw [List.length_map]; omega),
            List.getElem?_eq_none (l := ps) (by omega), List.length_map, List.getElem?_drop]
          simp only
          congr 1
          omega
      · have hne : i ≠ a := fun h => ha h.symm
        simp only [List.get?_eq_getElem?, List.getElem?_set_ne hne, if_neg ha]

/-- The rows of the message read into a table whose rows have `V` entries, by the outer
loop of `LoadRouter` from row `i` on: the table keeps its shape, every entry of the
message lies in the table, and an entry of the table is the one of the message at its place
where the message has one and is unchanged elsewhere. -/
theorem LoadRouter_loop_ok (V : Nat)
    (pss : List (List (Option graph_serialize.RouteInternalData))) :
    ∀ (i : Nat) (table t' : List (List (Option RouteInternalData))),
      Serializator.LoadRouter.loop pss i table = (.ok (), t') →
      (∀ row ∈ table, row.length = V) →
      t'.length = table.length ∧ (∀ row ∈ t', row.length = V) ∧
      (∀ k ps, pss.get? k = some ps → ps ≠ [] → i + k < table.length ∧ ps.length ≤ V) ∧
      ∀ a b, (t'.get? a).bind (fun row => row.get? b) =
        match (if i ≤ a then (pss.get? (a - i)).bind (fun ps => ps.get? b) else none) with
        | some p => some (Serializator.LoadRouter.entry p)
        | none => (table.get? a).bind (fun row => row.get? b) := by
  induction pss with
  | nil =>
    intro i table t' h hrows
    unfold Serializator.LoadRouter.loop at h
    injection h with _ h
    subst h
    refine ⟨rfl, hrows, ?_, ?_⟩
    · intro k ps hk
      exact Option.noConfusion hk
    · intro a b
      by_cases ha : i ≤ a <;> simp [ha]
  | cons ps rest ih =>
    intro i table t' h hrows
    unfold Serializator.LoadRouter.loop at h
    cases hj : Serializator.LoadRouter.loop_j i ps 0 table with
    | mk res t1 =>
      rw [hj] at h
      cases res with
      | error e =>
        simp only at h
        injection h with h _
        exact Except.noConfusion h
      | ok u =>
        simp only at h
        obtain ⟨s1, s2, s3, s4⟩ := LoadRouter_loop_j_step V i ps table t1 hj hrows
        obtain ⟨r1, r2, r3, r4⟩ := ih (i + 1) t1 t' h s2
        refine ⟨r1.trans s1, r2, ?_, ?_⟩
        · intro k ps' hk hne
          cases k with
          | zero =>
            simp only [List.get?_cons_zero, Option.some.injEq] at hk
            subst hk
            exact s3 hne
          | succ k =>
            simp only [List.get?_cons_succ] at hk
            have := r3 k ps' hk hne
            rw [s1] at this
            exact ⟨by omega, this.2⟩
        · intro a b
          rw [r4 a b, s4 a b]
          by_cases h1 : i + 1 ≤ a
          · have h2 : i ≤ a := by omega
            have h3 : a ≠ i := by omega
            have h4 : a - i = (a - (i + 1)) + 1 := by omega
            rw [if_pos h1, if_pos h2, if_neg h3, h4, List.get?_cons_succ]
          · rw [if_neg h1]
            by_cases h2 : a = i
            · subst h2
              rw [if_pos rfl, if_pos (le_refl _), Nat.sub_self, List.get?_cons_zero]
              rfl
            · have h3 : ¬ i ≤ a := by omega
              rw [if_neg h2, if_neg h3]

/-- When `LoadRouter` returns on the table `Router(graph, false)` has made for a graph with
`V` vertices, the table has `V` rows of `V` entries, every entry of the message lies in it,
and its entry at a place is the one of the message there, or absent where the message has
none. -/
theorem LoadRouter_ok (p_router : graph_serialize.Router)
    (g : graph.DirectedWeightedGraph RouteWeight) (table : Router)
    (h : Serializator.LoadRouter p_router (Serializator.Router_unprocessed g) =
      (.ok (), table)) :
    table.routes_internal_data_.length = g.incidence_lists_.length ∧
    (∀ row ∈ table.routes_internal_data_, row.length = g.incidence_lists_.length) ∧
    (∀ k ps, p_router.routes_internal_data.get? k = some ps → ps ≠ [] →
      k < g.incidence_lists_.length ∧ ps.length ≤ g.incidence_lists_.length) ∧
    ∀ a b, a < g.incidence_lists_.length → b < g.incidence_lists_.length →
      (table.routes_internal_data_.get? a).bind (fun row => row.get? b) =
        some (match (p_router.routes_internal_data.get? a).bind (fun ps => ps.get? b) with
          | some p => Serializator.LoadRouter.entry p
          | none => none) := by
  unfold Serializator.LoadRouter Serializator.Router_unprocessed at h
  simp only at h
  cases hl : Serializator.LoadRouter.loop p_router.routes_internal_data 0
      (List.replicate g.incidence_lists_.length
        (List.replicate g.incidence_lists_.length none)) with
  | mk res t' =>
    rw [hl] at h
    cases res with
    | error e =>
      simp only at h
      injection h with h _
      exact Except.noConfusion h
    | ok u =>
      simp only at h
      injection h with _ h
      subst h
      obtain ⟨r1, r2, r3, r4⟩ := LoadRouter_loop_ok g.incidence_lists_.length
        p_router.routes_internal_data 0 _ t' hl
        (by
          intro row hrow
          rw [List.eq_of_mem_replicate hrow, List.length_replicate])
      refine ⟨by rw [r1, List.length_replicate], r2, ?_, ?_⟩
      · intro k ps hk hne
        have := r3 k ps hk hne
        rw [List.length_replicate, Nat.zero_add] at this
        exact this
      · intro a b ha hb
        rw [r4 a b, if_pos (Nat.zero_le _), Nat.sub_zero]
        cases (p_router.routes_internal_data.get? a).bind (fun ps => ps.get? b) with
        | some p => rfl
        | none =>
          simp only [List.get?_eq_getElem?, List.getElem?_replicate, ha, hb, if_true,
            Option.some_bind]

/-- What `LoadTransportRouter` leaves in the caller's handle when the message has a router
section and it returns: a new router over the catalogue, initialised, with the routing
settings of the message; its two maps bind the vertex ids and the stops the `stop_by_id`
entries name; its graph has the edges and the incidence lists of the message; its table is
the table of the message. -/
theorem LoadTransportRouter_ok (s : Serializator) (catalogue : TransportCatalogue)
    (handle : Option TransportRouter)
    (p_router : transport_router_serialize.TransportRouter)
    (h : s.proto_catalogue_.router = some p_router)
    (r : Option TransportRouter)
    (hres : s.LoadTransportRouter catalogue handle = (.ok (), r)) :
    ∃ (router : TransportRouter) (stops : List Stop) (weights : List RouteWeight)
      (table : Router),
      r = some router ∧
      router.is_initialized_ = true ∧
      router.settings_ = { wait_time := p_router.settings.wait_time
                           velocity := p_router.settings.velocity } ∧
      router.catalogue_ = catalogue ∧
      List.Forall₂
        (fun (e : transport_router_serialize.StopById) (stop : Stop) =>
          ∃ name, unordered_map.find s.stop_name_by_id_ e.stop_id = some name ∧
            unordered_map.find catalogue.stops_by_names_ name = some stop)
        p_router.stop_by_id stops ∧
      router.stops_by_id_ = (p_router.stop_by_id.zip stops).foldl
        (fun m p => unordered_map.insert m p.1.id p.2) [] ∧
      router.id_by_stop_name_ = (p_router.stop_by_id.zip stops).foldl
        (fun m p => unordered_map.insert m p.2.name p.1.id) [] ∧
      List.Forall₂
        (fun (e : graph_serialize.Edge) (w : RouteWeight) =>
          s.MakeWeight catalogue e.weight = .ok w)
        p_router.graph.edges weights ∧
      router.graph_.edges_ = (p_router.graph.edges.zip weights).map
        (fun p => { from_ := p.1.from_, to_ := p.1.to_, weight := p.2 }) ∧
      router.graph_.incidence_lists_ = p_router.graph.incidence_lists ∧
      router.router_ = some table ∧
      table.routes_internal_data_.length = p_router.graph.incidence_lists.length ∧
      (∀ row ∈ table.routes_internal_data_,
        row.length = p_router.graph.incidence_lists.length) ∧
      (∀ k ps, p_router.router.routes_internal_data.get? k = some ps → ps ≠ [] →
        k < p_router.graph.incidence_lists.length ∧
        ps.length ≤ p_router.graph.incidence_lists.length) ∧
      ∀ a b, a < p_router.graph.incidence_lists.length →
        b < p_router.graph.incidence_lists.length →
        (table.routes_internal_data_.get? a).bind (fun row => row.get? b) =
          some (match (p_router.router.routes_internal_data.get? a).bind
              (fun ps => ps.get? b) with
            | some p => Serializator.LoadRouter.entry p
            | none => none) := by
  unfold Serializator.LoadTransportRouter at hres
  rw [h] at hres
  simp only at hres
  cases h1 : Serializator.LoadTransportRouter.loop s catalogue p_router.stop_by_id
      (TransportRouter.create catalogue
        (Serializator.LoadTransportRouterSettings p_router)) with
  | mk res1 r1 =>
    rw [h1] at hres
    cases res1 with
    | error e =>
      simp only at hres
      injection hres with hres _
      exact Except.noConfusion hres
    | ok u1 =>
      simp only at hres
      obtain ⟨stops, hstops, hr1⟩ := LoadTransportRouter_loop_ok s catalogue
        p_router.stop_by_id _ r1 h1
      cases h2 : s.LoadGraph catalogue p_router.graph r1.graph_ with
      | mk res2 g =>
        rw [h2] at hres
        cases res2 with
        | error e =>
          simp only at hres
          injection hres with hres _
          exact Except.noConfusion hres
        | ok u2 =>
          simp only at hres
          unfold Serializator.LoadGraph at h2
          cases h2e : Serializator.LoadGraph.loop_edges s catalogue p_router.graph.edges
              r1.graph_ with
          | mk rese g1 =>
            rw [h2e] at h2
            cases rese with
            | error e =>
              simp only at h2
              injection h2 with h2 _
              exact Except.noConfusion h2
            | ok ue =>
              simp only at h2
              injection h2 with _ hg
              obtain ⟨weights, hweights, hg1⟩ := LoadGraph_loop_edges_ok s catalogue
                p_router.graph.edges _ g1 h2e
              have hgraph1 : r1.graph_ = {} := by
                rw [hr1]
                rfl
              have hedges : g.edges_ = (p_router.graph.edges.zip weights).map
                  (fun p => { from_ := p.1.from_, to_ := p.1.to_, weight := p.2 }) := by
                rw [← hg, hg1, hgraph1]
                simp
              have hinc : g.incidence_lists_ = p_router.graph.incidence_lists := by
                rw [← hg, hg1, hgraph1]
                simp
              cases h3 : Serializator.LoadRouter p_router.router
                  (Serializator.Router_unprocessed g) with
              | mk res3 table =>
                rw [h3] at hres
                cases res3 with
                | error e =>
                  simp only at hres
                  injection hres with hres _
                  exact Except.noConfusion hres
                | ok u3 =>
                  simp only at hres
                  injection hres with _ hres
                  obtain ⟨t1, t2, t3, t4⟩ := LoadRouter_ok p_router.router g table h3
                  rw [hinc] at t1 t2 t3 t4
                  refine ⟨_, stops, weights, table, hres.symm, rfl, ?_, ?_, hstops, ?_, ?_,
                    hweights, hedges, hinc, rfl, t1, t2, t3, t4⟩
                  · simp only [TransportRouter.InternalInit, hr1]
                    rfl
                  · simp only [TransportRouter.InternalInit, hr1]
                    rfl
                  · simp only [TransportRouter.InternalInit, hr1]
                    rfl
                  · simp only [TransportRouter.InternalInit, hr1]
                    rfl

/-- Claim C20.  When the parsed message has no render settings, `Deserialize` leaves the
caller's render settings as they were; when it has no router section, it leaves the
caller's router handle as it was.  When `Deserialize` returns `true` and a section is
present, the render settings are the ones restored from the message, and the router handle
holds a new router, whatever the handle held before: marked initialised, over the loaded
catalogue, with the routing settings of the message; its two maps bind, entry after entry of
`stop_by_id`, the vertex id and the stop the entry names; its graph has the edges of the
message, with the weights `MakeWeight` restores, and the incidence lists of the message;
its table has one row and one column per vertex and holds the entries of the message. -/
theorem Deserialize_optional_sections (s : Serializator)
    (message : transport_catalogue_serialize.TransportCatalogue) (target : Target) :
    (message.render_settings = none →
      (s.Deserialize (.parsed message) target).2.2.settings = target.settings) ∧
    (message.router = none →
      (s.Deserialize (.parsed message) target).2.2.router = target.router) ∧
    (∀ p_settings, message.render_settings = some p_settings →
      (s.Deserialize (.parsed message) target).1 = .ok true →
      (s.Deserialize (.parsed message) target).2.2.settings =
        some
          { size := Serializator.MakePoint p_settings.size
            padding := p_settings.padding
            line_width := p_settings.line_width
            stop_radius := p_settings.stop_radius
            bus_label_font_size := p_settings.bus_label_font_size
            bus_label_offset := Serializator.MakePoint p_settings.bus_label_offset
            stop_label_font_size := p_settings.stop_label_font_size
            stop_label_offset := Serializator.MakePoint p_settings.stop_label_offset
            underlayer_color := Serializator.MakeColor p_settings.underlayer_color
            underlayer_width := p_settings.underlayer_width
            color_palette := p_settings.color_palette.map Serializator.MakeColor }) ∧
    (∀ p_router tables loaded, message.router = some p_router →
      (({ s with proto_catalogue_ := message } : Serializator).LoadStops
          target.catalogue).1.LoadRoutes
        (({ s with proto_catalogue_ := message } : Serializator).LoadStops
          target.catalogue).2 = (.ok (), tables, loaded) →
      (s.Deserialize (.parsed message) target).1 = .ok true →
      ∃ (router : transport_router.TransportRouter) (stops : List Stop)
        (weights : List transport_router.RouteWeight) (table : transport_router.Router),
        (s.Deserialize (.parsed message) target).2.2.router = some router ∧
        (∀ other : Option transport_router.TransportRouter,
          (s.Deserialize (.parsed message) { target with router := other }).2.2.router =
            some router) ∧
        router.is_initialized_ = true ∧
        router.settings_ = { wait_time := p_router.settings.wait_time
                             velocity := p_router.settings.velocity } ∧
        router.catalogue_ = (s.Deserialize (.parsed message) target).2.2.catalogue ∧
        List.Forall₂
          (fun (e : transport_router_serialize.StopById) (stop : Stop) =>
            ∃ name, unordered_map.find tables.stop_name_by_id_ e.stop_id = some name ∧
              unordered_map.find router.catalogue_.stops_by_names_ name = some stop)
          p_router.stop_by_id stops ∧
        router.stops_by_id_ = (p_router.stop_by_id.zip stops).foldl
          (fun m p => unordered_map.insert m p.1.id p.2) [] ∧
        router.id_by_stop_name_ = (p_router.stop_by_id.zip stops).foldl
          (fun m p => unordered_map.insert m p.2.name p.1.id) [] ∧
        List.Forall₂
          (fun (e : graph_serialize.Edge) (w : transport_router.RouteWeight) =>
            tables.MakeWeight router.catalogue_ e.weight = .ok w)
          p_router.graph.edges weights ∧
        router.graph_.edges_ = (p_router.graph.edges.zip weights).map
          (fun p => { from_ := p.1.from_, to_ := p.1.to_, weight := p.2 }) ∧
        router.graph_.incidence_lists_ = p_router.graph.incidence_lists ∧
        router.router_ = some table ∧
        table.routes_internal_data_.length = p_router.graph.incidence_lists.length ∧
        (∀ row ∈ table.routes_internal_data_,
          row.length = p_router.graph.incidence_lists.length) ∧
        (∀ k ps, p_router.router.routes_internal_data.get? k = some ps → ps ≠ [] →
          k < p_router.graph.incidence_lists.length ∧
          ps.length ≤ p_router.graph.incidence_lists.length) ∧
        ∀ a b, a < p_router.graph.incidence_lists.length →
          b < p_router.graph.incidence_lists.length →
          (table.routes_internal_data_.get? a).bind (fun row => row.get? b) =
            some (match (p_router.router.routes_internal_data.get? a).bind
                (fun ps => ps.get? b) with
              | some p => Serializator.LoadRouter.entry p
              | none => none)) := by
  obtain ⟨hm1, hm2⟩ := Deserialize_message s message target.catalogue
  unfold Serializator.Deserialize
  simp only
  cases hr : (({ s with proto_catalogue_ := message } : Serializator).LoadStops
      target.catalogue).1.LoadRoutes
      (({ s with proto_catalogue_ := message } : Serializator).LoadStops target.catalogue).2 with
  | mk res rest =>
    obtain ⟨s2, catalogue2⟩ := rest
    rw [hr] at hm2
    simp only at hm2
    cases res with
    | error e =>
      refine ⟨fun _ => rfl, fun _ => rfl, fun _ _ h => ?_, fun _ _ _ _ _ h => ?_⟩
      · exact Except.noConfusion h
      · exact Except.noConfusion h
    | ok u =>
      simp only
      cases hd : s2.LoadDistances catalogue2 with
      | mk res3 catalogue3 =>
        cases res3 with
        | error e =>
          refine ⟨fun _ => rfl, fun _ => rfl, fun _ _ h => ?_, fun _ _ _ _ _ h => ?_⟩
          · exact Except.noConfusion h
          · exact Except.noConfusion h
        | ok u3 =>
          simp only
          have hload : ∀ handle, s2.LoadTransportRouter catalogue3 handle =
              match message.router with
              | none => (.ok (), handle)
              | some p_router =>
                s2.LoadTransportRouter catalogue3 none := by
            intro handle
            unfold Serializator.LoadTransportRouter
            rw [hm2]
            cases message.router <;> rfl
          have hsettings : message.render_settings = none →
              s2.LoadRenderSettings target.settings = target.settings := by
            intro h
            exact LoadRenderSettings_none s2 target.settings (by rw [hm2]; exact h)
          cases hl : s2.LoadTransportRouter catalogue3 target.router with
          | mk res4 router4 =>
            cases res4 with
            | error e =>
              simp only
              refine ⟨hsettings, ?_, fun _ _ h => ?_, fun _ _ _ _ _ h => ?_⟩
              · intro hnone
                rw [hload, hnone] at hl
                injection hl with hl _
                exact Except.noConfusion hl
              · exact Except.noConfusion h
              · exact Except.noConfusion h
            | ok u4 =>
              simp only
              refine ⟨hsettings, ?_, ?_, ?_⟩
              · intro hnone
                rw [hload, hnone] at hl
                injection hl with _ hl
                exact hl.symm
              · intro p_settings hsome _
                unfold Serializator.LoadRenderSettings
                rw [hm2, hsome]
              · intro p_router tables loaded hsome htables _
                injection htables with _ htables
                injection htables with htables _
                subst htables
                obtain ⟨router, stops, weights, table, hrouter, hinit, hset, hcat, hstops,
                    hsbi, hids, hweights, hedges, hinc, htable, t1, t2, t3, t4⟩ :=
                  LoadTransportRouter_ok s2 catalogue3 target.router p_router
                    (by rw [hm2]; exact hsome) router4 hl
                refine ⟨router, stops, weights, table, hrouter, ?_, hinit, hset, hcat, ?_,
                  hsbi, hids, ?_, hedges, hinc, htable, t1, t2, t3, t4⟩
                · intro other
                  have h1 := hload other
                  have h2 := hload target.router
                  rw [hsome] at h1 h2
                  simp only at h1 h2
                  rw [h1, ← h2, hl]
                  exact hrouter
                · rw [hcat]
                  exact hstops
                · rw [hcat]
                  exact hweights

/-- Scenario S5: the message with the catalogue of S3 alone leaves the caller's render
settings and router handle as they were; the message with all three sections restores the
render settings and a router that is initialised and has the incidence lists and the three
rows of the table of the message. -/
theorem Deserialize_optional_sections_witness :
    (({} : Serializator).Deserialize (.parsed S5.saved_catalogue.proto_catalogue_)
      { catalogue := {}, settings := some S5.render_settings, router := none }).2.2.settings =
        some S5.render_settings ∧
    (({} : Serializator).Deserialize (.parsed S5.saved_catalogue.proto_catalogue_)
      { catalogue := {}, settings := none, router := some S6.router }).2.2.router =
        some S6.router ∧
    (({} : Serializator).Deserialize (.parsed S5.saved_initialised.proto_catalogue_)
      S5.target).1 = .ok true ∧
    (({} : Serializator).Deserialize (.parsed S5.saved_initialised.proto_catalogue_)
      S5.target).2.2.settings = some S5.render_settings ∧
    ∃ router table, (({} : Serializator).Deserialize
        (.parsed S5.saved_initialised.proto_catalogue_) S5.target).2.2.router = some router ∧
      router.is_initialized_ = true ∧
      router.graph_.incidence_lists_ = S5.initialised.graph_.incidence_lists_ ∧
      router.graph_.edges_.length = S5.initialised.graph_.edges_.length ∧
      router.router_ = some table ∧
      table.routes_internal_data_.length = 3 := by
  have hreturns : (({} : Serializator).Deserialize
      (.parsed S5.saved_initialised.proto_catalogue_) S5.target).1 = .ok true := by decide
  refine ⟨(Deserialize_optional_sections {} S5.saved_catalogue.proto_catalogue_
      { catalogue := {}, settings := some S5.render_settings, router := none }).1 rfl,
    (Deserialize_optional_sections {} S5.saved_catalogue.proto_catalogue_
      { catalogue := {}, settings := none, router := some S6.router }).2.1 rfl,
    hreturns,
    ((Deserialize_optional_sections {} S5.saved_initialised.proto_catalogue_ S5.target).2.2.1
      (S5.saved_initialised.proto_catalogue_.render_settings.getD {}) rfl hreturns).trans
      (by decide), ?_⟩
  obtain ⟨router, stops, weights, table, h1, -, h3, -, -, hstops, -, -, hweights, h10, h11,
      h12, h13, -⟩ :=
    (Deserialize_optional_sections {} S5.saved_initialised.proto_catalogue_ S5.target).2.2.2
      (S5.saved_initialised.proto_catalogue_.router.getD {})
      ((({ proto_catalogue_ := S5.saved_initialised.proto_catalogue_ } :
        Serializator).LoadStops S5.target.catalogue).1.LoadRoutes
        (({ proto_catalogue_ := S5.saved_initialised.proto_catalogue_ } :
          Serializator).LoadStops S5.target.catalogue).2).2.1
      ((({ proto_catalogue_ := S5.saved_initialised.proto_catalogue_ } :
        Serializator).LoadStops S5.target.catalogue).1.LoadRoutes
        (({ proto_catalogue_ := S5.saved_initialised.proto_catalogue_ } :
          Serializator).LoadStops S5.target.catalogue).2).2.2
      rfl (triple_eq _ _ _ (by decide) rfl) hreturns
  refine ⟨router, table, h1, h3, ?_, ?_, h12, ?_⟩
  · rw [h11]
    decide
  · rw [h10, List.length_map, List.length_zip, ← hweights.length_eq, Nat.min_self]
    decide
  · rw [h13]
    decide

end serialize
